import Mathlib

/-!
# PISM: stress balance diagnostics, the SSA hardness inverse problem, the flow law
factory and the PICO ocean model

A shallow embedding of parts of

* `src/base/stressbalance/ShallowStressBalance.cc`
* `src/inverse/IP_SSAHardavForwardProblem.cc`
* `src/base/rheology/flowlaw_factory.cc`
* `src/coupler/ocean/Pico.cc`

C++ `double` values are modelled by the elements of a linearly ordered field `R`
with exact arithmetic; `sqrt` and `round` (libm) are parameters.  A two-dimensional field
(`IceModelVec2S`, `IceModelVec2V`, `IceModelVec2Int`) is a function of the integer
grid indices `i j`; the model has one rank, which owns the rectangle
`xs ≤ i < xs + xm`, `ys ≤ j < ys + ym`.  A mask field is given by the integers that
`as_int(i, j)` returns.  A `std::vector` carries its size, and a run that indexes one
out of range is undefined (`none`).
-/

set_option linter.unusedSectionVars false

namespace pism

/-! ## Definitions -/

section BaseTypes

/-- The class `Vector2` of PISM: the two components of a horizontal vector. -/
structure Vector2 (R : Type) where
  u : R
  v : R
deriving DecidableEq, Repr

/-- The class `RuntimeError` of PISM: an exception carrying its message, given as the
format string and the arguments of `RuntimeError::formatted` (none for the plain
constructor `RuntimeError(message)`). -/
structure RuntimeError where
  format : String
  args : List String
deriving DecidableEq, Repr

/-- The part of `IceGrid` used here: the spacing and the index rectangle owned by the
rank (`xs`, `xm`, `ys`, `ym`). -/
structure IceGrid (R : Type) where
  dx : R
  dy : R
  xs : Int
  xm : Nat
  ys : Int
  ym : Nat

/-- The index pairs `(i, j)` with `xs ≤ i < xs + xm` and `ys ≤ j < ys + ym`, in the
order of the loops `for (j = ys; j < ys + ym; j++) for (i = xs; i < xs + xm; i++)`. -/
def rectangle (xs : Int) (xm : Nat) (ys : Int) (ym : Nat) : List (Int × Int) :=
  (List.range ym).flatMap fun (dj : Nat) =>
    (List.range xm).map fun (di : Nat) => (xs + Int.ofNat di, ys + Int.ofNat dj)

/-- The grid points visited by the loop `for (Points p(grid); p; p.next())`: every
owned point once. -/
def IceGrid.points {R : Type} (g : IceGrid R) : List (Int × Int) :=
  rectangle g.xs g.xm g.ys g.ym

/-- The grid points visited by `for (PointsWithGhosts p(grid); p; p.next())`: the owned
points and the ghost points within the stencil width `w` (1 when not given). -/
def IceGrid.points_with_ghosts {R : Type} (g : IceGrid R) (w : Nat) : List (Int × Int) :=
  rectangle (g.xs - Int.ofNat w) (g.xm + 2 * w) (g.ys - Int.ofNat w) (g.ym + 2 * w)

/-- Whether the rank owns the point `(i, j)`. -/
def IceGrid.owned {R : Type} (g : IceGrid R) (i j : Int) : Bool :=
  decide (g.xs ≤ i ∧ i < g.xs + Int.ofNat g.xm ∧ g.ys ≤ j ∧ j < g.ys + Int.ofNat g.ym)

/-- The stencil `planeStar<T>`: the value at the cell and at its four neighbours. -/
structure planeStar (α : Type) where
  ij : α
  e : α
  w : α
  n : α
  s : α

/-- Modelled from the spec: neighbor-star access of a field (`star`, `int_star` of
`IceModelVec2`, absent from the sources): the centre and the N/E/S/W neighbour values,
east being `i + 1` and north `j + 1`. -/
def star {α : Type} (f : Int → Int → α) (i j : Int) : planeStar α :=
  { ij := f i j, e := f (i + 1) j, w := f (i - 1) j, n := f i (j + 1), s := f i (j - 1) }

/-- A multi-component field `IceModelVec2`: the number of degrees of freedom and the
values `result(i, j, k)`. -/
structure IceModelVec2 (R : Type) where
  ndof : Nat
  data : Int → Int → Nat → R

/-- The assignment `a(i, j) = x` to one cell of a two-dimensional array. -/
def setCell {α : Type} (a : Int → Int → α) (p : Int × Int) (x : α) : Int → Int → α :=
  fun i j => if (i, j) = p then x else a i j

end BaseTypes

section ShallowStressBalance

variable {R : Type} [LinearOrderedField R]

/-- The four derivatives `u_x`, `u_y`, `v_x`, `v_y` of a cell. -/
structure Derivatives (R : Type) where
  u_x : R
  u_y : R
  v_x : R
  v_y : R

/-- The weight `east` (`west`, `north`, `south`) of a neighbour: initialised to 1 and
set to 0 when the neighbour is ice-free. -/
def neighbourWeight (ice_free : Int → Bool) (m : Int) : R :=
  if ice_free m then 0 else 1

/-- The finite differences of `compute_2D_principal_strain_rates` and
`compute_2D_stresses` (lines 200-243 and 287-330): weighted sums of one-sided
differences; a derivative keeps its initial value 0 when its weight sum is not
positive. -/
def finiteDifferences (ice_free : Int → Bool) (dx dy : R) (m : planeStar Int)
    (U : planeStar (Vector2 R)) : Derivatives R :=
  let east : R := neighbourWeight ice_free m.e
  let west : R := neighbourWeight ice_free m.w
  let north : R := neighbourWeight ice_free m.n
  let south : R := neighbourWeight ice_free m.s
  let u_x : R :=
    if west + east > 0 then
      1 / (dx * (west + east)) * (west * (U.ij.u - U.w.u) + east * (U.e.u - U.ij.u))
    else 0
  let v_x : R :=
    if west + east > 0 then
      1 / (dx * (west + east)) * (west * (U.ij.v - U.w.v) + east * (U.e.v - U.ij.v))
    else 0
  let u_y : R :=
    if south + north > 0 then
      1 / (dy * (south + north)) * (south * (U.ij.u - U.s.u) + north * (U.n.u - U.ij.u))
    else 0
  let v_y : R :=
    if south + north > 0 then
      1 / (dy * (south + north)) * (south * (U.ij.v - U.s.v) + north * (U.n.v - U.ij.v))
    else 0
  { u_x := u_x, u_y := u_y, v_x := v_x, v_y := v_y }

/-- The derivatives of the cell `(i, j)`: `finiteDifferences` at the stencils
`mask.int_star(i, j)` and `velocity.star(i, j)`. -/
def cellDerivatives (ice_free : Int → Bool) (g : IceGrid R)
    (velocity : Int → Int → Vector2 R) (mask : Int → Int → Int) (i j : Int) :
    Derivatives R :=
  finiteDifferences ice_free g.dx g.dy (star mask i j) (star velocity i j)

/-- Lines 245-250 of `compute_2D_principal_strain_rates`: the pair
`(A + q, A - q)` written to `result(i,j,0)` and `result(i,j,1)`. -/
def principalValues (sqrt : R → R) (d : Derivatives R) : R × R :=
  let A : R := 1 / 2 * (d.u_x + d.v_y)
  let B : R := 1 / 2 * (d.u_x - d.v_y)
  let Dxy : R := 1 / 2 * (d.v_x + d.u_y)
  let q : R := sqrt (B ^ 2 + Dxy ^ 2)
  (A + q, A - q)

/-- The two values that one pass of the loop body of
`compute_2D_principal_strain_rates` writes at the cell `(i, j)`. -/
def principalStrainRatesAt (sqrt : R → R) (ice_free : Int → Bool) (g : IceGrid R)
    (velocity : Int → Int → Vector2 R) (mask : Int → Int → Int) (i j : Int) : R × R :=
  if ice_free (mask i j) then (0, 0)
  else principalValues sqrt (cellDerivatives ice_free g velocity mask i j)

/-- The assignments `result(i,j,0) = a; result(i,j,1) = b`. -/
def write2 (data : Int → Int → Nat → R) (p : Int × Int) (x : R × R) : Int → Int → Nat → R :=
  fun i j k =>
    if (i, j) = p then (if k = 0 then x.1 else if k = 1 then x.2 else data i j k)
    else data i j k

/-- The method `ShallowStressBalance::compute_2D_principal_strain_rates`: the check
of the number of components, then the loop over the owned points. -/
def compute_2D_principal_strain_rates (sqrt : R → R) (ice_free : Int → Bool) (g : IceGrid R)
    (velocity : Int → Int → Vector2 R) (mask : Int → Int → Int) (result : IceModelVec2 R) :
    Except RuntimeError (IceModelVec2 R) :=
  if result.ndof ≠ 2 then
    Except.error { format := "result.dof() == 2 is required", args := [] }
  else
    Except.ok
      { result with
        data := g.points.foldl
          (fun data p =>
            write2 data p (principalStrainRatesAt sqrt ice_free g velocity mask p.1 p.2))
          result.data }

end ShallowStressBalance

section Fields

variable {R : Type} [LinearOrderedField R]

/-- Componentwise sum of two vectors (`operator+` of `Vector2`). -/
instance : Add (Vector2 R) :=
  ⟨fun x y => { u := x.u + y.u, v := x.v + y.v }⟩

/-- The zero vector. -/
instance : Zero (Vector2 R) :=
  ⟨{ u := 0, v := 0 }⟩

/-- Vectors add componentwise: a commutative monoid, so that sums of vectors are
independent of the order of the summands. -/
instance : AddCommMonoid (Vector2 R) where
  add := Add.add
  zero := 0
  nsmul := nsmulRec
  add_assoc := by
    intro a b c
    show Vector2.mk _ _ = Vector2.mk _ _
    congr 1 <;> exact add_assoc _ _ _
  zero_add := by
    intro a
    show Vector2.mk _ _ = a
    cases a
    congr 1 <;> exact zero_add _
  add_zero := by
    intro a
    show Vector2.mk _ _ = a
    cases a
    congr 1 <;> exact add_zero _
  add_comm := by
    intro a b
    show Vector2.mk _ _ = Vector2.mk _ _
    congr 1 <;> exact add_comm _ _

/-- A two-dimensional field `IceModelVec2S`, `IceModelVec2V` or `IceModelVec2Int`: its
stencil width (0 for a field without ghosts) and its values `a i j`, the value of
`(*this)(i, j)`. -/
structure IceModelVec (α : Type) where
  stencil_width : Nat
  a : Int → Int → α

/-- Modelled from the spec: halo exchange `update_ghosts` ("refreshes boundary cells
from neighboring tiles"), absent from the sources.  On the one rank of the model, with
the periodic layout PISM gives its arrays, a ghost point within the stencil width takes
the value of the owned point it duplicates; the owned points keep their values. -/
def update_ghosts (g : IceGrid R) {α : Type} (x : IceModelVec α) : IceModelVec α :=
  { x with
    a := fun i j =>
      if g.xs - Int.ofNat x.stencil_width ≤ i ∧
          i < g.xs + Int.ofNat g.xm + Int.ofNat x.stencil_width ∧
          g.ys - Int.ofNat x.stencil_width ≤ j ∧
          j < g.ys + Int.ofNat g.ym + Int.ofNat x.stencil_width then
        x.a (g.xs + (i - g.xs) % Int.ofNat g.xm) (g.ys + (j - g.ys) % Int.ofNat g.ym)
      else x.a i j }

/-- Modelled from the spec: `IceModelVec::copy_from`, absent from the sources: the
owned values of `source` are copied into the field, whose ghosts (when it has any) are
then refreshed by halo exchange. -/
def copy_from (g : IceGrid R) {α : Type} (x source : IceModelVec α) : IceModelVec α :=
  let copied : IceModelVec α :=
    { x with a := fun i j => if g.owned i j then source.a i j else x.a i j }
  if copied.stencil_width > 0 then update_ghosts g copied else copied

/-- Modelled from the spec: `IceModelVec::scale(alpha)` of a vector field, absent from
the sources: every stored value is multiplied by `alpha`. -/
def scaleV (alpha : R) (x : IceModelVec (Vector2 R)) : IceModelVec (Vector2 R) :=
  { x with a := fun i j => { u := alpha * (x.a i j).u, v := alpha * (x.a i j).v } }

/-- Modelled from the spec: `IceModelVec::scale(alpha)` of a scalar field, absent from
the sources: every stored value is multiplied by `alpha`. -/
def scaleS (alpha : R) (x : IceModelVec R) : IceModelVec R :=
  { x with a := fun i j => alpha * x.a i j }

end Fields

section FEM

variable {R : Type} [LinearOrderedField R]

/-- The struct `fem::Germ`: the value and the two partial derivatives of a shape
function at a quadrature point. -/
structure Germ (R : Type) where
  val : R
  dx : R
  dy : R

/-- The part of `fem::Quadrature` read here: the number `n()` of quadrature points, the
table `test_function_values()` (an `Nq` by `Nk` array of germs, `Nk = 4`) and the
weights `weighted_jacobian()`.  The tables are parameters: the quadrature classes are
absent from the sources. -/
structure Quadrature (R : Type) where
  n : Nat
  test_function_values : Fin n → Fin 4 → Germ R
  weighted_jacobian : Fin n → R

/-- The struct `Coeffs` of `SSAFEM`: the coefficients stored at a node (`m_coeffs`) and
interpolated to the quadrature points by `quad_point_values`. -/
structure Coeffs (R : Type) where
  mask : Int
  thickness : R
  tauc : R
  hardness : R

/-- Offsets in `i` of the four nodes of a Q1 element from its lower left node
(`ElementMap`, absent from the sources: counter-clockwise from the lower left). -/
def i_offset (k : Fin 4) : Int :=
  if k = 1 ∨ k = 2 then 1 else 0

/-- Offsets in `j` of the four nodes of a Q1 element from its lower left node. -/
def j_offset (k : Fin 4) : Int :=
  if k = 2 ∨ k = 3 then 1 else 0

/-- The object `m_element` of class `fem::ElementMap`: the indices `(i, j)` of the
element and, for each of its four nodes, whether the row of the node is marked invalid
(no residual contribution is added to such a row). -/
structure ElementMap where
  i : Int
  j : Int
  row_invalid : Fin 4 → Bool

/-- The global indices of the node `k` of the element (`local_to_global`). -/
def ElementMap.node (e : ElementMap) (k : Fin 4) : Int × Int :=
  (e.i + i_offset k, e.j + j_offset k)

/-- Modelled from the spec: `ElementMap::reset(i, j)`, absent from the sources:
"initialize the map from global to local degrees of freedom for this element"; the
rows of the nodes that the rank does not own are marked invalid, the scatter-add only
ever writes owned degrees of freedom. -/
def ElementMap.reset (g : IceGrid R) (i j : Int) : ElementMap :=
  { i := i, j := j,
    row_invalid := fun k => !(g.owned (i + i_offset k) (j + j_offset k)) }

/-- Modelled from the spec: `ElementMap::nodal_values(x_global, x_local)`, absent from
the sources: "gather nodal values", the values of a field at the four nodes. -/
def ElementMap.nodal_values {α : Type} (e : ElementMap) (x_global : Int → Int → α) :
    Fin 4 → α :=
  fun k => x_global (e.node k).1 (e.node k).2

/-- Modelled from the spec: `ElementMap::add_residual_contribution(local, y_global)`,
absent from the sources: "scatter-add into the global output array";
`y_global[j][i] += local[k]` for the four nodes in turn, the rows marked invalid being
skipped. -/
def ElementMap.add_residual_contribution {α : Type} [Add α] (e : ElementMap)
    (x_local : Fin 4 → α) (y_global : Int → Int → α) : Int → Int → α :=
  (List.finRange 4).foldl
    (fun y k =>
      if e.row_invalid k then y
      else setCell y (e.node k) (y (e.node k).1 (e.node k).2 + x_local k))
    y_global

/-- The class `fem::DirichletData_Vector` built from `(m_bc_mask, m_bc_values,
m_dirichletScale)`: the locations (a null pointer when there is no Dirichlet
condition), the prescribed values and the weight.  The values are taken to be present
whenever the locations are: `enforce` asserts it. -/
structure DirichletData_Vector (R : Type) where
  indices : Option (Int → Int → R)
  values : Int → Int → Vector2 R
  weight : R

/-- The class `fem::DirichletData_Scalar` built from `(locations, NULL)`. -/
structure DirichletData_Scalar (R : Type) where
  indices : Option (Int → Int → R)

/-- Whether the point `(i, j)` is flagged by the location field `indices`: the test
`indices(i, j) > 0.5` of the `DirichletData` classes; no point is flagged when the
pointer is null. -/
def flagged (indices : Option (Int → Int → R)) (i j : Int) : Bool :=
  match indices with
  | none => false
  | some ind => decide (ind i j > 1 / 2)

/-- The conversion `operator bool` of `DirichletData`: the locations are not null. -/
def DirichletData_Vector.active (d : DirichletData_Vector R) : Bool :=
  d.indices.isSome

/-- The conversion `operator bool` of `DirichletData`: the locations are not null. -/
def DirichletData_Scalar.active (d : DirichletData_Scalar R) : Bool :=
  d.indices.isSome

/-- Modelled from the spec: `DirichletData::constrain(element)`, absent from the
sources: the rows of the Dirichlet nodes of the element are marked invalid, so that the
scatter-add leaves them alone. -/
def DirichletData_Vector.constrain (d : DirichletData_Vector R) (e : ElementMap) :
    ElementMap :=
  { e with
    row_invalid := fun k => e.row_invalid k || flagged d.indices (e.node k).1 (e.node k).2 }

/-- Modelled from the spec: `DirichletData_Vector::enforce(element, x_nodal)`, absent
from the sources: "fixed velocity at boundary nodes ... by overwriting the relevant
nodal values before interpolation"; the nodal value at a Dirichlet node is replaced by
the prescribed value. -/
def DirichletData_Vector.enforce (d : DirichletData_Vector R) (e : ElementMap)
    (x_nodal : Fin 4 → Vector2 R) : Fin 4 → Vector2 R :=
  fun k =>
    if flagged d.indices (e.node k).1 (e.node k).2 then d.values (e.node k).1 (e.node k).2
    else x_nodal k

/-- Modelled from the spec: `DirichletData_Vector::enforce_homogeneous(element,
x_nodal)`, absent from the sources: "zero the corresponding rows/entries (homogeneous
Dirichlet)"; the nodal value at a Dirichlet node is replaced by zero. -/
def DirichletData_Vector.enforce_homogeneous (d : DirichletData_Vector R) (e : ElementMap)
    (x_nodal : Fin 4 → Vector2 R) : Fin 4 → Vector2 R :=
  fun k => if flagged d.indices (e.node k).1 (e.node k).2 then 0 else x_nodal k

/-- Modelled from the spec: `DirichletData_Scalar::enforce_homogeneous(element,
x_nodal)`, absent from the sources: "fixed design at frozen-design nodes"; the nodal
value at a flagged node is replaced by zero. -/
def DirichletData_Scalar.enforce_homogeneous (d : DirichletData_Scalar R) (e : ElementMap)
    (x_nodal : Fin 4 → R) : Fin 4 → R :=
  fun k => if flagged d.indices (e.node k).1 (e.node k).2 then 0 else x_nodal k

/-- Modelled from the spec: `DirichletData_Vector::fix_residual_homogeneous(r_global)`,
absent from the sources: for each owned point flagged as a Dirichlet location the
entry of the global array is set to zero. -/
def DirichletData_Vector.fix_residual_homogeneous (d : DirichletData_Vector R)
    (g : IceGrid R) (r_global : Int → Int → Vector2 R) : Int → Int → Vector2 R :=
  g.points.foldl
    (fun r p => if flagged d.indices p.1 p.2 then setCell r p 0 else r) r_global

/-- Modelled from the spec: `DirichletData_Scalar::fix_residual_homogeneous(r_global)`,
absent from the sources: for each owned point flagged as a fixed location the entry of
the global array is set to zero. -/
def DirichletData_Scalar.fix_residual_homogeneous (d : DirichletData_Scalar R)
    (g : IceGrid R) (r_global : Int → Int → R) : Int → Int → R :=
  g.points.foldl
    (fun r p => if flagged d.indices p.1 p.2 then setCell r p 0 else r) r_global

/-- Modelled from the spec: `fem::quadrature_point_values(Q, x, vals, dx, dy)` for a
vector field, absent from the sources: "interpolation to quadrature points"; this is
the output `dx`, the sum over the nodes of `test[q][k].dx * x[k]`. -/
def quadrature_point_dx (Q : Quadrature R) (x : Fin 4 → Vector2 R) (q : Fin Q.n) :
    Vector2 R :=
  { u := ∑ k : Fin 4, (Q.test_function_values q k).dx * (x k).u,
    v := ∑ k : Fin 4, (Q.test_function_values q k).dx * (x k).v }

/-- Modelled from the spec: the output `dy` of `fem::quadrature_point_values`, the sum
over the nodes of `test[q][k].dy * x[k]`. -/
def quadrature_point_dy (Q : Quadrature R) (x : Fin 4 → Vector2 R) (q : Fin Q.n) :
    Vector2 R :=
  { u := ∑ k : Fin 4, (Q.test_function_values q k).dy * (x k).u,
    v := ∑ k : Fin 4, (Q.test_function_values q k).dy * (x k).v }

/-- Modelled from the spec: `fem::quadrature_point_values(Q, x, vals)` for a scalar
field, absent from the sources: the sum over the nodes of `test[q][k].val * x[k]`. -/
def quadrature_point_val (Q : Quadrature R) (x : Fin 4 → R) (q : Fin Q.n) : R :=
  ∑ k : Fin 4, (Q.test_function_values q k).val * x k

end FEM
section InverseProblem

variable {R : Type} [LinearOrderedField R]

/-- A PETSc matrix `Mat` acting on the vectors of a two-component field: the entry in
the row of component `c` at the point `p` and the column of component `d` at the point
`q` is `entry p c q d`. -/
structure Mat (R : Type) where
  entry : Int × Int → Fin 2 → Int × Int → Fin 2 → R

/-- The product `A x` of a matrix and the global vector of a field (`MatMult`), the
columns running over the owned points. -/
def MatMult (g : IceGrid R) (A : Mat R) (x : Int → Int → Vector2 R) :
    Int → Int → Vector2 R :=
  fun i j =>
    { u := (g.points.map fun q =>
        A.entry (i, j) 0 q 0 * (x q.1 q.2).u + A.entry (i, j) 0 q 1 * (x q.1 q.2).v).sum,
      v := (g.points.map fun q =>
        A.entry (i, j) 1 q 0 * (x q.1 q.2).u + A.entry (i, j) 1 q 1 * (x q.1 q.2).v).sum }

/-- The transpose of a matrix. -/
def MatTranspose (A : Mat R) : Mat R :=
  { entry := fun p c q d => A.entry q d p c }

/-- What one call `KSPSolve(m_ksp, b, x)` followed by `KSPGetConvergedReason` yields:
the two return codes, the contents of the solution vector and the converged reason. -/
structure KSPResult (R : Type) where
  ierr : Int
  x : Int → Int → Vector2 R
  reason_ierr : Int
  reason : Int

/-- The class `TerminationReason` returned by the nonlinear solve: its reason code. -/
structure TerminationReason where
  reason : Int
deriving DecidableEq, Repr

/-- The method `TerminationReason::failed()`: the reason code is negative. -/
def TerminationReason.failed (r : TerminationReason) : Bool :=
  decide (r.reason < 0)

/-- The members of the base class `SSAFEM` (and of its bases) that
`IP_SSAHardavForwardProblem` reads or writes. -/
structure SSAFEM (R : Type) where
  m_grid : IceGrid R
  m_velocity : IceModelVec (Vector2 R)
  m_coeffs : Int → Int → Coeffs R
  m_bc_mask : Option (Int → Int → R)
  m_bc_values : Int → Int → Vector2 R
  m_dirichletScale : R

/-- The collaborators of `IP_SSAHardavForwardProblem` that are absent from the sources,
as parameters: the quadrature `m_quadrature`, the element range `m_element_index`
(`xs`, `xm`, `ys`, `ym`), the flow law (`effective_viscosity(hardness, gamma, &nu,
&dnu)` gives the pair `(nu, dnu)`), `secondInvariant_2D`,
`strength_extension->get_min_thickness()`, `quad_point_values` of `SSAFEM`, the design
parameterization `m_design_param` (`toDesignVariable(zeta, &value, &derivative)` gives
the pair `(value, derivative)`; `convertToDesignVariable(zeta, d)` gives the new
contents of `d`), `compute_local_jacobian` and `solve_nocache` of `SSAFEM`, and the
linear solver `m_ksp` of PETSc with its table `KSPConvergedReasons`. -/
structure Collaborators (R : Type) where
  m_quadrature : Quadrature R
  element_xs : Int
  element_xm : Nat
  element_ys : Int
  element_ym : Nat
  effective_viscosity : R → R → R × R
  secondInvariant_2D : Vector2 R → Vector2 R → R
  min_thickness : R
  quad_point_values : (Fin 4 → Coeffs R) → Fin m_quadrature.n → Coeffs R
  toDesignVariable : R → R × R
  convertToDesignVariable : IceModelVec R → IceModelVec R → IceModelVec R
  compute_local_jacobian : SSAFEM R → (Int → Int → Vector2 R) → Mat R
  solve_nocache : SSAFEM R → SSAFEM R × TerminationReason
  KSPSetOperators : Mat R → Int
  KSPSolve : Mat R → (Int → Int → Vector2 R) → KSPResult R
  KSPConvergedReasons : Int → String

/-- The elements visited by the loops
`for (j = ys; j < ys + ym; j++) for (i = xs; i < xs + xm; i++)` over `m_element_index`. -/
def Collaborators.elements (c : Collaborators R) : List (Int × Int) :=
  rectangle c.element_xs c.element_xm c.element_ys c.element_ym

/-- What happens to the state Jacobian and its flag, in the order of execution; the
log is a ghost member of the object, the source has no counterpart. -/
inductive Event where
  | design_set
  | assembled
  | flag_cleared
  | solve_read (flag : Bool)
deriving DecidableEq, Repr

/-- The object `IP_SSAHardavForwardProblem`: its base class, its own members (`m_zeta`
is a pointer: the address of the caller's field, or null) and the ghost `log`. -/
structure IP_SSAHardavForwardProblem (R : Type) where
  base : SSAFEM R
  m_zeta : Option Nat
  m_fixed_design_locations : Option (Int → Int → R)
  m_dzeta_local : IceModelVec R
  m_hardav : IceModelVec R
  m_du_global : IceModelVec (Vector2 R)
  m_du_local : IceModelVec (Vector2 R)
  m_J_state : Mat R
  m_rebuild_J_state : Bool
  log : List Event

/-- The constructor (lines 34-45) and `construct()`: `m_zeta(NULL)`,
`m_fixed_design_locations(NULL)`, `m_rebuild_J_state(true)`; the work vectors are
created with ghosts of width 1, `m_du_global` without ghosts; vectors and matrix start
with zero entries. -/
def IP_SSAHardavForwardProblem.construct (base : SSAFEM R) : IP_SSAHardavForwardProblem R :=
  { base := base,
    m_zeta := none,
    m_fixed_design_locations := none,
    m_dzeta_local := { stencil_width := 1, a := fun _ _ => 0 },
    m_hardav := { stencil_width := 1, a := fun _ _ => 0 },
    m_du_global := { stencil_width := 0, a := fun _ _ => 0 },
    m_du_local := { stencil_width := 1, a := fun _ _ => 0 },
    m_J_state := { entry := fun _ _ _ _ => 0 },
    m_rebuild_J_state := true,
    log := [] }

/-- The method `set_design(new_zeta)` (lines 106-124); `mem` is the memory holding the
caller's fields and `new_zeta` the address of the argument. -/
def set_design (c : Collaborators R) (mem : Nat → IceModelVec R)
    (s : IP_SSAHardavForwardProblem R) (new_zeta : Nat) : IP_SSAHardavForwardProblem R :=
  let m_hardav := c.convertToDesignVariable (mem new_zeta) s.m_hardav
  let m_coeffs := (s.base.m_grid.points_with_ghosts 1).foldl
    (fun coeffs p => setCell coeffs p { coeffs p.1 p.2 with hardness := m_hardav.a p.1 p.2 })
    s.base.m_coeffs
  { s with
    m_zeta := some new_zeta,
    m_hardav := m_hardav,
    base := { s.base with m_coeffs := m_coeffs },
    m_rebuild_J_state := true,
    log := s.log ++ [Event.design_set] }

/-- The method `linearize_at(zeta)` (lines 129-132): `set_design(zeta)`, then
`return solve_nocache()`; the nonlinear solve of the base class works on the members of
the base class. -/
def linearize_at (c : Collaborators R) (mem : Nat → IceModelVec R)
    (s : IP_SSAHardavForwardProblem R) (zeta : Nat) :
    IP_SSAHardavForwardProblem R × TerminationReason :=
  let s1 := set_design c mem s zeta
  let r := c.solve_nocache s1.base
  ({ s1 with base := r.1 }, r.2)

/-- The method `assemble_jacobian_state(u, Jac)` (lines 169-176): the matrix that
`compute_local_jacobian(u_a, Jac)` fills in. -/
def assemble_jacobian_state (c : Collaborators R) (b : SSAFEM R)
    (u : IceModelVec (Vector2 R)) : Mat R :=
  c.compute_local_jacobian b u.a

/-- The velocity at the nodes of the element `(i, j)`, Dirichlet values enforced
(lines 302-306 and 485-488). -/
def element_u_e (b : SSAFEM R) (u : Int → Int → Vector2 R) (i j : Int) : Fin 4 → Vector2 R :=
  let m_element := ElementMap.reset b.m_grid i j
  let dirichletBC : DirichletData_Vector R :=
    { indices := b.m_bc_mask, values := b.m_bc_values, weight := b.m_dirichletScale }
  if dirichletBC.active then dirichletBC.enforce m_element (m_element.nodal_values u)
  else m_element.nodal_values u

/-- The thickness at the quadrature points of the element `(i, j)` (lines 323-334 and
496-507): `quad_point_values` of the nodal values of `m_coeffs`. -/
def element_thickness (c : Collaborators R) (b : SSAFEM R) (i j : Int)
    (q : Fin c.m_quadrature.n) : R :=
  (c.quad_point_values ((ElementMap.reset b.m_grid i j).nodal_values b.m_coeffs) q).thickness

/-- The perturbation `dzeta` at the nodes of the element `(i, j)`, set to zero at the
fixed design locations (lines 310-313). -/
def element_dzeta_e (b : SSAFEM R) (m_fixed_design_locations : Option (Int → Int → R))
    (dzeta_local : Int → Int → R) (i j : Int) : Fin 4 → R :=
  let m_element := ElementMap.reset b.m_grid i j
  let fixedZeta : DirichletData_Scalar R := { indices := m_fixed_design_locations }
  if fixedZeta.active then
    fixedZeta.enforce_homogeneous m_element (m_element.nodal_values dzeta_local)
  else m_element.nodal_values dzeta_local

/-- The element-local vector `du_e` of `apply_jacobian_design` for the element `(i, j)`
(lines 291-353). -/
def design_du_e (c : Collaborators R) (b : SSAFEM R)
    (m_fixed_design_locations : Option (Int → Int → R)) (zeta : Int → Int → R)
    (u : Int → Int → Vector2 R) (dzeta_local : Int → Int → R) (i j : Int) :
    Fin 4 → Vector2 R :=
  let test := c.m_quadrature.test_function_values
  let JxW := c.m_quadrature.weighted_jacobian
  let m_element := ElementMap.reset b.m_grid i j
  let u_e := element_u_e b u i j
  let U_x := quadrature_point_dx c.m_quadrature u_e
  let U_y := quadrature_point_dy c.m_quadrature u_e
  let dzeta_e := element_dzeta_e b m_fixed_design_locations dzeta_local i j
  let zeta_e := m_element.nodal_values zeta
  let dB_e : Fin 4 → R := fun k => (c.toDesignVariable (zeta_e k)).2 * dzeta_e k
  let dB_q := quadrature_point_val c.m_quadrature dB_e
  let thickness := element_thickness c b i j
  let d_nuH : Fin c.m_quadrature.n → R := fun q =>
    if thickness q ≥ c.min_thickness then
      (c.effective_viscosity (dB_q q) (c.secondInvariant_2D (U_x q) (U_y q))).1
        * (2 * thickness q)
    else 0
  fun k =>
    { u := ∑ q : Fin c.m_quadrature.n, JxW q * d_nuH q *
        ((test q k).dx * (2 * (U_x q).u + (U_y q).v)
          + (test q k).dy * (1 / 2 * ((U_y q).u + (U_x q).v))),
      v := ∑ q : Fin c.m_quadrature.n, JxW q * d_nuH q *
        ((test q k).dy * (2 * (U_y q).v + (U_x q).u)
          + (test q k).dx * (1 / 2 * ((U_y q).u + (U_x q).v))) }

/-- The method `apply_jacobian_design(u, dzeta, du_a)` on arrays (lines 244-365), once
the ghosted perturbation `dzeta_local` is chosen; `zeta` is the field `*m_zeta`. -/
def apply_jacobian_design_array (c : Collaborators R) (b : SSAFEM R)
    (m_fixed_design_locations : Option (Int → Int → R)) (zeta : Int → Int → R)
    (u : Int → Int → Vector2 R) (dzeta_local : Int → Int → R)
    (du_a : Int → Int → Vector2 R) : Int → Int → Vector2 R :=
  let dirichletBC : DirichletData_Vector R :=
    { indices := b.m_bc_mask, values := b.m_bc_values, weight := b.m_dirichletScale }
  let zeroed := b.m_grid.points.foldl (fun a p => setCell a p { u := 0, v := 0 }) du_a
  let summed := c.elements.foldl
    (fun a e =>
      let m_element := ElementMap.reset b.m_grid e.1 e.2
      let constrained :=
        if dirichletBC.active then dirichletBC.constrain m_element else m_element
      constrained.add_residual_contribution
        (design_du_e c b m_fixed_design_locations zeta u dzeta_local e.1 e.2) a)
    zeroed
  if dirichletBC.active then dirichletBC.fix_residual_homogeneous b.m_grid summed
  else summed

/-- The method `apply_jacobian_design(u, dzeta, du_a)` (lines 222-365): the choice of
`dzeta_local` (lines 235-242, `m_dzeta_local` is overwritten when `dzeta` has no
ghosts), then the assembly; gives the object and the array `du_a`. -/
def apply_jacobian_design (c : Collaborators R) (s : IP_SSAHardavForwardProblem R)
    (zeta : IceModelVec R) (u : IceModelVec (Vector2 R)) (dzeta : IceModelVec R)
    (du_a : Int → Int → Vector2 R) :
    IP_SSAHardavForwardProblem R × (Int → Int → Vector2 R) :=
  let s1 :=
    if dzeta.stencil_width > 0 then s
    else { s with m_dzeta_local := copy_from s.base.m_grid s.m_dzeta_local dzeta }
  let dzeta_local := if dzeta.stencil_width > 0 then dzeta else s1.m_dzeta_local
  (s1, apply_jacobian_design_array c s.base s.m_fixed_design_locations zeta.a u.a
    dzeta_local.a du_a)

/-- The perturbation `du` at the nodes of the element `(i, j)`, set to zero at the
Dirichlet nodes (lines 479-482). -/
def transpose_du_e (b : SSAFEM R) (du : Int → Int → Vector2 R) (i j : Int) :
    Fin 4 → Vector2 R :=
  let m_element := ElementMap.reset b.m_grid i j
  let dirichletBC : DirichletData_Vector R :=
    { indices := b.m_bc_mask, values := b.m_bc_values, weight := b.m_dirichletScale }
  if dirichletBC.active then
    dirichletBC.enforce_homogeneous m_element (m_element.nodal_values du)
  else m_element.nodal_values du

/-- The element-local vector `dzeta_e` of `apply_jacobian_design_transpose` for the
element `(i, j)` (lines 474-528). -/
def transpose_dzeta_e (c : Collaborators R) (b : SSAFEM R) (u : Int → Int → Vector2 R)
    (du : Int → Int → Vector2 R) (i j : Int) : Fin 4 → R :=
  let test := c.m_quadrature.test_function_values
  let JxW := c.m_quadrature.weighted_jacobian
  let du_e := transpose_du_e b du i j
  let du_dx_q := quadrature_point_dx c.m_quadrature du_e
  let du_dy_q := quadrature_point_dy c.m_quadrature du_e
  let u_e := element_u_e b u i j
  let U_x := quadrature_point_dx c.m_quadrature u_e
  let U_y := quadrature_point_dy c.m_quadrature u_e
  let thickness := element_thickness c b i j
  let d_nuH_dB : Fin c.m_quadrature.n → R := fun q =>
    if thickness q ≥ c.min_thickness then
      (c.effective_viscosity 1 (c.secondInvariant_2D (U_x q) (U_y q))).1
        * (2 * thickness q)
    else 0
  fun k =>
    ∑ q : Fin c.m_quadrature.n, JxW q * d_nuH_dB q * (test q k).val *
      (((du_dx_q q).u * (2 * (U_x q).u + (U_y q).v)
          + (du_dy_q q).u * (1 / 2 * ((U_y q).u + (U_x q).v)))
        + ((du_dy_q q).v * (2 * (U_y q).v + (U_x q).u)
          + (du_dx_q q).v * (1 / 2 * ((U_y q).u + (U_x q).v))))

/-- The method `apply_jacobian_design_transpose(u, du, dzeta_a)` on arrays (lines
457-550); `zeta` is the field `*m_zeta`.  The nodal values are read from `du` itself
(line 479), not from the ghosted copy. -/
def apply_jacobian_design_transpose_array (c : Collaborators R) (b : SSAFEM R)
    (m_fixed_design_locations : Option (Int → Int → R)) (zeta : Int → Int → R)
    (u : Int → Int → Vector2 R) (du : Int → Int → Vector2 R)
    (dzeta_a : Int → Int → R) : Int → Int → R :=
  let zeroed := b.m_grid.points.foldl (fun a p => setCell a p 0) dzeta_a
  let summed := c.elements.foldl
    (fun a e =>
      (ElementMap.reset b.m_grid e.1 e.2).add_residual_contribution
        (transpose_dzeta_e c b u du e.1 e.2) a)
    zeroed
  let scaled := b.m_grid.points.foldl
    (fun a p => setCell a p (a p.1 p.2 * (c.toDesignVariable (zeta p.1 p.2)).2)) summed
  match m_fixed_design_locations with
  | some locations =>
    let fixedZeta : DirichletData_Scalar R := { indices := some locations }
    fixedZeta.fix_residual_homogeneous b.m_grid scaled
  | none => scaled

/-- The method `apply_jacobian_design_transpose(u, du, dzeta)` writing a field (lines
371-377 and 411-550): `m_du_local` is overwritten when `du` has no ghosts (lines
424-431); gives the object and the field `dzeta`. -/
def apply_jacobian_design_transpose (c : Collaborators R)
    (s : IP_SSAHardavForwardProblem R) (zeta : IceModelVec R)
    (u : IceModelVec (Vector2 R)) (du : IceModelVec (Vector2 R)) (dzeta : IceModelVec R) :
    IP_SSAHardavForwardProblem R × IceModelVec R :=
  let s1 :=
    if du.stencil_width > 0 then s
    else { s with m_du_local := copy_from s.base.m_grid s.m_du_local du }
  (s1, { dzeta with
    a := apply_jacobian_design_transpose_array c s.base s.m_fixed_design_locations zeta.a
      u.a du.a dzeta.a })

/-- The macro `PISM_CHK(errcode, name)` of `error_handling.hh`, absent from the
sources: a non-zero return code of a PETSc call raises a `RuntimeError` naming the
call. -/
def PISM_CHK (errcode : Int) (name : String) : Option RuntimeError :=
  if errcode ≠ 0 then some { format := "PETSc call %s failed", args := [name] } else none

/-- How a method call ends: it returns, it raises a `RuntimeError`, or it dereferences
the null pointer `m_zeta` (undefined behaviour). -/
inductive Status where
  | returned
  | raised (e : RuntimeError)
  | undefined
deriving DecidableEq, Repr

/-- The result of a method call: how it ended, the object and the caller's output
field as the call left them. -/
structure Run (σ β : Type) where
  status : Status
  self : σ
  out : β

/-- Lines 569-572 and 628-631: the state Jacobian is assembled at `m_velocity` and the
flag cleared, when the flag is set. -/
def rebuild_J_state (c : Collaborators R) (s : IP_SSAHardavForwardProblem R) :
    IP_SSAHardavForwardProblem R :=
  if s.m_rebuild_J_state then
    { s with
      m_J_state := assemble_jacobian_state c s.base s.base.m_velocity,
      m_rebuild_J_state := false,
      log := s.log ++ [Event.assembled, Event.flag_cleared] }
  else s

/-- The exception of lines 592-595 and 662-664, carrying the solver's reason. -/
def solve_failed (c : Collaborators R) (format : String) (reason : Int) : RuntimeError :=
  { format := format, args := [c.KSPConvergedReasons reason] }

/-- The format of the message of lines 593-595 and 663. -/
def solve_failed_format : String :=
  "IP_SSAHardavForwardProblem::apply_linearization solve failed to converge (KSP reason %s)"

/-- Lines 577-601 of `apply_linearization` and 647-669 of
`apply_linearization_transpose`, the same code: `KSPSetOperators` with `m_J_state`,
`KSPSolve` with `m_du_global` as right-hand side and as solution, then
`KSPGetConvergedReason`; every return code goes through `PISM_CHK`, and a negative
reason raises.  Gives the exception raised, if any, and the object. -/
def solve_in_place (c : Collaborators R) (s : IP_SSAHardavForwardProblem R) :
    Option RuntimeError × IP_SSAHardavForwardProblem R :=
  match PISM_CHK (c.KSPSetOperators s.m_J_state) "KSPSetOperators" with
  | some e => (some e, s)
  | none =>
    let k := c.KSPSolve s.m_J_state s.m_du_global.a
    let solved : IP_SSAHardavForwardProblem R :=
      { s with
        m_du_global := { s.m_du_global with a := k.x },
        log := s.log ++ [Event.solve_read s.m_rebuild_J_state] }
    match PISM_CHK k.ierr "KSPSolve" with
    | some e => (some e, solved)
    | none =>
      match PISM_CHK k.reason_ierr "KSPGetConvergedReason" with
      | some e => (some e, solved)
      | none =>
        if k.reason < 0 then (some (solve_failed c solve_failed_format k.reason), solved)
        else (none, solved)

/-- Lines 574-575 of `apply_linearization`:
`apply_jacobian_design(m_velocity, dzeta, m_du_global); m_du_global.scale(-1)`; `zeta`
is the field `*m_zeta`. -/
def linearization_rhs (c : Collaborators R) (s : IP_SSAHardavForwardProblem R)
    (zeta : IceModelVec R) (dzeta : IceModelVec R) : IP_SSAHardavForwardProblem R :=
  let r := apply_jacobian_design c s zeta s.base.m_velocity dzeta s.m_du_global.a
  { r.1 with m_du_global := scaleV (-1) { r.1.m_du_global with a := r.2 } }

/-- The method `apply_linearization(dzeta, du)` (lines 565-604). -/
def apply_linearization (c : Collaborators R) (mem : Nat → IceModelVec R)
    (s : IP_SSAHardavForwardProblem R) (dzeta : IceModelVec R)
    (du : IceModelVec (Vector2 R)) :
    Run (IP_SSAHardavForwardProblem R) (IceModelVec (Vector2 R)) :=
  let s1 := rebuild_J_state c s
  match s1.m_zeta with
  | none => { status := Status.undefined, self := s1, out := du }
  | some z =>
    let s2 := linearization_rhs c s1 (mem z) dzeta
    match (solve_in_place c s2).1 with
    | some e => { status := Status.raised e, self := (solve_in_place c s2).2, out := du }
    | none =>
      { status := Status.returned, self := (solve_in_place c s2).2,
        out := copy_from (solve_in_place c s2).2.base.m_grid du
          (solve_in_place c s2).2.m_du_global }

/-- Lines 638-645 of `apply_linearization_transpose`: `m_du_global.copy_from(du)`,
then the entries at the Dirichlet locations are set to zero when there are Dirichlet
conditions. -/
def transpose_rhs (s : IP_SSAHardavForwardProblem R) (du : IceModelVec (Vector2 R)) :
    IP_SSAHardavForwardProblem R :=
  let dirichletBC : DirichletData_Vector R :=
    { indices := s.base.m_bc_mask, values := s.base.m_bc_values,
      weight := s.base.m_dirichletScale }
  let copied := copy_from s.base.m_grid s.m_du_global du
  { s with
    m_du_global :=
      if dirichletBC.active then
        { copied with a := dirichletBC.fix_residual_homogeneous s.base.m_grid copied.a }
      else copied }

/-- Lines 671-676 of `apply_linearization_transpose`:
`apply_jacobian_design_transpose(m_velocity, m_du_global, dzeta); dzeta.scale(-1)`,
then the ghosts of `dzeta` are refreshed when it has any; `zeta` is the field
`*m_zeta`. -/
def transpose_output (c : Collaborators R) (s : IP_SSAHardavForwardProblem R)
    (zeta : IceModelVec R) (dzeta : IceModelVec R) :
    IP_SSAHardavForwardProblem R × IceModelVec R :=
  let r := apply_jacobian_design_transpose c s zeta s.base.m_velocity s.m_du_global dzeta
  let scaled := scaleS (-1) r.2
  (r.1, if scaled.stencil_width > 0 then update_ghosts r.1.base.m_grid scaled else scaled)

/-- The method `apply_linearization_transpose(du, dzeta)` (lines 623-677). -/
def apply_linearization_transpose (c : Collaborators R) (mem : Nat → IceModelVec R)
    (s : IP_SSAHardavForwardProblem R) (du : IceModelVec (Vector2 R))
    (dzeta : IceModelVec R) : Run (IP_SSAHardavForwardProblem R) (IceModelVec R) :=
  let s1 := rebuild_J_state c s
  let s2 := transpose_rhs s1 du
  match (solve_in_place c s2).1 with
  | some e => { status := Status.raised e, self := (solve_in_place c s2).2, out := dzeta }
  | none =>
    let s3 := (solve_in_place c s2).2
    match s3.m_zeta with
    | none => { status := Status.undefined, self := s3, out := dzeta }
    | some z =>
      { status := Status.returned, self := (transpose_output c s3 (mem z) dzeta).1,
        out := (transpose_output c s3 (mem z) dzeta).2 }

/-- The linear solve of `apply_linearization` (line 585) when `m_zeta` points to the
field at the address `z`: what `KSPSolve` yields for the matrix and the right-hand side
the method hands to it. -/
def linearization_solve (c : Collaborators R) (mem : Nat → IceModelVec R)
    (s : IP_SSAHardavForwardProblem R) (z : Nat) (dzeta : IceModelVec R) : KSPResult R :=
  c.KSPSolve (linearization_rhs c (rebuild_J_state c s) (mem z) dzeta).m_J_state
    (linearization_rhs c (rebuild_J_state c s) (mem z) dzeta).m_du_global.a

/-- The return code of `KSPSetOperators` in `apply_linearization` (lines 579-583). -/
def linearization_operators_code (c : Collaborators R) (mem : Nat → IceModelVec R)
    (s : IP_SSAHardavForwardProblem R) (z : Nat) (dzeta : IceModelVec R) : Int :=
  c.KSPSetOperators (linearization_rhs c (rebuild_J_state c s) (mem z) dzeta).m_J_state

/-- The linear solve of `apply_linearization_transpose` (line 655): what `KSPSolve`
yields for the matrix and the right-hand side the method hands to it. -/
def transpose_solve (c : Collaborators R) (s : IP_SSAHardavForwardProblem R)
    (du : IceModelVec (Vector2 R)) : KSPResult R :=
  c.KSPSolve (transpose_rhs (rebuild_J_state c s) du).m_J_state
    (transpose_rhs (rebuild_J_state c s) du).m_du_global.a

/-- The return code of `KSPSetOperators` in `apply_linearization_transpose` (lines
649-653). -/
def transpose_operators_code (c : Collaborators R) (s : IP_SSAHardavForwardProblem R)
    (du : IceModelVec (Vector2 R)) : Int :=
  c.KSPSetOperators (transpose_rhs (rebuild_J_state c s) du).m_J_state

/-- The contract of the linear-solve service: when `KSPSolve` succeeds and reports a
reason that is not negative, the vector it leaves solves the system, `A x = b` on the
owned points. -/
def SolverContract (c : Collaborators R) (g : IceGrid R) : Prop :=
  ∀ (A : Mat R) (b : Int → Int → Vector2 R),
    (c.KSPSolve A b).ierr = 0 → (c.KSPSolve A b).reason_ierr = 0 →
    0 ≤ (c.KSPSolve A b).reason →
    ∀ i j, (i, j) ∈ g.points → MatMult g A (c.KSPSolve A b).x i j = b i j

/-- A call of one of the four methods of the object that touch the state Jacobian or
its flag. -/
inductive Call (R : Type) where
  | set_design (zeta : Nat)
  | linearize_at (zeta : Nat)
  | apply_linearization (dzeta : IceModelVec R) (du : IceModelVec (Vector2 R))
  | apply_linearization_transpose (du : IceModelVec (Vector2 R)) (dzeta : IceModelVec R)

/-- One call: how it ended and the object afterwards. -/
def Call.exec (c : Collaborators R) (mem : Nat → IceModelVec R)
    (s : IP_SSAHardavForwardProblem R) : Call R → Status × IP_SSAHardavForwardProblem R
  | Call.set_design zeta => (Status.returned, pism.set_design c mem s zeta)
  | Call.linearize_at zeta => (Status.returned, (pism.linearize_at c mem s zeta).1)
  | Call.apply_linearization dzeta du =>
    ((pism.apply_linearization c mem s dzeta du).status,
      (pism.apply_linearization c mem s dzeta du).self)
  | Call.apply_linearization_transpose du dzeta =>
    ((pism.apply_linearization_transpose c mem s du dzeta).status,
      (pism.apply_linearization_transpose c mem s du dzeta).self)

/-- A sequence of calls on the object; a caller may catch a `RuntimeError` and go on,
the sequence ends at undefined behaviour. -/
def runCalls (c : Collaborators R) (mem : Nat → IceModelVec R) :
    List (Call R) → IP_SSAHardavForwardProblem R → IP_SSAHardavForwardProblem R
  | [], s => s
  | call :: rest, s =>
    match (call.exec c mem s).1 with
    | Status.undefined => (call.exec c mem s).2
    | _ => runCalls c mem rest (call.exec c mem s).2

/-- The scalar product of two scalar fields over the owned points. -/
def dotS (g : IceGrid R) (a b : Int → Int → R) : R :=
  (g.points.map fun p => a p.1 p.2 * b p.1 p.2).sum

/-- The scalar product of two vector fields over the owned points. -/
def dotV (g : IceGrid R) (a b : Int → Int → Vector2 R) : R :=
  (g.points.map fun p =>
    (a p.1 p.2).u * (b p.1 p.2).u + (a p.1 p.2).v * (b p.1 p.2).v).sum

/-- Componentwise negation of a vector. -/
instance : Neg (Vector2 R) :=
  ⟨fun x => { u := -x.u, v := -x.v }⟩

/-- The state Jacobian is assembled after the most recent `set_design`: the log holds
an `assembled` event with no `design_set` event after it. -/
def AssembledSinceDesign (log : List Event) : Prop :=
  ∃ a b, log = a ++ Event.assembled :: b ∧ Event.design_set ∉ b

/-- The dirty-flag discipline, read off the log: every clearing of the flag comes
immediately after an assembly of the state Jacobian, and whenever the linear solve
reads the state Jacobian the flag is clear and the Jacobian has been assembled after
the most recent `set_design`. -/
def FlagDiscipline (log : List Event) : Prop :=
  (∀ pre post, log = pre ++ Event.flag_cleared :: post →
    ∃ before, pre = before ++ [Event.assembled]) ∧
  (∀ pre post flag, log = pre ++ Event.solve_read flag :: post →
    flag = false ∧ AssembledSinceDesign pre)

/-- The cached state Jacobian is current: when the flag is clear, `m_J_state` is the
matrix `assemble_jacobian_state` gives at the present `m_velocity` and coefficients. -/
def JStateCurrent (c : Collaborators R) (s : IP_SSAHardavForwardProblem R) : Prop :=
  s.m_rebuild_J_state = false →
    s.m_J_state = assemble_jacobian_state c s.base s.base.m_velocity

/-- The invariant of the object over its calls: the log obeys the flag discipline, and
while the flag is clear the state Jacobian has been assembled since the last
`set_design` and is current. -/
def FlagInvariant (c : Collaborators R) (s : IP_SSAHardavForwardProblem R) : Prop :=
  FlagDiscipline s.log ∧
  (s.m_rebuild_J_state = false → AssembledSinceDesign s.log) ∧
  JStateCurrent c s

end InverseProblem
section Examples

/-- The predicate `ice_free` of `Mask.hh` with the mask values of PISM
(`MASK_ICE_FREE_BEDROCK = 0`, `MASK_ICE_FREE_OCEAN = 4`), used for the concrete inputs. -/
def ice_free_example (M : Int) : Bool :=
  M == 0 || M == 4

/-- A grid of 3 by 3 owned points with unit spacing. -/
def grid3 (R : Type) [LinearOrderedField R] : IceGrid R :=
  { dx := 1, dy := 1, xs := 0, xm := 3, ys := 0, ym := 3 }

/-- The velocity field `u = i + 2 j`, `v = 3 i`. -/
def velocity3 (R : Type) [LinearOrderedField R] : Int → Int → Vector2 R :=
  fun i j => { u := (i : R) + 2 * (j : R), v := 3 * (i : R) }

/-- A mask that is grounded ice (2) on the owned points and ice-free ocean (4) outside. -/
def mask3 : Int → Int → Int :=
  fun i j => if 0 ≤ i ∧ i < 3 ∧ 0 ≤ j ∧ j < 3 then 2 else 4

/-- A result field with two components, all zero. -/
def result2 (R : Type) [LinearOrderedField R] : IceModelVec2 R :=
  { ndof := 2, data := fun _ _ _ => 0 }

end Examples

section InverseExamples

variable (R : Type) [LinearOrderedField R]

/-- A matrix made of one 2 by 2 block `m` on the diagonal at every point. -/
def blockDiagonal {R : Type} [LinearOrderedField R] (m : Fin 2 → Fin 2 → R) : Mat R :=
  { entry := fun p c q d => if p = q then m c d else 0 }

/-- The identity block. -/
def identityBlock : Fin 2 → Fin 2 → R :=
  fun c d => if c = d then 1 else 0

/-- The upper triangular block with rows `(1, 1)` and `(0, 1)`: not symmetric. -/
def upperBlock : Fin 2 → Fin 2 → R :=
  fun c d => if c = 1 ∧ d = 0 then 0 else 1

/-- The inverse of `upperBlock`: rows `(1, -1)` and `(0, 1)`. -/
def upperBlockInverse : Fin 2 → Fin 2 → R :=
  fun c d => if c = 1 ∧ d = 0 then 0 else if c = 0 ∧ d = 1 then -1 else 1

/-- A grid of 2 by 2 owned points with unit spacing. -/
def grid2 : IceGrid R :=
  { dx := 1, dy := 1, xs := 0, xm := 2, ys := 0, ym := 2 }

/-- One quadrature point at the centre of the element, with the germs of the four Q1
shape functions there (unit spacing) and weight 1. -/
def quadrature1 : Quadrature R :=
  { n := 1,
    test_function_values := fun _ k =>
      { val := 1 / 4,
        dx := if k = 1 ∨ k = 2 then 1 / 2 else -(1 / 2),
        dy := if k = 2 ∨ k = 3 then 1 / 2 else -(1 / 2) },
    weighted_jacobian := fun _ => 1 }

/-- A linear solver that applies the matrix `Ainv` to the right-hand side and reports
convergence (reason 2) exactly when the result solves the system on the owned points,
divergence (reason -3) otherwise. -/
def checkedSolve {R : Type} [LinearOrderedField R] (g : IceGrid R) (Ainv A : Mat R)
    (b : Int → Int → Vector2 R) : KSPResult R :=
  { ierr := 0,
    x := MatMult g Ainv b,
    reason_ierr := 0,
    reason :=
      if ∀ p ∈ g.points, MatMult g A (MatMult g Ainv b) p.1 p.2 = b p.1 p.2 then 2 else -3 }

/-- Collaborators on `grid2` with its single element: a viscosity equal to the
hardness, thickness taken from the first node, the identity parameterization, a state
Jacobian that is always `J`, and the solver `checkedSolve` applying `Jinv`. -/
def collaborators2 (J Jinv : Mat R) : Collaborators R :=
  { m_quadrature := quadrature1 R,
    element_xs := 0,
    element_xm := 1,
    element_ys := 0,
    element_ym := 1,
    effective_viscosity := fun B _ => (B, 0),
    secondInvariant_2D := fun U_x U_y =>
      1 / 2 * (U_x.u ^ 2 + U_y.v ^ 2 + (U_x.u + U_y.v) ^ 2 + 1 / 2 * (U_y.u + U_x.v) ^ 2),
    min_thickness := 0,
    quad_point_values := fun coeffs _ => coeffs 0,
    toDesignVariable := fun zeta => (zeta, 1),
    convertToDesignVariable := fun zeta d => { d with a := zeta.a },
    compute_local_jacobian := fun _ _ => J,
    solve_nocache := fun b => (b, { reason := 2 }),
    KSPSetOperators := fun _ => 0,
    KSPSolve := checkedSolve (grid2 R) Jinv,
    KSPConvergedReasons := fun _ => "reason" }

/-- Base-class members on `grid2`: velocity `(j, 0)`, unit thickness and hardness, no
Dirichlet conditions. -/
def base2 : SSAFEM R :=
  { m_grid := grid2 R,
    m_velocity := { stencil_width := 1, a := fun _ j => { u := (j : R), v := 0 } },
    m_coeffs := fun _ _ => { mask := 2, thickness := 1, tauc := 0, hardness := 1 },
    m_bc_mask := none,
    m_bc_values := fun _ _ => 0,
    m_dirichletScale := 1 }

/-- A memory whose fields all hold the design `zeta = 1` with ghosts. -/
def memory2 : Nat → IceModelVec R :=
  fun _ => { stencil_width := 1, a := fun _ _ => 1 }

/-- The object after construction and `set_design` of the field at address 0. -/
def problem2 (J Jinv : Mat R) : IP_SSAHardavForwardProblem R :=
  set_design (collaborators2 R J Jinv) (memory2 R)
    (IP_SSAHardavForwardProblem.construct (base2 R)) 0

/-- The design perturbation `dzeta = i`, with ghosts. -/
def dzeta2 : IceModelVec R :=
  { stencil_width := 1, a := fun i _ => (i : R) }

/-- The state perturbation `du = (0, j)`, without ghosts. -/
def du2 : IceModelVec (Vector2 R) :=
  { stencil_width := 0, a := fun _ j => { u := 0, v := (j : R) } }

/-- An output field for `du`, all zero. -/
def duOut2 : IceModelVec (Vector2 R) :=
  { stencil_width := 0, a := fun _ _ => 0 }

/-- An output field for `dzeta`, all zero. -/
def dzetaOut2 : IceModelVec R :=
  { stencil_width := 0, a := fun _ _ => 0 }

/-- The identity matrix. -/
def identityMat : Mat R :=
  blockDiagonal (identityBlock R)

/-- The matrix with the block `upperBlock` at every point: not symmetric. -/
def upperMat : Mat R :=
  blockDiagonal (upperBlock R)

/-- The inverse of `upperMat`. -/
def upperMatInverse : Mat R :=
  blockDiagonal (upperBlockInverse R)

/-- The collaborators of the example whose state Jacobian is the identity. -/
def collaboratorsI : Collaborators R :=
  collaborators2 R (identityMat R) (identityMat R)

/-- The object of the example whose state Jacobian is the identity. -/
def problemI : IP_SSAHardavForwardProblem R :=
  problem2 R (identityMat R) (identityMat R)

/-- The collaborators of the example whose state Jacobian is `upperMat`. -/
def collaboratorsU : Collaborators R :=
  collaborators2 R (upperMat R) (upperMatInverse R)

/-- The object of the example whose state Jacobian is `upperMat`. -/
def problemU : IP_SSAHardavForwardProblem R :=
  problem2 R (upperMat R) (upperMatInverse R)

end InverseExamples
section ShallowStressBalanceDiagnostics

variable {R : Type} [LinearOrderedField R]

/-- One executed division `1.0 / (spacing * weights)` of the finite differences:
`spacing` is `dx` or `dy` and `weights` is the weight sum `west + east` or
`south + north` in the divisor. -/
structure WeightedDivision (R : Type) where
  spacing : R
  weights : R

/-- Lines 200-243 of `compute_2D_principal_strain_rates` (the same text as lines 287-330
of `compute_2D_stresses`) together with the divisions they execute, in program order:
inside `if (west + east > 0)` one division for `u_x` and one for `v_x`, inside
`if (south + north > 0)` one for `u_y` and one for `v_y`; outside the branches no
division is executed and the derivatives keep their initial value 0. -/
def finiteDifferencesTraced (ice_free : Int → Bool) (dx dy : R) (m : planeStar Int)
    (U : planeStar (Vector2 R)) : Derivatives R × List (WeightedDivision R) :=
  let east : R := neighbourWeight ice_free m.e
  let west : R := neighbourWeight ice_free m.w
  let north : R := neighbourWeight ice_free m.n
  let south : R := neighbourWeight ice_free m.s
  let x : (R × R) × List (WeightedDivision R) :=
    if west + east > 0 then
      ((1 / (dx * (west + east)) * (west * (U.ij.u - U.w.u) + east * (U.e.u - U.ij.u)),
        1 / (dx * (west + east)) * (west * (U.ij.v - U.w.v) + east * (U.e.v - U.ij.v))),
       [{ spacing := dx, weights := west + east }, { spacing := dx, weights := west + east }])
    else ((0, 0), [])
  let y : (R × R) × List (WeightedDivision R) :=
    if south + north > 0 then
      ((1 / (dy * (south + north)) * (south * (U.ij.u - U.s.u) + north * (U.n.u - U.ij.u)),
        1 / (dy * (south + north)) * (south * (U.ij.v - U.s.v) + north * (U.n.v - U.ij.v))),
       [{ spacing := dy, weights := south + north },
        { spacing := dy, weights := south + north }])
    else ((0, 0), [])
  ({ u_x := x.1.1, u_y := y.1.1, v_x := x.1.2, v_y := y.1.2 }, x.2 ++ y.2)

/-- The members of `ShallowStressBalance` that the diagnostics use and the functions
they call, none of which is in the sources: the grid, the configuration
(`m_config.get(name)`), `basal_sliding_law->drag(tauc, u, v)`, the viscosity `nu` that
`flow_law->effective_viscosity(hardness, gamma, &nu, NULL)` stores,
`secondInvariant_2D(u_x, u_y, v_x, v_y)`, `pow` of libm, and the predicates `ice_free`
and `ocean` of `Mask.hh` on mask values. -/
structure ShallowStressBalance (R : Type) where
  m_grid : IceGrid R
  m_config : String → R
  drag : R → R → R → R
  effective_viscosity : R → R → R
  secondInvariant_2D : R → R → R → R → R
  pow : R → R → R
  ice_free : Int → Bool
  ocean : Int → Bool

/-- The value that one pass of the loop body of `compute_basal_frictional_heating`
(lines 144-152) writes at the cell `(i, j)`. -/
def basalFrictionalHeatingAt (ssb : ShallowStressBalance R)
    (velocity : Int → Int → Vector2 R) (tauc : Int → Int → R) (mask : Int → Int → Int)
    (i j : Int) : R :=
  if ssb.ocean (mask i j) then 0
  else
    let C : R := ssb.drag (tauc i j) (velocity i j).u (velocity i j).v
    let basal_stress_x : R := -C * (velocity i j).u
    let basal_stress_y : R := -C * (velocity i j).v;
    -basal_stress_x * (velocity i j).u - basal_stress_y * (velocity i j).v

/-- The method `ShallowStressBalance::compute_basal_frictional_heating`: the loop over
the owned points, assigning `result(i, j)`. -/
def compute_basal_frictional_heating (ssb : ShallowStressBalance R)
    (velocity : Int → Int → Vector2 R) (tauc : Int → Int → R) (mask : Int → Int → Int)
    (result : Int → Int → R) : Int → Int → R :=
  ssb.m_grid.points.foldl
    (fun result p => setCell result p (basalFrictionalHeatingAt ssb velocity tauc mask p.1 p.2))
    result

/-- What a method that receives the field `result` by reference leaves behind: the
field as it is when the method returns or raises, and the exception if it raises. -/
structure Outcome (R : Type) where
  result : IceModelVec2 R
  raised : Option RuntimeError

/-- The method `compute_2D_principal_strain_rates` acting on the caller's field: the
`throw` of line 180 comes before the first assignment to `result`, the loop of lines
188-252 after it. -/
def compute_2D_principal_strain_rates_in_place (sqrt : R → R) (ice_free : Int → Bool)
    (g : IceGrid R) (velocity : Int → Int → Vector2 R) (mask : Int → Int → Int)
    (result : IceModelVec2 R) : Outcome R :=
  if result.ndof ≠ 2 then
    { result := result,
      raised := some { format := "result.dof() == 2 is required", args := [] } }
  else
    { result :=
        { result with
          data := g.points.foldl
            (fun data p =>
              write2 data p (principalStrainRatesAt sqrt ice_free g velocity mask p.1 p.2))
            result.data },
      raised := none }

/-- The three deviatoric stresses that one pass of the loop body of
`compute_2D_stresses` (lines 277-340) writes at the cell `(i, j)`. -/
def stressesAt (ssb : ShallowStressBalance R) (hardness : R)
    (velocity : Int → Int → Vector2 R) (mask : Int → Int → Int) (i j : Int) : R × R × R :=
  if ssb.ice_free (mask i j) then (0, 0, 0)
  else
    let d : Derivatives R := cellDerivatives ssb.ice_free ssb.m_grid velocity mask i j
    let nu : R :=
      ssb.effective_viscosity hardness (ssb.secondInvariant_2D d.u_x d.u_y d.v_x d.v_y)
    (nu * d.u_x, nu * d.v_y, 1 / 2 * nu * (d.u_y + d.v_x))

/-- The assignments `result(i,j,0) = a; result(i,j,1) = b; result(i,j,2) = c`. -/
def write3 (data : Int → Int → Nat → R) (p : Int × Int) (x : R × R × R) :
    Int → Int → Nat → R :=
  fun i j k =>
    if (i, j) = p then
      (if k = 0 then x.1 else if k = 1 then x.2.1 else if k = 2 then x.2.2 else data i j k)
    else data i j k

/-- The method `ShallowStressBalance::compute_2D_stresses` acting on the caller's
field: the check of the number of components (line 262), the constant hardness
(line 267), then the loop over the owned points. -/
def compute_2D_stresses (ssb : ShallowStressBalance R)
    (velocity : Int → Int → Vector2 R) (mask : Int → Int → Int) (result : IceModelVec2 R) :
    Outcome R :=
  if result.ndof ≠ 3 then
    { result := result,
      raised := some { format := "result.get_dof() == 3 is required", args := [] } }
  else
    let hardness : R :=
      ssb.pow (ssb.m_config "ice_softness") (-1 / ssb.m_config "ssa_Glen_exponent")
    { result :=
        { result with
          data := ssb.m_grid.points.foldl
            (fun data p => write3 data p (stressesAt ssb hardness velocity mask p.1 p.2))
            result.data },
      raised := none }

end ShallowStressBalanceDiagnostics

section FlowLawFactoryModel

/-- The part of `Config` that the factory uses: `get_string(name)`. -/
structure Config where
  get_string : String → String

/-- A pointer `const EnthalpyConverter *`, kept as an address. -/
structure EnthalpyConverter where
  address : Nat
deriving DecidableEq, Repr

/-- The seven flow law classes that the built-in creators instantiate. -/
inductive FlowLawClass where
  | IsothermalGlen
  | PatersonBudd
  | GPBLD
  | Hooke
  | PatersonBuddCold
  | PatersonBuddWarm
  | GoldsbyKohlstedt
deriving DecidableEq, Repr

/-- A `FlowLaw` object made by `new (Class)(pre, config, EC)`: the classes are not in
the sources, so the object is its class together with the arguments of its
constructor. -/
structure FlowLaw where
  cls : FlowLawClass
  pre : String
  config : Config
  EC : EnthalpyConverter

/-- The type `FlowLawCreator`: a function from the three constructor arguments to a new
flow law.  A pointer to one may be `NULL`, which is `none` of `Option FlowLawCreator`. -/
abbrev FlowLawCreator : Type :=
  String → Config → EnthalpyConverter → FlowLaw

/-- The creator `create_isothermal_glen`: `new (IsothermalGlen)(pre, config, EC)`. -/
def create_isothermal_glen : FlowLawCreator :=
  fun pre config EC => { cls := FlowLawClass.IsothermalGlen, pre := pre, config := config, EC := EC }

/-- The creator `create_pb`: `new (PatersonBudd)(pre, config, EC)`. -/
def create_pb : FlowLawCreator :=
  fun pre config EC => { cls := FlowLawClass.PatersonBudd, pre := pre, config := config, EC := EC }

/-- The creator `create_gpbld`: `new (GPBLD)(pre, config, EC)`. -/
def create_gpbld : FlowLawCreator :=
  fun pre config EC => { cls := FlowLawClass.GPBLD, pre := pre, config := config, EC := EC }

/-- The creator `create_hooke`: `new (Hooke)(pre, config, EC)`. -/
def create_hooke : FlowLawCreator :=
  fun pre config EC => { cls := FlowLawClass.Hooke, pre := pre, config := config, EC := EC }

/-- The creator `create_arr`: `new (PatersonBuddCold)(pre, config, EC)`. -/
def create_arr : FlowLawCreator :=
  fun pre config EC =>
    { cls := FlowLawClass.PatersonBuddCold, pre := pre, config := config, EC := EC }

/-- The creator `create_arrwarm`: `new (PatersonBuddWarm)(pre, config, EC)`. -/
def create_arrwarm : FlowLawCreator :=
  fun pre config EC =>
    { cls := FlowLawClass.PatersonBuddWarm, pre := pre, config := config, EC := EC }

/-- The creator `create_goldsby_kohlstedt`: `new (GoldsbyKohlstedt)(pre, config, EC)`. -/
def create_goldsby_kohlstedt : FlowLawCreator :=
  fun pre config EC =>
    { cls := FlowLawClass.GoldsbyKohlstedt, pre := pre, config := config, EC := EC }

/-- The names `ICE_ISOTHERMAL_GLEN`, ..., `ICE_GOLDSBY_KOHLSTEDT` of `flowlaw_factory.hh`,
which is not in the sources: seven strings. -/
structure FlowLawNames where
  ICE_ISOTHERMAL_GLEN : String
  ICE_PB : String
  ICE_GPBLD : String
  ICE_HOOKE : String
  ICE_ARR : String
  ICE_ARRWARM : String
  ICE_GOLDSBY_KOHLSTEDT : String

/-- A `std::map<std::string, FlowLawCreator>`: for each key, `none` when the map has no
entry for it and `some r` when it maps the key to the pointer `r`, which may be `NULL`. -/
abbrev CreatorMap : Type :=
  String → Option (Option FlowLawCreator)

/-- The empty map, as after `clear()`. -/
def CreatorMap.clear : CreatorMap :=
  fun _ => none

/-- The assignment `m[key] = r`. -/
def CreatorMap.assign (m : CreatorMap) (key : String) (r : Option FlowLawCreator) :
    CreatorMap :=
  fun k => if k = key then some r else m k

/-- The call `m.erase(key)`. -/
def CreatorMap.erase (m : CreatorMap) (key : String) : CreatorMap :=
  fun k => if k = key then none else m k

/-- The read `m[key]` of `std::map`: the mapped pointer, and the map afterwards, which
has gained the entry `key -> NULL` when it had none for `key`. -/
def CreatorMap.index (m : CreatorMap) (key : String) : Option FlowLawCreator × CreatorMap :=
  match m key with
  | some r => (r, m)
  | none => (none, CreatorMap.assign m key none)

/-- The members of `FlowLawFactory`. -/
structure FlowLawFactory where
  m_type_name : String
  m_prefix : String
  m_flow_laws : CreatorMap
  m_config : Config
  m_EC : EnthalpyConverter

/-- The method `FlowLawFactory::add_type`. -/
def FlowLawFactory.add_type (f : FlowLawFactory) (name : String)
    (icreate : Option FlowLawCreator) : FlowLawFactory :=
  { f with m_flow_laws := CreatorMap.assign f.m_flow_laws name icreate }

/-- The method `FlowLawFactory::remove_type`. -/
def FlowLawFactory.remove_type (f : FlowLawFactory) (name : String) : FlowLawFactory :=
  { f with m_flow_laws := CreatorMap.erase f.m_flow_laws name }

/-- The exception of `set_default_type` (lines 102-104). -/
def flow_law_not_available (type : String) (pre : String) : RuntimeError :=
  { format := "Selected ice flow law \"%s\" is not available (prefix=\"%s\").",
    args := [type, pre] }

/-- The method `FlowLawFactory::set_default_type`: the factory afterwards and the
exception, if it raises.  The read `m_flow_laws[type]` happens in both cases. -/
def FlowLawFactory.set_default_type (f : FlowLawFactory) (type : String) :
    FlowLawFactory × Option RuntimeError :=
  let r := CreatorMap.index f.m_flow_laws type
  match r.1 with
  | none => ({ f with m_flow_laws := r.2 }, some (flow_law_not_available type f.m_prefix))
  | some _ => ({ f with m_flow_laws := r.2, m_type_name := type }, none)

/-- The exception of `create` (lines 114-116). -/
def flow_law_not_available_in_create (type : String) : RuntimeError :=
  { format := "Selected ice flow law \"%s\" is not available,\nbut we shouldn't be able to get here anyway",
    args := [type] }

/-- The method `FlowLawFactory::create`: the factory afterwards and either the
exception or the flow law that the selected creator returns for
`(m_prefix, *m_config, m_EC)`. -/
def FlowLawFactory.create (f : FlowLawFactory) :
    FlowLawFactory × Except RuntimeError FlowLaw :=
  let r := CreatorMap.index f.m_flow_laws f.m_type_name
  match r.1 with
  | none =>
    ({ f with m_flow_laws := r.2 },
      Except.error (flow_law_not_available_in_create f.m_type_name))
  | some create => ({ f with m_flow_laws := r.2 }, Except.ok (create f.m_prefix f.m_config f.m_EC))

/-- How a constructor call ends: the `assert` fails and the program aborts, an
exception leaves the constructor, or the object exists. -/
inductive Construction (α : Type) where
  | aborted
  | raised (e : RuntimeError)
  | constructed (object : α)

/-- The factory after lines 70-83 of the constructor: the members initialised and the
seven built-in creators added to the cleared map.  `m_type_name` is a default-constructed
string. -/
def FlowLawFactory.builtin (names : FlowLawNames) (pre : String) (conf : Config)
    (my_EC : EnthalpyConverter) : FlowLawFactory :=
  let f0 : FlowLawFactory :=
    { m_type_name := "", m_prefix := pre, m_flow_laws := CreatorMap.clear, m_config := conf,
      m_EC := my_EC }
  let f1 := f0.add_type names.ICE_ISOTHERMAL_GLEN (some create_isothermal_glen)
  let f2 := f1.add_type names.ICE_PB (some create_pb)
  let f3 := f2.add_type names.ICE_GPBLD (some create_gpbld)
  let f4 := f3.add_type names.ICE_HOOKE (some create_hooke)
  let f5 := f4.add_type names.ICE_ARR (some create_arr)
  let f6 := f5.add_type names.ICE_ARRWARM (some create_arrwarm)
  f6.add_type names.ICE_GOLDSBY_KOHLSTEDT (some create_goldsby_kohlstedt)

/-- The constructor `FlowLawFactory::FlowLawFactory(prefix, conf, my_EC)`; `NDEBUG`
tells whether `assert` is compiled out. -/
def FlowLawFactory.construct (NDEBUG : Bool) (names : FlowLawNames) (pre : String)
    (conf : Config) (my_EC : EnthalpyConverter) : Construction FlowLawFactory :=
  if NDEBUG = false ∧ pre = "" then Construction.aborted
  else
    let r := (FlowLawFactory.builtin names pre conf my_EC).set_default_type
      (conf.get_string (pre ++ "flow_law"))
    match r.2 with
    | some e => Construction.raised e
    | none => Construction.constructed r.1

/-- Whether a creator is registered under `name`: the map holds an entry for `name`
whose pointer is not `NULL`. -/
def FlowLawFactory.registered (f : FlowLawFactory) (name : String) : Bool :=
  match f.m_flow_laws name with
  | some (some _) => true
  | _ => false

/-- The seven names that the constructor registers. -/
def FlowLawNames.all (names : FlowLawNames) : List String :=
  [names.ICE_ISOTHERMAL_GLEN, names.ICE_PB, names.ICE_GPBLD, names.ICE_HOOKE, names.ICE_ARR,
    names.ICE_ARRWARM, names.ICE_GOLDSBY_KOHLSTEDT]

end FlowLawFactoryModel

section PicoModel

variable {R : Type} [LinearOrderedField R]

/-- A `std::vector<T>`: its size and its elements.  An access `v[i]` with `i` outside
`0 ≤ i < size` is undefined behaviour. -/
structure StdVector (α : Type) where
  size : Nat
  elem : Nat → α

/-- The constructor `std::vector<T>(n, x)`. -/
def StdVector.filled {α : Type} (n : Nat) (x : α) : StdVector α :=
  { size := n, elem := fun _ => x }

/-- The call `v.resize(n)`: elements beyond the old size are value-initialised
(zero). -/
def StdVector.resize {α : Type} [Zero α] (v : StdVector α) (n : Nat) : StdVector α :=
  { size := n, elem := fun k => if k < v.size then v.elem k else 0 }

/-- The read `v[i]`; `none` when `i` is out of range. -/
def StdVector.get? {α : Type} (v : StdVector α) (i : Int) : Option α :=
  if 0 ≤ i ∧ i < v.size then some (v.elem i.toNat) else none

/-- The update `v[i] = f(v[i])` (an assignment `v[i] = x`, or `v[i] += x`, `v[i]++`,
`v[i] /= x`); `none` when `i` is out of range. -/
def StdVector.modify? {α : Type} (v : StdVector α) (i : Int) (f : α → α) :
    Option (StdVector α) :=
  if 0 ≤ i ∧ i < v.size then
    some { v with elem := fun k => if k = i.toNat then f (v.elem k) else v.elem k }
  else none

/-- A loop over the list `l` whose body may run into undefined behaviour (`none`),
which ends the run. -/
def loopM {σ α : Type} (body : σ → α → Option σ) : List α → σ → Option σ
  | [], s => some s
  | x :: l, s =>
    match body s x with
    | none => none
    | some t => loopM body l t

/-- The function `GlobalSum(com, x)` with one rank. -/
def GlobalSum {α : Type} (x : α) : α :=
  x

/-- The members of `Pico` used by the reductions: the grid and the numbers of basins
and of shelves (`m_n_shelves` is the maximum of the shelf mask plus one). -/
structure Pico (R : Type) where
  m_grid : IceGrid R
  m_n_basins : Nat
  m_n_shelves : Nat

/-- The part of `PicoPhysics` (not in the sources) used by the reductions. -/
structure PicoPhysics (R : Type) where
  T_dummy : R
  S_dummy : R
  theta_pm : R → R → R
  pressure : R → R

/-- An executed division by a cell count: the basin or shelf id that indexes the count
and the value of the count. -/
structure CountDivision where
  index : Int
  count : Int
deriving DecidableEq, Repr

/-- The vectors `count`, `salinity` and `temperature` of
`compute_ocean_input_per_basin`, and the divisions executed so far. -/
structure BasinSums (R : Type) where
  count : StdVector Int
  salinity : StdVector R
  temperature : StdVector R
  divisions : List CountDivision

/-- Lines 357-358: the body of the loop that zeroes the two vectors. -/
def basinZeroStep (s : BasinSums R) (basin_id : Nat) : Option (BasinSums R) := do
  let temperature ← s.temperature.modify? basin_id (fun _ => 0)
  let salinity ← s.salinity.modify? basin_id (fun _ => 0)
  some { s with temperature := temperature, salinity := salinity }

/-- Lines 369-375: the body of the loop over the grid points, which adds the cell to
the sums of its basin when the cell is `INNER` in the continental shelf mask. -/
def basinSumStep (INNER : Int) (basin_mask continental_shelf_mask : Int → Int → Int)
    (salinity_ocean theta_ocean : Int → Int → R) (s : BasinSums R) (p : Int × Int) :
    Option (BasinSums R) :=
  if continental_shelf_mask p.1 p.2 = INNER then do
    let basin_id := basin_mask p.1 p.2
    let count ← s.count.modify? basin_id (fun c => c + 1)
    let salinity ← s.salinity.modify? basin_id (fun x => x + salinity_ocean p.1 p.2)
    let temperature ← s.temperature.modify? basin_id (fun x => x + theta_ocean p.1 p.2)
    some { s with count := count, salinity := salinity, temperature := temperature }
  else some s

/-- Lines 384-409: the body of the loop over the basins, which reduces the sums and
then either stores the dummy values or divides by the count. -/
def basinMeanStep (physics : PicoPhysics R) (s : BasinSums R) (basin_id : Nat) :
    Option (BasinSums R) := do
  let count ← s.count.modify? basin_id GlobalSum
  let salinity ← s.salinity.modify? basin_id GlobalSum
  let temperature ← s.temperature.modify? basin_id GlobalSum
  let c ← count.get? basin_id
  if basin_id > 0 ∧ c = 0 then do
    let temperature ← temperature.modify? basin_id (fun _ => physics.T_dummy)
    let salinity ← salinity.modify? basin_id (fun _ => physics.S_dummy)
    some { s with count := count, salinity := salinity, temperature := temperature }
  else do
    let salinity ← salinity.modify? basin_id (fun x => x / (c : R))
    let temperature ← temperature.modify? basin_id (fun x => x / (c : R))
    some { count := count, salinity := salinity, temperature := temperature,
           divisions := s.divisions ++
             [{ index := basin_id, count := c }, { index := basin_id, count := c }] }

/-- The method `Pico::compute_ocean_input_per_basin`: the vectors `temperature` and
`salinity` that it leaves in the caller's variables, with the divisions by a count that
it executed; `none` when an index is out of range.  The log messages are left out. -/
def compute_ocean_input_per_basin (pico : Pico R) (physics : PicoPhysics R) (INNER : Int)
    (basin_mask continental_shelf_mask : Int → Int → Int)
    (salinity_ocean theta_ocean : Int → Int → R) (temperature salinity : StdVector R) :
    Option (BasinSums R) := do
  let s0 : BasinSums R :=
    { count := StdVector.filled pico.m_n_basins 0,
      salinity := salinity.resize pico.m_n_basins,
      temperature := temperature.resize pico.m_n_basins,
      divisions := [] }
  let s1 ← loopM basinZeroStep (List.range pico.m_n_basins) s0
  let s2 ← loopM
    (basinSumStep INNER basin_mask continental_shelf_mask salinity_ocean theta_ocean)
    pico.m_grid.points s1
  loopM (basinMeanStep physics) (List.range pico.m_n_basins) s2

end PicoModel

section PicoFields

variable {R : Type} [LinearOrderedField R]

/-- The tables `n_shelf_cells_per_basin` and `n_shelf_cells` of
`set_ocean_input_fields`. -/
structure ShelfCounts where
  n_shelf_cells_per_basin : StdVector (StdVector Int)
  n_shelf_cells : StdVector Int

/-- Lines 440-444: the body of the counting loop over the grid points. -/
def shelfCountStep (basin_mask shelf_mask : Int → Int → Int) (c : ShelfCounts)
    (p : Int × Int) : Option ShelfCounts := do
  let s := shelf_mask p.1 p.2
  let b := basin_mask p.1 p.2
  let row ← c.n_shelf_cells_per_basin.get? s
  let row ← row.modify? b (fun n => n + 1)
  let per_basin ← c.n_shelf_cells_per_basin.modify? s (fun _ => row)
  let cells ← c.n_shelf_cells.modify? s (fun n => n + 1)
  some { n_shelf_cells_per_basin := per_basin, n_shelf_cells := cells }

/-- Line 450: the body of the inner reduction loop, for the shelf `s`. -/
def shelfBasinReduceStep (s : Nat) (c : ShelfCounts) (b : Nat) : Option ShelfCounts := do
  let row ← c.n_shelf_cells_per_basin.get? s
  let row ← row.modify? b GlobalSum
  let per_basin ← c.n_shelf_cells_per_basin.modify? s (fun _ => row)
  some { c with n_shelf_cells_per_basin := per_basin }

/-- Lines 448-451: the body of the reduction loop over the shelves. -/
def shelfReduceStep (n_basins : Nat) (c : ShelfCounts) (s : Nat) : Option ShelfCounts := do
  let cells ← c.n_shelf_cells.modify? s GlobalSum
  loopM (shelfBasinReduceStep s) (List.range n_basins) { c with n_shelf_cells := cells }

/-- The fields `Toc_box0` and `Soc_box0`, the counter `low_temperature_counter` and
the divisions by a count executed so far. -/
structure OceanInput (R : Type) where
  Toc_box0 : Int → Int → R
  Soc_box0 : Int → Int → R
  low_temperature_counter : Int
  divisions : List CountDivision

/-- Lines 472-473: the body of the loop over the basins `b ≥ 1` at the cell `p` of the
shelf `s`. -/
def basinWeightStep (counts : ShelfCounts) (basin_temperature basin_salinity : StdVector R)
    (p : Int × Int) (s : Int) (o : OceanInput R) (b : Nat) : Option (OceanInput R) := do
  let t ← basin_temperature.get? b
  let row ← counts.n_shelf_cells_per_basin.get? s
  let n ← row.get? b
  let m ← counts.n_shelf_cells.get? s
  let sal ← basin_salinity.get? b
  some { o with
    Toc_box0 := setCell o.Toc_box0 p (o.Toc_box0 p.1 p.2 + t * (n : R) / (m : R)),
    Soc_box0 := setCell o.Soc_box0 p (o.Soc_box0 p.1 p.2 + sal * (n : R) / (m : R)),
    divisions := o.divisions ++ [{ index := s, count := m }, { index := s, count := m }] }

/-- Lines 459-484: the body of the loop over the grid points that sets the two
fields. -/
def oceanInputStep (n_basins : Nat) (physics : PicoPhysics R) (MASK_FLOATING : Int)
    (ice_thickness : Int → Int → R) (mask shelf_mask : Int → Int → Int) (counts : ShelfCounts)
    (basin_temperature basin_salinity : StdVector R) (o : OceanInput R) (p : Int × Int) :
    Option (OceanInput R) :=
  let o1 : OceanInput R :=
    { o with Toc_box0 := setCell o.Toc_box0 p 0, Soc_box0 := setCell o.Soc_box0 p 0 }
  let s := shelf_mask p.1 p.2
  if mask p.1 p.2 = MASK_FLOATING ∧ s > 0 then do
    let o2 ← loopM (basinWeightStep counts basin_temperature basin_salinity p s)
      (List.range' 1 (n_basins - 1)) o1
    let theta_pm := physics.theta_pm (o2.Soc_box0 p.1 p.2)
      (physics.pressure (ice_thickness p.1 p.2))
    if o2.Toc_box0 p.1 p.2 < theta_pm then
      some { o2 with
        Toc_box0 := setCell o2.Toc_box0 p (theta_pm + 0.001),
        low_temperature_counter := o2.low_temperature_counter + 1 }
    else some o2
  else some o1

/-- The method `Pico::set_ocean_input_fields`: the fields `Toc_box0` and `Soc_box0`
afterwards, the reduced `low_temperature_counter` and the divisions by a count that were
executed; `none` when an index is out of range.  The log message is left out. -/
def set_ocean_input_fields (pico : Pico R) (physics : PicoPhysics R) (MASK_FLOATING : Int)
    (ice_thickness : Int → Int → R) (mask basin_mask shelf_mask : Int → Int → Int)
    (basin_temperature basin_salinity : StdVector R) (Toc_box0 Soc_box0 : Int → Int → R) :
    Option (OceanInput R) := do
  let c0 : ShelfCounts :=
    { n_shelf_cells_per_basin :=
        StdVector.filled pico.m_n_shelves (StdVector.filled pico.m_n_basins 0),
      n_shelf_cells := StdVector.filled pico.m_n_shelves 0 }
  let c1 ← loopM (shelfCountStep basin_mask shelf_mask) pico.m_grid.points c0
  let c2 ← loopM (shelfReduceStep pico.m_n_basins) (List.range pico.m_n_shelves) c1
  let o ← loopM
    (oceanInputStep pico.m_n_basins physics MASK_FLOATING ice_thickness mask shelf_mask c2
      basin_temperature basin_salinity)
    pico.m_grid.points
    { Toc_box0 := Toc_box0, Soc_box0 := Soc_box0, low_temperature_counter := 0,
      divisions := [] }
  some { o with low_temperature_counter := GlobalSum o.low_temperature_counter }

/-- The vectors `n_cells_per_box` and `result` of `compute_box_average`, and the
divisions executed so far. -/
structure BoxSums (R : Type) where
  n_cells_per_box : StdVector Int
  result : StdVector R
  divisions : List CountDivision

/-- Line 599: the body of the loop that zeroes `result`. -/
def boxZeroStep (b : BoxSums R) (s : Nat) : Option (BoxSums R) := do
  let result ← b.result.modify? s (fun _ => 0)
  some { b with result := result }

/-- Lines 604-611: the body of the loop over the grid points. -/
def boxSumStep (box_id : Int) (field : Int → Int → R) (shelf_mask box_mask : Int → Int → Int)
    (b : BoxSums R) (p : Int × Int) : Option (BoxSums R) :=
  let shelf_id := shelf_mask p.1 p.2
  if box_mask p.1 p.2 = box_id then do
    let n_cells_per_box ← b.n_cells_per_box.modify? shelf_id (fun n => n + 1)
    let result ← b.result.modify? shelf_id (fun x => x + field p.1 p.2)
    some { b with n_cells_per_box := n_cells_per_box, result := result }
  else some b

/-- Lines 616-622: the body of the loop over the shelves, which divides by the number
of cells when it is positive. -/
def boxAverageStep (b : BoxSums R) (s : Nat) : Option (BoxSums R) := do
  let n ← b.n_cells_per_box.get? s
  let n_cells := GlobalSum n
  let result ← b.result.modify? s GlobalSum
  if n_cells > 0 then do
    let result ← result.modify? s (fun x => x / (n_cells : R))
    some { b with result := result,
                  divisions := b.divisions ++ [{ index := s, count := n_cells }] }
  else some { b with result := result }

/-- The method `Pico::compute_box_average`: the vector `result` that it leaves in the
caller's variable, with the divisions by a count that it executed; `none` when an index
is out of range. -/
def compute_box_average (pico : Pico R) (box_id : Int) (field : Int → Int → R)
    (shelf_mask box_mask : Int → Int → Int) (result : StdVector R) : Option (BoxSums R) := do
  let b0 : BoxSums R :=
    { n_cells_per_box := StdVector.filled pico.m_n_shelves 0,
      result := result.resize pico.m_n_shelves,
      divisions := [] }
  let b1 ← loopM boxZeroStep (List.range pico.m_n_shelves) b0
  let b2 ← loopM (boxSumStep box_id field shelf_mask box_mask) pico.m_grid.points b1
  loopM boxAverageStep (List.range pico.m_n_shelves) b2

end PicoFields

section DiagnosticsExamples

/-- A mask whose only icy cell (grounded ice, 2) is `(1, 1)`; every other cell is
ice-free ocean (4). -/
def maskIsland : Int → Int → Int :=
  fun i j => if i = 1 ∧ j = 1 then 2 else 4

/-- A result field with three components, all zero. -/
def result3 (R : Type) [LinearOrderedField R] : IceModelVec2 R :=
  { ndof := 3, data := fun _ _ _ => 0 }

/-- The predicate `ocean` of `Mask.hh` with the mask values of PISM (`MASK_FLOATING = 3`,
`MASK_ICE_FREE_OCEAN = 4`), used for the concrete inputs. -/
def ocean_example (M : Int) : Bool :=
  M == 3 || M == 4

/-- A stress balance object on `grid3`: the drag coefficient is the yield stress, the
viscosity is the hardness, and `pow` returns its base. -/
def stressBalance3 (R : Type) [LinearOrderedField R] : ShallowStressBalance R :=
  { m_grid := grid3 R,
    m_config := fun _ => 1,
    drag := fun tauc _ _ => tauc,
    effective_viscosity := fun hardness _ => hardness,
    secondInvariant_2D := fun u_x u_y v_x v_y =>
      1 / 2 * (u_x ^ 2 + v_y ^ 2 + (u_x + v_y) ^ 2 + 1 / 2 * (u_y + v_x) ^ 2),
    pow := fun x _ => x,
    ice_free := ice_free_example,
    ocean := ocean_example }

/-- The yield stress field that is 1 everywhere. -/
def tauc3 (R : Type) [LinearOrderedField R] : Int → Int → R :=
  fun _ _ => 1

end DiagnosticsExamples

section FlowLawFactoryExamples

/-- The seven names as PISM spells them. -/
def namesExample : FlowLawNames :=
  { ICE_ISOTHERMAL_GLEN := "isothermal_glen",
    ICE_PB := "pb",
    ICE_GPBLD := "gpbld",
    ICE_HOOKE := "hooke",
    ICE_ARR := "arr",
    ICE_ARRWARM := "arrwarm",
    ICE_GOLDSBY_KOHLSTEDT := "gk" }

/-- A configuration in which every string parameter is `gpbld`. -/
def configExample : Config :=
  { get_string := fun _ => "gpbld" }

/-- A configuration in which every string parameter is `unknown`. -/
def configUnknown : Config :=
  { get_string := fun _ => "unknown" }

end FlowLawFactoryExamples

section PicoExamples

/-- A PICO object on the grid of 2 by 2 points, with three basins and two shelves. -/
def picoExample (R : Type) [LinearOrderedField R] : Pico R :=
  { m_grid := grid2 R, m_n_basins := 3, m_n_shelves := 2 }

/-- Physics constants for the concrete inputs: dummy temperature -1 and salinity 34, a
pressure equal to the thickness and the melting point `-salinity - pressure`. -/
def physicsExample (R : Type) [LinearOrderedField R] : PicoPhysics R :=
  { T_dummy := -1, S_dummy := 34, theta_pm := fun S p => -S - p, pressure := fun H => H }

/-- The basin mask that puts every cell in basin 1. -/
def basinMaskExample : Int → Int → Int :=
  fun _ _ => 1

/-- The continental shelf mask that is `INNER` (2) on the column `i = 0`, 0 elsewhere. -/
def shelfBreakExample : Int → Int → Int :=
  fun i _ => if i = 0 then 2 else 0

/-- The ocean temperature `i + 2 j`. -/
def thetaExample (R : Type) [LinearOrderedField R] : Int → Int → R :=
  fun i j => (i : R) + 2 * (j : R)

/-- The ocean salinity `34 + j`. -/
def salinityExample (R : Type) [LinearOrderedField R] : Int → Int → R :=
  fun _ j => 34 + (j : R)

/-- An empty vector. -/
def emptyVector (R : Type) [LinearOrderedField R] : StdVector R :=
  { size := 0, elem := fun _ => 0 }

end PicoExamples

section PicoFieldExamples

/-- A vector of three per-basin values `5, 1, 2`. -/
def basinValuesA (R : Type) [LinearOrderedField R] : StdVector R :=
  { size := 3, elem := fun k => if k = 0 then 5 else (k : R) }

/-- The vector `7, 1, 2`, which differs from `basinValuesA` at index 0 only. -/
def basinValuesB (R : Type) [LinearOrderedField R] : StdVector R :=
  { size := 3, elem := fun k => if k = 0 then 7 else (k : R) }

/-- The cell type mask that is floating (`MASK_FLOATING = 3`) everywhere. -/
def floatingExample : Int → Int → Int :=
  fun _ _ => 3

/-- The shelf mask that puts every cell in shelf 1. -/
def shelfMaskExample : Int → Int → Int :=
  fun _ _ => 1

/-- The ice thickness 100 everywhere. -/
def thicknessExample (R : Type) [LinearOrderedField R] : Int → Int → R :=
  fun _ _ => 100

end PicoFieldExamples

section SlidingUpdate

variable {R : Type} [LinearOrderedField R]

/-- The two fields that `ShallowStressBalance` owns and `update` may change: the
velocity `m_velocity` and `basal_frictional_heating`. -/
structure StressBalanceState (R : Type) where
  m_velocity : Int → Int → Vector2 R
  basal_frictional_heating : Int → Int → R

/-- Modelled from the spec: zero-fill of a field by `IceModelVec::set(c)` (absent from
the sources): every value of the field becomes `c`. -/
def IceModelVec_set {α : Type} (c : α) : Int → Int → α :=
  fun _ _ => c

/-- The method `ZeroSliding::update` (lines 111-118): `melange_back_pressure` is not
used. -/
def ZeroSliding.update (fast : Bool) (_melange_back_pressure : Int → Int → R)
    (s : StressBalanceState R) : StressBalanceState R :=
  if !fast then
    { m_velocity := IceModelVec_set { u := 0, v := 0 },
      basal_frictional_heating := IceModelVec_set 0 }
  else s

/-- The method `PrescribedSliding::update` (lines 554-559): `melange_back_pressure` is
not used. -/
def PrescribedSliding.update (fast : Bool) (_melange_back_pressure : Int → Int → R)
    (s : StressBalanceState R) : StressBalanceState R :=
  if !fast then { s with basal_frictional_heating := IceModelVec_set 0 }
  else s

end SlidingUpdate

section RoundBasins

variable {R : Type} [LinearOrderedField R]

/-- The local variables of `most_frequent_element`: the map `frequencyMap` (a key that
is not in the map counts as 0, the value that `operator[]` inserts for it), and
`maxFrequency` and `mostFrequentElement`.  The frequencies are natural numbers. -/
structure FrequencyScan (R : Type) where
  frequencyMap : R → Nat
  maxFrequency : Nat
  mostFrequentElement : R

/-- Lines 50-56: one pass of the loop `for (double x : v)`. -/
def frequencyStep (st : FrequencyScan R) (x : R) : FrequencyScan R :=
  let f : Nat := st.frequencyMap x + 1
  let frequencyMap : R → Nat := fun y => if y = x then f else st.frequencyMap y
  if f > st.maxFrequency then
    { frequencyMap := frequencyMap, maxFrequency := f, mostFrequentElement := x }
  else { st with frequencyMap := frequencyMap }

/-- The function `most_frequent_element` (lines 46-59). -/
def most_frequent_element (v : List R) : R :=
  (v.foldl frequencyStep
    ({ frequencyMap := fun _ => 0, maxFrequency := 0, mostFrequentElement := 0 }
      : FrequencyScan R)).mostFrequentElement

/-- Lines 83-105: one pass of the loop of `round_basins` over the grid points, at the
point `p`; `round` is the function of libm.  On the domain boundary only the local
variable `id_fractional` is assigned, the mask is not. -/
def roundBasinsStep (round : R → R) (Mx My : Int) (basin_mask : Int → Int → R)
    (p : Int × Int) : Int → Int → R :=
  let i := p.1
  let j := p.2
  if i = 0 ∨ j = 0 ∨ i > Mx - 2 ∨ j > My - 2 then basin_mask
  else
    let id_fractional : R := basin_mask i j
    let neighbours : List R :=
      [basin_mask (i + 1) (j + 1), basin_mask (i - 1) (j + 1), basin_mask (i - 1) (j - 1),
        basin_mask (i + 1) (j - 1)]
    if id_fractional ≠ round id_fractional ∨
        (id_fractional ≠ basin_mask (i + 1) (j + 1) ∧ id_fractional ≠ basin_mask (i - 1) (j + 1) ∧
          id_fractional ≠ basin_mask (i - 1) (j - 1) ∧
          id_fractional ≠ basin_mask (i + 1) (j - 1)) then
      setCell basin_mask p (most_frequent_element neighbours)
    else basin_mask

/-- The function `round_basins` (lines 66-107): the mask afterwards; `Mx` and `My` are
`grid->Mx()` and `grid->My()`. -/
def round_basins (round : R → R) (g : IceGrid R) (Mx My : Int)
    (basin_mask : Int → Int → R) : Int → Int → R :=
  g.points.foldl (roundBasinsStep round Mx My) basin_mask

end RoundBasins

section BoxArea

variable {R : Type} [LinearOrderedField R]

/-- Lines 645-651: the body of the loop of `compute_box_area` over the grid points. -/
def boxAreaStep (box_id : Int) (shelf_mask box_mask : Int → Int → Int)
    (cell_area : Int → Int → R) (result : StdVector R) (p : Int × Int) :
    Option (StdVector R) :=
  let shelf_id := shelf_mask p.1 p.2
  if shelf_id > 0 ∧ box_mask p.1 p.2 = box_id then
    result.modify? shelf_id (fun x => x + cell_area p.1 p.2)
  else some result

/-- Line 656: the body of the reduction loop of `compute_box_area`. -/
def boxAreaReduceStep (result : StdVector R) (s : Nat) : Option (StdVector R) :=
  result.modify? s GlobalSum

/-- The method `Pico::compute_box_area` (lines 635-658): the vector `result` that it
leaves in the caller's variable; `none` when an index is out of range.  The vector is
resized, not cleared, before the areas are added to it. -/
def compute_box_area (pico : Pico R) (box_id : Int) (shelf_mask box_mask : Int → Int → Int)
    (cell_area : Int → Int → R) (result : StdVector R) : Option (StdVector R) := do
  let r1 ← loopM (boxAreaStep box_id shelf_mask box_mask cell_area) pico.m_grid.points
    (result.resize pico.m_n_shelves)
  loopM boxAreaReduceStep (List.range' 1 (pico.m_n_shelves - 1)) r1

end BoxArea

section OceanInputSpecification

variable {R : Type} [LinearOrderedField R]

/-- The weighted input that the loop of lines 471-474 accumulates at a cell of the shelf
`s`, read off the count tables: the sum over the basins `b = 1, ..., n_basins - 1` of
`value[b] * n_shelf_cells_per_basin[s][b] / n_shelf_cells[s]`. -/
def weightedInput (n_basins : Nat) (counts : ShelfCounts) (value : StdVector R) (s : Int) : R :=
  ((List.range' 1 (n_basins - 1)).map fun b =>
    value.elem b * (((counts.n_shelf_cells_per_basin.elem s.toNat).elem b : Int) : R)
      / ((counts.n_shelf_cells.elem s.toNat : Int) : R)).sum

/-- The weight `w[s][b]` of the specification: the fraction of the cells of the shelf
`s` that lie in the basin `b`. -/
def basinWeight (pico : Pico R) (basin_mask shelf_mask : Int → Int → Int) (s b : Int) : R :=
  ((pico.m_grid.points.filter fun q =>
      decide (shelf_mask q.1 q.2 = s ∧ basin_mask q.1 q.2 = b)).length : R)
    / ((pico.m_grid.points.filter fun q => decide (shelf_mask q.1 q.2 = s)).length : R)

/-- The basin-weighted average of the specification for the shelf `s`: the sum over the
basins `b = 1, ..., m_n_basins - 1` of `value[b] * w[s][b]`. -/
def basinWeightedAverage (pico : Pico R) (basin_mask shelf_mask : Int → Int → Int)
    (value : StdVector R) (s : Int) : R :=
  ((List.range' 1 (pico.m_n_basins - 1)).map fun b =>
    value.elem b * basinWeight pico basin_mask shelf_mask s b).sum

end OceanInputSpecification

section BoxModel

variable {R : Type} [LinearOrderedField R]

/-- The value returned by `PicoPhysics::Toc_box1`: the temperature, and whether the
argument of the square root was negative. -/
structure TocBox1 (R : Type) where
  failed : Bool
  value : R

/-- The part of `PicoPhysics` (not in the sources) used by `process_box1` and
`process_other_boxes`, with the arguments in the order of the calls. -/
structure PicoBoxPhysics (R : Type) extends PicoPhysics R where
  T_star : R → R → R → R
  Toc_box1 : R → R → R → R → TocBox1 R
  Soc_box1 : R → R → R → R
  overturning : R → R → R → R → R
  melt_rate : R → R → R
  T_pm : R → R → R
  Toc : R → R → R → R → R → R
  Soc : R → R → R → R

/-- The values at one cell of the five output fields `T_star`, `Toc`, `Soc`,
`basal_melt_rate` and `T_pressure_melting`; the five fields together are a map from the
cells to this record. -/
structure BoxOutputs (R : Type) where
  T_star : R
  Toc : R
  Soc : R
  basal_melt_rate : R
  T_pressure_melting : R

/-- The output fields of `process_box1`: the five fields and `overturning`. -/
structure Box1Fields (R : Type) where
  fields : Int → Int → BoxOutputs R
  overturning : Int → Int → R

/-- Lines 527-563: the body of the loop of `process_box1` over the grid points.  The
counter `n_Toc_failures`, which only feeds a log message, is left out. -/
def box1Step (physics : PicoBoxPhysics R) (ice_thickness Toc_box0 Soc_box0 : Int → Int → R)
    (shelf_mask box_mask : Int → Int → Int) (box1_area : StdVector R) (f : Box1Fields R)
    (p : Int × Int) : Option (Box1Fields R) :=
  let shelf_id := shelf_mask p.1 p.2
  if box_mask p.1 p.2 = 1 ∧ shelf_id > 0 then do
    let pressure := physics.pressure (ice_thickness p.1 p.2)
    let T_star := physics.T_star (Soc_box0 p.1 p.2) (Toc_box0 p.1 p.2) pressure
    let area ← box1_area.get? shelf_id
    let Toc_box1 := physics.Toc_box1 area T_star (Soc_box0 p.1 p.2) (Toc_box0 p.1 p.2)
    let Toc := Toc_box1.value
    let Soc := physics.Soc_box1 (Toc_box0 p.1 p.2) (Soc_box0 p.1 p.2) Toc
    some
      { fields := setCell f.fields p
          { T_star := T_star,
            Toc := Toc,
            Soc := Soc,
            basal_melt_rate := physics.melt_rate (physics.theta_pm Soc pressure) Toc,
            T_pressure_melting := physics.T_pm Soc pressure },
        overturning := setCell f.overturning p
          (physics.overturning (Soc_box0 p.1 p.2) Soc (Toc_box0 p.1 p.2) Toc) }
  else some f

/-- The method `Pico::process_box1` (lines 502-572): the output fields afterwards;
`none` when an index is out of range.  The field `cell_area` is the one that the grid
provides under that name; the fields `Toc_box0` and `Soc_box0` are distinct from the
outputs, as in `update_impl`. -/
def process_box1 (pico : Pico R) (cell_area : Int → Int → R) (ice_thickness : Int → Int → R)
    (shelf_mask box_mask : Int → Int → Int) (Toc_box0 Soc_box0 : Int → Int → R)
    (physics : PicoBoxPhysics R) (f : Box1Fields R) : Option (Box1Fields R) := do
  let box1_area ← compute_box_area pico 1 shelf_mask box_mask cell_area
    (StdVector.filled pico.m_n_shelves 0)
  loopM (box1Step physics ice_thickness Toc_box0 Soc_box0 shelf_mask box_mask box1_area)
    pico.m_grid.points f

/-- Lines 694-698: the body of the loop that flags the shelves which fall back to the
Beckmann-Goosse parameterization; the operands of `or` are read from left to right until
one is zero. -/
def beckmannGoosseFlagStep (salinity temperature overturning : StdVector R)
    (use_beckmann_goosse : StdVector Bool) (s : Nat) : Option (StdVector Bool) := do
  let sal ← salinity.get? s
  if sal = 0 then use_beckmann_goosse.modify? s (fun _ => true)
  else do
    let t ← temperature.get? s
    if t = 0 then use_beckmann_goosse.modify? s (fun _ => true)
    else do
      let o ← overturning.get? s
      if o = 0 then use_beckmann_goosse.modify? s (fun _ => true)
      else use_beckmann_goosse.modify? s (fun _ => false)

/-- Lines 725-734: the values that the box-chain formula gives at a cell with ice
thickness `thickness`, from the area of the box and the three inputs of the shelf. -/
def boxChainValues (physics : PicoBoxPhysics R)
    (area S_previous T_previous overturning_box1 thickness : R) : BoxOutputs R :=
  let pressure := physics.pressure thickness
  let T_star := physics.T_star S_previous T_previous pressure
  let Toc := physics.Toc area T_previous T_star overturning_box1 S_previous
  let Soc := physics.Soc S_previous T_previous Toc
  { T_star := T_star,
    Toc := Toc,
    Soc := Soc,
    basal_melt_rate := physics.melt_rate (physics.theta_pm Soc pressure) Toc,
    T_pressure_melting := physics.T_pm Soc pressure }

/-- Lines 707-736: the body of the loop of `process_other_boxes` over the grid points,
for the box `box`.  The counter `n_beckmann_goosse_cells`, which only feeds a log
message, is left out. -/
def otherBoxStep (physics : PicoBoxPhysics R) (box : Int) (ice_thickness : Int → Int → R)
    (shelf_mask box_mask : Int → Int → Int)
    (salinity temperature overturning box_area : StdVector R)
    (use_beckmann_goosse : StdVector Bool) (f : Int → Int → BoxOutputs R) (p : Int × Int) :
    Option (Int → Int → BoxOutputs R) :=
  let shelf_id := shelf_mask p.1 p.2
  if box_mask p.1 p.2 = box ∧ shelf_id > 0 then do
    let fallback ← use_beckmann_goosse.get? shelf_id
    if fallback then some f
    else do
      let S_previous ← salinity.get? shelf_id
      let T_previous ← temperature.get? shelf_id
      let overturning_box1 ← overturning.get? shelf_id
      let area ← box_area.get? shelf_id
      some (setCell f p
        (boxChainValues physics area S_previous T_previous overturning_box1
          (ice_thickness p.1 p.2)))
  else some f

/-- The variables of `process_other_boxes` that live across the iterations of the loop
over the boxes: the five output fields and the vectors `salinity`, `temperature` and
`use_beckmann_goosse`. -/
structure OtherBoxes (R : Type) where
  fields : Int → Int → BoxOutputs R
  salinity : StdVector R
  temperature : StdVector R
  use_beckmann_goosse : StdVector Bool

/-- Lines 688-747: the body of the loop of `process_other_boxes` over the boxes, with
the vector `overturning` that was computed before the loop. -/
def otherBoxesIteration (pico : Pico R) (physics : PicoBoxPhysics R)
    (cell_area ice_thickness : Int → Int → R) (shelf_mask box_mask : Int → Int → Int)
    (overturning : StdVector R) (st : OtherBoxes R) (box : Nat) : Option (OtherBoxes R) := do
  let temperature ← compute_box_average pico ((box : Int) - 1)
    (fun i j => (st.fields i j).Toc) shelf_mask box_mask st.temperature
  let salinity ← compute_box_average pico ((box : Int) - 1)
    (fun i j => (st.fields i j).Soc) shelf_mask box_mask st.salinity
  let use_beckmann_goosse ← loopM
    (beckmannGoosseFlagStep salinity.result temperature.result overturning)
    (List.range' 1 (pico.m_n_shelves - 1)) st.use_beckmann_goosse
  let box_area ← compute_box_area pico box shelf_mask box_mask cell_area (StdVector.filled 0 0)
  let fields ← loopM
    (otherBoxStep physics box ice_thickness shelf_mask box_mask salinity.result
      temperature.result overturning box_area use_beckmann_goosse)
    pico.m_grid.points st.fields
  some { fields := fields, salinity := salinity.result, temperature := temperature.result,
         use_beckmann_goosse := use_beckmann_goosse }

/-- The method `Pico::process_other_boxes` (lines 660-753) for `m_n_boxes` boxes: the
five output fields afterwards; `none` when an index is out of range.  The member
`m_overturning` and the field `cell_area` of the grid are arguments. -/
def process_other_boxes (pico : Pico R) (m_n_boxes : Int)
    (m_overturning cell_area ice_thickness : Int → Int → R) (shelf_mask : Int → Int → Int)
    (physics : PicoBoxPhysics R) (box_mask : Int → Int → Int)
    (f : Int → Int → BoxOutputs R) : Option (Int → Int → BoxOutputs R) := do
  let overturning ← compute_box_average pico 1 m_overturning shelf_mask box_mask
    (StdVector.filled pico.m_n_shelves 0)
  let st ← loopM
    (otherBoxesIteration pico physics cell_area ice_thickness shelf_mask box_mask
      overturning.result)
    (List.range' 2 (m_n_boxes - 1).toNat)
    { fields := f,
      salinity := StdVector.filled pico.m_n_shelves 0,
      temperature := StdVector.filled pico.m_n_shelves 0,
      use_beckmann_goosse := StdVector.filled pico.m_n_shelves false }
  some st.fields

/-- The per-shelf average of the specification: the mean of `field` over the cells of
the box `box_id` in the shelf `s`, and 0 when there is no such cell. -/
def boxAverage (pico : Pico R) (box_id : Int) (field : Int → Int → R)
    (shelf_mask box_mask : Int → Int → Int) (s : Int) : R :=
  if (pico.m_grid.points.filter fun q =>
      decide (box_mask q.1 q.2 = box_id ∧ shelf_mask q.1 q.2 = s)).length > 0 then
    ((pico.m_grid.points.filter fun q =>
        decide (box_mask q.1 q.2 = box_id ∧ shelf_mask q.1 q.2 = s)).map
      fun q => field q.1 q.2).sum
    / ((pico.m_grid.points.filter fun q =>
        decide (box_mask q.1 q.2 = box_id ∧ shelf_mask q.1 q.2 = s)).length : R)
  else 0

/-- The area of the box `box_id` of the shelf `s`: the sum of `cell_area` over the cells
with shelf id `s > 0` and box id `box_id`. -/
def boxArea (pico : Pico R) (box_id : Int) (shelf_mask box_mask : Int → Int → Int)
    (cell_area : Int → Int → R) (s : Int) : R :=
  ((pico.m_grid.points.filter fun q =>
      decide ((shelf_mask q.1 q.2 > 0 ∧ box_mask q.1 q.2 = box_id) ∧ shelf_mask q.1 q.2 = s)).map
    fun q => cell_area q.1 q.2).sum

end BoxModel

section RoundBasinsExamples

/-- The function `round` on the rationals: the nearest integer, halves away from
zero. -/
def roundRat (x : ℚ) : ℚ :=
  if 0 ≤ x then ((Int.floor (x + 1 / 2) : Int) : ℚ) else -((Int.floor (-x + 1 / 2) : Int) : ℚ)

/-- A grid of 5 by 5 owned points with unit spacing. -/
def grid5 (R : Type) [LinearOrderedField R] : IceGrid R :=
  { dx := 1, dy := 1, xs := 0, xm := 5, ys := 0, ym := 5 }

/-- A basin mask on the 5 by 5 grid with a single non-integer cell, `(2, 2)`, holding
5/2; its diagonal neighbours hold 3 at `(3, 3)` and 2 at `(1, 3)`, `(1, 1)` and
`(3, 1)`; every other cell holds 3. -/
def basinsSingle : Int → Int → ℚ :=
  fun i j =>
    if i = 2 ∧ j = 2 then 5 / 2
    else if (i = 1 ∧ j = 3) ∨ (i = 1 ∧ j = 1) ∨ (i = 3 ∧ j = 1) then 2
    else 3

/-- A basin mask on the 5 by 5 grid whose cell `(2, 2)` holds 3/2 and whose cells
`(1, 3)` and `(3, 3)` hold 5/2; every other cell holds 2. -/
def basinsAdjacent : Int → Int → ℚ :=
  fun i j =>
    if i = 2 ∧ j = 2 then 3 / 2
    else if j = 3 ∧ (i = 1 ∨ i = 3) then 5 / 2
    else 2

end RoundBasinsExamples

section BoxAreaExamples

/-- The cell area field that is 1 everywhere. -/
def unitAreaExample (R : Type) [LinearOrderedField R] : Int → Int → R :=
  fun _ _ => 1

end BoxAreaExamples

section OceanInputExamples

/-- Physics constants whose pressure melting point is 1 whatever the salinity and the
pressure. -/
def physicsWarm (R : Type) [LinearOrderedField R] : PicoPhysics R :=
  { T_dummy := -1, S_dummy := 34, theta_pm := fun _ _ => 1, pressure := fun H => H }

end OceanInputExamples

section BoxExamples

/-- A grid of 3 by 1 points. -/
def gridRow (R : Type) [LinearOrderedField R] : IceGrid R :=
  { dx := 1, dy := 1, xs := 0, xm := 3, ys := 0, ym := 1 }

/-- A PICO object on the grid of 3 by 1 points, with three basins and two shelves. -/
def picoRow (R : Type) [LinearOrderedField R] : Pico R :=
  { m_grid := gridRow R, m_n_basins := 3, m_n_shelves := 2 }

/-- The box mask that puts the cell `(i, j)` in the box `i + 1`. -/
def boxMaskRow : Int → Int → Int :=
  fun i _ => i + 1

/-- The overturning field that is 1 on the column `i = 0`, the cells of box 1 in
`boxMaskRow`, and 0 elsewhere. -/
def overturningRow (R : Type) [LinearOrderedField R] : Int → Int → R :=
  fun i _ => if i = 0 then 1 else 0

/-- Physics for the concrete inputs: the box-chain temperature and salinity are the
inputs from the previous box plus 1, and the other outputs are 0. -/
def physicsChain (R : Type) [LinearOrderedField R] : PicoBoxPhysics R :=
  { toPicoPhysics := physicsExample R,
    T_star := fun _ _ _ => 0,
    Toc_box1 := fun _ _ _ Toc_box0 => { failed := false, value := Toc_box0 },
    Soc_box1 := fun _ Soc_box0 _ => Soc_box0,
    overturning := fun _ _ _ _ => 1,
    melt_rate := fun _ _ => 0,
    T_pm := fun _ _ => 0,
    Toc := fun _ T_previous _ _ _ => T_previous + 1,
    Soc := fun S_previous _ _ => S_previous + 1 }

/-- Output fields that hold 1 everywhere. -/
def fieldsOne (R : Type) [LinearOrderedField R] : Int → Int → BoxOutputs R :=
  fun _ _ => { T_star := 1, Toc := 1, Soc := 1, basal_melt_rate := 1, T_pressure_melting := 1 }

end BoxExamples

section SymmetricExample

end SymmetricExample

section DivergedExample

/-- The collaborators of the example whose state Jacobian is the identity, with a
nonlinear solve that does not converge: it leaves the base-class members as they are and
reports the reason code -1. -/
def collaboratorsDiverged (R : Type) [LinearOrderedField R] : Collaborators R :=
  { collaboratorsI R with solve_nocache := fun b => (b, { reason := -1 }) }

end DivergedExample

/-! ## Theorems -/

section ShallowStressBalanceLemmas

variable {R : Type} [LinearOrderedField R]

theorem mem_rectangle_iff (xs : Int) (xm : Nat) (ys : Int) (ym : Nat) (i j : Int) :
    (i, j) ∈ rectangle xs xm ys ym ↔ xs ≤ i ∧ i < xs + xm ∧ ys ≤ j ∧ j < ys + ym := by
  simp only [rectangle, List.mem_flatMap, List.mem_map, List.mem_range, Prod.mk.injEq]
  constructor
  · rintro ⟨dj, hdj, di, hdi, h1, h2⟩
    simp only [Int.ofNat_eq_coe] at h1 h2
    omega
  · rintro ⟨h1, h2, h3, h4⟩
    refine ⟨(j - ys).toNat, by omega, (i - xs).toNat, by omega, ?_, ?_⟩ <;>
      simp only [Int.ofNat_eq_coe] <;> omega

omit [LinearOrderedField R] in
theorem mem_points_iff (g : IceGrid R) (i j : Int) :
    (i, j) ∈ g.points ↔ g.xs ≤ i ∧ i < g.xs + g.xm ∧ g.ys ≤ j ∧ j < g.ys + g.ym :=
  mem_rectangle_iff g.xs g.xm g.ys g.ym i j

omit [LinearOrderedField R] in
theorem foldl_write2_of_mem (f : Int → Int → R × R) (l : List (Int × Int))
    (data : Int → Int → Nat → R) (i j : Int) (h : (i, j) ∈ l) :
    (l.foldl (fun data p => write2 data p (f p.1 p.2)) data) i j 0 = (f i j).1 ∧
    (l.foldl (fun data p => write2 data p (f p.1 p.2)) data) i j 1 = (f i j).2 := by
  induction l using List.reverseRecOn with
  | nil => simp at h
  | append_singleton l p ih =>
    rw [List.foldl_append]
    simp only [List.foldl_cons, List.foldl_nil]
    by_cases hp : (i, j) = p
    · subst hp
      simp [write2]
    · have hl : (i, j) ∈ l := by
        rcases List.mem_append.mp h with h1 | h1
        · exact h1
        · simp at h1
          exact absurd h1 hp
      simpa [write2, hp] using ih hl

/-- What `compute_2D_principal_strain_rates` leaves at an owned cell: the two values of
the loop body at that cell. -/
theorem compute_2D_principal_strain_rates_at (sqrt : R → R) (ice_free : Int → Bool)
    (g : IceGrid R) (velocity : Int → Int → Vector2 R) (mask : Int → Int → Int)
    (result : IceModelVec2 R) (hdof : result.ndof = 2) :
    ∃ out, compute_2D_principal_strain_rates sqrt ice_free g velocity mask result
        = Except.ok out ∧
      ∀ i j, (i, j) ∈ g.points →
        out.data i j 0 = (principalStrainRatesAt sqrt ice_free g velocity mask i j).1 ∧
        out.data i j 1 = (principalStrainRatesAt sqrt ice_free g velocity mask i j).2 := by
  refine ⟨_, by simp only [compute_2D_principal_strain_rates, hdof]; rfl, ?_⟩
  intro i j hij
  exact foldl_write2_of_mem (principalStrainRatesAt sqrt ice_free g velocity mask)
    g.points result.data i j hij

theorem sum_sq_nonneg (a b : R) : 0 ≤ a ^ 2 + b ^ 2 := by positivity

end ShallowStressBalanceLemmas

section ShallowStressBalanceClaims

variable {R : Type} [LinearOrderedField R]

/-- C9: with a result field of two components, `compute_2D_principal_strain_rates`
returns normally and at every owned cell `(i, j)` of the grid, for every velocity field
and every mask, `result(i,j,0) ≥ result(i,j,1)`; `sqrt` is any function that is
non-negative on non-negative arguments. -/
theorem principal_strain_rates_max_ge_min (sqrt : R → R)
    (hsqrt : ∀ x, 0 ≤ x → 0 ≤ sqrt x) (ice_free : Int → Bool)
    (g : IceGrid R) (velocity : Int → Int → Vector2 R) (mask : Int → Int → Int)
    (result : IceModelVec2 R) (hdof : result.ndof = 2) :
    ∃ out, compute_2D_principal_strain_rates sqrt ice_free g velocity mask result
        = Except.ok out ∧
      ∀ i j, (i, j) ∈ g.points → out.data i j 0 ≥ out.data i j 1 := by
  obtain ⟨out, hout, hval⟩ :=
    compute_2D_principal_strain_rates_at sqrt ice_free g velocity mask result hdof
  refine ⟨out, hout, ?_⟩
  intro i j hij
  obtain ⟨h0, h1⟩ := hval i j hij
  rw [h0, h1]
  unfold principalStrainRatesAt
  split
  · simp
  · simp only [principalValues, ge_iff_le]
    have hq := hsqrt _ (sum_sq_nonneg
      (1 / 2 * ((cellDerivatives ice_free g velocity mask i j).u_x
        - (cellDerivatives ice_free g velocity mask i j).v_y))
      (1 / 2 * ((cellDerivatives ice_free g velocity mask i j).v_x
        + (cellDerivatives ice_free g velocity mask i j).u_y)))
    linarith

/-- Witness of C9: the rational numbers with `Rat.sqrt`, on a grid of 3 by 3 cells. -/
theorem principal_strain_rates_max_ge_min_witness :
    (∀ x : ℚ, 0 ≤ x → 0 ≤ Rat.sqrt x) ∧ (result2 ℚ).ndof = 2 ∧
    ∃ out, compute_2D_principal_strain_rates Rat.sqrt ice_free_example (grid3 ℚ)
        (velocity3 ℚ) mask3 (result2 ℚ) = Except.ok out ∧
      ∀ i j, (i, j) ∈ (grid3 ℚ).points → out.data i j 0 ≥ out.data i j 1 :=
  ⟨fun x _ => Rat.sqrt_nonneg x, rfl,
    principal_strain_rates_max_ge_min Rat.sqrt (fun x _ => Rat.sqrt_nonneg x)
      ice_free_example (grid3 ℚ) (velocity3 ℚ) mask3 (result2 ℚ) rfl⟩

/-- C10: at every owned icy cell the two values written by
`compute_2D_principal_strain_rates` are the eigenvalues of the symmetric strain-rate
tensor of the cell: their sum is the trace `u_x + v_y`, their product is the determinant
`u_x * v_y - ((u_y + v_x) / 2) ^ 2`, and a number is a root of the characteristic
polynomial exactly when it is one of the two; `sqrt` is an exact square root on
non-negative arguments. -/
theorem principal_strain_rates_are_eigenvalues (sqrt : R → R)
    (hsqrt : ∀ x, 0 ≤ x → sqrt x * sqrt x = x) (ice_free : Int → Bool)
    (g : IceGrid R) (velocity : Int → Int → Vector2 R) (mask : Int → Int → Int)
    (result : IceModelVec2 R) (hdof : result.ndof = 2) :
    ∃ out, compute_2D_principal_strain_rates sqrt ice_free g velocity mask result
        = Except.ok out ∧
      ∀ i j, (i, j) ∈ g.points → ice_free (mask i j) = false →
        let d := cellDerivatives ice_free g velocity mask i j
        out.data i j 0 + out.data i j 1 = d.u_x + d.v_y ∧
        out.data i j 0 * out.data i j 1 = d.u_x * d.v_y - ((d.u_y + d.v_x) / 2) ^ 2 ∧
        ∀ lam : R,
          lam ^ 2 - (d.u_x + d.v_y) * lam + (d.u_x * d.v_y - ((d.u_y + d.v_x) / 2) ^ 2) = 0
            ↔ lam = out.data i j 0 ∨ lam = out.data i j 1 := by
  obtain ⟨out, hout, hval⟩ :=
    compute_2D_principal_strain_rates_at sqrt ice_free g velocity mask result hdof
  refine ⟨out, hout, ?_⟩
  intro i j hij hicy d
  obtain ⟨h0, h1⟩ := hval i j hij
  have hq := hsqrt _ (sum_sq_nonneg (1 / 2 * (d.u_x - d.v_y)) (1 / 2 * (d.v_x + d.u_y)))
  have e0 : out.data i j 0 = 1 / 2 * (d.u_x + d.v_y)
      + sqrt ((1 / 2 * (d.u_x - d.v_y)) ^ 2 + (1 / 2 * (d.v_x + d.u_y)) ^ 2) := by
    rw [h0]; simp [principalStrainRatesAt, hicy, principalValues, d]
  have e1 : out.data i j 1 = 1 / 2 * (d.u_x + d.v_y)
      - sqrt ((1 / 2 * (d.u_x - d.v_y)) ^ 2 + (1 / 2 * (d.v_x + d.u_y)) ^ 2) := by
    rw [h1]; simp [principalStrainRatesAt, hicy, principalValues, d]
  have hsum : out.data i j 0 + out.data i j 1 = d.u_x + d.v_y := by
    rw [e0, e1]; ring
  have hprod : out.data i j 0 * out.data i j 1
      = d.u_x * d.v_y - ((d.u_y + d.v_x) / 2) ^ 2 := by
    rw [e0, e1]
    linear_combination (-1 : R) * hq
  refine ⟨hsum, hprod, ?_⟩
  intro lam
  rw [← hsum, ← hprod]
  constructor
  · intro h
    have h2 : (lam - out.data i j 0) * (lam - out.data i j 1) = 0 := by
      linear_combination h
    rcases mul_eq_zero.mp h2 with h3 | h3
    · exact Or.inl (sub_eq_zero.mp h3)
    · exact Or.inr (sub_eq_zero.mp h3)
  · rintro (h | h) <;> rw [h] <;> ring

/-- Witness of C10: the real numbers with `Real.sqrt`, on a grid of 3 by 3 icy cells. -/
theorem principal_strain_rates_are_eigenvalues_witness :
    (∀ x : ℝ, 0 ≤ x → Real.sqrt x * Real.sqrt x = x) ∧ (result2 ℝ).ndof = 2 ∧
    ∃ out, compute_2D_principal_strain_rates Real.sqrt ice_free_example (grid3 ℝ)
        (velocity3 ℝ) mask3 (result2 ℝ) = Except.ok out ∧
      ∀ i j, (i, j) ∈ (grid3 ℝ).points → ice_free_example (mask3 i j) = false →
        let d := cellDerivatives ice_free_example (grid3 ℝ) (velocity3 ℝ) mask3 i j
        out.data i j 0 + out.data i j 1 = d.u_x + d.v_y ∧
        out.data i j 0 * out.data i j 1 = d.u_x * d.v_y - ((d.u_y + d.v_x) / 2) ^ 2 ∧
        ∀ lam : ℝ,
          lam ^ 2 - (d.u_x + d.v_y) * lam + (d.u_x * d.v_y - ((d.u_y + d.v_x) / 2) ^ 2) = 0
            ↔ lam = out.data i j 0 ∨ lam = out.data i j 1 :=
  ⟨fun _ hx => Real.mul_self_sqrt hx, rfl,
    principal_strain_rates_are_eigenvalues Real.sqrt (fun _ hx => Real.mul_self_sqrt hx)
      ice_free_example (grid3 ℝ) (velocity3 ℝ) mask3 (result2 ℝ) rfl⟩

end ShallowStressBalanceClaims

section GeneralLemmas

theorem rectangle_nodup (xs : Int) (xm : Nat) (ys : Int) (ym : Nat) :
    (rectangle xs xm ys ym).Nodup := by
  unfold rectangle
  rw [List.nodup_flatMap]
  refine ⟨?_, ?_⟩
  · intro dj _
    refine List.Nodup.map ?_ (List.nodup_range xm)
    intro a b h
    simp only [Int.ofNat_eq_coe, Prod.mk.injEq, add_right_inj, Nat.cast_inj, and_true] at h
    exact h
  · refine List.Pairwise.imp_of_mem ?_ (List.nodup_range ym)
    intro a b _ _ hab
    simp only [Function.onFun, List.disjoint_left, List.mem_map, List.mem_range, not_exists,
      not_and, forall_exists_index, and_imp]
    intro p di _ hp dj _ hq
    rw [← hp] at hq
    simp only [Int.ofNat_eq_coe, Prod.mk.injEq, add_right_inj, Nat.cast_inj] at hq
    exact hab hq.2.symm

theorem points_nodup {R : Type} (g : IceGrid R) : g.points.Nodup :=
  rectangle_nodup g.xs g.xm g.ys g.ym

theorem owned_iff_mem_points {R : Type} (g : IceGrid R) (i j : Int) :
    g.owned i j = true ↔ (i, j) ∈ g.points := by
  rw [IceGrid.points, mem_rectangle_iff]
  simp [IceGrid.owned]

theorem setCell_same {α : Type} (a : Int → Int → α) (p : Int × Int) (x : α) :
    setCell a p x p.1 p.2 = x := by
  simp [setCell]

theorem setCell_other {α : Type} (a : Int → Int → α) (p : Int × Int) (x : α) (i j : Int)
    (h : (i, j) ≠ p) : setCell a p x i j = a i j := by
  simp [setCell, h]

/-- A loop over distinct points that rewrites each visited cell from its own old
value: afterwards a visited cell holds the rewritten value, the others are untouched. -/
theorem foldl_setCell {α : Type} (F : Int × Int → α → α) (l : List (Int × Int))
    (hl : l.Nodup) (a : Int → Int → α) (i j : Int) :
    (l.foldl (fun a p => setCell a p (F p (a p.1 p.2))) a) i j
      = if (i, j) ∈ l then F (i, j) (a i j) else a i j := by
  induction l generalizing a with
  | nil => simp
  | cons p l ih =>
    rw [List.nodup_cons] at hl
    rw [List.foldl_cons, ih hl.2]
    by_cases hp : (i, j) = p
    · subst hp
      simp [hl.1, setCell]
    · have hp2 : ¬ p = (i, j) := fun h => hp h.symm
      simp [hp, hp2, setCell, List.mem_cons]

end GeneralLemmas
section InverseProblemBasics

variable {R : Type} [LinearOrderedField R]

theorem set_design_coeffs (c : Collaborators R) (mem : Nat → IceModelVec R)
    (s : IP_SSAHardavForwardProblem R) (zeta : Nat) (i j : Int) :
    (set_design c mem s zeta).base.m_coeffs i j
      = if (i, j) ∈ s.base.m_grid.points_with_ghosts 1 then
          { s.base.m_coeffs i j with
            hardness := (c.convertToDesignVariable (mem zeta) s.m_hardav).a i j }
        else s.base.m_coeffs i j := by
  simp only [set_design]
  exact foldl_setCell
    (fun p x => { x with hardness := (c.convertToDesignVariable (mem zeta) s.m_hardav).a p.1 p.2 })
    _ (rectangle_nodup _ _ _ _) s.base.m_coeffs i j

/-- C5: for every design field (the caller's field at the address `zeta`, whatever the
memory holds there), `set_design` stores the address of the field in `m_zeta` (no copy
of its values: a later call reads the design from the memory of that time, and two
memories that agree at the address give the same result), sets the hardness in
`m_coeffs` at every owned and ghost cell to the value that the parameterization's
`convertToDesignVariable` produced from the field at that cell (the value of
`toDesignVariable` at `zeta(i, j)` when the conversion works cell by cell), leaving
thickness, yield stress and mask alone, and leaves `m_rebuild_J_state = true` whatever
the flag was before. -/
theorem set_design_reference_hardness_stale (c : Collaborators R)
    (mem : Nat → IceModelVec R) (s : IP_SSAHardavForwardProblem R) (zeta : Nat) :
    (set_design c mem s zeta).m_zeta = some zeta ∧
    (∀ i j, (i, j) ∈ s.base.m_grid.points_with_ghosts 1 →
      ((set_design c mem s zeta).base.m_coeffs i j).hardness
          = (c.convertToDesignVariable (mem zeta) s.m_hardav).a i j ∧
        ((set_design c mem s zeta).base.m_coeffs i j).thickness
          = (s.base.m_coeffs i j).thickness ∧
        ((set_design c mem s zeta).base.m_coeffs i j).tauc = (s.base.m_coeffs i j).tauc ∧
        ((set_design c mem s zeta).base.m_coeffs i j).mask = (s.base.m_coeffs i j).mask) ∧
    (set_design c mem s zeta).m_hardav = c.convertToDesignVariable (mem zeta) s.m_hardav ∧
    ((∀ i j, (i, j) ∈ s.base.m_grid.points_with_ghosts 1 →
        (c.convertToDesignVariable (mem zeta) s.m_hardav).a i j
          = (c.toDesignVariable ((mem zeta).a i j)).1) →
      ∀ i j, (i, j) ∈ s.base.m_grid.points_with_ghosts 1 →
        ((set_design c mem s zeta).base.m_coeffs i j).hardness
          = (c.toDesignVariable ((mem zeta).a i j)).1) ∧
    (set_design c mem s zeta).m_rebuild_J_state = true ∧
    (∀ (later other : Nat → IceModelVec R) (dzeta : IceModelVec R)
        (du : IceModelVec (Vector2 R)), later zeta = other zeta →
      apply_linearization c later (set_design c mem s zeta) dzeta du
        = apply_linearization c other (set_design c mem s zeta) dzeta du) := by
  refine ⟨rfl, ?_, rfl, ?_, rfl, ?_⟩
  · intro i j hij
    rw [set_design_coeffs, if_pos hij]
    exact ⟨rfl, rfl, rfl, rfl⟩
  · intro hpoint i j hij
    rw [set_design_coeffs, if_pos hij]
    exact hpoint i j hij
  · intro later other dzeta du h
    have hz : (rebuild_J_state c (set_design c mem s zeta)).m_zeta = some zeta := by
      simp [rebuild_J_state, set_design]
    simp only [apply_linearization, hz, h]

/-- C7, as amended: for every design field, `linearize_at(zeta)` has the effect of
`set_design(zeta)` followed by the nonlinear solve `solve_nocache` of the base class: the
solve runs on the base-class members that `set_design` left, whose hardness at every
owned and ghost cell is the converted design, and the members of the derived class are
those `set_design` left (the address of `zeta`, the converted hardness, the flag set).
The call always returns; it raises no error when the nonlinear solve does not converge,
but returns the termination reason of that solve, which is a failed one exactly when the
reason code of the solve is negative. -/
theorem linearize_at_set_design_then_solve (c : Collaborators R)
    (mem : Nat → IceModelVec R) (s : IP_SSAHardavForwardProblem R) (zeta : Nat) :
    (linearize_at c mem s zeta).1
        = { set_design c mem s zeta with
            base := (c.solve_nocache (set_design c mem s zeta).base).1 } ∧
    (∀ i j, (i, j) ∈ s.base.m_grid.points_with_ghosts 1 →
      ((set_design c mem s zeta).base.m_coeffs i j).hardness
        = (c.convertToDesignVariable (mem zeta) s.m_hardav).a i j) ∧
    (linearize_at c mem s zeta).1.m_zeta = some zeta ∧
    (linearize_at c mem s zeta).1.m_hardav = c.convertToDesignVariable (mem zeta) s.m_hardav ∧
    (linearize_at c mem s zeta).1.m_rebuild_J_state = true ∧
    (Call.exec c mem s (Call.linearize_at zeta)).1 = Status.returned ∧
    (∀ e, (Call.exec c mem s (Call.linearize_at zeta)).1 ≠ Status.raised e) ∧
    (Call.exec c mem s (Call.linearize_at zeta)).2 = (linearize_at c mem s zeta).1 ∧
    (linearize_at c mem s zeta).2 = (c.solve_nocache (set_design c mem s zeta).base).2 ∧
    ((linearize_at c mem s zeta).2.failed = true ↔
      (c.solve_nocache (set_design c mem s zeta).base).2.reason < 0) := by
  refine ⟨rfl, ?_, rfl, rfl, rfl, rfl, ?_, rfl, rfl, ?_⟩
  · intro i j hij
    rw [set_design_coeffs, if_pos hij]
  · intro e h
    have hret : (Call.exec c mem s (Call.linearize_at zeta)).1 = Status.returned := rfl
    rw [hret] at h
    cases h
  · show decide ((c.solve_nocache (set_design c mem s zeta).base).2.reason < 0) = true ↔ _
    exact decide_eq_true_iff

end InverseProblemBasics
section FlagLemmas

variable {R : Type} [LinearOrderedField R]

theorem append_singleton_eq_split {α : Type} (log : List α) (e : α) (pre post : List α)
    (x : α) (h : log ++ [e] = pre ++ x :: post) :
    (post = [] ∧ pre = log ∧ x = e) ∨
      (∃ rest, post = rest ++ [e] ∧ log = pre ++ x :: rest) := by
  rcases List.eq_nil_or_concat post with hp | ⟨rest, y, hp⟩
  · subst hp
    have h2 : log ++ [e] = pre ++ [x] := h
    obtain ⟨h3, h4⟩ := List.append_inj' h2 rfl
    simp only [List.cons.injEq, and_true] at h4
    exact Or.inl ⟨rfl, h3.symm, h4.symm⟩
  · rw [List.concat_eq_append] at hp
    subst hp
    have h2 : log ++ [e] = (pre ++ x :: rest) ++ [y] := by
      rw [h]; simp
    obtain ⟨h3, h4⟩ := List.append_inj' h2 rfl
    simp only [List.cons.injEq, and_true] at h4
    subst h4
    exact Or.inr ⟨rest, rfl, h3⟩

theorem flagDiscipline_nil : FlagDiscipline [] := by
  constructor
  · intro pre post h
    simp at h
  · intro pre post flag h
    simp at h

theorem flagDiscipline_design_set (log : List Event) (h : FlagDiscipline log) :
    FlagDiscipline (log ++ [Event.design_set]) := by
  constructor
  · intro pre post hsplit
    rcases append_singleton_eq_split _ _ _ _ _ hsplit with ⟨_, _, h3⟩ | ⟨rest, _, h2⟩
    · cases h3
    · exact h.1 pre rest h2
  · intro pre post flag hsplit
    rcases append_singleton_eq_split _ _ _ _ _ hsplit with ⟨_, _, h3⟩ | ⟨rest, _, h2⟩
    · cases h3
    · exact h.2 pre rest flag h2

theorem flagDiscipline_assembled (log : List Event) (h : FlagDiscipline log) :
    FlagDiscipline (log ++ [Event.assembled]) := by
  constructor
  · intro pre post hsplit
    rcases append_singleton_eq_split _ _ _ _ _ hsplit with ⟨_, _, h3⟩ | ⟨rest, _, h2⟩
    · cases h3
    · exact h.1 pre rest h2
  · intro pre post flag hsplit
    rcases append_singleton_eq_split _ _ _ _ _ hsplit with ⟨_, _, h3⟩ | ⟨rest, _, h2⟩
    · cases h3
    · exact h.2 pre rest flag h2

theorem flagDiscipline_rebuild (log : List Event) (h : FlagDiscipline log) :
    FlagDiscipline (log ++ [Event.assembled, Event.flag_cleared]) := by
  have h0 : log ++ [Event.assembled, Event.flag_cleared]
      = (log ++ [Event.assembled]) ++ [Event.flag_cleared] := by simp
  rw [h0]
  have h1 := flagDiscipline_assembled log h
  constructor
  · intro pre post hsplit
    rcases append_singleton_eq_split _ _ _ _ _ hsplit with ⟨_, h2, _⟩ | ⟨rest, _, h2⟩
    · exact ⟨log, h2⟩
    · exact h1.1 pre rest h2
  · intro pre post flag hsplit
    rcases append_singleton_eq_split _ _ _ _ _ hsplit with ⟨_, _, h3⟩ | ⟨rest, _, h2⟩
    · cases h3
    · exact h1.2 pre rest flag h2

theorem flagDiscipline_solve (log : List Event) (h : FlagDiscipline log)
    (hfresh : AssembledSinceDesign log) :
    FlagDiscipline (log ++ [Event.solve_read false]) := by
  constructor
  · intro pre post hsplit
    rcases append_singleton_eq_split _ _ _ _ _ hsplit with ⟨_, _, h3⟩ | ⟨rest, _, h2⟩
    · cases h3
    · exact h.1 pre rest h2
  · intro pre post flag hsplit
    rcases append_singleton_eq_split _ _ _ _ _ hsplit with ⟨_, h2, h3⟩ | ⟨rest, _, h2⟩
    · cases h3
      subst h2
      exact ⟨rfl, hfresh⟩
    · exact h.2 pre rest flag h2

theorem assembledSinceDesign_rebuild (log : List Event) :
    AssembledSinceDesign (log ++ [Event.assembled, Event.flag_cleared]) :=
  ⟨log, [Event.flag_cleared], rfl, by simp⟩

theorem assembledSinceDesign_solve (log : List Event) (flag : Bool)
    (h : AssembledSinceDesign log) :
    AssembledSinceDesign (log ++ [Event.solve_read flag]) := by
  obtain ⟨a, b, hab, hb⟩ := h
  refine ⟨a, b ++ [Event.solve_read flag], by simp [hab], ?_⟩
  simp [hb]

/-- The invariant of the object: the discipline of the log, and while the flag is
clear the state Jacobian is assembled since the last design and is current. -/
theorem flag_invariant_construct (c : Collaborators R) (base : SSAFEM R) :
    FlagDiscipline (IP_SSAHardavForwardProblem.construct base).log ∧
    ((IP_SSAHardavForwardProblem.construct base).m_rebuild_J_state = false →
      AssembledSinceDesign (IP_SSAHardavForwardProblem.construct base).log) ∧
    JStateCurrent c (IP_SSAHardavForwardProblem.construct base) := by
  refine ⟨flagDiscipline_nil, ?_, ?_⟩
  · intro h; simp [IP_SSAHardavForwardProblem.construct] at h
  · intro h; simp [IP_SSAHardavForwardProblem.construct] at h

theorem flag_invariant_rebuild (c : Collaborators R) (s : IP_SSAHardavForwardProblem R)
    (h1 : FlagDiscipline s.log)
    (h2 : s.m_rebuild_J_state = false → AssembledSinceDesign s.log)
    (h3 : JStateCurrent c s) :
    FlagDiscipline (rebuild_J_state c s).log ∧
    (rebuild_J_state c s).m_rebuild_J_state = false ∧
    AssembledSinceDesign (rebuild_J_state c s).log ∧
    (rebuild_J_state c s).m_J_state = assemble_jacobian_state c s.base s.base.m_velocity ∧
    (rebuild_J_state c s).base = s.base ∧
    (rebuild_J_state c s).m_zeta = s.m_zeta ∧
    (rebuild_J_state c s).m_fixed_design_locations = s.m_fixed_design_locations ∧
    (rebuild_J_state c s).m_du_global = s.m_du_global ∧
    (rebuild_J_state c s).m_dzeta_local = s.m_dzeta_local := by
  unfold rebuild_J_state
  split
  · exact ⟨flagDiscipline_rebuild _ h1, rfl, assembledSinceDesign_rebuild _, rfl, rfl, rfl,
      rfl, rfl, rfl⟩
  · rename_i hflag
    have hf : s.m_rebuild_J_state = false := by simpa using hflag
    exact ⟨h1, hf, h2 hf, h3 hf, rfl, rfl, rfl, rfl, rfl⟩

theorem apply_jacobian_design_frame (c : Collaborators R)
    (s : IP_SSAHardavForwardProblem R) (zeta : IceModelVec R) (u : IceModelVec (Vector2 R))
    (dzeta : IceModelVec R) (du_a : Int → Int → Vector2 R) :
    (apply_jacobian_design c s zeta u dzeta du_a).1.base = s.base ∧
    (apply_jacobian_design c s zeta u dzeta du_a).1.m_zeta = s.m_zeta ∧
    (apply_jacobian_design c s zeta u dzeta du_a).1.m_J_state = s.m_J_state ∧
    (apply_jacobian_design c s zeta u dzeta du_a).1.m_rebuild_J_state
      = s.m_rebuild_J_state ∧
    (apply_jacobian_design c s zeta u dzeta du_a).1.log = s.log ∧
    (apply_jacobian_design c s zeta u dzeta du_a).1.m_du_global = s.m_du_global := by
  unfold apply_jacobian_design
  split <;> exact ⟨rfl, rfl, rfl, rfl, rfl, rfl⟩

theorem apply_jacobian_design_transpose_frame (c : Collaborators R)
    (s : IP_SSAHardavForwardProblem R) (zeta : IceModelVec R) (u : IceModelVec (Vector2 R))
    (du : IceModelVec (Vector2 R)) (dzeta : IceModelVec R) :
    (apply_jacobian_design_transpose c s zeta u du dzeta).1.base = s.base ∧
    (apply_jacobian_design_transpose c s zeta u du dzeta).1.m_zeta = s.m_zeta ∧
    (apply_jacobian_design_transpose c s zeta u du dzeta).1.m_J_state = s.m_J_state ∧
    (apply_jacobian_design_transpose c s zeta u du dzeta).1.m_rebuild_J_state
      = s.m_rebuild_J_state ∧
    (apply_jacobian_design_transpose c s zeta u du dzeta).1.log = s.log := by
  unfold apply_jacobian_design_transpose
  split <;> exact ⟨rfl, rfl, rfl, rfl, rfl⟩

theorem flagInvariant_construct (c : Collaborators R) (base : SSAFEM R) :
    FlagInvariant c (IP_SSAHardavForwardProblem.construct base) :=
  flag_invariant_construct c base

theorem flagInvariant_set_design (c : Collaborators R) (mem : Nat → IceModelVec R)
    (s : IP_SSAHardavForwardProblem R) (zeta : Nat) (h : FlagInvariant c s) :
    FlagInvariant c (set_design c mem s zeta) := by
  refine ⟨flagDiscipline_design_set _ h.1, ?_, ?_⟩
  · intro hf; simp [set_design] at hf
  · intro hf; simp [set_design] at hf

theorem flagInvariant_linearize_at (c : Collaborators R) (mem : Nat → IceModelVec R)
    (s : IP_SSAHardavForwardProblem R) (zeta : Nat) (h : FlagInvariant c s) :
    FlagInvariant c (linearize_at c mem s zeta).1 := by
  refine ⟨flagDiscipline_design_set _ h.1, ?_, ?_⟩
  · intro hf; simp [linearize_at, set_design] at hf
  · intro hf; simp [linearize_at, set_design] at hf

theorem solve_in_place_frame (c : Collaborators R) (s : IP_SSAHardavForwardProblem R) :
    (solve_in_place c s).2.base = s.base ∧
    (solve_in_place c s).2.m_zeta = s.m_zeta ∧
    (solve_in_place c s).2.m_J_state = s.m_J_state ∧
    (solve_in_place c s).2.m_rebuild_J_state = s.m_rebuild_J_state ∧
    (solve_in_place c s).2.m_fixed_design_locations = s.m_fixed_design_locations ∧
    ((solve_in_place c s).2.log = s.log ∨
      (solve_in_place c s).2.log = s.log ++ [Event.solve_read s.m_rebuild_J_state]) := by
  unfold solve_in_place
  split
  · exact ⟨rfl, rfl, rfl, rfl, rfl, Or.inl rfl⟩
  · simp only []
    split
    · exact ⟨rfl, rfl, rfl, rfl, rfl, Or.inr rfl⟩
    · split
      · exact ⟨rfl, rfl, rfl, rfl, rfl, Or.inr rfl⟩
      · split <;> exact ⟨rfl, rfl, rfl, rfl, rfl, Or.inr rfl⟩

/-- The states in which a call may leave the object: flag clear, Jacobian current,
log extended by at most the read of the solve. -/
theorem flagInvariant_after_solve (c : Collaborators R)
    (s1 s3 : IP_SSAHardavForwardProblem R)
    (hd : FlagDiscipline s1.log) (hflag : s1.m_rebuild_J_state = false)
    (hfresh : AssembledSinceDesign s1.log)
    (hJ : s1.m_J_state = assemble_jacobian_state c s1.base s1.base.m_velocity)
    (hbase : s3.base = s1.base) (hJ3 : s3.m_J_state = s1.m_J_state)
    (hlog : s3.log = s1.log ∨ s3.log = s1.log ++ [Event.solve_read s1.m_rebuild_J_state]) :
    FlagInvariant c s3 := by
  rcases hlog with hlog | hlog
  · refine ⟨hlog ▸ hd, fun _ => hlog ▸ hfresh, fun _ => ?_⟩
    rw [hJ3, hbase, hJ]
  · rw [hflag] at hlog
    refine ⟨hlog ▸ flagDiscipline_solve _ hd hfresh,
      fun _ => hlog ▸ assembledSinceDesign_solve _ _ hfresh, fun _ => ?_⟩
    rw [hJ3, hbase, hJ]

theorem linearization_rhs_frame (c : Collaborators R) (s : IP_SSAHardavForwardProblem R)
    (zeta : IceModelVec R) (dzeta : IceModelVec R) :
    (linearization_rhs c s zeta dzeta).base = s.base ∧
    (linearization_rhs c s zeta dzeta).m_zeta = s.m_zeta ∧
    (linearization_rhs c s zeta dzeta).m_J_state = s.m_J_state ∧
    (linearization_rhs c s zeta dzeta).m_rebuild_J_state = s.m_rebuild_J_state ∧
    (linearization_rhs c s zeta dzeta).log = s.log := by
  obtain ⟨f1, f2, f3, f4, f5, -⟩ :=
    apply_jacobian_design_frame c s zeta s.base.m_velocity dzeta s.m_du_global.a
  exact ⟨f1, f2, f3, f4, f5⟩

theorem transpose_output_frame (c : Collaborators R) (s : IP_SSAHardavForwardProblem R)
    (zeta : IceModelVec R) (dzeta : IceModelVec R) :
    (transpose_output c s zeta dzeta).1.base = s.base ∧
    (transpose_output c s zeta dzeta).1.m_zeta = s.m_zeta ∧
    (transpose_output c s zeta dzeta).1.m_J_state = s.m_J_state ∧
    (transpose_output c s zeta dzeta).1.m_rebuild_J_state = s.m_rebuild_J_state ∧
    (transpose_output c s zeta dzeta).1.log = s.log :=
  apply_jacobian_design_transpose_frame c s zeta s.base.m_velocity s.m_du_global dzeta

theorem flagInvariant_apply_linearization (c : Collaborators R)
    (mem : Nat → IceModelVec R) (s : IP_SSAHardavForwardProblem R) (dzeta : IceModelVec R)
    (du : IceModelVec (Vector2 R)) (h : FlagInvariant c s) :
    FlagInvariant c (apply_linearization c mem s dzeta du).self := by
  obtain ⟨r1, r2, r3, r4, r5, -⟩ := flag_invariant_rebuild c s h.1 h.2.1 h.2.2
  have r4b : (rebuild_J_state c s).m_J_state
      = assemble_jacobian_state c (rebuild_J_state c s).base
          (rebuild_J_state c s).base.m_velocity := by rw [r4, r5]
  unfold apply_linearization
  simp only []
  split
  · exact flagInvariant_after_solve c _ _ r1 r2 r3 r4b rfl rfl (Or.inl rfl)
  · rename_i z hz
    obtain ⟨f1, -, f3, f4, f5⟩ := linearization_rhs_frame c (rebuild_J_state c s) (mem z) dzeta
    obtain ⟨g1, -, g3, g4, -, g6⟩ :=
      solve_in_place_frame c (linearization_rhs c (rebuild_J_state c s) (mem z) dzeta)
    rw [f5, f4] at g6
    have key := flagInvariant_after_solve c (rebuild_J_state c s) _ r1 r2 r3 r4b
      (g1.trans f1) (g3.trans f3) g6
    split <;> exact key

theorem flagInvariant_apply_linearization_transpose (c : Collaborators R)
    (mem : Nat → IceModelVec R) (s : IP_SSAHardavForwardProblem R)
    (du : IceModelVec (Vector2 R)) (dzeta : IceModelVec R) (h : FlagInvariant c s) :
    FlagInvariant c (apply_linearization_transpose c mem s du dzeta).self := by
  obtain ⟨r1, r2, r3, r4, r5, -⟩ := flag_invariant_rebuild c s h.1 h.2.1 h.2.2
  have r4b : (rebuild_J_state c s).m_J_state
      = assemble_jacobian_state c (rebuild_J_state c s).base
          (rebuild_J_state c s).base.m_velocity := by rw [r4, r5]
  obtain ⟨g1, -, g3, g4, -, g6⟩ :=
    solve_in_place_frame c (transpose_rhs (rebuild_J_state c s) du)
  have g6b : (solve_in_place c (transpose_rhs (rebuild_J_state c s) du)).2.log
        = (rebuild_J_state c s).log ∨
      (solve_in_place c (transpose_rhs (rebuild_J_state c s) du)).2.log
        = (rebuild_J_state c s).log
          ++ [Event.solve_read (rebuild_J_state c s).m_rebuild_J_state] := g6
  have key := flagInvariant_after_solve c (rebuild_J_state c s) _ r1 r2 r3 r4b
    (g1.trans rfl) (g3.trans rfl) g6b
  unfold apply_linearization_transpose
  simp only []
  split
  · exact key
  · split
    · exact key
    · rename_i z hz
      obtain ⟨t1, -, t3, t4, t5⟩ := transpose_output_frame c
        (solve_in_place c (transpose_rhs (rebuild_J_state c s) du)).2 (mem z) dzeta
      refine flagInvariant_after_solve c (rebuild_J_state c s) _ r1 r2 r3 r4b
        (t1.trans g1) (t3.trans g3) ?_
      rw [t5]
      exact g6b

theorem flagInvariant_exec (c : Collaborators R) (mem : Nat → IceModelVec R)
    (s : IP_SSAHardavForwardProblem R) (call : Call R) (h : FlagInvariant c s) :
    FlagInvariant c (call.exec c mem s).2 := by
  cases call with
  | set_design zeta => exact flagInvariant_set_design c mem s zeta h
  | linearize_at zeta => exact flagInvariant_linearize_at c mem s zeta h
  | apply_linearization dzeta du => exact flagInvariant_apply_linearization c mem s dzeta du h
  | apply_linearization_transpose du dzeta =>
    exact flagInvariant_apply_linearization_transpose c mem s du dzeta h

theorem flagInvariant_runCalls (c : Collaborators R) (mem : Nat → IceModelVec R)
    (calls : List (Call R)) (s : IP_SSAHardavForwardProblem R) (h : FlagInvariant c s) :
    FlagInvariant c (runCalls c mem calls s) := by
  induction calls generalizing s with
  | nil => exact h
  | cons call rest ih =>
    unfold runCalls
    split
    · exact flagInvariant_exec c mem s call h
    · exact ih _ (flagInvariant_exec c mem s call h)

end FlagLemmas
section SolveLemmas

variable {R : Type} [LinearOrderedField R]

theorem PISM_CHK_eq_none_iff (errcode : Int) (name : String) :
    PISM_CHK errcode name = none ↔ errcode = 0 := by
  unfold PISM_CHK
  split <;> simp_all

theorem PISM_CHK_ne_solve_failed (c : Collaborators R) (errcode : Int) (name : String)
    (reason : Int) :
    PISM_CHK errcode name ≠ some (solve_failed c solve_failed_format reason) := by
  unfold PISM_CHK
  split
  · intro h
    have h2 := congrArg (fun e => e.map RuntimeError.format) h
    simp only [Option.map_some', solve_failed, solve_failed_format] at h2
    revert h2
    decide
  · simp

/-- What `solve_in_place` raises, by cases on the return codes and the reason. -/
theorem solve_in_place_fst (c : Collaborators R) (s : IP_SSAHardavForwardProblem R) :
    (solve_in_place c s).1 =
      if c.KSPSetOperators s.m_J_state ≠ 0 then
        PISM_CHK (c.KSPSetOperators s.m_J_state) "KSPSetOperators"
      else if (c.KSPSolve s.m_J_state s.m_du_global.a).ierr ≠ 0 then
        PISM_CHK (c.KSPSolve s.m_J_state s.m_du_global.a).ierr "KSPSolve"
      else if (c.KSPSolve s.m_J_state s.m_du_global.a).reason_ierr ≠ 0 then
        PISM_CHK (c.KSPSolve s.m_J_state s.m_du_global.a).reason_ierr "KSPGetConvergedReason"
      else if (c.KSPSolve s.m_J_state s.m_du_global.a).reason < 0 then
        some (solve_failed c solve_failed_format
          (c.KSPSolve s.m_J_state s.m_du_global.a).reason)
      else none := by
  unfold solve_in_place
  split
  · rename_i e he
    have h0 : c.KSPSetOperators s.m_J_state ≠ 0 := by
      intro h; rw [(PISM_CHK_eq_none_iff _ _).mpr h] at he; cases he
    rw [if_pos h0, he]
  · rename_i he
    have h0 := (PISM_CHK_eq_none_iff _ _).mp he
    rw [if_neg (not_not.mpr h0)]
    simp only []
    split
    · rename_i e he1
      have h1 : (c.KSPSolve s.m_J_state s.m_du_global.a).ierr ≠ 0 := by
        intro h; rw [(PISM_CHK_eq_none_iff _ _).mpr h] at he1; cases he1
      rw [if_pos h1, he1]
    · rename_i he1
      have h1 := (PISM_CHK_eq_none_iff _ _).mp he1
      rw [if_neg (not_not.mpr h1)]
      split
      · rename_i e he2
        have h2 : (c.KSPSolve s.m_J_state s.m_du_global.a).reason_ierr ≠ 0 := by
          intro h; rw [(PISM_CHK_eq_none_iff _ _).mpr h] at he2; cases he2
        rw [if_pos h2, he2]
      · rename_i he2
        have h2 := (PISM_CHK_eq_none_iff _ _).mp he2
        rw [if_neg (not_not.mpr h2)]
        split <;> rfl

/-- The solve raises the exception carrying the solver's reason exactly when the PETSc
calls succeed and the reason is negative. -/
theorem solve_in_place_raises_iff (c : Collaborators R) (s : IP_SSAHardavForwardProblem R) :
    (solve_in_place c s).1 = some (solve_failed c solve_failed_format
        (c.KSPSolve s.m_J_state s.m_du_global.a).reason) ↔
      c.KSPSetOperators s.m_J_state = 0 ∧
      (c.KSPSolve s.m_J_state s.m_du_global.a).ierr = 0 ∧
      (c.KSPSolve s.m_J_state s.m_du_global.a).reason_ierr = 0 ∧
      (c.KSPSolve s.m_J_state s.m_du_global.a).reason < 0 := by
  rw [solve_in_place_fst]
  constructor
  · intro h
    split at h
    · exact absurd h (PISM_CHK_ne_solve_failed c _ _ _)
    · split at h
      · exact absurd h (PISM_CHK_ne_solve_failed c _ _ _)
      · split at h
        · exact absurd h (PISM_CHK_ne_solve_failed c _ _ _)
        · split at h
          · rename_i h0 h1 h2 h3
            exact ⟨not_not.mp h0, not_not.mp h1, not_not.mp h2, h3⟩
          · cases h
  · rintro ⟨h0, h1, h2, h3⟩
    rw [if_neg (not_not.mpr h0), if_neg (not_not.mpr h1), if_neg (not_not.mpr h2), if_pos h3]

/-- The solve ends without an exception exactly when the PETSc calls succeed and the
reason is not negative. -/
theorem solve_in_place_ok_iff (c : Collaborators R) (s : IP_SSAHardavForwardProblem R) :
    (solve_in_place c s).1 = none ↔
      c.KSPSetOperators s.m_J_state = 0 ∧
      (c.KSPSolve s.m_J_state s.m_du_global.a).ierr = 0 ∧
      (c.KSPSolve s.m_J_state s.m_du_global.a).reason_ierr = 0 ∧
      0 ≤ (c.KSPSolve s.m_J_state s.m_du_global.a).reason := by
  rw [solve_in_place_fst]
  constructor
  · intro h
    split at h
    · rename_i h0
      exact absurd ((PISM_CHK_eq_none_iff _ _).mp h) h0
    · split at h
      · rename_i h0 h1
        exact absurd ((PISM_CHK_eq_none_iff _ _).mp h) h1
      · split at h
        · rename_i h0 h1 h2
          exact absurd ((PISM_CHK_eq_none_iff _ _).mp h) h2
        · split at h
          · cases h
          · rename_i h0 h1 h2 h3
            exact ⟨not_not.mp h0, not_not.mp h1, not_not.mp h2, not_lt.mp h3⟩
  · rintro ⟨h0, h1, h2, h3⟩
    rw [if_neg (not_not.mpr h0), if_neg (not_not.mpr h1), if_neg (not_not.mpr h2),
      if_neg (not_lt.mpr h3)]

/-- After a solve without exception `m_du_global` holds the solver's answer. -/
theorem solve_in_place_solution (c : Collaborators R) (s : IP_SSAHardavForwardProblem R)
    (h : (solve_in_place c s).1 = none) :
    (solve_in_place c s).2.m_du_global.a = (c.KSPSolve s.m_J_state s.m_du_global.a).x ∧
    (solve_in_place c s).2.m_du_global.stencil_width = s.m_du_global.stencil_width := by
  have h0 := ((solve_in_place_ok_iff c s).mp h).1
  unfold solve_in_place
  rw [(PISM_CHK_eq_none_iff _ _).mpr h0]
  simp only []
  split
  · exact ⟨rfl, rfl⟩
  · split
    · exact ⟨rfl, rfl⟩
    · split <;> exact ⟨rfl, rfl⟩

end SolveLemmas
section FieldLemmas

variable {R : Type} [LinearOrderedField R]

theorem Vector2.ext_iff2 (x y : Vector2 R) : x = y ↔ x.u = y.u ∧ x.v = y.v := by
  cases x; cases y; simp

theorem Vector2.neg_u (x : Vector2 R) : (-x).u = -x.u := rfl

theorem Vector2.neg_v (x : Vector2 R) : (-x).v = -x.v := rfl

theorem Vector2.zero_u : (0 : Vector2 R).u = 0 := rfl

theorem Vector2.zero_v : (0 : Vector2 R).v = 0 := rfl

theorem Vector2.add_u (x y : Vector2 R) : (x + y).u = x.u + y.u := rfl

theorem Vector2.add_v (x y : Vector2 R) : (x + y).v = x.v + y.v := rfl

theorem update_ghosts_owned (g : IceGrid R) {α : Type} (x : IceModelVec α) (i j : Int)
    (h : (i, j) ∈ g.points) : (update_ghosts g x).a i j = x.a i j := by
  rw [mem_points_iff] at h
  obtain ⟨h1, h2, h3, h4⟩ := h
  have hi : g.xs + (i - g.xs) % Int.ofNat g.xm = i := by
    rw [Int.emod_eq_of_lt (by omega) (by simp only [Int.ofNat_eq_coe]; omega)]
    omega
  have hj : g.ys + (j - g.ys) % Int.ofNat g.ym = j := by
    rw [Int.emod_eq_of_lt (by omega) (by simp only [Int.ofNat_eq_coe]; omega)]
    omega
  simp only [update_ghosts]
  split
  · rw [hi, hj]
  · rfl

theorem copy_from_owned (g : IceGrid R) {α : Type} (x source : IceModelVec α) (i j : Int)
    (h : (i, j) ∈ g.points) : (copy_from g x source).a i j = source.a i j := by
  have ho : g.owned i j = true := (owned_iff_mem_points g i j).mpr h
  unfold copy_from
  simp only []
  split
  · rw [update_ghosts_owned g _ i j h]
    simp [ho]
  · simp [ho]

theorem copy_from_stencil_width (g : IceGrid R) {α : Type} (x source : IceModelVec α) :
    (copy_from g x source).stencil_width = x.stencil_width := by
  unfold copy_from
  simp only []
  split <;> rfl

theorem MatMult_congr (g : IceGrid R) (A : Mat R) (x y : Int → Int → Vector2 R)
    (h : ∀ i j, (i, j) ∈ g.points → x i j = y i j) : MatMult g A x = MatMult g A y := by
  funext i j
  have hu : ∀ q ∈ g.points, x q.1 q.2 = y q.1 q.2 := fun q hq => h q.1 q.2 hq
  unfold MatMult
  rw [Vector2.ext_iff2]
  constructor
  · refine congrArg List.sum (List.map_congr_left fun q hq => ?_)
    rw [hu q hq]
  · refine congrArg List.sum (List.map_congr_left fun q hq => ?_)
    rw [hu q hq]

theorem list_sum_map_neg {α : Type} (l : List α) (f : α → R) :
    (l.map fun q => -f q).sum = -(l.map f).sum := by
  induction l with
  | nil => simp
  | cons a l ih => simp only [List.map_cons, List.sum_cons, ih]; ring

theorem MatMult_neg (g : IceGrid R) (A : Mat R) (x : Int → Int → Vector2 R) (i j : Int) :
    MatMult g A (fun i j => -x i j) i j = -MatMult g A x i j := by
  unfold MatMult
  rw [Vector2.ext_iff2]
  simp only [Vector2.neg_u, Vector2.neg_v]
  constructor
  · rw [← list_sum_map_neg]
    refine congrArg List.sum (List.map_congr_left fun q _ => ?_)
    ring
  · rw [← list_sum_map_neg]
    refine congrArg List.sum (List.map_congr_left fun q _ => ?_)
    ring

theorem scaleV_neg_one (x : IceModelVec (Vector2 R)) :
    (scaleV (-1) x).a = fun i j => -x.a i j := by
  funext i j
  rw [Vector2.ext_iff2]
  simp [scaleV, Vector2.neg_u, Vector2.neg_v]

theorem fix_residual_homogeneous_vector_apply (d : DirichletData_Vector R) (g : IceGrid R)
    (r : Int → Int → Vector2 R) (i j : Int) :
    d.fix_residual_homogeneous g r i j
      = if (i, j) ∈ g.points ∧ flagged d.indices i j = true then 0 else r i j := by
  have hstep : (fun (r : Int → Int → Vector2 R) (p : Int × Int) =>
        if flagged d.indices p.1 p.2 then setCell r p 0 else r)
      = fun r p => setCell r p
          ((fun (p : Int × Int) (x : Vector2 R) => if flagged d.indices p.1 p.2 then 0 else x)
            p (r p.1 p.2)) := by
    funext r p a b
    by_cases hf : flagged d.indices p.1 p.2 = true
    · simp [hf]
    · by_cases hp : (a, b) = p
      · subst hp; simp [hf, setCell]
      · simp [hf, setCell, hp]
  unfold DirichletData_Vector.fix_residual_homogeneous
  rw [hstep, foldl_setCell _ _ (points_nodup g)]
  by_cases hm : (i, j) ∈ g.points
  · simp [hm]
  · simp [hm]

theorem fix_residual_homogeneous_scalar_apply (d : DirichletData_Scalar R) (g : IceGrid R)
    (r : Int → Int → R) (i j : Int) :
    d.fix_residual_homogeneous g r i j
      = if (i, j) ∈ g.points ∧ flagged d.indices i j = true then 0 else r i j := by
  have hstep : (fun (r : Int → Int → R) (p : Int × Int) =>
        if flagged d.indices p.1 p.2 then setCell r p 0 else r)
      = fun r p => setCell r p
          ((fun (p : Int × Int) (x : R) => if flagged d.indices p.1 p.2 then 0 else x)
            p (r p.1 p.2)) := by
    funext r p a b
    by_cases hf : flagged d.indices p.1 p.2 = true
    · simp [hf]
    · by_cases hp : (a, b) = p
      · subst hp; simp [hf, setCell]
      · simp [hf, setCell, hp]
  unfold DirichletData_Scalar.fix_residual_homogeneous
  rw [hstep, foldl_setCell _ _ (points_nodup g)]
  by_cases hm : (i, j) ∈ g.points
  · simp [hm]
  · simp [hm]

end FieldLemmas
section InverseProblemClaims

variable {R : Type} [LinearOrderedField R]

/-- C4: over every sequence of calls of `set_design`, `linearize_at`,
`apply_linearization` and `apply_linearization_transpose` on a newly constructed
object, the flag `m_rebuild_J_state` is cleared only immediately after
`assemble_jacobian_state` has rebuilt the state Jacobian, whenever the linear solve
reads the state Jacobian the flag is clear and the Jacobian was assembled after the most
recent `set_design`, and at the end, if the flag is clear, `m_J_state` is the Jacobian
assembled at the present velocity and coefficients. -/
theorem dirty_flag_discipline (c : Collaborators R) (mem : Nat → IceModelVec R)
    (base : SSAFEM R) (calls : List (Call R)) :
    (∀ pre post,
      (runCalls c mem calls (IP_SSAHardavForwardProblem.construct base)).log
          = pre ++ Event.flag_cleared :: post →
        ∃ before, pre = before ++ [Event.assembled]) ∧
    (∀ pre post flag,
      (runCalls c mem calls (IP_SSAHardavForwardProblem.construct base)).log
          = pre ++ Event.solve_read flag :: post →
        flag = false ∧ ∃ a b, pre = a ++ Event.assembled :: b ∧ Event.design_set ∉ b) ∧
    ((runCalls c mem calls (IP_SSAHardavForwardProblem.construct base)).m_rebuild_J_state
        = false →
      (runCalls c mem calls (IP_SSAHardavForwardProblem.construct base)).m_J_state
        = assemble_jacobian_state c
            (runCalls c mem calls (IP_SSAHardavForwardProblem.construct base)).base
            (runCalls c mem calls
              (IP_SSAHardavForwardProblem.construct base)).base.m_velocity) := by
  have h := flagInvariant_runCalls c mem calls (IP_SSAHardavForwardProblem.construct base)
    (flagInvariant_construct c base)
  exact ⟨h.1.1, h.1.2, h.2.2⟩

theorem rebuild_J_state_zeta (c : Collaborators R) (s : IP_SSAHardavForwardProblem R) :
    (rebuild_J_state c s).m_zeta = s.m_zeta := by
  unfold rebuild_J_state
  split <;> rfl

/-- C6: `apply_linearization` (when `m_zeta` points to a design; with a null `m_zeta`
the method never reaches the solve and raises nothing) and
`apply_linearization_transpose` raise the `RuntimeError` that carries the solver's
reason if and only if the linear solve reports a negative converged reason, that is,
the PETSc calls return 0 and the reason is negative (a PETSc call that fails raises a
different error and no reason is read); and when either method does not return
normally, the caller's output field (`du`, respectively `dzeta`) is as it was before
the call. -/
theorem linear_solve_failure_raises (c : Collaborators R) (mem : Nat → IceModelVec R)
    (s : IP_SSAHardavForwardProblem R) (dzeta : IceModelVec R)
    (du : IceModelVec (Vector2 R)) :
    (∀ z, s.m_zeta = some z →
      ((apply_linearization c mem s dzeta du).status
          = Status.raised (solve_failed c solve_failed_format
              (linearization_solve c mem s z dzeta).reason) ↔
        linearization_operators_code c mem s z dzeta = 0 ∧
        (linearization_solve c mem s z dzeta).ierr = 0 ∧
        (linearization_solve c mem s z dzeta).reason_ierr = 0 ∧
        (linearization_solve c mem s z dzeta).reason < 0)) ∧
    (s.m_zeta = none → (apply_linearization c mem s dzeta du).status = Status.undefined) ∧
    ((apply_linearization c mem s dzeta du).status ≠ Status.returned →
      (apply_linearization c mem s dzeta du).out = du) ∧
    ((apply_linearization_transpose c mem s du dzeta).status
        = Status.raised (solve_failed c solve_failed_format (transpose_solve c s du).reason) ↔
      transpose_operators_code c s du = 0 ∧
      (transpose_solve c s du).ierr = 0 ∧
      (transpose_solve c s du).reason_ierr = 0 ∧
      (transpose_solve c s du).reason < 0) ∧
    ((apply_linearization_transpose c mem s du dzeta).status ≠ Status.returned →
      (apply_linearization_transpose c mem s du dzeta).out = dzeta) := by
  refine ⟨?_, ?_, ?_, ?_, ?_⟩
  · intro z hz
    have hz1 : (rebuild_J_state c s).m_zeta = some z := by rw [rebuild_J_state_zeta, hz]
    have key := solve_in_place_raises_iff c
      (linearization_rhs c (rebuild_J_state c s) (mem z) dzeta)
    unfold linearization_solve linearization_operators_code
    rw [← key]
    unfold apply_linearization
    simp only [hz1]
    split
    · rename_i e he
      rw [he]
      simp
    · rename_i he
      rw [he]
      simp
  · intro hz
    have hz1 : (rebuild_J_state c s).m_zeta = none := by rw [rebuild_J_state_zeta, hz]
    unfold apply_linearization
    simp only [hz1]
  · unfold apply_linearization
    simp only []
    split
    · intro _; rfl
    · split
      · intro _; rfl
      · intro h; exact absurd rfl h
  · have key := solve_in_place_raises_iff c (transpose_rhs (rebuild_J_state c s) du)
    unfold transpose_solve transpose_operators_code
    rw [← key]
    unfold apply_linearization_transpose
    simp only []
    split
    · rename_i e he
      rw [he]
      simp
    · rename_i he
      rw [he]
      split <;> simp
  · unfold apply_linearization_transpose
    simp only []
    split
    · intro _; rfl
    · split
      · intro _; rfl
      · intro h; exact absurd rfl h

theorem rebuild_J_state_current (c : Collaborators R) (s : IP_SSAHardavForwardProblem R)
    (hJ : JStateCurrent c s) :
    (rebuild_J_state c s).m_J_state
      = assemble_jacobian_state c s.base s.base.m_velocity := by
  unfold rebuild_J_state
  split
  · rfl
  · rename_i hflag
    exact hJ (by simpa using hflag)

theorem rebuild_J_state_base (c : Collaborators R) (s : IP_SSAHardavForwardProblem R) :
    (rebuild_J_state c s).base = s.base := by
  unfold rebuild_J_state
  split <;> rfl

theorem apply_jacobian_design_rebuild (c : Collaborators R)
    (s : IP_SSAHardavForwardProblem R) (zeta : IceModelVec R) (dzeta : IceModelVec R) :
    (apply_jacobian_design c (rebuild_J_state c s) zeta (rebuild_J_state c s).base.m_velocity
        dzeta (rebuild_J_state c s).m_du_global.a).2
      = (apply_jacobian_design c s zeta s.base.m_velocity dzeta s.m_du_global.a).2 := by
  unfold rebuild_J_state
  split
  · unfold apply_jacobian_design
    simp only []
    split <;> rfl
  · rfl

theorem linearization_rhs_system (c : Collaborators R) (s : IP_SSAHardavForwardProblem R)
    (zeta : IceModelVec R) (dzeta : IceModelVec R) (hJ : JStateCurrent c s) :
    (linearization_rhs c (rebuild_J_state c s) zeta dzeta).m_J_state
        = assemble_jacobian_state c s.base s.base.m_velocity ∧
    (linearization_rhs c (rebuild_J_state c s) zeta dzeta).m_du_global.a
        = (fun i j =>
            -(apply_jacobian_design c s zeta s.base.m_velocity dzeta s.m_du_global.a).2 i j) ∧
    (linearization_rhs c (rebuild_J_state c s) zeta dzeta).base = s.base := by
  obtain ⟨f1, -, f3, -, -⟩ := linearization_rhs_frame c (rebuild_J_state c s) zeta dzeta
  refine ⟨f3.trans (rebuild_J_state_current c s hJ), ?_, f1.trans (rebuild_J_state_base c s)⟩
  unfold linearization_rhs
  simp only []
  rw [scaleV_neg_one]
  simp only []
  rw [apply_jacobian_design_rebuild]

/-- C1: for every design perturbation `dzeta`, when `m_zeta` points to a design, the
cached state Jacobian is current (it is, after any sequence of calls from construction)
and the linear solve converges (the PETSc calls succeed and the reason is not
negative; the solver service keeps its contract), `apply_linearization` returns
normally and the vector `x` it writes to the owned points of `du` solves
`J_state x = -(apply_jacobian_design(m_velocity, dzeta))`, with `J_state` the state
Jacobian assembled at the present velocity and design; hence `x` is
`-J_state⁻¹ (J_design dzeta)` whenever `J_state` has an inverse. -/
theorem apply_linearization_solves_state_system (c : Collaborators R)
    (mem : Nat → IceModelVec R) (s : IP_SSAHardavForwardProblem R) (z : Nat)
    (dzeta : IceModelVec R) (du : IceModelVec (Vector2 R))
    (hz : s.m_zeta = some z) (hJ : JStateCurrent c s)
    (hksp : SolverContract c s.base.m_grid)
    (hops : linearization_operators_code c mem s z dzeta = 0)
    (hierr : (linearization_solve c mem s z dzeta).ierr = 0)
    (hrc : (linearization_solve c mem s z dzeta).reason_ierr = 0)
    (hconv : 0 ≤ (linearization_solve c mem s z dzeta).reason) :
    (apply_linearization c mem s dzeta du).status = Status.returned ∧
    (∀ i j, (i, j) ∈ s.base.m_grid.points →
      MatMult s.base.m_grid (assemble_jacobian_state c s.base s.base.m_velocity)
          (apply_linearization c mem s dzeta du).out.a i j
        = -(apply_jacobian_design c s (mem z) s.base.m_velocity dzeta
            s.m_du_global.a).2 i j) ∧
    (∀ Jinv : Mat R,
      (∀ (x : Int → Int → Vector2 R) i j, (i, j) ∈ s.base.m_grid.points →
        MatMult s.base.m_grid Jinv
          (MatMult s.base.m_grid (assemble_jacobian_state c s.base s.base.m_velocity) x) i j
          = x i j) →
      ∀ i j, (i, j) ∈ s.base.m_grid.points →
        (apply_linearization c mem s dzeta du).out.a i j
          = -MatMult s.base.m_grid Jinv
              (apply_jacobian_design c s (mem z) s.base.m_velocity dzeta
                s.m_du_global.a).2 i j) := by
  have hz1 : (rebuild_J_state c s).m_zeta = some z := by rw [rebuild_J_state_zeta, hz]
  obtain ⟨e1, e2, e3⟩ := linearization_rhs_system c s (mem z) dzeta hJ
  have hok : (solve_in_place c (linearization_rhs c (rebuild_J_state c s) (mem z) dzeta)).1
      = none := (solve_in_place_ok_iff c _).mpr ⟨hops, hierr, hrc, hconv⟩
  obtain ⟨hx, -⟩ := solve_in_place_solution c _ hok
  obtain ⟨g1, -⟩ := solve_in_place_frame c
    (linearization_rhs c (rebuild_J_state c s) (mem z) dzeta)
  have hsol := hksp (linearization_rhs c (rebuild_J_state c s) (mem z) dzeta).m_J_state
    (linearization_rhs c (rebuild_J_state c s) (mem z) dzeta).m_du_global.a hierr hrc hconv
  have hout : (apply_linearization c mem s dzeta du).out
      = copy_from s.base.m_grid du
          (solve_in_place c
            (linearization_rhs c (rebuild_J_state c s) (mem z) dzeta)).2.m_du_global := by
    unfold apply_linearization
    simp only [hz1, hok, g1, e3]
  have hstatus : (apply_linearization c mem s dzeta du).status = Status.returned := by
    unfold apply_linearization
    simp only [hz1, hok]
  have houtx : ∀ i j, (i, j) ∈ s.base.m_grid.points →
      (apply_linearization c mem s dzeta du).out.a i j
        = (c.KSPSolve (linearization_rhs c (rebuild_J_state c s) (mem z) dzeta).m_J_state
            (linearization_rhs c (rebuild_J_state c s) (mem z) dzeta).m_du_global.a).x i j := by
    intro i j hij
    rw [hout, copy_from_owned _ _ _ _ _ hij, hx]
  have hsys : ∀ i j, (i, j) ∈ s.base.m_grid.points →
      MatMult s.base.m_grid (assemble_jacobian_state c s.base s.base.m_velocity)
          (apply_linearization c mem s dzeta du).out.a i j
        = -(apply_jacobian_design c s (mem z) s.base.m_velocity dzeta
            s.m_du_global.a).2 i j := by
    intro i j hij
    rw [MatMult_congr _ _ _ _ houtx, ← e1, hsol i j hij, e2]
  refine ⟨hstatus, hsys, ?_⟩
  intro Jinv hinv i j hij
  rw [← hinv (apply_linearization c mem s dzeta du).out.a i j hij,
    MatMult_congr _ Jinv _ _ hsys, MatMult_neg]

theorem rebuild_J_state_fixed (c : Collaborators R) (s : IP_SSAHardavForwardProblem R) :
    (rebuild_J_state c s).m_fixed_design_locations = s.m_fixed_design_locations := by
  unfold rebuild_J_state
  split <;> rfl

theorem transpose_rhs_values (s : IP_SSAHardavForwardProblem R)
    (du : IceModelVec (Vector2 R)) (i j : Int) (hij : (i, j) ∈ s.base.m_grid.points) :
    (transpose_rhs s du).m_du_global.a i j
      = if flagged s.base.m_bc_mask i j = true then 0 else du.a i j := by
  unfold transpose_rhs
  simp only []
  split
  · simp only []
    rw [fix_residual_homogeneous_vector_apply]
    simp only [hij, true_and]
    split
    · rfl
    · exact copy_from_owned _ _ _ _ _ hij
  · rename_i hact
    have hnone : s.base.m_bc_mask = none := by
      simpa [DirichletData_Vector.active] using hact
    rw [hnone]
    simp only [flagged, Bool.false_eq_true, if_false]
    exact copy_from_owned _ _ _ _ _ hij

theorem transpose_rhs_system (c : Collaborators R) (s : IP_SSAHardavForwardProblem R)
    (du : IceModelVec (Vector2 R)) (hJ : JStateCurrent c s) :
    (transpose_rhs (rebuild_J_state c s) du).m_J_state
        = assemble_jacobian_state c s.base s.base.m_velocity ∧
    (transpose_rhs (rebuild_J_state c s) du).base = s.base ∧
    (transpose_rhs (rebuild_J_state c s) du).m_zeta = s.m_zeta ∧
    (transpose_rhs (rebuild_J_state c s) du).m_fixed_design_locations
        = s.m_fixed_design_locations ∧
    (∀ i j, (i, j) ∈ s.base.m_grid.points →
      (transpose_rhs (rebuild_J_state c s) du).m_du_global.a i j
        = if flagged s.base.m_bc_mask i j = true then 0 else du.a i j) := by
  refine ⟨rebuild_J_state_current c s hJ, rebuild_J_state_base c s, rebuild_J_state_zeta c s,
    rebuild_J_state_fixed c s, ?_⟩
  intro i j hij
  have h := transpose_rhs_values (rebuild_J_state c s) du i j
    (by rw [rebuild_J_state_base]; exact hij)
  rw [rebuild_J_state_base] at h
  exact h

theorem transpose_output_owned (c : Collaborators R) (s : IP_SSAHardavForwardProblem R)
    (zeta : IceModelVec R) (dzeta : IceModelVec R) (i j : Int)
    (hij : (i, j) ∈ s.base.m_grid.points) :
    (transpose_output c s zeta dzeta).2.a i j
      = -apply_jacobian_design_transpose_array c s.base s.m_fixed_design_locations zeta.a
          s.base.m_velocity.a s.m_du_global.a dzeta.a i j := by
  have hbase := (apply_jacobian_design_transpose_frame c s zeta s.base.m_velocity
    s.m_du_global dzeta).1
  have harr : (apply_jacobian_design_transpose c s zeta s.base.m_velocity s.m_du_global
      dzeta).2.a
      = apply_jacobian_design_transpose_array c s.base s.m_fixed_design_locations zeta.a
          s.base.m_velocity.a s.m_du_global.a dzeta.a := by
    unfold apply_jacobian_design_transpose
    rfl
  unfold transpose_output
  simp only []
  split
  · rw [update_ghosts_owned _ _ _ _ (by rw [hbase]; exact hij)]
    simp only [scaleS]
    rw [harr]
    ring
  · simp only [scaleS]
    rw [harr]
    ring

/-- What `apply_linearization_transpose` does when the linear solve converges. -/
theorem transpose_linearization_spec (c : Collaborators R)
    (mem : Nat → IceModelVec R) (s : IP_SSAHardavForwardProblem R) (z : Nat)
    (du : IceModelVec (Vector2 R)) (dzeta : IceModelVec R)
    (hz : s.m_zeta = some z) (hJ : JStateCurrent c s)
    (hksp : SolverContract c s.base.m_grid)
    (hops : transpose_operators_code c s du = 0)
    (hierr : (transpose_solve c s du).ierr = 0)
    (hrc : (transpose_solve c s du).reason_ierr = 0)
    (hconv : 0 ≤ (transpose_solve c s du).reason) :
    (apply_linearization_transpose c mem s du dzeta).status = Status.returned ∧
    (∀ i j, (i, j) ∈ s.base.m_grid.points →
      MatMult s.base.m_grid (assemble_jacobian_state c s.base s.base.m_velocity)
          (transpose_solve c s du).x i j
        = if flagged s.base.m_bc_mask i j = true then 0 else du.a i j) ∧
    (∀ i j, (i, j) ∈ s.base.m_grid.points →
      (apply_linearization_transpose c mem s du dzeta).out.a i j
        = -apply_jacobian_design_transpose_array c s.base s.m_fixed_design_locations
            (mem z).a s.base.m_velocity.a (transpose_solve c s du).x dzeta.a i j) ∧
    (MatTranspose (assemble_jacobian_state c s.base s.base.m_velocity)
        = assemble_jacobian_state c s.base s.base.m_velocity →
      ∀ i j, (i, j) ∈ s.base.m_grid.points →
        MatMult s.base.m_grid
            (MatTranspose (assemble_jacobian_state c s.base s.base.m_velocity))
            (transpose_solve c s du).x i j
          = if flagged s.base.m_bc_mask i j = true then 0 else du.a i j) := by
  obtain ⟨e1, e3, e4, e5, e2⟩ := transpose_rhs_system c s du hJ
  have hok : (solve_in_place c (transpose_rhs (rebuild_J_state c s) du)).1 = none :=
    (solve_in_place_ok_iff c _).mpr ⟨hops, hierr, hrc, hconv⟩
  obtain ⟨hx, -⟩ := solve_in_place_solution c _ hok
  obtain ⟨g1, g2, -, -, g5, -⟩ := solve_in_place_frame c
    (transpose_rhs (rebuild_J_state c s) du)
  have hz3 : (solve_in_place c (transpose_rhs (rebuild_J_state c s) du)).2.m_zeta = some z := by
    rw [g2, e4, hz]
  have hsol := hksp (transpose_rhs (rebuild_J_state c s) du).m_J_state
    (transpose_rhs (rebuild_J_state c s) du).m_du_global.a hierr hrc hconv
  have hsys : ∀ i j, (i, j) ∈ s.base.m_grid.points →
      MatMult s.base.m_grid (assemble_jacobian_state c s.base s.base.m_velocity)
          (transpose_solve c s du).x i j
        = if flagged s.base.m_bc_mask i j = true then 0 else du.a i j := by
    intro i j hij
    unfold transpose_solve
    rw [← e1, hsol i j hij, e2 i j hij]
  refine ⟨?_, hsys, ?_, ?_⟩
  · unfold apply_linearization_transpose
    simp only [hok, hz3]
  · intro i j hij
    have hout : (apply_linearization_transpose c mem s du dzeta).out
        = (transpose_output c (solve_in_place c (transpose_rhs (rebuild_J_state c s) du)).2
            (mem z) dzeta).2 := by
      unfold apply_linearization_transpose
      simp only [hok, hz3]
    rw [hout, transpose_output_owned _ _ _ _ i j (by rw [g1, e3]; exact hij), g1, e3, g5, e5,
      hx]
    rfl
  · intro hsym i j hij
    rw [hsym]
    exact hsys i j hij

end InverseProblemClaims
section ScatterLemmas

variable {R : Type} [LinearOrderedField R]

theorem Vector2.list_sum_u (l : List (Vector2 R)) : l.sum.u = (l.map Vector2.u).sum := by
  induction l with
  | nil => rfl
  | cons a l ih =>
    rw [List.sum_cons, List.map_cons, List.sum_cons, ← ih]
    rfl

theorem Vector2.list_sum_v (l : List (Vector2 R)) : l.sum.v = (l.map Vector2.v).sum := by
  induction l with
  | nil => rfl
  | cons a l ih =>
    rw [List.sum_cons, List.map_cons, List.sum_cons, ← ih]
    rfl

theorem Vector2.finset_sum_u {ι : Type} (s : Finset ι) (f : ι → Vector2 R) :
    (∑ k ∈ s, f k).u = ∑ k ∈ s, (f k).u := by
  classical
  induction s using Finset.induction_on with
  | empty => rfl
  | insert ha ih =>
    rw [Finset.sum_insert ha, Finset.sum_insert ha, ← ih]
    rfl

theorem Vector2.finset_sum_v {ι : Type} (s : Finset ι) (f : ι → Vector2 R) :
    (∑ k ∈ s, f k).v = ∑ k ∈ s, (f k).v := by
  classical
  induction s using Finset.induction_on with
  | empty => rfl
  | insert ha ih =>
    rw [Finset.sum_insert ha, Finset.sum_insert ha, ← ih]
    rfl

/-- The scatter-add of the element-local values over a list of nodes. -/
theorem foldl_scatter {α : Type} [AddCommMonoid α] (e : ElementMap) (x_local : Fin 4 → α)
    (ks : List (Fin 4)) (y : Int → Int → α) (i j : Int) :
    (ks.foldl
      (fun y k =>
        if e.row_invalid k then y
        else setCell y (e.node k) (y (e.node k).1 (e.node k).2 + x_local k)) y) i j
      = y i j + (ks.map fun k =>
          if e.row_invalid k = false ∧ e.node k = (i, j) then x_local k else 0).sum := by
  induction ks generalizing y with
  | nil => simp
  | cons k ks ih =>
    rw [List.foldl_cons, ih, List.map_cons, List.sum_cons, ← add_assoc]
    congr 1
    by_cases hinv : e.row_invalid k = true
    · simp [hinv]
    · have hinv2 : e.row_invalid k = false := by simpa using hinv
      by_cases hn : e.node k = (i, j)
      · simp only [hinv2, Bool.false_eq_true, if_false, hn, and_self, if_true]
        simp [setCell]
      · have hn2 : ¬ (i, j) = e.node k := fun h => hn h.symm
        simp [hinv2, hn, setCell, hn2]

/-- The scatter-add of one element: each cell receives the local values of the valid
rows whose node it is. -/
theorem add_residual_contribution_apply {α : Type} [AddCommMonoid α] (e : ElementMap)
    (x_local : Fin 4 → α) (y : Int → Int → α) (i j : Int) :
    e.add_residual_contribution x_local y i j
      = y i j + ∑ k : Fin 4,
          if e.row_invalid k = false ∧ e.node k = (i, j) then x_local k else 0 := by
  unfold ElementMap.add_residual_contribution
  rw [foldl_scatter, Fin.sum_univ_def]

/-- The loop over the elements: each cell receives, from every element, the local
values of the valid rows whose node it is. -/
theorem foldl_elements_apply {α : Type} [AddCommMonoid α] (elem : Int × Int → ElementMap)
    (x_local : Int × Int → Fin 4 → α) (l : List (Int × Int)) (y : Int → Int → α)
    (i j : Int) :
    (l.foldl (fun a e => (elem e).add_residual_contribution (x_local e) a) y) i j
      = y i j + (l.map fun e => ∑ k : Fin 4,
          if (elem e).row_invalid k = false ∧ (elem e).node k = (i, j) then x_local e k
          else 0).sum := by
  induction l generalizing y with
  | nil => simp
  | cons e l ih =>
    rw [List.foldl_cons, ih, add_residual_contribution_apply, List.map_cons, List.sum_cons,
      add_assoc]

end ScatterLemmas
section AssemblyLemmas

variable {R : Type} [LinearOrderedField R]

theorem foldl_setCell_const {α : Type} (x : α) (l : List (Int × Int)) (hl : l.Nodup)
    (a : Int → Int → α) (i j : Int) :
    (l.foldl (fun a p => setCell a p x) a) i j = if (i, j) ∈ l then x else a i j :=
  foldl_setCell (fun _ _ => x) l hl a i j

theorem reset_node (g : IceGrid R) (i j : Int) (k : Fin 4) :
    (ElementMap.reset g i j).node k = (i + i_offset k, j + j_offset k) := rfl

theorem reset_row_invalid_of_mem (g : IceGrid R) (e : Int × Int) (k : Fin 4)
    (h : (ElementMap.reset g e.1 e.2).node k ∈ g.points) :
    (ElementMap.reset g e.1 e.2).row_invalid k = false := by
  have ho := (owned_iff_mem_points g _ _).mpr h
  simp only [ElementMap.reset, reset_node] at ho ⊢
  simp [ho]

/-- The value `apply_jacobian_design` leaves at an owned point: zero at a Dirichlet
location, elsewhere the sum over the elements of the local values at the nodes that
are this point. -/
theorem apply_jacobian_design_array_apply (c : Collaborators R) (b : SSAFEM R)
    (fixed : Option (Int → Int → R)) (zeta : Int → Int → R) (u : Int → Int → Vector2 R)
    (dzeta_local : Int → Int → R) (du_a : Int → Int → Vector2 R) (i j : Int)
    (hij : (i, j) ∈ b.m_grid.points) :
    apply_jacobian_design_array c b fixed zeta u dzeta_local du_a i j
      = if flagged b.m_bc_mask i j = true then 0
        else (c.elements.map fun e => ∑ k : Fin 4,
          if (ElementMap.reset b.m_grid e.1 e.2).node k = (i, j) then
            design_du_e c b fixed zeta u dzeta_local e.1 e.2 k
          else 0).sum := by
  unfold apply_jacobian_design_array
  simp only []
  have hsum : ∀ (elem : Int × Int → ElementMap),
      (∀ e k, (elem e).node k = (ElementMap.reset b.m_grid e.1 e.2).node k) →
      (∀ e k, (elem e).node k = (i, j) →
        (elem e).row_invalid k = flagged b.m_bc_mask i j) →
      (c.elements.foldl (fun a e => (elem e).add_residual_contribution
          (design_du_e c b fixed zeta u dzeta_local e.1 e.2) a)
        (b.m_grid.points.foldl (fun a p => setCell a p { u := 0, v := 0 }) du_a)) i j
      = if flagged b.m_bc_mask i j = true then 0
        else (c.elements.map fun e => ∑ k : Fin 4,
          if (ElementMap.reset b.m_grid e.1 e.2).node k = (i, j) then
            design_du_e c b fixed zeta u dzeta_local e.1 e.2 k
          else 0).sum := by
    intro elem hnode hinv
    rw [foldl_elements_apply, foldl_setCell_const _ _ (points_nodup _), if_pos hij]
    have hzero : ({ u := 0, v := 0 } : Vector2 R) = 0 := rfl
    rw [hzero, zero_add]
    by_cases hf : flagged b.m_bc_mask i j = true
    · rw [if_pos hf]
      refine List.sum_eq_zero ?_
      intro x hx
      obtain ⟨e, -, rfl⟩ := List.mem_map.mp hx
      refine Finset.sum_eq_zero fun k _ => ?_
      by_cases hn : (elem e).node k = (i, j)
      · rw [if_neg]
        rw [hinv e k hn, hf]
        simp
      · rw [if_neg]
        exact fun h => hn h.2
    · rw [if_neg hf]
      have hf2 : flagged b.m_bc_mask i j = false := by simpa using hf
      refine congrArg List.sum (List.map_congr_left fun e _ => ?_)
      refine Finset.sum_congr rfl fun k _ => ?_
      rw [← hnode e k]
      by_cases hn : (elem e).node k = (i, j)
      · rw [if_pos ⟨(hinv e k hn).trans hf2, hn⟩, if_pos hn]
      · rw [if_neg (fun h => hn h.2), if_neg hn]
  by_cases hact : (DirichletData_Vector.active
      ({ indices := b.m_bc_mask, values := b.m_bc_values, weight := b.m_dirichletScale } :
        DirichletData_Vector R)) = true
  · simp only [hact, if_true]
    rw [fix_residual_homogeneous_vector_apply]
    simp only [hij, true_and]
    by_cases hf : flagged b.m_bc_mask i j = true
    · rw [if_pos hf, if_pos hf]
    · rw [if_neg hf]
      have h := hsum
        (fun e => DirichletData_Vector.constrain
          ({ indices := b.m_bc_mask, values := b.m_bc_values,
              weight := b.m_dirichletScale } : DirichletData_Vector R)
          (ElementMap.reset b.m_grid e.1 e.2))
        (fun e k => rfl)
        (by
          intro e k hn
          have hn2 : (ElementMap.reset b.m_grid e.1 e.2).node k = (i, j) := hn
          have hown := reset_row_invalid_of_mem b.m_grid e k (by rw [hn2]; exact hij)
          simp only [DirichletData_Vector.constrain, hown, Bool.false_or]
          rw [hn2])
      exact h
  · simp only [hact]
    have hnone : b.m_bc_mask = none := by
      simpa [DirichletData_Vector.active] using hact
    have h := hsum (fun e => ElementMap.reset b.m_grid e.1 e.2) (fun e k => rfl)
      (by
        intro e k hn
        have hown := reset_row_invalid_of_mem b.m_grid e k (by rw [hn]; exact hij)
        rw [hown, hnone]
        rfl)
    simpa using h

/-- The value `apply_jacobian_design_transpose` leaves at an owned point: zero at a
fixed design location, elsewhere the sum over the elements of the local values at the
nodes that are this point, times the derivative of the parameterization. -/
theorem apply_jacobian_design_transpose_array_apply (c : Collaborators R) (b : SSAFEM R)
    (fixed : Option (Int → Int → R)) (zeta : Int → Int → R) (u : Int → Int → Vector2 R)
    (du : Int → Int → Vector2 R) (dzeta_a : Int → Int → R) (i j : Int)
    (hij : (i, j) ∈ b.m_grid.points) :
    apply_jacobian_design_transpose_array c b fixed zeta u du dzeta_a i j
      = if flagged fixed i j = true then 0
        else (c.elements.map fun e => ∑ k : Fin 4,
          if (ElementMap.reset b.m_grid e.1 e.2).node k = (i, j) then
            transpose_dzeta_e c b u du e.1 e.2 k
          else 0).sum * (c.toDesignVariable (zeta i j)).2 := by
  have hscaled : (b.m_grid.points.foldl
        (fun a p => setCell a p (a p.1 p.2 * (c.toDesignVariable (zeta p.1 p.2)).2))
        (c.elements.foldl
          (fun a e => (ElementMap.reset b.m_grid e.1 e.2).add_residual_contribution
            (transpose_dzeta_e c b u du e.1 e.2) a)
          (b.m_grid.points.foldl (fun a p => setCell a p 0) dzeta_a))) i j
      = (c.elements.map fun e => ∑ k : Fin 4,
          if (ElementMap.reset b.m_grid e.1 e.2).node k = (i, j) then
            transpose_dzeta_e c b u du e.1 e.2 k
          else 0).sum * (c.toDesignVariable (zeta i j)).2 := by
    have h1 := foldl_setCell
      (fun (p : Int × Int) (x : R) => x * (c.toDesignVariable (zeta p.1 p.2)).2)
      b.m_grid.points (points_nodup _)
      (c.elements.foldl
          (fun a e => (ElementMap.reset b.m_grid e.1 e.2).add_residual_contribution
            (transpose_dzeta_e c b u du e.1 e.2) a)
          (b.m_grid.points.foldl (fun a p => setCell a p 0) dzeta_a)) i j
    rw [if_pos hij] at h1
    rw [h1]
    congr 1
    rw [foldl_elements_apply (fun e => ElementMap.reset b.m_grid e.1 e.2),
      foldl_setCell_const _ _ (points_nodup _), if_pos hij, zero_add]
    refine congrArg List.sum (List.map_congr_left fun e _ => ?_)
    refine Finset.sum_congr rfl fun k _ => ?_
    by_cases hn : (ElementMap.reset b.m_grid e.1 e.2).node k = (i, j)
    · have hown := reset_row_invalid_of_mem b.m_grid e k (by rw [hn]; exact hij)
      rw [if_pos ⟨hown, hn⟩, if_pos hn]
    · rw [if_neg (fun h => hn h.2), if_neg hn]
  unfold apply_jacobian_design_transpose_array
  simp only []
  cases fixed with
  | none =>
    simp only [flagged, Bool.false_eq_true, if_false]
    exact hscaled
  | some locations =>
    simp only []
    rw [fix_residual_homogeneous_scalar_apply]
    simp only [hij, true_and]
    by_cases hf : flagged (some locations) i j = true
    · rw [if_pos hf, if_pos hf]
    · rw [if_neg hf, if_neg hf]
      exact hscaled

end AssemblyLemmas
section DirichletClaims

variable {R : Type} [LinearOrderedField R]

theorem flagged_none (i j : Int) : flagged (none : Option (Int → Int → R)) i j = false := rfl

theorem transpose_du_e_apply (b : SSAFEM R) (du : Int → Int → Vector2 R) (i j : Int)
    (k : Fin 4) :
    transpose_du_e b du i j k
      = if flagged b.m_bc_mask (i + i_offset k) (j + j_offset k) = true then 0
        else du (i + i_offset k) (j + j_offset k) := by
  unfold transpose_du_e
  split
  · rfl
  · rename_i hact
    have hnone : b.m_bc_mask = none := by
      simpa [DirichletData_Vector.active] using hact
    rw [hnone, flagged_none]
    rfl

/-- C8: in `apply_jacobian_design_transpose`, for every `u` and `du`, the nodal values
of `du` that are interpolated to the quadrature points are those of `du` with zero (not
the prescribed boundary velocity `m_bc_values`) at every Dirichlet velocity node, so
that the values of `du` at Dirichlet nodes have no influence on the result, and the
returned `dzeta` is exactly zero at every owned node flagged as a fixed design
location. -/
theorem design_transpose_homogeneous_dirichlet (c : Collaborators R) (b : SSAFEM R)
    (fixed : Option (Int → Int → R)) (zeta : Int → Int → R) (u : Int → Int → Vector2 R)
    (du : Int → Int → Vector2 R) (dzeta_a : Int → Int → R) :
    (∀ i j (k : Fin 4),
      transpose_du_e b du i j k
        = if flagged b.m_bc_mask (i + i_offset k) (j + j_offset k) = true then 0
          else du (i + i_offset k) (j + j_offset k)) ∧
    (∀ other : Int → Int → Vector2 R,
      (∀ i j, flagged b.m_bc_mask i j = false → other i j = du i j) →
      apply_jacobian_design_transpose_array c b fixed zeta u other dzeta_a
        = apply_jacobian_design_transpose_array c b fixed zeta u du dzeta_a) ∧
    (∀ i j, (i, j) ∈ b.m_grid.points → flagged fixed i j = true →
      apply_jacobian_design_transpose_array c b fixed zeta u du dzeta_a i j = 0) := by
  refine ⟨transpose_du_e_apply b du, ?_, ?_⟩
  · intro other hother
    have hdu : ∀ i j, transpose_du_e b other i j = transpose_du_e b du i j := by
      intro i j
      funext k
      rw [transpose_du_e_apply, transpose_du_e_apply]
      by_cases hf : flagged b.m_bc_mask (i + i_offset k) (j + j_offset k) = true
      · rw [if_pos hf, if_pos hf]
      · rw [if_neg hf, if_neg hf]
        exact hother _ _ (by simpa using hf)
    have hdz : ∀ i j, transpose_dzeta_e c b u other i j = transpose_dzeta_e c b u du i j := by
      intro i j
      unfold transpose_dzeta_e
      simp only [hdu]
    unfold apply_jacobian_design_transpose_array
    simp only [hdz]
  · intro i j hij hf
    rw [apply_jacobian_design_transpose_array_apply c b fixed zeta u du dzeta_a i j hij,
      if_pos hf]

end DirichletClaims
section AdjointLemmas

variable {R : Type} [LinearOrderedField R]

/-- Summing a scattered field against weights over the points is summing, over the
elements and their nodes, the local values against the weights at the nodes. -/
theorem scatter_dot (P : List (Int × Int)) (hP : P.Nodup) (E : List (Int × Int))
    (node : Int × Int → Fin 4 → Int × Int) (hnode : ∀ e ∈ E, ∀ k, node e k ∈ P)
    (x : Int × Int → Fin 4 → R) (w : Int × Int → R) :
    (P.map fun p => (E.map fun e => ∑ k : Fin 4, if node e k = p then x e k else 0).sum
        * w p).sum
      = (E.map fun e => ∑ k : Fin 4, x e k * w (node e k)).sum := by
  induction E with
  | nil => simp
  | cons e E ih =>
    have ih2 := ih (fun e he k => hnode e (List.mem_cons_of_mem _ he) k)
    simp only [List.map_cons, List.sum_cons, add_mul]
    rw [List.sum_map_add, ih2]
    congr 1
    rw [← List.sum_toFinset _ hP]
    simp only [Finset.sum_mul]
    rw [Finset.sum_comm]
    refine Finset.sum_congr rfl fun k _ => ?_
    have hk : node e k ∈ P.toFinset := List.mem_toFinset.mpr (hnode e (List.mem_cons_self _ _) k)
    simp only [ite_mul, zero_mul]
    rw [Finset.sum_ite_eq P.toFinset (node e k) (fun p => x e k * w p), if_pos hk]

/-- The element identity behind the adjoint relation: the local vector of the design
Jacobian paired with nodal values `a` equals the local vector of its transpose (built
from `a`) paired with the nodal hardness perturbations `dB`. -/
theorem quadrature_adjoint (n : Nat) (t : Fin n → Fin 4 → Germ R)
    (w nu1 X Y Z : Fin n → R) (a : Fin 4 → Vector2 R) (dB : Fin 4 → R) :
    ∑ k : Fin 4,
        ((∑ q : Fin n, w q * ((∑ m : Fin 4, (t q m).val * dB m) * nu1 q) *
            ((t q k).dx * X q + (t q k).dy * Z q)) * (a k).u
          + (∑ q : Fin n, w q * ((∑ m : Fin 4, (t q m).val * dB m) * nu1 q) *
            ((t q k).dy * Y q + (t q k).dx * Z q)) * (a k).v)
      = ∑ k : Fin 4,
        (∑ q : Fin n, w q * nu1 q * (t q k).val *
          (((∑ m : Fin 4, (t q m).dx * (a m).u) * X q
              + (∑ m : Fin 4, (t q m).dy * (a m).u) * Z q)
            + ((∑ m : Fin 4, (t q m).dy * (a m).v) * Y q
              + (∑ m : Fin 4, (t q m).dx * (a m).v) * Z q))) * dB k := by
  simp only [Fin.sum_univ_four, Finset.sum_mul, ← Finset.sum_add_distrib]
  refine Finset.sum_congr rfl fun q _ => ?_
  ring

theorem Vector2.ite_zero_u (p : Prop) [Decidable p] (x : Vector2 R) :
    (if p then x else 0).u = if p then x.u else 0 := by
  split <;> rfl

theorem Vector2.ite_zero_v (p : Prop) [Decidable p] (x : Vector2 R) :
    (if p then x else 0).v = if p then x.v else 0 := by
  split <;> rfl

theorem scattered_u (E : List (Int × Int)) (node : Int × Int → Fin 4 → Int × Int)
    (x : Int × Int → Fin 4 → Vector2 R) (p : Int × Int) :
    ((E.map fun e => ∑ k : Fin 4, if node e k = p then x e k else 0).sum).u
      = (E.map fun e => ∑ k : Fin 4, if node e k = p then (x e k).u else 0).sum := by
  rw [Vector2.list_sum_u, List.map_map]
  refine congrArg List.sum (List.map_congr_left fun e _ => ?_)
  simp only [Function.comp, Vector2.finset_sum_u, Vector2.ite_zero_u]

theorem scattered_v (E : List (Int × Int)) (node : Int × Int → Fin 4 → Int × Int)
    (x : Int × Int → Fin 4 → Vector2 R) (p : Int × Int) :
    ((E.map fun e => ∑ k : Fin 4, if node e k = p then x e k else 0).sum).v
      = (E.map fun e => ∑ k : Fin 4, if node e k = p then (x e k).v else 0).sum := by
  rw [Vector2.list_sum_v, List.map_map]
  refine congrArg List.sum (List.map_congr_left fun e _ => ?_)
  simp only [Function.comp, Vector2.finset_sum_v, Vector2.ite_zero_v]

/-- The scalar product of `apply_jacobian_design` with a state perturbation, as a sum
over the elements. -/
theorem dotV_apply_jacobian_design (c : Collaborators R) (b : SSAFEM R)
    (fixed : Option (Int → Int → R)) (zeta : Int → Int → R) (u : Int → Int → Vector2 R)
    (dzeta_local : Int → Int → R) (du_a : Int → Int → Vector2 R)
    (du : Int → Int → Vector2 R)
    (hnodes : ∀ e ∈ c.elements, ∀ k : Fin 4,
      (ElementMap.reset b.m_grid e.1 e.2).node k ∈ b.m_grid.points) :
    dotV b.m_grid (apply_jacobian_design_array c b fixed zeta u dzeta_local du_a) du
      = (c.elements.map fun e => ∑ k : Fin 4,
          ((design_du_e c b fixed zeta u dzeta_local e.1 e.2 k).u
              * (transpose_du_e b du e.1 e.2 k).u
            + (design_du_e c b fixed zeta u dzeta_local e.1 e.2 k).v
              * (transpose_du_e b du e.1 e.2 k).v)).sum := by
  have hpoint : ∀ p ∈ b.m_grid.points,
      (apply_jacobian_design_array c b fixed zeta u dzeta_local du_a p.1 p.2).u
          * (du p.1 p.2).u
        + (apply_jacobian_design_array c b fixed zeta u dzeta_local du_a p.1 p.2).v
          * (du p.1 p.2).v
      = (c.elements.map fun e => ∑ k : Fin 4,
            if (ElementMap.reset b.m_grid e.1 e.2).node k = p then
              (design_du_e c b fixed zeta u dzeta_local e.1 e.2 k).u else 0).sum
          * (if flagged b.m_bc_mask p.1 p.2 = true then 0 else (du p.1 p.2).u)
        + (c.elements.map fun e => ∑ k : Fin 4,
            if (ElementMap.reset b.m_grid e.1 e.2).node k = p then
              (design_du_e c b fixed zeta u dzeta_local e.1 e.2 k).v else 0).sum
          * (if flagged b.m_bc_mask p.1 p.2 = true then 0 else (du p.1 p.2).v) := by
    intro p hp
    rw [apply_jacobian_design_array_apply c b fixed zeta u dzeta_local du_a p.1 p.2 hp]
    simp only [Prod.mk.eta]
    by_cases hf : flagged b.m_bc_mask p.1 p.2 = true
    · simp only [if_pos hf, Vector2.zero_u, Vector2.zero_v, zero_mul, mul_zero, add_zero]
    · simp only [if_neg hf]
      rw [scattered_u, scattered_v]
  unfold dotV
  rw [List.map_congr_left hpoint, List.sum_map_add,
    scatter_dot _ (points_nodup _) _ _ hnodes, scatter_dot _ (points_nodup _) _ _ hnodes,
    ← List.sum_map_add]
  refine congrArg List.sum (List.map_congr_left fun e _ => ?_)
  rw [← Finset.sum_add_distrib]
  refine Finset.sum_congr rfl fun k _ => ?_
  rw [transpose_du_e_apply, reset_node]
  by_cases hf : flagged b.m_bc_mask (e.1 + i_offset k) (e.2 + j_offset k) = true
  · simp only [if_pos hf, Vector2.zero_u, Vector2.zero_v]
  · simp only [if_neg hf]

theorem element_dzeta_e_apply (b : SSAFEM R) (fixed : Option (Int → Int → R))
    (dzeta_local : Int → Int → R) (i j : Int) (k : Fin 4) :
    element_dzeta_e b fixed dzeta_local i j k
      = if flagged fixed (i + i_offset k) (j + j_offset k) = true then 0
        else dzeta_local (i + i_offset k) (j + j_offset k) := by
  unfold element_dzeta_e
  split
  · rfl
  · rename_i hact
    have hnone : fixed = none := by
      simpa [DirichletData_Scalar.active] using hact
    rw [hnone, flagged_none]
    rfl

/-- The scalar product of a design perturbation with `apply_jacobian_design_transpose`,
as a sum over the elements. -/
theorem dotS_apply_jacobian_design_transpose (c : Collaborators R) (b : SSAFEM R)
    (fixed : Option (Int → Int → R)) (zeta : Int → Int → R) (u : Int → Int → Vector2 R)
    (du : Int → Int → Vector2 R) (dzeta_a : Int → Int → R) (dzeta : Int → Int → R)
    (hnodes : ∀ e ∈ c.elements, ∀ k : Fin 4,
      (ElementMap.reset b.m_grid e.1 e.2).node k ∈ b.m_grid.points) :
    dotS b.m_grid dzeta (apply_jacobian_design_transpose_array c b fixed zeta u du dzeta_a)
      = (c.elements.map fun e => ∑ k : Fin 4,
          transpose_dzeta_e c b u du e.1 e.2 k
            * ((c.toDesignVariable
                ((ElementMap.reset b.m_grid e.1 e.2).nodal_values zeta k)).2
              * element_dzeta_e b fixed dzeta e.1 e.2 k)).sum := by
  have hpoint : ∀ p ∈ b.m_grid.points,
      dzeta p.1 p.2 * apply_jacobian_design_transpose_array c b fixed zeta u du dzeta_a p.1 p.2
      = (c.elements.map fun e => ∑ k : Fin 4,
            if (ElementMap.reset b.m_grid e.1 e.2).node k = p then
              transpose_dzeta_e c b u du e.1 e.2 k else 0).sum
          * (if flagged fixed p.1 p.2 = true then 0
              else (c.toDesignVariable (zeta p.1 p.2)).2 * dzeta p.1 p.2) := by
    intro p hp
    rw [apply_jacobian_design_transpose_array_apply c b fixed zeta u du dzeta_a p.1 p.2 hp]
    simp only [Prod.mk.eta]
    by_cases hf : flagged fixed p.1 p.2 = true
    · simp only [if_pos hf, mul_zero]
    · simp only [if_neg hf]
      ring
  unfold dotS
  rw [List.map_congr_left hpoint, scatter_dot _ (points_nodup _) _ _ hnodes]
  refine congrArg List.sum (List.map_congr_left fun e _ => ?_)
  refine Finset.sum_congr rfl fun k _ => ?_
  rw [element_dzeta_e_apply, reset_node]
  by_cases hf : flagged fixed (e.1 + i_offset k) (e.2 + j_offset k) = true
  · simp only [if_pos hf, mul_zero]
  · simp only [if_neg hf]
    rfl

theorem d_nuH_linear (c : Collaborators R)
    (hlin : ∀ B gamma, (c.effective_viscosity B gamma).1
      = B * (c.effective_viscosity 1 gamma).1) (th gamma B : R) :
    (if th ≥ c.min_thickness then (c.effective_viscosity B gamma).1 * (2 * th) else 0)
      = B * (if th ≥ c.min_thickness then (c.effective_viscosity 1 gamma).1 * (2 * th)
          else 0) := by
  split
  · rw [hlin B gamma]; ring
  · ring

/-- The adjoint relation on one element. -/
theorem element_adjoint (c : Collaborators R) (b : SSAFEM R)
    (fixed : Option (Int → Int → R)) (zeta : Int → Int → R) (u : Int → Int → Vector2 R)
    (dzeta : Int → Int → R) (du : Int → Int → Vector2 R) (i j : Int)
    (hlin : ∀ B gamma, (c.effective_viscosity B gamma).1
      = B * (c.effective_viscosity 1 gamma).1) :
    ∑ k : Fin 4,
        ((design_du_e c b fixed zeta u dzeta i j k).u * (transpose_du_e b du i j k).u
          + (design_du_e c b fixed zeta u dzeta i j k).v * (transpose_du_e b du i j k).v)
      = ∑ k : Fin 4,
        transpose_dzeta_e c b u du i j k
          * ((c.toDesignVariable ((ElementMap.reset b.m_grid i j).nodal_values zeta k)).2
            * element_dzeta_e b fixed dzeta i j k) := by
  have h := quadrature_adjoint c.m_quadrature.n c.m_quadrature.test_function_values
    c.m_quadrature.weighted_jacobian
    (fun q => if element_thickness c b i j q ≥ c.min_thickness then
      (c.effective_viscosity 1
          (c.secondInvariant_2D (quadrature_point_dx c.m_quadrature (element_u_e b u i j) q)
            (quadrature_point_dy c.m_quadrature (element_u_e b u i j) q))).1
        * (2 * element_thickness c b i j q)
      else 0)
    (fun q => 2 * (quadrature_point_dx c.m_quadrature (element_u_e b u i j) q).u
      + (quadrature_point_dy c.m_quadrature (element_u_e b u i j) q).v)
    (fun q => 2 * (quadrature_point_dy c.m_quadrature (element_u_e b u i j) q).v
      + (quadrature_point_dx c.m_quadrature (element_u_e b u i j) q).u)
    (fun q => 1 / 2 * ((quadrature_point_dy c.m_quadrature (element_u_e b u i j) q).u
      + (quadrature_point_dx c.m_quadrature (element_u_e b u i j) q).v))
    (transpose_du_e b du i j)
    (fun k => (c.toDesignVariable ((ElementMap.reset b.m_grid i j).nodal_values zeta k)).2
      * element_dzeta_e b fixed dzeta i j k)
  have hu : ∀ k, (design_du_e c b fixed zeta u dzeta i j k).u
      = ∑ q : Fin c.m_quadrature.n, c.m_quadrature.weighted_jacobian q *
          ((∑ m : Fin 4, (c.m_quadrature.test_function_values q m).val *
              ((c.toDesignVariable
                  ((ElementMap.reset b.m_grid i j).nodal_values zeta m)).2
                * element_dzeta_e b fixed dzeta i j m)) *
            (if element_thickness c b i j q ≥ c.min_thickness then
              (c.effective_viscosity 1
                  (c.secondInvariant_2D
                    (quadrature_point_dx c.m_quadrature (element_u_e b u i j) q)
                    (quadrature_point_dy c.m_quadrature (element_u_e b u i j) q))).1
                * (2 * element_thickness c b i j q)
              else 0)) *
          ((c.m_quadrature.test_function_values q k).dx *
              (2 * (quadrature_point_dx c.m_quadrature (element_u_e b u i j) q).u
                + (quadrature_point_dy c.m_quadrature (element_u_e b u i j) q).v)
            + (c.m_quadrature.test_function_values q k).dy *
              (1 / 2 * ((quadrature_point_dy c.m_quadrature (element_u_e b u i j) q).u
                + (quadrature_point_dx c.m_quadrature (element_u_e b u i j) q).v))) := by
    intro k
    unfold design_du_e
    simp only []
    refine Finset.sum_congr rfl fun q _ => ?_
    rw [d_nuH_linear c hlin]
    rfl
  have hv : ∀ k, (design_du_e c b fixed zeta u dzeta i j k).v
      = ∑ q : Fin c.m_quadrature.n, c.m_quadrature.weighted_jacobian q *
          ((∑ m : Fin 4, (c.m_quadrature.test_function_values q m).val *
              ((c.toDesignVariable
                  ((ElementMap.reset b.m_grid i j).nodal_values zeta m)).2
                * element_dzeta_e b fixed dzeta i j m)) *
            (if element_thickness c b i j q ≥ c.min_thickness then
              (c.effective_viscosity 1
                  (c.secondInvariant_2D
                    (quadrature_point_dx c.m_quadrature (element_u_e b u i j) q)
                    (quadrature_point_dy c.m_quadrature (element_u_e b u i j) q))).1
                * (2 * element_thickness c b i j q)
              else 0)) *
          ((c.m_quadrature.test_function_values q k).dy *
              (2 * (quadrature_point_dy c.m_quadrature (element_u_e b u i j) q).v
                + (quadrature_point_dx c.m_quadrature (element_u_e b u i j) q).u)
            + (c.m_quadrature.test_function_values q k).dx *
              (1 / 2 * ((quadrature_point_dy c.m_quadrature (element_u_e b u i j) q).u
                + (quadrature_point_dx c.m_quadrature (element_u_e b u i j) q).v))) := by
    intro k
    unfold design_du_e
    simp only []
    refine Finset.sum_congr rfl fun q _ => ?_
    rw [d_nuH_linear c hlin]
    rfl
  simp only [hu, hv]
  exact h

end AdjointLemmas
section AdjointClaim

variable {R : Type} [LinearOrderedField R]

theorem design_du_e_congr (c : Collaborators R) (b : SSAFEM R)
    (fixed : Option (Int → Int → R)) (zeta : Int → Int → R) (u : Int → Int → Vector2 R)
    (dzeta other : Int → Int → R) (i j : Int)
    (h : ∀ k : Fin 4, other (i + i_offset k) (j + j_offset k)
      = dzeta (i + i_offset k) (j + j_offset k)) :
    design_du_e c b fixed zeta u other i j = design_du_e c b fixed zeta u dzeta i j := by
  have hE : element_dzeta_e b fixed other i j = element_dzeta_e b fixed dzeta i j := by
    funext k
    rw [element_dzeta_e_apply, element_dzeta_e_apply, h k]
  unfold design_du_e
  simp only [hE]

/-- The adjoint relation of the two assembly routines on arrays. -/
theorem adjoint_relation_on_arrays (c : Collaborators R) (b : SSAFEM R)
    (fixed : Option (Int → Int → R)) (zeta : Int → Int → R) (u : Int → Int → Vector2 R)
    (dzeta dzeta_local : Int → Int → R) (du : Int → Int → Vector2 R)
    (du_a : Int → Int → Vector2 R) (dzeta_a : Int → Int → R)
    (hlin : ∀ B gamma, (c.effective_viscosity B gamma).1
      = B * (c.effective_viscosity 1 gamma).1)
    (hnodes : ∀ e ∈ c.elements, ∀ k : Fin 4,
      (ElementMap.reset b.m_grid e.1 e.2).node k ∈ b.m_grid.points)
    (hlocal : ∀ i j, (i, j) ∈ b.m_grid.points → dzeta_local i j = dzeta i j) :
    dotV b.m_grid (apply_jacobian_design_array c b fixed zeta u dzeta_local du_a) du
      = dotS b.m_grid dzeta
          (apply_jacobian_design_transpose_array c b fixed zeta u du dzeta_a) := by
  rw [dotV_apply_jacobian_design c b fixed zeta u dzeta_local du_a du hnodes,
    dotS_apply_jacobian_design_transpose c b fixed zeta u du dzeta_a dzeta hnodes]
  refine congrArg List.sum (List.map_congr_left fun e he => ?_)
  rw [design_du_e_congr c b fixed zeta u dzeta dzeta_local e.1 e.2
    (fun k => hlocal _ _ (hnodes e he k))]
  exact element_adjoint c b fixed zeta u dzeta du e.1 e.2 hlin

/-- C3: adjoint consistency of the design Jacobian.  On a grid all of whose element
nodes are owned points (one rank, no periodic wrap) and with a flow law whose viscosity
is linear in the hardness, for every state `u`, design `zeta`, design perturbation
`dzeta` and state perturbation `du`, the scalar product over the grid of
`apply_jacobian_design(u, dzeta)` with `du` equals the scalar product of `dzeta` with
`apply_jacobian_design_transpose(u, du)`; the contents of the output arrays before the
calls and the work vectors of the object do not matter. -/
theorem design_jacobian_adjoint (c : Collaborators R) (s : IP_SSAHardavForwardProblem R)
    (zeta : IceModelVec R) (u : IceModelVec (Vector2 R)) (dzeta : IceModelVec R)
    (du : IceModelVec (Vector2 R)) (du_a : Int → Int → Vector2 R) (dzeta_out : IceModelVec R)
    (hlin : ∀ B gamma, (c.effective_viscosity B gamma).1
      = B * (c.effective_viscosity 1 gamma).1)
    (hnodes : ∀ e ∈ c.elements, ∀ k : Fin 4,
      (ElementMap.reset s.base.m_grid e.1 e.2).node k ∈ s.base.m_grid.points) :
    dotV s.base.m_grid (apply_jacobian_design c s zeta u dzeta du_a).2 du.a
      = dotS s.base.m_grid dzeta.a
          (apply_jacobian_design_transpose c s zeta u du dzeta_out).2.a := by
  have hT : (apply_jacobian_design_transpose c s zeta u du dzeta_out).2.a
      = apply_jacobian_design_transpose_array c s.base s.m_fixed_design_locations zeta.a u.a
          du.a dzeta_out.a := by
    unfold apply_jacobian_design_transpose
    rfl
  rw [hT]
  unfold apply_jacobian_design
  simp only []
  split
  · exact adjoint_relation_on_arrays c s.base s.m_fixed_design_locations zeta.a u.a
      dzeta.a dzeta.a du.a du_a dzeta_out.a hlin hnodes (fun _ _ _ => rfl)
  · exact adjoint_relation_on_arrays c s.base s.m_fixed_design_locations zeta.a u.a
      dzeta.a _ du.a du_a dzeta_out.a hlin hnodes
      (fun i j hij => copy_from_owned s.base.m_grid s.m_dzeta_local dzeta i j hij)

end AdjointClaim
section ExampleLemmas

variable {R : Type} [LinearOrderedField R]

theorem list_sum_ite_eq (P : List (Int × Int)) (hP : P.Nodup) (p : Int × Int) (hp : p ∈ P)
    (f : Int × Int → R) : (P.map fun q => if p = q then f q else 0).sum = f p := by
  rw [← List.sum_toFinset _ hP, Finset.sum_ite_eq P.toFinset p f,
    if_pos (List.mem_toFinset.mpr hp)]

/-- The product of a block-diagonal matrix with a vector, at an owned point. -/
theorem MatMult_blockDiagonal (g : IceGrid R) (m : Fin 2 → Fin 2 → R)
    (x : Int → Int → Vector2 R) (i j : Int) (h : (i, j) ∈ g.points) :
    MatMult g (blockDiagonal m) x i j
      = { u := m 0 0 * (x i j).u + m 0 1 * (x i j).v,
          v := m 1 0 * (x i j).u + m 1 1 * (x i j).v } := by
  unfold MatMult blockDiagonal
  rw [Vector2.ext_iff2]
  simp only []
  constructor
  · rw [← list_sum_ite_eq g.points (points_nodup g) (i, j) h
      (fun q => m 0 0 * (x q.1 q.2).u + m 0 1 * (x q.1 q.2).v)]
    refine congrArg List.sum (List.map_congr_left fun q _ => ?_)
    split <;> ring
  · rw [← list_sum_ite_eq g.points (points_nodup g) (i, j) h
      (fun q => m 1 0 * (x q.1 q.2).u + m 1 1 * (x q.1 q.2).v)]
    refine congrArg List.sum (List.map_congr_left fun q _ => ?_)
    split <;> ring

/-- The solver `checkedSolve` keeps the contract of the linear-solve service. -/
theorem checkedSolve_contract (J Jinv : Mat R) :
    SolverContract (collaborators2 R J Jinv) (grid2 R) := by
  intro A b _ _ hreason i j hij
  have hcheck : ∀ p ∈ (grid2 R).points,
      MatMult (grid2 R) A (MatMult (grid2 R) Jinv b) p.1 p.2 = b p.1 p.2 := by
    by_contra hno
    have hr : ((collaborators2 R J Jinv).KSPSolve A b).reason = -3 := by
      simp only [collaborators2, checkedSolve]
      rw [if_neg hno]
    rw [hr] at hreason
    omega
  exact hcheck (i, j) hij

/-- The solver `checkedSolve` reports convergence when it applies the inverse of a
block-diagonal matrix. -/
theorem checkedSolve_reason (g : IceGrid R) (m minv : Fin 2 → Fin 2 → R)
    (h00 : m 0 0 * minv 0 0 + m 0 1 * minv 1 0 = 1)
    (h01 : m 0 0 * minv 0 1 + m 0 1 * minv 1 1 = 0)
    (h10 : m 1 0 * minv 0 0 + m 1 1 * minv 1 0 = 0)
    (h11 : m 1 0 * minv 0 1 + m 1 1 * minv 1 1 = 1)
    (b : Int → Int → Vector2 R) :
    (checkedSolve g (blockDiagonal minv) (blockDiagonal m) b).reason = 2 := by
  have hcheck : ∀ p ∈ g.points,
      MatMult g (blockDiagonal m) (MatMult g (blockDiagonal minv) b) p.1 p.2
        = b p.1 p.2 := by
    intro p hp
    rw [MatMult_blockDiagonal g m _ p.1 p.2 hp, MatMult_blockDiagonal g minv b p.1 p.2 hp,
      Vector2.ext_iff2]
    simp only []
    constructor
    · linear_combination (b p.1 p.2).u * h00 + (b p.1 p.2).v * h01
    · linear_combination (b p.1 p.2).u * h10 + (b p.1 p.2).v * h11
  simp only [checkedSolve]
  rw [if_pos hcheck]

theorem problem2_zeta (J Jinv : Mat R) : (problem2 R J Jinv).m_zeta = some 0 := rfl

theorem problem2_current (J Jinv : Mat R) :
    JStateCurrent (collaborators2 R J Jinv) (problem2 R J Jinv) := by
  intro h
  simp [problem2, set_design] at h

theorem problem2_grid (J Jinv : Mat R) : (problem2 R J Jinv).base.m_grid = grid2 R := rfl

theorem collaborators2_nodes (J Jinv : Mat R) :
    ∀ e ∈ (collaborators2 R J Jinv).elements, ∀ k : Fin 4,
      (ElementMap.reset (problem2 R J Jinv).base.m_grid e.1 e.2).node k
        ∈ (problem2 R J Jinv).base.m_grid.points := by
  intro e he k
  rw [problem2_grid]
  have he2 : e = (0, 0) := by
    have h := he
    simp only [Collaborators.elements, collaborators2] at h
    obtain ⟨e1, e2⟩ := e
    rw [mem_rectangle_iff] at h
    simp only [Prod.mk.injEq]
    omega
  subst he2
  rw [reset_node, mem_points_iff]
  simp only [grid2, i_offset, j_offset]
  fin_cases k <;> simp

end ExampleLemmas
section ExampleValues

variable {R : Type} [LinearOrderedField R]

theorem problem2_thickness (J Jinv : Mat R) (i j : Int) :
    ((problem2 R J Jinv).base.m_coeffs i j).thickness = 1 := by
  unfold problem2
  rw [set_design_coeffs]
  split <;> rfl

theorem collaborators2_elements (J Jinv : Mat R) :
    (collaborators2 R J Jinv).elements = [(0, 0)] := rfl

theorem zero_zero_mem_grid2 : ((0 : Int), (0 : Int)) ∈ (grid2 R).points := by
  rw [mem_points_iff]
  simp [grid2]

/-- The value of `apply_jacobian_design_transpose` at the point `(0, 0)` of the example,
in terms of the nodal values of the state perturbation. -/
theorem example_transpose_value (J Jinv : Mat R) (y : Int → Int → Vector2 R)
    (dzeta_a : Int → Int → R) :
    apply_jacobian_design_transpose_array (collaborators2 R J Jinv)
        (problem2 R J Jinv).base (problem2 R J Jinv).m_fixed_design_locations
        (memory2 R 0).a (problem2 R J Jinv).base.m_velocity.a y dzeta_a 0 0
      = 1 / 4 * ((-(1 / 2) * (y 0 0).u - 1 / 2 * (y 1 0).u + 1 / 2 * (y 1 1).u
            + 1 / 2 * (y 0 1).u)
          + (-(1 / 2) * (y 0 0).v + 1 / 2 * (y 1 0).v + 1 / 2 * (y 1 1).v
            - 1 / 2 * (y 0 1).v)) := by
  rw [apply_jacobian_design_transpose_array_apply _ _ _ _ _ _ _ 0 0
    (by rw [problem2_grid]; exact zero_zero_mem_grid2)]
  have hfix : (problem2 R J Jinv).m_fixed_design_locations = none := rfl
  rw [hfix, flagged_none, collaborators2_elements]
  simp only [Bool.false_eq_true, if_false, List.map_cons, List.map_nil, List.sum_cons,
    List.sum_nil, add_zero, Fin.sum_univ_four, reset_node]
  have hmask : (problem2 R J Jinv).base.m_bc_mask = none := rfl
  have hvel : (problem2 R J Jinv).base.m_velocity.a
      = fun _ j => { u := (j : R), v := 0 } := rfl
  have hth : ∀ q, element_thickness (collaborators2 R J Jinv) (problem2 R J Jinv).base 0 0 q
      = 1 := by
    intro q
    simp only [element_thickness, collaborators2]
    exact problem2_thickness J Jinv _ _
  simp only [transpose_dzeta_e, hth]
  simp [i_offset, j_offset, collaborators2, quadrature1, quadrature_point_dx,
    quadrature_point_dy, element_u_e, hmask, DirichletData_Vector.active, hvel,
    ElementMap.nodal_values, ElementMap.node, ElementMap.reset, Fin.sum_univ_four, memory2,
    transpose_du_e_apply, flagged_none]
  ring

end ExampleValues
section Witnesses

variable {R : Type} [LinearOrderedField R]

theorem identityBlock_inverse :
    identityBlock R 0 0 * identityBlock R 0 0 + identityBlock R 0 1 * identityBlock R 1 0 = 1 ∧
    identityBlock R 0 0 * identityBlock R 0 1 + identityBlock R 0 1 * identityBlock R 1 1 = 0 ∧
    identityBlock R 1 0 * identityBlock R 0 0 + identityBlock R 1 1 * identityBlock R 1 0 = 0 ∧
    identityBlock R 1 0 * identityBlock R 0 1 + identityBlock R 1 1 * identityBlock R 1 1
      = 1 := by
  simp [identityBlock]

theorem upperBlock_inverse :
    upperBlock R 0 0 * upperBlockInverse R 0 0 + upperBlock R 0 1 * upperBlockInverse R 1 0
      = 1 ∧
    upperBlock R 0 0 * upperBlockInverse R 0 1 + upperBlock R 0 1 * upperBlockInverse R 1 1
      = 0 ∧
    upperBlock R 1 0 * upperBlockInverse R 0 0 + upperBlock R 1 1 * upperBlockInverse R 1 0
      = 0 ∧
    upperBlock R 1 0 * upperBlockInverse R 0 1 + upperBlock R 1 1 * upperBlockInverse R 1 1
      = 1 := by
  simp [upperBlock, upperBlockInverse]

/-- In the examples the linear solve of `apply_linearization` converges. -/
theorem example_linearization_reason (m minv : Fin 2 → Fin 2 → R)
    (h : m 0 0 * minv 0 0 + m 0 1 * minv 1 0 = 1 ∧ m 0 0 * minv 0 1 + m 0 1 * minv 1 1 = 0 ∧
      m 1 0 * minv 0 0 + m 1 1 * minv 1 0 = 0 ∧ m 1 0 * minv 0 1 + m 1 1 * minv 1 1 = 1)
    (dzeta : IceModelVec R) :
    (linearization_solve (collaborators2 R (blockDiagonal m) (blockDiagonal minv))
      (memory2 R) (problem2 R (blockDiagonal m) (blockDiagonal minv)) 0 dzeta).reason = 2 := by
  have hA := (linearization_rhs_system
    (collaborators2 R (blockDiagonal m) (blockDiagonal minv))
    (problem2 R (blockDiagonal m) (blockDiagonal minv)) (memory2 R 0) dzeta
    (problem2_current _ _)).1
  unfold linearization_solve
  rw [hA]
  exact checkedSolve_reason (grid2 R) m minv h.1 h.2.1 h.2.2.1 h.2.2.2 _

/-- In the examples the linear solve of `apply_linearization_transpose` converges. -/
theorem example_transpose_reason (m minv : Fin 2 → Fin 2 → R)
    (h : m 0 0 * minv 0 0 + m 0 1 * minv 1 0 = 1 ∧ m 0 0 * minv 0 1 + m 0 1 * minv 1 1 = 0 ∧
      m 1 0 * minv 0 0 + m 1 1 * minv 1 0 = 0 ∧ m 1 0 * minv 0 1 + m 1 1 * minv 1 1 = 1)
    (du : IceModelVec (Vector2 R)) :
    (transpose_solve (collaborators2 R (blockDiagonal m) (blockDiagonal minv))
      (problem2 R (blockDiagonal m) (blockDiagonal minv)) du).reason = 2 := by
  have hA := (transpose_rhs_system
    (collaborators2 R (blockDiagonal m) (blockDiagonal minv))
    (problem2 R (blockDiagonal m) (blockDiagonal minv)) du (problem2_current _ _)).1
  unfold transpose_solve
  rw [hA]
  exact checkedSolve_reason (grid2 R) m minv h.1 h.2.1 h.2.2.1 h.2.2.2 _

/-- Witness of C1: the example with the identity as state Jacobian, over the rationals. -/
theorem apply_linearization_solves_state_system_witness :
    (problemI ℚ).m_zeta = some 0 ∧
    JStateCurrent (collaboratorsI ℚ) (problemI ℚ) ∧
    SolverContract (collaboratorsI ℚ) (problemI ℚ).base.m_grid ∧
    linearization_operators_code (collaboratorsI ℚ) (memory2 ℚ) (problemI ℚ) 0 (dzeta2 ℚ) = 0 ∧
    (linearization_solve (collaboratorsI ℚ) (memory2 ℚ) (problemI ℚ) 0 (dzeta2 ℚ)).ierr = 0 ∧
    (linearization_solve (collaboratorsI ℚ) (memory2 ℚ) (problemI ℚ) 0
      (dzeta2 ℚ)).reason_ierr = 0 ∧
    0 ≤ (linearization_solve (collaboratorsI ℚ) (memory2 ℚ) (problemI ℚ) 0
      (dzeta2 ℚ)).reason ∧
    (apply_linearization (collaboratorsI ℚ) (memory2 ℚ) (problemI ℚ) (dzeta2 ℚ)
      (duOut2 ℚ)).status = Status.returned ∧
    (∀ i j, (i, j) ∈ (problemI ℚ).base.m_grid.points →
      MatMult (problemI ℚ).base.m_grid
          (assemble_jacobian_state (collaboratorsI ℚ) (problemI ℚ).base
            (problemI ℚ).base.m_velocity)
          (apply_linearization (collaboratorsI ℚ) (memory2 ℚ) (problemI ℚ) (dzeta2 ℚ)
            (duOut2 ℚ)).out.a i j
        = -(apply_jacobian_design (collaboratorsI ℚ) (problemI ℚ) (memory2 ℚ 0)
            (problemI ℚ).base.m_velocity (dzeta2 ℚ) (problemI ℚ).m_du_global.a).2 i j) :=
  have hreason := example_linearization_reason (identityBlock ℚ) (identityBlock ℚ)
    identityBlock_inverse (dzeta2 ℚ)
  have h := apply_linearization_solves_state_system (collaboratorsI ℚ) (memory2 ℚ)
    (problemI ℚ) 0 (dzeta2 ℚ) (duOut2 ℚ) rfl (problem2_current _ _)
    (checkedSolve_contract _ _) rfl rfl rfl (hreason ▸ by decide)
  ⟨rfl, problem2_current _ _, checkedSolve_contract _ _, rfl, rfl, rfl,
    hreason ▸ by decide, h.1, h.2.1⟩

/-- Witness of C3: the example over the rationals, whose viscosity is the hardness and
whose single element has its four nodes on the grid. -/
theorem design_jacobian_adjoint_witness :
    (∀ B gamma : ℚ, ((collaboratorsI ℚ).effective_viscosity B gamma).1
      = B * ((collaboratorsI ℚ).effective_viscosity 1 gamma).1) ∧
    (∀ e ∈ (collaboratorsI ℚ).elements, ∀ k : Fin 4,
      (ElementMap.reset (problemI ℚ).base.m_grid e.1 e.2).node k
        ∈ (problemI ℚ).base.m_grid.points) ∧
    dotV (problemI ℚ).base.m_grid
        (apply_jacobian_design (collaboratorsI ℚ) (problemI ℚ) (memory2 ℚ 0)
          (problemI ℚ).base.m_velocity (dzeta2 ℚ) (duOut2 ℚ).a).2 (du2 ℚ).a
      = dotS (problemI ℚ).base.m_grid (dzeta2 ℚ).a
          (apply_jacobian_design_transpose (collaboratorsI ℚ) (problemI ℚ) (memory2 ℚ 0)
            (problemI ℚ).base.m_velocity (du2 ℚ) (dzetaOut2 ℚ)).2.a :=
  have hlin : ∀ B gamma : ℚ, ((collaboratorsI ℚ).effective_viscosity B gamma).1
      = B * ((collaboratorsI ℚ).effective_viscosity 1 gamma).1 :=
    fun B _ => (mul_one B).symm
  ⟨hlin, collaborators2_nodes _ _,
    design_jacobian_adjoint (collaboratorsI ℚ) (problemI ℚ) (memory2 ℚ 0)
      (problemI ℚ).base.m_velocity (dzeta2 ℚ) (du2 ℚ) (duOut2 ℚ).a (dzetaOut2 ℚ) hlin
      (collaborators2_nodes _ _)⟩

/-- An instance of C6: the example over the rationals, where `m_zeta` points to the
design at address 0 and the solver converges, so that `apply_linearization` does not
raise the solver's exception. -/
theorem linear_solve_failure_raises_witness :
    (problemI ℚ).m_zeta = some 0 ∧
    ((apply_linearization (collaboratorsI ℚ) (memory2 ℚ) (problemI ℚ) (dzeta2 ℚ)
          (du2 ℚ)).status
        = Status.raised (solve_failed (collaboratorsI ℚ) solve_failed_format
            (linearization_solve (collaboratorsI ℚ) (memory2 ℚ) (problemI ℚ) 0
              (dzeta2 ℚ)).reason) ↔
      linearization_operators_code (collaboratorsI ℚ) (memory2 ℚ) (problemI ℚ) 0
          (dzeta2 ℚ) = 0 ∧
      (linearization_solve (collaboratorsI ℚ) (memory2 ℚ) (problemI ℚ) 0 (dzeta2 ℚ)).ierr
          = 0 ∧
      (linearization_solve (collaboratorsI ℚ) (memory2 ℚ) (problemI ℚ) 0
          (dzeta2 ℚ)).reason_ierr = 0 ∧
      (linearization_solve (collaboratorsI ℚ) (memory2 ℚ) (problemI ℚ) 0 (dzeta2 ℚ)).reason
          < 0) :=
  ⟨rfl, (linear_solve_failure_raises (collaboratorsI ℚ) (memory2 ℚ) (problemI ℚ) (dzeta2 ℚ)
    (du2 ℚ)).1 0 rfl⟩

end Witnesses
section TransposeCounterexample

variable {R : Type} [LinearOrderedField R]

theorem MatTranspose_blockDiagonal (m : Fin 2 → Fin 2 → R) :
    MatTranspose (blockDiagonal m) = blockDiagonal (fun c d => m d c) := by
  unfold MatTranspose blockDiagonal
  congr 1
  funext p c q d
  by_cases h : p = q
  · simp [h]
  · have h2 : ¬ q = p := fun e => h e.symm
    simp [h, h2]

theorem mem_grid2 (i j : Int) (hi : 0 ≤ i ∧ i < 2) (hj : 0 ≤ j ∧ j < 2) :
    (i, j) ∈ (grid2 R).points := by
  rw [mem_points_iff]
  simp only [grid2]
  omega

/-- The symmetry of the state Jacobian cannot be dropped from the hypotheses: in the
example whose state Jacobian is the upper triangular `upperMat`, which is not symmetric
(the solver is exact and reports convergence, the call returns normally), no vector `y`
that solves the system of the transposed state Jacobian, `J_stateᵀ y = du`, gives the
output as `-(apply_jacobian_design_transpose(m_velocity, y))`: the method hands
`m_J_state` itself to the solver. -/
theorem apply_linearization_transpose_not_transposed :
    SolverContract (collaboratorsU ℚ) (problemU ℚ).base.m_grid ∧
    (apply_linearization_transpose (collaboratorsU ℚ) (memory2 ℚ) (problemU ℚ) (du2 ℚ)
      (dzetaOut2 ℚ)).status = Status.returned ∧
    ¬ ∃ y : Int → Int → Vector2 ℚ,
      (∀ i j, (i, j) ∈ (problemU ℚ).base.m_grid.points →
        MatMult (problemU ℚ).base.m_grid
            (MatTranspose (assemble_jacobian_state (collaboratorsU ℚ) (problemU ℚ).base
              (problemU ℚ).base.m_velocity)) y i j
          = (du2 ℚ).a i j) ∧
      (∀ i j, (i, j) ∈ (problemU ℚ).base.m_grid.points →
        (apply_linearization_transpose (collaboratorsU ℚ) (memory2 ℚ) (problemU ℚ) (du2 ℚ)
            (dzetaOut2 ℚ)).out.a i j
          = -apply_jacobian_design_transpose_array (collaboratorsU ℚ) (problemU ℚ).base
              (problemU ℚ).m_fixed_design_locations (memory2 ℚ 0).a
              (problemU ℚ).base.m_velocity.a y (dzetaOut2 ℚ).a i j) := by
  have hreason := example_transpose_reason (upperBlock ℚ) (upperBlockInverse ℚ)
    upperBlock_inverse (du2 ℚ)
  have spec := transpose_linearization_spec (collaboratorsU ℚ) (memory2 ℚ) (problemU ℚ) 0
    (du2 ℚ) (dzetaOut2 ℚ) rfl (problem2_current _ _) (checkedSolve_contract _ _) rfl rfl rfl
    (hreason ▸ by decide)
  refine ⟨checkedSolve_contract _ _, spec.1, ?_⟩
  rintro ⟨y, hy, hout⟩
  have h00 : ((0 : Int), (0 : Int)) ∈ (grid2 ℚ).points := mem_grid2 0 0 (by omega) (by omega)
  have h10 : ((1 : Int), (0 : Int)) ∈ (grid2 ℚ).points := mem_grid2 1 0 (by omega) (by omega)
  have h01 : ((0 : Int), (1 : Int)) ∈ (grid2 ℚ).points := mem_grid2 0 1 (by omega) (by omega)
  have h11 : ((1 : Int), (1 : Int)) ∈ (grid2 ℚ).points := mem_grid2 1 1 (by omega) (by omega)
  -- the vector of the solve: `J x = du`
  have hx : ∀ i j, (i, j) ∈ (grid2 ℚ).points →
      ((transpose_solve (collaboratorsU ℚ) (problemU ℚ) (du2 ℚ)).x i j).u = -(j : ℚ) ∧
      ((transpose_solve (collaboratorsU ℚ) (problemU ℚ) (du2 ℚ)).x i j).v = (j : ℚ) := by
    intro i j hij
    have h := spec.2.1 i j hij
    have hJ : assemble_jacobian_state (collaboratorsU ℚ) (problemU ℚ).base
        (problemU ℚ).base.m_velocity = blockDiagonal (upperBlock ℚ) := rfl
    have hg : (problemU ℚ).base.m_grid = grid2 ℚ := rfl
    have hm : (problemU ℚ).base.m_bc_mask = none := rfl
    have hd : (du2 ℚ).a i j = { u := 0, v := (j : ℚ) } := rfl
    rw [hJ, hg, MatMult_blockDiagonal _ _ _ i j hij, hm, flagged_none, hd,
      Vector2.ext_iff2] at h
    generalize (transpose_solve (collaboratorsU ℚ) (problemU ℚ) (du2 ℚ)).x i j = X at h ⊢
    simp [upperBlock] at h
    constructor <;> linarith [h.1, h.2]
  -- a solution of the transposed system: `Jᵀ y = du`
  have hyv : ∀ i j, (i, j) ∈ (grid2 ℚ).points →
      (y i j).u = 0 ∧ (y i j).v = (j : ℚ) := by
    intro i j hij
    have h := hy i j hij
    have hJ : assemble_jacobian_state (collaboratorsU ℚ) (problemU ℚ).base
        (problemU ℚ).base.m_velocity = blockDiagonal (upperBlock ℚ) := rfl
    have hg : (problemU ℚ).base.m_grid = grid2 ℚ := rfl
    have hd : (du2 ℚ).a i j = { u := 0, v := (j : ℚ) } := rfl
    rw [hJ, hg, MatTranspose_blockDiagonal, MatMult_blockDiagonal _ _ _ i j hij, hd,
      Vector2.ext_iff2] at h
    simp [upperBlock] at h
    constructor <;> linarith [h.1, h.2]
  have e1 := spec.2.2.1 0 0 h00
  have e2 := hout 0 0 h00
  rw [e1] at e2
  have hU : collaboratorsU ℚ = collaborators2 ℚ (upperMat ℚ) (upperMatInverse ℚ) := rfl
  have hP : problemU ℚ = problem2 ℚ (upperMat ℚ) (upperMatInverse ℚ) := rfl
  rw [hU, hP] at e2
  rw [example_transpose_value, example_transpose_value] at e2
  rw [← hU, ← hP] at e2
  obtain ⟨a1, a2⟩ := hx 0 0 h00
  obtain ⟨b1, b2⟩ := hx 1 0 h10
  obtain ⟨c1, c2⟩ := hx 0 1 h01
  obtain ⟨d1, d2⟩ := hx 1 1 h11
  obtain ⟨p1, p2⟩ := hyv 0 0 h00
  obtain ⟨q1, q2⟩ := hyv 1 0 h10
  obtain ⟨r1, r2⟩ := hyv 0 1 h01
  obtain ⟨s1, s2⟩ := hyv 1 1 h11
  rw [a1, a2, b1, b2, c1, c2, d1, d2, p1, p2, q1, q2, r1, r2, s1, s2] at e2
  norm_num at e2

end TransposeCounterexample

section DiagnosticsLemmas

variable {R : Type} [LinearOrderedField R]

omit [LinearOrderedField R] in
theorem foldl_write3_of_mem (f : Int → Int → R × R × R) (l : List (Int × Int))
    (data : Int → Int → Nat → R) (i j : Int) (h : (i, j) ∈ l) :
    (l.foldl (fun data p => write3 data p (f p.1 p.2)) data) i j 0 = (f i j).1 ∧
    (l.foldl (fun data p => write3 data p (f p.1 p.2)) data) i j 1 = (f i j).2.1 ∧
    (l.foldl (fun data p => write3 data p (f p.1 p.2)) data) i j 2 = (f i j).2.2 := by
  induction l using List.reverseRecOn with
  | nil => simp at h
  | append_singleton l p ih =>
    rw [List.foldl_append]
    simp only [List.foldl_cons, List.foldl_nil]
    by_cases hp : (i, j) = p
    · subst hp
      simp [write3]
    · have hl : (i, j) ∈ l := by
        rcases List.mem_append.mp h with h1 | h1
        · exact h1
        · simp at h1
          exact absurd h1 hp
      simpa [write3, hp] using ih hl

/-- The in-place form and the `Except` form of `compute_2D_principal_strain_rates` are
the same function. -/
theorem compute_2D_principal_strain_rates_in_place_eq (sqrt : R → R) (ice_free : Int → Bool)
    (g : IceGrid R) (velocity : Int → Int → Vector2 R) (mask : Int → Int → Int)
    (result : IceModelVec2 R) :
    compute_2D_principal_strain_rates sqrt ice_free g velocity mask result
      = match (compute_2D_principal_strain_rates_in_place sqrt ice_free g velocity mask
          result).raised with
        | some e => Except.error e
        | none => Except.ok (compute_2D_principal_strain_rates_in_place sqrt ice_free g
            velocity mask result).result := by
  unfold compute_2D_principal_strain_rates compute_2D_principal_strain_rates_in_place
  split <;> rfl

/-- The traced finite differences compute the derivatives of `finiteDifferences`. -/
theorem finiteDifferencesTraced_fst (ice_free : Int → Bool) (dx dy : R) (m : planeStar Int)
    (U : planeStar (Vector2 R)) :
    (finiteDifferencesTraced ice_free dx dy m U).1 = finiteDifferences ice_free dx dy m U := by
  unfold finiteDifferencesTraced finiteDifferences
  simp only []
  split <;> split <;> rfl

theorem neighbourWeight_nonneg (ice_free : Int → Bool) (m : Int) :
    (0 : R) ≤ neighbourWeight ice_free m := by
  unfold neighbourWeight
  split
  · exact le_refl 0
  · exact zero_le_one

theorem neighbourWeight_ice_free (ice_free : Int → Bool) (m : Int) (h : ice_free m = true) :
    (neighbourWeight ice_free m : R) = 0 := by
  simp [neighbourWeight, h]

/-- Every division that the finite differences execute has a positive weight sum. -/
theorem finiteDifferencesTraced_weights (ice_free : Int → Bool) (dx dy : R)
    (m : planeStar Int) (U : planeStar (Vector2 R)) :
    ∀ q ∈ (finiteDifferencesTraced ice_free dx dy m U).2, 0 < q.weights := by
  intro q hq
  unfold finiteDifferencesTraced at hq
  simp only [List.mem_append] at hq
  rcases hq with hq | hq
  · split at hq
    · rename_i hpos
      simp only [List.mem_cons, List.mem_singleton, or_self, List.not_mem_nil, or_false] at hq
      rw [hq]
      exact hpos
    · simp at hq
  · split at hq
    · rename_i hpos
      simp only [List.mem_cons, List.mem_singleton, or_self, List.not_mem_nil, or_false] at hq
      rw [hq]
      exact hpos
    · simp at hq

/-- With both neighbours of the x direction ice-free, the x derivatives are zero. -/
theorem finiteDifferences_x_zero (ice_free : Int → Bool) (dx dy : R) (m : planeStar Int)
    (U : planeStar (Vector2 R)) (he : ice_free m.e = true) (hw : ice_free m.w = true) :
    (finiteDifferences ice_free dx dy m U).u_x = 0 ∧
    (finiteDifferences ice_free dx dy m U).v_x = 0 := by
  simp [finiteDifferences, neighbourWeight, he, hw]

/-- With both neighbours of the y direction ice-free, the y derivatives are zero. -/
theorem finiteDifferences_y_zero (ice_free : Int → Bool) (dx dy : R) (m : planeStar Int)
    (U : planeStar (Vector2 R)) (hn : ice_free m.n = true) (hs : ice_free m.s = true) :
    (finiteDifferences ice_free dx dy m U).u_y = 0 ∧
    (finiteDifferences ice_free dx dy m U).v_y = 0 := by
  simp [finiteDifferences, neighbourWeight, hn, hs]

/-- What `compute_2D_stresses` leaves at an owned cell of a field with three
components. -/
theorem compute_2D_stresses_at (ssb : ShallowStressBalance R)
    (velocity : Int → Int → Vector2 R) (mask : Int → Int → Int) (result : IceModelVec2 R)
    (hdof : result.ndof = 3) (i j : Int) (hij : (i, j) ∈ ssb.m_grid.points) :
    (compute_2D_stresses ssb velocity mask result).raised = none ∧
    (compute_2D_stresses ssb velocity mask result).result.data i j 0
      = (stressesAt ssb (ssb.pow (ssb.m_config "ice_softness")
          (-1 / ssb.m_config "ssa_Glen_exponent")) velocity mask i j).1 ∧
    (compute_2D_stresses ssb velocity mask result).result.data i j 1
      = (stressesAt ssb (ssb.pow (ssb.m_config "ice_softness")
          (-1 / ssb.m_config "ssa_Glen_exponent")) velocity mask i j).2.1 ∧
    (compute_2D_stresses ssb velocity mask result).result.data i j 2
      = (stressesAt ssb (ssb.pow (ssb.m_config "ice_softness")
          (-1 / ssb.m_config "ssa_Glen_exponent")) velocity mask i j).2.2 := by
  unfold compute_2D_stresses
  simp only [hdof, ne_eq, not_true_eq_false, if_false, true_and]
  exact foldl_write3_of_mem _ _ _ i j hij

/-- What `compute_basal_frictional_heating` leaves at an owned cell. -/
theorem compute_basal_frictional_heating_at (ssb : ShallowStressBalance R)
    (velocity : Int → Int → Vector2 R) (tauc : Int → Int → R) (mask : Int → Int → Int)
    (result : Int → Int → R) (i j : Int) (hij : (i, j) ∈ ssb.m_grid.points) :
    compute_basal_frictional_heating ssb velocity tauc mask result i j
      = basalFrictionalHeatingAt ssb velocity tauc mask i j := by
  unfold compute_basal_frictional_heating
  rw [foldl_setCell (fun p _ => basalFrictionalHeatingAt ssb velocity tauc mask p.1 p.2)
    ssb.m_grid.points (points_nodup ssb.m_grid) result i j, if_pos hij]

end DiagnosticsLemmas

section DiagnosticsClaims

variable {R : Type} [LinearOrderedField R]

/-- C11: with a result field of two components, `compute_2D_principal_strain_rates`
returns normally and, for every velocity field and every mask, the result holds exactly
`(0, 0)` at every owned cell whose own mask value is ice-free; neither the velocities nor
the mask values of the neighbours enter. -/
theorem principal_strain_rates_zero_at_ice_free (sqrt : R → R) (ice_free : Int → Bool)
    (g : IceGrid R) (velocity : Int → Int → Vector2 R) (mask : Int → Int → Int)
    (result : IceModelVec2 R) (hdof : result.ndof = 2) :
    ∃ out, compute_2D_principal_strain_rates sqrt ice_free g velocity mask result
        = Except.ok out ∧
      ∀ i j, (i, j) ∈ g.points → ice_free (mask i j) = true →
        out.data i j 0 = 0 ∧ out.data i j 1 = 0 := by
  obtain ⟨out, hout, hval⟩ :=
    compute_2D_principal_strain_rates_at sqrt ice_free g velocity mask result hdof
  refine ⟨out, hout, ?_⟩
  intro i j hij hfree
  obtain ⟨h0, h1⟩ := hval i j hij
  rw [h0, h1]
  simp [principalStrainRatesAt, hfree]

/-- Witness of C11: on the 3 by 3 grid with the mask `maskIsland`, whose cell
`(0, 0)` is ice-free. -/
theorem principal_strain_rates_zero_at_ice_free_witness :
    (result2 ℚ).ndof = 2 ∧
    ∃ out, compute_2D_principal_strain_rates Rat.sqrt ice_free_example (grid3 ℚ)
        (velocity3 ℚ) maskIsland (result2 ℚ) = Except.ok out ∧
      ∀ i j, (i, j) ∈ (grid3 ℚ).points → ice_free_example (maskIsland i j) = true →
        out.data i j 0 = 0 ∧ out.data i j 1 = 0 :=
  ⟨rfl, principal_strain_rates_zero_at_ice_free Rat.sqrt ice_free_example (grid3 ℚ)
    (velocity3 ℚ) maskIsland (result2 ℚ) rfl⟩

/-- C12: at every owned icy cell `(i, j)`, the derivatives from which
`compute_2D_principal_strain_rates` and `compute_2D_stresses` compute what they write
(the traced finite differences `d`, equal to `cellDerivatives`) satisfy: `u_x = v_x = 0`
when the east and the west neighbour are ice-free, `u_y = v_y = 0` when the north and
the south neighbour are ice-free, and every division executed has a positive weight sum
in its divisor, so none divides by a zero weight sum. -/
theorem derivatives_zero_between_ice_free_neighbours (sqrt : R → R)
    (ssb : ShallowStressBalance R) (velocity : Int → Int → Vector2 R)
    (mask : Int → Int → Int) (strain_rates stresses : IceModelVec2 R)
    (h2 : strain_rates.ndof = 2) (h3 : stresses.ndof = 3) (i j : Int)
    (hij : (i, j) ∈ ssb.m_grid.points) (hicy : ssb.ice_free (mask i j) = false) :
    let t := finiteDifferencesTraced ssb.ice_free ssb.m_grid.dx ssb.m_grid.dy (star mask i j)
      (star velocity i j)
    let d := t.1
    let nu := ssb.effective_viscosity
      (ssb.pow (ssb.m_config "ice_softness") (-1 / ssb.m_config "ssa_Glen_exponent"))
      (ssb.secondInvariant_2D d.u_x d.u_y d.v_x d.v_y)
    let e := (compute_2D_principal_strain_rates_in_place sqrt ssb.ice_free ssb.m_grid velocity
      mask strain_rates).result
    let s := (compute_2D_stresses ssb velocity mask stresses).result
    d = cellDerivatives ssb.ice_free ssb.m_grid velocity mask i j ∧
    (e.data i j 0 = (principalValues sqrt d).1 ∧ e.data i j 1 = (principalValues sqrt d).2) ∧
    (s.data i j 0 = nu * d.u_x ∧ s.data i j 1 = nu * d.v_y ∧
      s.data i j 2 = 1 / 2 * nu * (d.u_y + d.v_x)) ∧
    (ssb.ice_free (mask (i + 1) j) = true → ssb.ice_free (mask (i - 1) j) = true →
      d.u_x = 0 ∧ d.v_x = 0) ∧
    (ssb.ice_free (mask i (j + 1)) = true → ssb.ice_free (mask i (j - 1)) = true →
      d.u_y = 0 ∧ d.v_y = 0) ∧
    (∀ q ∈ t.2, 0 < q.weights ∧ q.weights ≠ 0) := by
  intro t d nu e s
  have hd : d = cellDerivatives ssb.ice_free ssb.m_grid velocity mask i j :=
    finiteDifferencesTraced_fst _ _ _ _ _
  refine ⟨hd, ?_, ?_, ?_, ?_, ?_⟩
  · have h := foldl_write2_of_mem
      (principalStrainRatesAt sqrt ssb.ice_free ssb.m_grid velocity mask)
      ssb.m_grid.points strain_rates.data i j hij
    have he : e.data = ssb.m_grid.points.foldl
        (fun data p => write2 data p
          (principalStrainRatesAt sqrt ssb.ice_free ssb.m_grid velocity mask p.1 p.2))
        strain_rates.data := by
      simp only [e, compute_2D_principal_strain_rates_in_place, h2, ne_eq, not_true_eq_false,
        if_false]
    rw [he, h.1, h.2, hd]
    simp [principalStrainRatesAt, hicy]
  · obtain ⟨_, h0, h1, h2⟩ := compute_2D_stresses_at ssb velocity mask stresses h3 i j hij
    simp only [s, nu]
    rw [h0, h1, h2, hd]
    simp [stressesAt, hicy]
  · intro he hw
    rw [hd]
    exact finiteDifferences_x_zero _ _ _ _ _ he hw
  · intro hn hs
    rw [hd]
    exact finiteDifferences_y_zero _ _ _ _ _ hn hs
  · intro q hq
    have := finiteDifferencesTraced_weights _ _ _ _ _ q hq
    exact ⟨this, ne_of_gt this⟩

/-- Witness of C12: the cell `(1, 1)` of `maskIsland`, whose four neighbours are all
ice-free. -/
theorem derivatives_zero_between_ice_free_neighbours_witness :
    (result2 ℚ).ndof = 2 ∧ (result3 ℚ).ndof = 3 ∧
    ((1 : Int), (1 : Int)) ∈ (stressBalance3 ℚ).m_grid.points ∧
    (stressBalance3 ℚ).ice_free (maskIsland 1 1) = false ∧
    (stressBalance3 ℚ).ice_free (maskIsland (1 + 1) 1) = true ∧
    (stressBalance3 ℚ).ice_free (maskIsland (1 - 1) 1) = true ∧
    (finiteDifferencesTraced (stressBalance3 ℚ).ice_free (stressBalance3 ℚ).m_grid.dx
        (stressBalance3 ℚ).m_grid.dy (star maskIsland 1 1) (star (velocity3 ℚ) 1 1)).1.u_x
      = 0 :=
  ⟨rfl, rfl, by decide, rfl, rfl, rfl,
    ((derivatives_zero_between_ice_free_neighbours Rat.sqrt (stressBalance3 ℚ) (velocity3 ℚ)
      maskIsland (result2 ℚ) (result3 ℚ) rfl rfl 1 1 (by decide) rfl).2.2.2.1 rfl rfl).1⟩

/-- C13, as amended: for every velocity, yield-stress and mask field,
`compute_basal_frictional_heating` writes 0 at every owned ocean cell and, at every other
owned cell, `(drag * u) * u + (drag * v) * v`, the negative of the value in the claim,
where `drag = drag(tauc, u, v)` of the basal resistance law and `(u, v)` is the velocity
of the cell: the basal stress is `(-drag * u, -drag * v)` and the heating is minus its
product with the velocity. -/
theorem basal_frictional_heating_value (ssb : ShallowStressBalance R)
    (velocity : Int → Int → Vector2 R) (tauc : Int → Int → R) (mask : Int → Int → Int)
    (result : Int → Int → R) (i j : Int) (hij : (i, j) ∈ ssb.m_grid.points) :
    (ssb.ocean (mask i j) = true →
      compute_basal_frictional_heating ssb velocity tauc mask result i j = 0) ∧
    (ssb.ocean (mask i j) = false →
      compute_basal_frictional_heating ssb velocity tauc mask result i j
        = (ssb.drag (tauc i j) (velocity i j).u (velocity i j).v * (velocity i j).u)
            * (velocity i j).u
          + (ssb.drag (tauc i j) (velocity i j).u (velocity i j).v * (velocity i j).v)
            * (velocity i j).v) := by
  rw [compute_basal_frictional_heating_at ssb velocity tauc mask result i j hij]
  constructor
  · intro h
    simp [basalFrictionalHeatingAt, h]
  · intro h
    simp only [basalFrictionalHeatingAt, h, Bool.false_eq_true, if_false]
    ring

/-- Witness of the amended C13: the grounded cell `(1, 1)` of the 3 by 3 grid, with
velocity `(3, 3)` and drag 1, receives the heating 18. -/
theorem basal_frictional_heating_value_witness :
    ((1 : Int), (1 : Int)) ∈ (stressBalance3 ℚ).m_grid.points ∧
    (stressBalance3 ℚ).ocean (mask3 1 1) = false ∧
    compute_basal_frictional_heating (stressBalance3 ℚ) (velocity3 ℚ) (tauc3 ℚ) mask3
      (fun _ _ => 0) 1 1 = 18 :=
  ⟨by decide, rfl, by
    rw [(basal_frictional_heating_value (stressBalance3 ℚ) (velocity3 ℚ) (tauc3 ℚ) mask3
      (fun _ _ => 0) 1 1 (by decide)).2 rfl]
    norm_num [stressBalance3, velocity3, tauc3]⟩

/-- Counterexample to C13 as stated: at the grounded cell `(1, 1)` of the 3 by 3 grid,
with velocity `(3, 3)` and drag 1, the value written is 18, while the formula of the
claim, `-(drag * u) * u - (drag * v) * v`, gives -18. -/
theorem basal_frictional_heating_not_negated :
    (stressBalance3 ℚ).ocean (mask3 1 1) = false ∧
    compute_basal_frictional_heating (stressBalance3 ℚ) (velocity3 ℚ) (tauc3 ℚ) mask3
      (fun _ _ => 0) 1 1 = 18 ∧
    -((stressBalance3 ℚ).drag (tauc3 ℚ 1 1) (velocity3 ℚ 1 1).u (velocity3 ℚ 1 1).v
          * (velocity3 ℚ 1 1).u) * (velocity3 ℚ 1 1).u
        - ((stressBalance3 ℚ).drag (tauc3 ℚ 1 1) (velocity3 ℚ 1 1).u (velocity3 ℚ 1 1).v
          * (velocity3 ℚ 1 1).v) * (velocity3 ℚ 1 1).v = -18 ∧
    compute_basal_frictional_heating (stressBalance3 ℚ) (velocity3 ℚ) (tauc3 ℚ) mask3
      (fun _ _ => 0) 1 1
      ≠ -((stressBalance3 ℚ).drag (tauc3 ℚ 1 1) (velocity3 ℚ 1 1).u (velocity3 ℚ 1 1).v
          * (velocity3 ℚ 1 1).u) * (velocity3 ℚ 1 1).u
        - ((stressBalance3 ℚ).drag (tauc3 ℚ 1 1) (velocity3 ℚ 1 1).u (velocity3 ℚ 1 1).v
          * (velocity3 ℚ 1 1).v) * (velocity3 ℚ 1 1).v := by
  have hval : compute_basal_frictional_heating (stressBalance3 ℚ) (velocity3 ℚ) (tauc3 ℚ)
      mask3 (fun _ _ => 0) 1 1 = 18 := by
    rw [compute_basal_frictional_heating_at (stressBalance3 ℚ) (velocity3 ℚ) (tauc3 ℚ) mask3
      (fun _ _ => 0) 1 1 (by decide)]
    norm_num [basalFrictionalHeatingAt, stressBalance3, velocity3, tauc3, mask3,
      ocean_example]
  have hclaim : -((stressBalance3 ℚ).drag (tauc3 ℚ 1 1) (velocity3 ℚ 1 1).u
        (velocity3 ℚ 1 1).v * (velocity3 ℚ 1 1).u) * (velocity3 ℚ 1 1).u
      - ((stressBalance3 ℚ).drag (tauc3 ℚ 1 1) (velocity3 ℚ 1 1).u (velocity3 ℚ 1 1).v
        * (velocity3 ℚ 1 1).v) * (velocity3 ℚ 1 1).v = -18 := by
    norm_num [stressBalance3, velocity3, tauc3]
  refine ⟨rfl, hval, hclaim, ?_⟩
  rw [hval, hclaim]
  norm_num

/-- C14: `compute_2D_principal_strain_rates` raises (the `RuntimeError` of line 180) if
and only if the number of components of the result field is not 2, and
`compute_2D_stresses` raises (the `RuntimeError` of line 263) if and only if it is not 3;
when either raises, the result field is the field the caller passed, no cell written. -/
theorem dof_mismatch_raises_on_entry (sqrt : R → R) (ssb : ShallowStressBalance R)
    (velocity : Int → Int → Vector2 R) (mask : Int → Int → Int) (result : IceModelVec2 R) :
    ((compute_2D_principal_strain_rates_in_place sqrt ssb.ice_free ssb.m_grid velocity mask
        result).raised = some { format := "result.dof() == 2 is required", args := [] }
      ↔ result.ndof ≠ 2) ∧
    ((compute_2D_principal_strain_rates_in_place sqrt ssb.ice_free ssb.m_grid velocity mask
        result).raised = none ↔ result.ndof = 2) ∧
    ((∃ e, compute_2D_principal_strain_rates sqrt ssb.ice_free ssb.m_grid velocity mask
        result = Except.error e) ↔ result.ndof ≠ 2) ∧
    ((compute_2D_principal_strain_rates_in_place sqrt ssb.ice_free ssb.m_grid velocity mask
        result).raised ≠ none →
      (compute_2D_principal_strain_rates_in_place sqrt ssb.ice_free ssb.m_grid velocity mask
        result).result = result) ∧
    ((compute_2D_stresses ssb velocity mask result).raised
        = some { format := "result.get_dof() == 3 is required", args := [] }
      ↔ result.ndof ≠ 3) ∧
    ((compute_2D_stresses ssb velocity mask result).raised = none ↔ result.ndof = 3) ∧
    ((compute_2D_stresses ssb velocity mask result).raised ≠ none →
      (compute_2D_stresses ssb velocity mask result).result = result) := by
  unfold compute_2D_principal_strain_rates_in_place compute_2D_stresses
    compute_2D_principal_strain_rates
  refine ⟨?_, ?_, ?_, ?_, ?_, ?_, ?_⟩
  · by_cases h : result.ndof = 2 <;> simp [h]
  · by_cases h : result.ndof = 2 <;> simp [h]
  · by_cases h : result.ndof = 2 <;> simp [h]
  · by_cases h : result.ndof = 2 <;> simp [h]
  · by_cases h : result.ndof = 3 <;> simp [h]
  · by_cases h : result.ndof = 3 <;> simp [h]
  · by_cases h : result.ndof = 3 <;> simp [h]

end DiagnosticsClaims

section FlowLawFactoryTheorems

theorem CreatorMap.index_fst (m : CreatorMap) (key : String) :
    (CreatorMap.index m key).1 = (m key).join := by
  unfold CreatorMap.index
  cases h : m key <;> rfl

theorem CreatorMap.index_snd_other (m : CreatorMap) (key other : String) (h : other ≠ key) :
    (CreatorMap.index m key).2 other = m other := by
  unfold CreatorMap.index
  cases hk : m key
  · simp [CreatorMap.assign, h]
  · rfl

theorem FlowLawFactory.registered_iff (f : FlowLawFactory) (name : String) :
    f.registered name = true ↔ ∃ r, f.m_flow_laws name = some (some r) := by
  unfold FlowLawFactory.registered
  cases h : f.m_flow_laws name with
  | none =>
    constructor
    · intro h1; cases h1
    · rintro ⟨r, hr⟩; cases hr
  | some r =>
    cases r with
    | none =>
      constructor
      · intro h1; cases h1
      · rintro ⟨r, hr⟩; cases hr
    | some c => exact ⟨fun _ => ⟨c, rfl⟩, fun _ => rfl⟩

theorem FlowLawFactory.registered_eq_isSome (f : FlowLawFactory) (name : String) :
    f.registered name = (CreatorMap.index f.m_flow_laws name).1.isSome := by
  unfold FlowLawFactory.registered CreatorMap.index
  cases h : f.m_flow_laws name with
  | none => rfl
  | some r => cases r <;> rfl

/-- The outcome of `set_default_type` in terms of the registration of the name. -/
theorem FlowLawFactory.set_default_type_raised (f : FlowLawFactory) (type : String) :
    (f.set_default_type type).2
      = if f.registered type then none else some (flow_law_not_available type f.m_prefix) := by
  rw [FlowLawFactory.registered_eq_isSome]
  unfold FlowLawFactory.set_default_type
  simp only []
  cases h : (CreatorMap.index f.m_flow_laws type).1 <;> simp

theorem FlowLawFactory.set_default_type_name (f : FlowLawFactory) (type : String)
    (h : f.registered type = true) : (f.set_default_type type).1.m_type_name = type := by
  rw [FlowLawFactory.registered_eq_isSome] at h
  unfold FlowLawFactory.set_default_type
  simp only []
  cases hr : (CreatorMap.index f.m_flow_laws type).1 with
  | none => rw [hr] at h; simp at h
  | some c => rfl

theorem FlowLawFactory.set_default_type_map (f : FlowLawFactory) (type : String)
    (h : f.registered type = true) :
    (f.set_default_type type).1.m_flow_laws = f.m_flow_laws := by
  rw [FlowLawFactory.registered_iff] at h
  obtain ⟨r, hr⟩ := h
  unfold FlowLawFactory.set_default_type CreatorMap.index
  simp only [hr]

theorem FlowLawFactory.registered_add_type (f : FlowLawFactory) (name other : String)
    (r : Option FlowLawCreator) :
    (f.add_type name r).registered other
      = if other = name then r.isSome else f.registered other := by
  unfold FlowLawFactory.registered FlowLawFactory.add_type CreatorMap.assign
  by_cases h : other = name
  · simp only [h, if_true]
    cases r <;> rfl
  · simp only [h, if_false]

theorem FlowLawFactory.registered_remove_type (f : FlowLawFactory) (name other : String) :
    (f.remove_type name).registered other
      = if other = name then false else f.registered other := by
  unfold FlowLawFactory.registered FlowLawFactory.remove_type CreatorMap.erase
  by_cases h : other = name
  · simp only [h, if_true]
  · simp only [h, if_false]

/-- After lines 76-83 of the constructor the registered names are the seven built-in
names. -/
theorem FlowLawFactory.registered_builtin (names : FlowLawNames) (pre : String)
    (conf : Config) (my_EC : EnthalpyConverter) (name : String) :
    (FlowLawFactory.builtin names pre conf my_EC).registered name = true
      ↔ name ∈ names.all := by
  unfold FlowLawFactory.builtin FlowLawNames.all
  simp only [FlowLawFactory.registered_add_type, List.mem_cons, List.mem_singleton,
    List.not_mem_nil, or_false]
  have h0 : ∀ (f : FlowLawFactory), f.m_flow_laws = CreatorMap.clear →
      f.registered name = false := by
    intro f hf
    simp [FlowLawFactory.registered, hf, CreatorMap.clear]
  rw [h0 _ rfl]
  by_cases h1 : name = names.ICE_GOLDSBY_KOHLSTEDT <;>
  by_cases h2 : name = names.ICE_ARRWARM <;>
  by_cases h3 : name = names.ICE_ARR <;>
  by_cases h4 : name = names.ICE_HOOKE <;>
  by_cases h5 : name = names.ICE_GPBLD <;>
  by_cases h6 : name = names.ICE_PB <;>
  by_cases h7 : name = names.ICE_ISOTHERMAL_GLEN <;>
  simp [h1, h2, h3, h4, h5, h6, h7]

end FlowLawFactoryTheorems

section FlowLawFactoryClaims

/-- C15: `set_default_type(name)` raises (the `RuntimeError` of lines 102-104) if and
only if no creator is registered under `name`, and otherwise selects `name`; after the
registrations of the constructor exactly the seven built-in names are registered; a
name removed by `remove_type` is not registered and in the cleared map no name is; and,
for a non-empty prefix (which the constructor asserts), constructing the factory raises
exactly when the configured value of `<prefix>flow_law` is not one of the seven names,
and otherwise yields a factory that has selected that value. -/
theorem set_default_type_raises_iff_unregistered (f : FlowLawFactory) (type : String)
    (NDEBUG : Bool) (names : FlowLawNames) (pre : String) (conf : Config)
    (my_EC : EnthalpyConverter) (hpre : pre ≠ "") :
    ((f.set_default_type type).2 = some (flow_law_not_available type f.m_prefix)
      ↔ f.registered type = false) ∧
    ((f.set_default_type type).2 = none ↔ f.registered type = true) ∧
    (f.registered type = true → (f.set_default_type type).1.m_type_name = type) ∧
    (∀ name, (FlowLawFactory.builtin names pre conf my_EC).registered name = true
      ↔ name ∈ names.all) ∧
    (∀ name, (f.remove_type name).registered name = false) ∧
    (∀ name, FlowLawFactory.registered { f with m_flow_laws := CreatorMap.clear } name
      = false) ∧
    (FlowLawFactory.construct NDEBUG names pre conf my_EC
        = Construction.raised
            (flow_law_not_available (conf.get_string (pre ++ "flow_law")) pre)
      ↔ conf.get_string (pre ++ "flow_law") ∉ names.all) ∧
    (conf.get_string (pre ++ "flow_law") ∈ names.all →
      ∃ g, FlowLawFactory.construct NDEBUG names pre conf my_EC = Construction.constructed g ∧
        g.m_type_name = conf.get_string (pre ++ "flow_law") ∧
        ∀ name, g.registered name = true ↔ name ∈ names.all) := by
  have hraised := FlowLawFactory.set_default_type_raised f type
  have hb := FlowLawFactory.registered_builtin names pre conf my_EC
  have hbr := FlowLawFactory.set_default_type_raised
    (FlowLawFactory.builtin names pre conf my_EC) (conf.get_string (pre ++ "flow_law"))
  have hprefix : FlowLawFactory.m_prefix (FlowLawFactory.builtin names pre conf my_EC) = pre :=
    rfl
  refine ⟨?_, ?_, FlowLawFactory.set_default_type_name f type, hb, ?_, ?_, ?_, ?_⟩
  · rw [hraised]
    cases f.registered type <;> simp
  · rw [hraised]
    cases f.registered type <;> simp
  · intro name
    rw [FlowLawFactory.registered_remove_type]
    simp
  · intro name
    simp [FlowLawFactory.registered, CreatorMap.clear]
  · unfold FlowLawFactory.construct
    rw [if_neg (fun h => hpre h.2)]
    simp only []
    rw [← hb, hbr, hprefix]
    cases (FlowLawFactory.builtin names pre conf my_EC).registered
      (conf.get_string (pre ++ "flow_law")) <;> simp
  · intro hmem
    have hreg := (hb _).mpr hmem
    refine ⟨((FlowLawFactory.builtin names pre conf my_EC).set_default_type
      (conf.get_string (pre ++ "flow_law"))).1, ?_, ?_, ?_⟩
    · unfold FlowLawFactory.construct
      rw [if_neg (fun h => hpre h.2)]
      simp only []
      rw [hbr, hreg]
      simp
    · exact FlowLawFactory.set_default_type_name _ _ hreg
    · intro name
      rw [← hb name]
      unfold FlowLawFactory.registered
      rw [FlowLawFactory.set_default_type_map _ _ hreg]

/-- Witness of C15: with the prefix `sia_` and a configuration that selects
`unknown`, the constructor raises. -/
theorem set_default_type_raises_iff_unregistered_witness :
    "sia_" ≠ "" ∧
    FlowLawFactory.construct false namesExample "sia_" configUnknown { address := 1 }
      = Construction.raised (flow_law_not_available "unknown" "sia_") :=
  ⟨by decide,
    (set_default_type_raises_iff_unregistered
      (FlowLawFactory.builtin namesExample "sia_" configUnknown { address := 1 }) "pb" false
      namesExample "sia_" configUnknown { address := 1 } (by decide)).2.2.2.2.2.2.1.mpr
      (by decide)⟩

/-- C16: the registry is a mapping from names to creators.  After `add_type(name, c)`
with a creator `c` that is not `NULL`, whatever was registered under `name` before,
`set_default_type(name)` does not raise and `create()` then returns
`c(m_prefix, *m_config, m_EC)`; `add_type` and `remove_type` leave the entry of every
other name as it was, so selecting another name raises after `remove_type(name)` exactly
when it raised before; and after `remove_type(name)` selecting `name` raises. -/
theorem registry_is_a_mapping (f : FlowLawFactory) (name : String) (c : FlowLawCreator) :
    (((f.add_type name (some c)).set_default_type name).2 = none) ∧
    ((((f.add_type name (some c)).set_default_type name).1.create).2
      = Except.ok (c f.m_prefix f.m_config f.m_EC)) ∧
    (∀ other, other ≠ name →
      (f.add_type name (some c)).m_flow_laws other = f.m_flow_laws other) ∧
    (∀ other, other ≠ name → (f.remove_type name).m_flow_laws other = f.m_flow_laws other) ∧
    (∀ other, other ≠ name →
      ((f.remove_type name).set_default_type other).2 = (f.set_default_type other).2) ∧
    (((f.remove_type name).set_default_type name).2
      = some (flow_law_not_available name f.m_prefix)) := by
  have hreg : (f.add_type name (some c)).registered name = true := by
    rw [FlowLawFactory.registered_add_type]
    simp
  refine ⟨?_, ?_, ?_, ?_, ?_, ?_⟩
  · rw [FlowLawFactory.set_default_type_raised, hreg]
    rfl
  · have hmap := FlowLawFactory.set_default_type_map _ _ hreg
    have hname := FlowLawFactory.set_default_type_name _ _ hreg
    have hentry : ((f.add_type name (some c)).set_default_type name).1.m_flow_laws
        ((f.add_type name (some c)).set_default_type name).1.m_type_name = some (some c) := by
      rw [hmap, hname]
      simp [FlowLawFactory.add_type, CreatorMap.assign]
    have hp : FlowLawFactory.m_prefix ((f.add_type name (some c)).set_default_type name).1
        = f.m_prefix := by
      unfold FlowLawFactory.set_default_type
      simp only []
      split <;> rfl
    have hc : ((f.add_type name (some c)).set_default_type name).1.m_config = f.m_config := by
      unfold FlowLawFactory.set_default_type
      simp only []
      split <;> rfl
    have he : ((f.add_type name (some c)).set_default_type name).1.m_EC = f.m_EC := by
      unfold FlowLawFactory.set_default_type
      simp only []
      split <;> rfl
    unfold FlowLawFactory.create CreatorMap.index
    simp only [hentry, hp, hc, he]
  · intro other h
    simp [FlowLawFactory.add_type, CreatorMap.assign, h]
  · intro other h
    simp [FlowLawFactory.remove_type, CreatorMap.erase, h]
  · intro other h
    rw [FlowLawFactory.set_default_type_raised, FlowLawFactory.set_default_type_raised,
      FlowLawFactory.registered_remove_type, if_neg h]
    rfl
  · rw [FlowLawFactory.set_default_type_raised, FlowLawFactory.registered_remove_type]
    simp
    rfl

end FlowLawFactoryClaims

section LoopLemmas

theorem loopM_nil {σ α : Type} (body : σ → α → Option σ) (s : σ) :
    loopM body [] s = some s := rfl

theorem loopM_cons {σ α : Type} (body : σ → α → Option σ) (x : α) (l : List α) (s : σ) :
    loopM body (x :: l) s = (body s x).bind (loopM body l) := by
  rw [loopM]
  cases body s x <;> rfl

theorem loopM_append {σ α : Type} (body : σ → α → Option σ) (l1 l2 : List α) (s : σ) :
    loopM body (l1 ++ l2) s = (loopM body l1 s).bind (loopM body l2) := by
  induction l1 generalizing s with
  | nil => rfl
  | cons x l ih =>
    rw [List.cons_append, loopM_cons, loopM_cons]
    cases body s x with
    | none => rfl
    | some t => exact ih t

/-- Two loop bodies that agree on the elements of the list give the same loop. -/
theorem loopM_congr {σ α : Type} (f g : σ → α → Option σ) (l : List α)
    (h : ∀ x ∈ l, ∀ s, f s x = g s x) (s : σ) : loopM f l s = loopM g l s := by
  induction l generalizing s with
  | nil => rfl
  | cons x l ih =>
    rw [loopM_cons, loopM_cons, h x (List.mem_cons_self x l) s]
    cases g s x with
    | none => rfl
    | some t => exact ih (fun y hy => h y (List.mem_cons_of_mem x hy)) t

/-- A loop whose body is defined and re-establishes the invariant `Inv` (indexed by
the elements processed so far) on every element of the list, is defined and ends in a
state that satisfies the invariant for the whole list. -/
theorem loopM_total {σ α : Type} (body : σ → α → Option σ) (Inv : List α → σ → Prop)
    (l : List α)
    (hstep : ∀ pre x st, x ∈ l → Inv pre st →
      ∃ st', body st x = some st' ∧ Inv (pre ++ [x]) st')
    (s : σ) (h0 : Inv [] s) : ∃ s', loopM body l s = some s' ∧ Inv l s' := by
  have key : ∀ (m pre : List α) (st : σ), (∀ x ∈ m, x ∈ l) → Inv pre st →
      ∃ s', loopM body m st = some s' ∧ Inv (pre ++ m) s' := by
    intro m
    induction m with
    | nil =>
      intro pre st _ hinv
      exact ⟨st, rfl, by rwa [List.append_nil]⟩
    | cons x m ih =>
      intro pre st hm hinv
      obtain ⟨st', hb, hinv'⟩ := hstep pre x st (hm x (List.mem_cons_self x m)) hinv
      obtain ⟨s', hs', hfin⟩ :=
        ih (pre ++ [x]) st' (fun y hy => hm y (List.mem_cons_of_mem x hy)) hinv'
      refine ⟨s', ?_, ?_⟩
      · rw [loopM_cons, hb]
        exact hs'
      · rwa [List.append_assoc, List.singleton_append] at hfin
  simpa using key l [] s (fun _ hx => hx) h0

/-- A loop whose body preserves the invariant `Inv` whenever it is defined, ends, when
it is defined, in a state that satisfies the invariant for the whole list. -/
theorem loopM_partial {σ α : Type} (body : σ → α → Option σ) (Inv : List α → σ → Prop)
    (l : List α)
    (hstep : ∀ pre x st st', x ∈ l → Inv pre st → body st x = some st' →
      Inv (pre ++ [x]) st')
    (s s' : σ) (h0 : Inv [] s) (hrun : loopM body l s = some s') : Inv l s' := by
  have key : ∀ (m pre : List α) (st : σ), (∀ x ∈ m, x ∈ l) → Inv pre st →
      loopM body m st = some s' → Inv (pre ++ m) s' := by
    intro m
    induction m with
    | nil =>
      intro pre st _ hinv hrun
      rw [loopM_nil] at hrun
      cases hrun
      rwa [List.append_nil]
    | cons x m ih =>
      intro pre st hm hinv hrun
      rw [loopM_cons] at hrun
      cases hb : body st x with
      | none => rw [hb] at hrun; cases hrun
      | some st' =>
        rw [hb] at hrun
        have h1 := ih (pre ++ [x]) st' (fun y hy => hm y (List.mem_cons_of_mem x hy))
          (hstep pre x st st' (hm x (List.mem_cons_self x m)) hinv hb) hrun
        rwa [List.append_assoc, List.singleton_append] at h1
  simpa using key l [] s (fun _ hx => hx) h0 hrun

theorem StdVector.get?_eq_some {α : Type} (v : StdVector α) (i : Int) (h0 : 0 ≤ i)
    (h1 : i < v.size) : v.get? i = some (v.elem i.toNat) := by
  unfold StdVector.get?
  rw [if_pos ⟨h0, h1⟩]

theorem StdVector.get?_nat {α : Type} (v : StdVector α) (k : Nat) (h : k < v.size) :
    v.get? (k : Int) = some (v.elem k) := by
  rw [StdVector.get?_eq_some v k (Int.natCast_nonneg k) (by exact_mod_cast h)]
  simp

theorem StdVector.get?_some_iff {α : Type} (v : StdVector α) (i : Int) (x : α) :
    v.get? i = some x ↔ (0 ≤ i ∧ i < v.size) ∧ v.elem i.toNat = x := by
  unfold StdVector.get?
  split
  · rename_i h
    simp [h]
  · rename_i h
    simp [h]

theorem StdVector.modify?_eq_some {α : Type} (v : StdVector α) (i : Int) (f : α → α)
    (h0 : 0 ≤ i) (h1 : i < v.size) :
    v.modify? i f
      = some { v with elem := fun k => if k = i.toNat then f (v.elem k) else v.elem k } := by
  unfold StdVector.modify?
  rw [if_pos ⟨h0, h1⟩]

theorem StdVector.modify?_nat {α : Type} (v : StdVector α) (k : Nat) (f : α → α)
    (h : k < v.size) :
    v.modify? (k : Int) f
      = some { v with elem := fun m => if m = k then f (v.elem m) else v.elem m } := by
  rw [StdVector.modify?_eq_some v k f (Int.natCast_nonneg k) (by exact_mod_cast h)]
  simp

theorem StdVector.modify?_some_iff {α : Type} (v w : StdVector α) (i : Int) (f : α → α) :
    v.modify? i f = some w ↔ (0 ≤ i ∧ i < v.size) ∧
      w = { v with elem := fun k => if k = i.toNat then f (v.elem k) else v.elem k } := by
  unfold StdVector.modify?
  split
  · rename_i h
    simp only [Option.some.injEq, h, and_self, true_and]
    exact eq_comm
  · rename_i h
    simp [h]

/-- Applying `GlobalSum` in place leaves a vector as it is. -/
theorem StdVector.modify?_GlobalSum {α : Type} (v : StdVector α) (i : Int) (h0 : 0 ≤ i)
    (h1 : i < v.size) : v.modify? i GlobalSum = some v := by
  rw [StdVector.modify?_eq_some v i _ h0 h1]
  congr 1
  cases v with
  | mk size elem =>
    simp only [StdVector.mk.injEq, true_and]
    funext k
    simp [GlobalSum]

end LoopLemmas

section BasinLemmas

variable {R : Type} [LinearOrderedField R]

/-- The zeroing step on in-range indices. -/
theorem basinZeroStep_eq (s : BasinSums R) (k : Nat) (hs : k < s.salinity.size)
    (ht : k < s.temperature.size) :
    basinZeroStep s k = some
      { s with
        temperature :=
          { s.temperature with elem := fun m => if m = k then 0 else s.temperature.elem m },
        salinity :=
          { s.salinity with elem := fun m => if m = k then 0 else s.salinity.elem m } } := by
  unfold basinZeroStep
  rw [StdVector.modify?_nat _ _ _ hs, StdVector.modify?_nat _ _ _ ht]
  rfl

/-- The step of the summing loop at a cell that is not `INNER`. -/
theorem basinSumStep_outer (INNER : Int) (basin_mask continental_shelf_mask : Int → Int → Int)
    (salinity_ocean theta_ocean : Int → Int → R) (s : BasinSums R) (p : Int × Int)
    (h : continental_shelf_mask p.1 p.2 ≠ INNER) :
    basinSumStep INNER basin_mask continental_shelf_mask salinity_ocean theta_ocean s p
      = some s := by
  unfold basinSumStep
  rw [if_neg h]

/-- The step of the summing loop at an `INNER` cell whose basin id is in range. -/
theorem basinSumStep_inner (INNER : Int) (basin_mask continental_shelf_mask : Int → Int → Int)
    (salinity_ocean theta_ocean : Int → Int → R) (s : BasinSums R) (p : Int × Int)
    (h : continental_shelf_mask p.1 p.2 = INNER) (h0 : 0 ≤ basin_mask p.1 p.2)
    (hc : basin_mask p.1 p.2 < s.count.size) (hs : basin_mask p.1 p.2 < s.salinity.size)
    (ht : basin_mask p.1 p.2 < s.temperature.size) :
    basinSumStep INNER basin_mask continental_shelf_mask salinity_ocean theta_ocean s p
      = some
        { s with
          count := { s.count with
            elem := fun k =>
              if k = (basin_mask p.1 p.2).toNat then s.count.elem k + 1 else s.count.elem k },
          salinity := { s.salinity with
            elem := fun k =>
              if k = (basin_mask p.1 p.2).toNat then s.salinity.elem k + salinity_ocean p.1 p.2
              else s.salinity.elem k },
          temperature := { s.temperature with
            elem := fun k =>
              if k = (basin_mask p.1 p.2).toNat then s.temperature.elem k + theta_ocean p.1 p.2
              else s.temperature.elem k } } := by
  unfold basinSumStep
  rw [if_pos h]
  simp only []
  rw [StdVector.modify?_eq_some _ _ _ h0 hc, StdVector.modify?_eq_some _ _ _ h0 hs,
    StdVector.modify?_eq_some _ _ _ h0 ht]
  rfl

/-- The step of the averaging loop on an in-range basin id. -/
theorem basinMeanStep_eq (physics : PicoPhysics R) (s : BasinSums R) (k : Nat)
    (hc : k < s.count.size) (hs : k < s.salinity.size) (ht : k < s.temperature.size) :
    basinMeanStep physics s k = some
      (if k > 0 ∧ s.count.elem k = 0 then
        { s with
          temperature := { s.temperature with
            elem := fun m => if m = k then physics.T_dummy else s.temperature.elem m },
          salinity := { s.salinity with
            elem := fun m => if m = k then physics.S_dummy else s.salinity.elem m } }
      else
        { s with
          temperature := { s.temperature with
            elem := fun m =>
              if m = k then s.temperature.elem m / (s.count.elem k : R)
              else s.temperature.elem m },
          salinity := { s.salinity with
            elem := fun m =>
              if m = k then s.salinity.elem m / (s.count.elem k : R) else s.salinity.elem m },
          divisions := s.divisions ++
            [{ index := k, count := s.count.elem k }, { index := k, count := s.count.elem k }] })
    := by
  unfold basinMeanStep
  rw [StdVector.modify?_GlobalSum _ _ (Int.natCast_nonneg k) (by exact_mod_cast hc),
    StdVector.modify?_GlobalSum _ _ (Int.natCast_nonneg k) (by exact_mod_cast hs),
    StdVector.modify?_GlobalSum _ _ (Int.natCast_nonneg k) (by exact_mod_cast ht)]
  simp only [Option.bind_eq_bind, Option.some_bind]
  rw [StdVector.get?_nat _ _ hc]
  simp only [Option.some_bind]
  split <;>
    simp only [StdVector.modify?_nat _ _ _ hs, StdVector.modify?_nat _ _ _ ht,
      Option.some_bind, Option.bind_eq_bind]

end BasinLemmas

section BasinLoops

variable {R : Type} [LinearOrderedField R]

/-- The zeroing loop of `compute_ocean_input_per_basin` (lines 356-359). -/
theorem basinZero_loop (s0 : BasinSums R) (n : Nat) (hs : s0.salinity.size = n)
    (ht : s0.temperature.size = n) (m : Nat) (hm : m ≤ n) :
    ∃ s, loopM basinZeroStep (List.range m) s0 = some s ∧ s.count = s0.count ∧
      s.divisions = s0.divisions ∧ s.salinity.size = n ∧ s.temperature.size = n ∧
      ∀ b, b < m → s.salinity.elem b = 0 ∧ s.temperature.elem b = 0 := by
  induction m with
  | zero => exact ⟨s0, rfl, rfl, rfl, hs, ht, fun b hb => absurd hb (Nat.not_lt_zero b)⟩
  | succ m ih =>
    obtain ⟨s, hrun, hc, hd, hss, hst, hz⟩ := ih (Nat.le_of_succ_le hm)
    have hm1 : m < n := hm
    have hstep := basinZeroStep_eq s m (by rw [hss]; exact hm1) (by rw [hst]; exact hm1)
    have hrun1 : loopM basinZeroStep (List.range (m + 1)) s0 = basinZeroStep s m := by
      rw [List.range_succ, loopM_append, hrun, Option.some_bind, loopM_cons]
      cases basinZeroStep s m <;> rfl
    rw [hrun1, hstep]
    refine ⟨_, rfl, hc, hd, hss, hst, ?_⟩
    intro b hb
    by_cases hbm : b = m
    · simp [hbm]
    · have hlt : b < m := by omega
      simp only [hbm, if_false]
      exact hz b hlt

/-- The summing loop of `compute_ocean_input_per_basin` (lines 366-376) over a list of
cells whose `INNER` members have their basin id in range: every count and sum grows by
the contribution of the `INNER` cells of its basin. -/
theorem basinSum_loop (INNER : Int) (basin_mask continental_shelf_mask : Int → Int → Int)
    (salinity_ocean theta_ocean : Int → Int → R) (n : Nat) (l : List (Int × Int))
    (hrange : ∀ q ∈ l, continental_shelf_mask q.1 q.2 = INNER →
      0 ≤ basin_mask q.1 q.2 ∧ basin_mask q.1 q.2 < n)
    (s1 : BasinSums R) (hc : s1.count.size = n) (hs : s1.salinity.size = n)
    (ht : s1.temperature.size = n) :
    ∃ s, loopM (basinSumStep INNER basin_mask continental_shelf_mask salinity_ocean
        theta_ocean) l s1 = some s ∧
      s.count.size = n ∧ s.salinity.size = n ∧ s.temperature.size = n ∧
      s.divisions = s1.divisions ∧
      ∀ b : Nat,
        s.count.elem b = s1.count.elem b + ((l.filter fun q =>
          decide (continental_shelf_mask q.1 q.2 = INNER ∧ basin_mask q.1 q.2 = (b : Int))).length
            : Int) ∧
        s.salinity.elem b = s1.salinity.elem b + ((l.filter fun q =>
          decide (continental_shelf_mask q.1 q.2 = INNER ∧ basin_mask q.1 q.2 = (b : Int))).map
            fun q => salinity_ocean q.1 q.2).sum ∧
        s.temperature.elem b = s1.temperature.elem b + ((l.filter fun q =>
          decide (continental_shelf_mask q.1 q.2 = INNER ∧ basin_mask q.1 q.2 = (b : Int))).map
            fun q => theta_ocean q.1 q.2).sum := by
  refine loopM_total _
    (fun pre s => s.count.size = n ∧ s.salinity.size = n ∧ s.temperature.size = n ∧
      s.divisions = s1.divisions ∧
      ∀ b : Nat,
        s.count.elem b = s1.count.elem b + ((pre.filter fun q =>
          decide (continental_shelf_mask q.1 q.2 = INNER ∧ basin_mask q.1 q.2 = (b : Int))).length
            : Int) ∧
        s.salinity.elem b = s1.salinity.elem b + ((pre.filter fun q =>
          decide (continental_shelf_mask q.1 q.2 = INNER ∧ basin_mask q.1 q.2 = (b : Int))).map
            fun q => salinity_ocean q.1 q.2).sum ∧
        s.temperature.elem b = s1.temperature.elem b + ((pre.filter fun q =>
          decide (continental_shelf_mask q.1 q.2 = INNER ∧ basin_mask q.1 q.2 = (b : Int))).map
            fun q => theta_ocean q.1 q.2).sum)
    l ?_ s1 ⟨hc, hs, ht, rfl, fun b => by simp⟩
  rintro pre p st hp ⟨hc1, hs1, ht1, hd1, hval⟩
  by_cases hin : continental_shelf_mask p.1 p.2 = INNER
  · obtain ⟨h0, h1⟩ := hrange p hp hin
    refine ⟨_, basinSumStep_inner INNER basin_mask continental_shelf_mask salinity_ocean
      theta_ocean st p hin h0 (by rw [hc1]; exact h1) (by rw [hs1]; exact h1)
      (by rw [ht1]; exact h1), hc1, hs1, ht1, hd1, ?_⟩
    intro b
    obtain ⟨e1, e2, e3⟩ := hval b
    have hb : (b = (basin_mask p.1 p.2).toNat) ↔ basin_mask p.1 p.2 = (b : Int) := by
      omega
    by_cases hbp : basin_mask p.1 p.2 = (b : Int)
    · have hb1 : b = (basin_mask p.1 p.2).toNat := hb.mpr hbp
      simp only [List.filter_append, List.filter_cons, List.filter_nil, hin, hbp, and_self,
        decide_True, if_true, List.length_append, List.length_singleton, List.map_append,
        List.map_cons, List.map_nil, List.sum_append, List.sum_cons, List.sum_nil, add_zero,
        Int.toNat_ofNat]
      rw [e1, e2, e3]
      refine ⟨?_, ?_, ?_⟩
      · push_cast
        ring
      · ring
      · ring
    · have hb1 : ¬ b = (basin_mask p.1 p.2).toNat := fun h => hbp (hb.mp h)
      simp only [List.filter_append, List.filter_cons, List.filter_nil, hin, hbp, and_false,
        decide_False, if_false, List.append_nil, hb1, Bool.false_eq_true]
      exact ⟨e1, e2, e3⟩
  · refine ⟨st, basinSumStep_outer INNER basin_mask continental_shelf_mask salinity_ocean
      theta_ocean st p hin, hc1, hs1, ht1, hd1, ?_⟩
    intro b
    simp only [List.filter_append, List.filter_cons, List.filter_nil, hin, false_and,
      decide_False, if_false, List.append_nil, Bool.false_eq_true]
    exact hval b

/-- The averaging loop of `compute_ocean_input_per_basin` (lines 382-410) over the
basins `0, ..., m - 1`. -/
theorem basinMean_loop (physics : PicoPhysics R) (s2 : BasinSums R) (n : Nat)
    (hc : s2.count.size = n) (hs : s2.salinity.size = n) (ht : s2.temperature.size = n)
    (m : Nat) (hm : m ≤ n) :
    ∃ s, loopM (basinMeanStep physics) (List.range m) s2 = some s ∧
      s.count = s2.count ∧ s.salinity.size = n ∧ s.temperature.size = n ∧
      (∀ b, b < m →
        s.temperature.elem b
          = (if b > 0 ∧ s2.count.elem b = 0 then physics.T_dummy
            else s2.temperature.elem b / (s2.count.elem b : R)) ∧
        s.salinity.elem b
          = (if b > 0 ∧ s2.count.elem b = 0 then physics.S_dummy
            else s2.salinity.elem b / (s2.count.elem b : R))) ∧
      (∀ b, m ≤ b →
        s.temperature.elem b = s2.temperature.elem b ∧
        s.salinity.elem b = s2.salinity.elem b) ∧
      s.divisions = s2.divisions ++ (List.range m).flatMap fun b =>
        if b > 0 ∧ s2.count.elem b = 0 then []
        else [({ index := b, count := s2.count.elem b } : CountDivision),
          { index := b, count := s2.count.elem b }] := by
  induction m with
  | zero =>
    exact ⟨s2, rfl, rfl, hs, ht, fun b hb => absurd hb (Nat.not_lt_zero b),
      fun b _ => ⟨rfl, rfl⟩, by simp⟩
  | succ m ih =>
    obtain ⟨s, hrun, hcount, hss, hst, hlow, hhigh, hdiv⟩ := ih (Nat.le_of_succ_le hm)
    have hm1 : m < n := hm
    have hstep := basinMeanStep_eq physics s m (by rw [hcount, hc]; exact hm1)
      (by rw [hss]; exact hm1) (by rw [hst]; exact hm1)
    have hrun1 : loopM (basinMeanStep physics) (List.range (m + 1)) s2
        = basinMeanStep physics s m := by
      rw [List.range_succ, loopM_append, hrun, Option.some_bind, loopM_cons]
      cases basinMeanStep physics s m <;> rfl
    rw [hrun1, hstep]
    obtain ⟨hTm, hSm⟩ := hhigh m (le_refl m)
    by_cases hdummy : m > 0 ∧ s2.count.elem m = 0
    · have hdummy1 : m > 0 ∧ s.count.elem m = 0 := by rw [hcount]; exact hdummy
      rw [if_pos hdummy1]
      refine ⟨_, rfl, hcount, hss, hst, ?_, ?_, ?_⟩
      · intro b hb
        by_cases hbm : b = m
        · subst hbm
          simp [hdummy]
        · simp only [hbm, if_false]
          exact hlow b (by omega)
      · intro b hb
        have hbm : ¬ b = m := by omega
        simp only [hbm, if_false]
        exact hhigh b (by omega)
      · simp only [hdiv, List.range_succ, List.flatMap_append, List.flatMap_cons,
          List.flatMap_nil, hdummy, and_self, if_true, List.append_nil]
    · have hdummy1 : ¬ (m > 0 ∧ s.count.elem m = 0) := by rw [hcount]; exact hdummy
      rw [if_neg hdummy1]
      refine ⟨_, rfl, hcount, hss, hst, ?_, ?_, ?_⟩
      · intro b hb
        by_cases hbm : b = m
        · subst hbm
          simp only [if_true, if_neg hdummy, hTm, hSm, hcount, and_self]
        · simp only [hbm, if_false]
          exact hlow b (by omega)
      · intro b hb
        have hbm : ¬ b = m := by omega
        simp only [hbm, if_false]
        exact hhigh b (by omega)
      · simp only [hdiv, List.range_succ, List.flatMap_append, List.flatMap_cons,
          List.flatMap_nil, if_neg hdummy, List.append_nil, List.append_assoc, hcount]

end BasinLoops

section BasinSpec

variable {R : Type} [LinearOrderedField R]

/-- What `compute_ocean_input_per_basin` returns when the basin id of every `INNER`
cell is in range: vectors of size `m_n_basins` holding, for the basin `b`, the dummy
values when `b > 0` has no `INNER` cell and the sums divided by the number of `INNER`
cells of the basin otherwise; and the divisions it executes. -/
theorem compute_ocean_input_per_basin_spec (pico : Pico R) (physics : PicoPhysics R)
    (INNER : Int) (basin_mask continental_shelf_mask : Int → Int → Int)
    (salinity_ocean theta_ocean : Int → Int → R) (temperature salinity : StdVector R)
    (hrange : ∀ q ∈ pico.m_grid.points, continental_shelf_mask q.1 q.2 = INNER →
      0 ≤ basin_mask q.1 q.2 ∧ basin_mask q.1 q.2 < pico.m_n_basins) :
    ∃ out, compute_ocean_input_per_basin pico physics INNER basin_mask continental_shelf_mask
        salinity_ocean theta_ocean temperature salinity = some out ∧
      out.temperature.size = pico.m_n_basins ∧ out.salinity.size = pico.m_n_basins ∧
      (∀ b : Nat, b < pico.m_n_basins →
        out.temperature.elem b
          = (if b > 0 ∧ (pico.m_grid.points.filter fun q =>
                decide (continental_shelf_mask q.1 q.2 = INNER ∧ basin_mask q.1 q.2 = (b : Int))
                ).length = 0 then physics.T_dummy
            else ((pico.m_grid.points.filter fun q =>
                decide (continental_shelf_mask q.1 q.2 = INNER ∧ basin_mask q.1 q.2 = (b : Int))
                ).map fun q => theta_ocean q.1 q.2).sum
              / ((pico.m_grid.points.filter fun q =>
                decide (continental_shelf_mask q.1 q.2 = INNER ∧ basin_mask q.1 q.2 = (b : Int))
                ).length : R)) ∧
        out.salinity.elem b
          = (if b > 0 ∧ (pico.m_grid.points.filter fun q =>
                decide (continental_shelf_mask q.1 q.2 = INNER ∧ basin_mask q.1 q.2 = (b : Int))
                ).length = 0 then physics.S_dummy
            else ((pico.m_grid.points.filter fun q =>
                decide (continental_shelf_mask q.1 q.2 = INNER ∧ basin_mask q.1 q.2 = (b : Int))
                ).map fun q => salinity_ocean q.1 q.2).sum
              / ((pico.m_grid.points.filter fun q =>
                decide (continental_shelf_mask q.1 q.2 = INNER ∧ basin_mask q.1 q.2 = (b : Int))
                ).length : R))) ∧
      out.divisions = (List.range pico.m_n_basins).flatMap fun b =>
        if b > 0 ∧ (pico.m_grid.points.filter fun q =>
            decide (continental_shelf_mask q.1 q.2 = INNER ∧ basin_mask q.1 q.2 = (b : Int))
            ).length = 0 then []
        else [({ index := b, count := ((pico.m_grid.points.filter fun q =>
            decide (continental_shelf_mask q.1 q.2 = INNER ∧ basin_mask q.1 q.2 = (b : Int))
            ).length : Int) } : CountDivision),
          { index := b, count := ((pico.m_grid.points.filter fun q =>
            decide (continental_shelf_mask q.1 q.2 = INNER ∧ basin_mask q.1 q.2 = (b : Int))
            ).length : Int) }] := by
  obtain ⟨s1, hrun1, hc1, hd1, hs1, ht1, hz1⟩ := basinZero_loop
    ({ count := StdVector.filled pico.m_n_basins 0,
       salinity := salinity.resize pico.m_n_basins,
       temperature := temperature.resize pico.m_n_basins,
       divisions := [] } : BasinSums R) pico.m_n_basins rfl rfl pico.m_n_basins (le_refl _)
  obtain ⟨s2, hrun2, hc2, hs2, ht2, hd2, hval2⟩ := basinSum_loop INNER basin_mask
    continental_shelf_mask salinity_ocean theta_ocean pico.m_n_basins pico.m_grid.points hrange
    s1 (by rw [hc1]; rfl) hs1 ht1
  obtain ⟨s3, hrun3, hc3, hs3, ht3, hlow3, _, hd3⟩ := basinMean_loop physics s2 pico.m_n_basins
    hc2 hs2 ht2 pico.m_n_basins (le_refl _)
  have hcount : ∀ b : Nat, s2.count.elem b = ((pico.m_grid.points.filter fun q =>
      decide (continental_shelf_mask q.1 q.2 = INNER ∧ basin_mask q.1 q.2 = (b : Int))).length
      : Int) := by
    intro b
    rw [(hval2 b).1, hc1]
    simp [StdVector.filled]
  refine ⟨s3, ?_, ht3, hs3, ?_, ?_⟩
  · unfold compute_ocean_input_per_basin
    simp only [hrun1, hrun2, hrun3, Option.bind_eq_bind, Option.some_bind]
  · intro b hb
    obtain ⟨hT, hS⟩ := hlow3 b hb
    obtain ⟨hzS, hzT⟩ := hz1 b hb
    rw [hT, hS, hcount b, (hval2 b).2.1, (hval2 b).2.2, hzS, hzT]
    simp only [Int.cast_natCast, Nat.cast_eq_zero, zero_add, and_self]
  · rw [hd3, hd2, hd1]
    simp only [List.nil_append, hcount, Nat.cast_eq_zero]

end BasinSpec

section BasinClaims

variable {R : Type} [LinearOrderedField R]

/-- C17: when the basin id of every `INNER` cell is a valid index (between 0 and
`m_n_basins - 1`), `compute_ocean_input_per_basin` returns, for every basin `b` that has
at least one cell flagged `INNER`, basin 0 included, the arithmetic mean of `theta_ocean`,
respectively `salinity_ocean`, over exactly the owned cells that are `INNER` and whose
basin id is `b`: their sum divided by their number. -/
theorem basin_input_is_mean_over_inner_cells (pico : Pico R) (physics : PicoPhysics R)
    (INNER : Int) (basin_mask continental_shelf_mask : Int → Int → Int)
    (salinity_ocean theta_ocean : Int → Int → R) (temperature salinity : StdVector R)
    (hrange : ∀ q ∈ pico.m_grid.points, continental_shelf_mask q.1 q.2 = INNER →
      0 ≤ basin_mask q.1 q.2 ∧ basin_mask q.1 q.2 < pico.m_n_basins) :
    ∃ out, compute_ocean_input_per_basin pico physics INNER basin_mask continental_shelf_mask
        salinity_ocean theta_ocean temperature salinity = some out ∧
      ∀ b : Nat, b < pico.m_n_basins →
        let cells := pico.m_grid.points.filter fun q =>
          decide (continental_shelf_mask q.1 q.2 = INNER ∧ basin_mask q.1 q.2 = (b : Int))
        cells ≠ [] →
          out.temperature.elem b
            = (cells.map fun q => theta_ocean q.1 q.2).sum / (cells.length : R) ∧
          out.salinity.elem b
            = (cells.map fun q => salinity_ocean q.1 q.2).sum / (cells.length : R) := by
  obtain ⟨out, hout, _, _, hval, _⟩ := compute_ocean_input_per_basin_spec pico physics INNER
    basin_mask continental_shelf_mask salinity_ocean theta_ocean temperature salinity hrange
  refine ⟨out, hout, ?_⟩
  intro b hb cells hcells
  have hlen : ¬ (b > 0 ∧ cells.length = 0) := fun h => hcells (List.length_eq_zero.mp h.2)
  obtain ⟨hT, hS⟩ := hval b hb
  rw [hT, hS, if_neg hlen, if_neg hlen]
  exact ⟨rfl, rfl⟩

/-- C18: when the basin id of every `INNER` cell is a valid index,
`compute_ocean_input_per_basin` returns normally (the method has no `throw`) and, for
every basin id `b` with `1 ≤ b < m_n_basins` that has no cell flagged `INNER`, the
returned values are exactly `T_dummy` and `S_dummy`. -/
theorem empty_basin_gets_dummy_values (pico : Pico R) (physics : PicoPhysics R)
    (INNER : Int) (basin_mask continental_shelf_mask : Int → Int → Int)
    (salinity_ocean theta_ocean : Int → Int → R) (temperature salinity : StdVector R)
    (hrange : ∀ q ∈ pico.m_grid.points, continental_shelf_mask q.1 q.2 = INNER →
      0 ≤ basin_mask q.1 q.2 ∧ basin_mask q.1 q.2 < pico.m_n_basins) :
    ∃ out, compute_ocean_input_per_basin pico physics INNER basin_mask continental_shelf_mask
        salinity_ocean theta_ocean temperature salinity = some out ∧
      ∀ b : Nat, 1 ≤ b → b < pico.m_n_basins →
        (∀ q ∈ pico.m_grid.points,
          ¬ (continental_shelf_mask q.1 q.2 = INNER ∧ basin_mask q.1 q.2 = (b : Int))) →
        out.temperature.elem b = physics.T_dummy ∧ out.salinity.elem b = physics.S_dummy := by
  obtain ⟨out, hout, _, _, hval, _⟩ := compute_ocean_input_per_basin_spec pico physics INNER
    basin_mask continental_shelf_mask salinity_ocean theta_ocean temperature salinity hrange
  refine ⟨out, hout, ?_⟩
  intro b hb1 hb hnone
  have hempty : (pico.m_grid.points.filter fun q =>
      decide (continental_shelf_mask q.1 q.2 = INNER ∧ basin_mask q.1 q.2 = (b : Int))) = [] := by
    rw [List.filter_eq_nil_iff]
    intro q hq
    simpa using hnone q hq
  obtain ⟨hT, hS⟩ := hval b hb
  rw [hT, hS, hempty]
  have hpos : b > 0 ∧ ([] : List (Int × Int)).length = 0 := ⟨hb1, rfl⟩
  rw [if_pos hpos, if_pos hpos]
  exact ⟨rfl, rfl⟩

end BasinClaims

section DivisionSafety

variable {R : Type} [LinearOrderedField R]

theorem basinZeroStep_divisions (s s' : BasinSums R) (k : Nat)
    (h : basinZeroStep s k = some s') : s'.divisions = s.divisions := by
  unfold basinZeroStep at h
  simp only [Option.bind_eq_bind, Option.bind_eq_some, Option.some.injEq] at h
  obtain ⟨_, _, _, _, h⟩ := h
  rw [← h]

theorem basinSumStep_divisions (INNER : Int)
    (basin_mask continental_shelf_mask : Int → Int → Int)
    (salinity_ocean theta_ocean : Int → Int → R) (s s' : BasinSums R) (p : Int × Int)
    (h : basinSumStep INNER basin_mask continental_shelf_mask salinity_ocean theta_ocean s p
      = some s') : s'.divisions = s.divisions := by
  unfold basinSumStep at h
  split at h
  · simp only [Option.bind_eq_bind, Option.bind_eq_some, Option.some.injEq] at h
    obtain ⟨_, _, _, _, _, _, h⟩ := h
    rw [← h]
  · cases h
    rfl

/-- Every division that one pass of the averaging loop adds is for the basin of the
pass and, unless that basin is 0, has a non-zero count. -/
theorem basinMeanStep_divisions (physics : PicoPhysics R) (s s' : BasinSums R) (k : Nat)
    (h : basinMeanStep physics s k = some s') :
    ∀ d ∈ s'.divisions, d ∈ s.divisions ∨ (d.index = k ∧ (k > 0 → d.count ≠ 0)) := by
  unfold basinMeanStep at h
  simp only [Option.bind_eq_bind, Option.bind_eq_some] at h
  obtain ⟨count, _, salinity, _, temperature, _, c, _, h⟩ := h
  split at h
  · simp only [Option.bind_eq_some, Option.some.injEq] at h
    obtain ⟨_, _, _, _, h⟩ := h
    rw [← h]
    intro d hd
    exact Or.inl hd
  · rename_i hguard
    simp only [Option.bind_eq_some, Option.some.injEq] at h
    obtain ⟨_, _, _, _, h⟩ := h
    rw [← h]
    intro d hd
    simp only [List.mem_append, List.mem_cons, List.mem_singleton, or_self, List.not_mem_nil,
      or_false] at hd
    rcases hd with hd | hd
    · exact Or.inl hd
    · right
      rw [hd]
      exact ⟨rfl, fun hk hc => hguard ⟨hk, hc⟩⟩

/-- In every run of `compute_ocean_input_per_basin` that stays in range, each executed
division by a count is for some basin id and, unless that basin id is 0, the count is
not zero. -/
theorem compute_ocean_input_per_basin_divisions (pico : Pico R) (physics : PicoPhysics R)
    (INNER : Int) (basin_mask continental_shelf_mask : Int → Int → Int)
    (salinity_ocean theta_ocean : Int → Int → R) (temperature salinity : StdVector R)
    (out : BasinSums R)
    (h : compute_ocean_input_per_basin pico physics INNER basin_mask continental_shelf_mask
      salinity_ocean theta_ocean temperature salinity = some out) :
    ∀ d ∈ out.divisions, d.index ≠ 0 → d.count ≠ 0 := by
  unfold compute_ocean_input_per_basin at h
  simp only [Option.bind_eq_bind, Option.bind_eq_some] at h
  obtain ⟨s1, h1, s2, h2, h3⟩ := h
  have d1 : s1.divisions = [] :=
    loopM_partial basinZeroStep (fun _ s => s.divisions = []) _
      (fun _ k st st' _ hinv hstep => (basinZeroStep_divisions st st' k hstep).trans hinv)
      _ s1 rfl h1
  have d2 : s2.divisions = [] :=
    loopM_partial _ (fun _ s => s.divisions = []) _
      (fun _ p st st' _ hinv hstep =>
        (basinSumStep_divisions INNER basin_mask continental_shelf_mask salinity_ocean
          theta_ocean st st' p hstep).trans hinv)
      _ s2 d1 h2
  refine loopM_partial (basinMeanStep physics)
    (fun _ s => ∀ d ∈ s.divisions, d.index ≠ 0 → d.count ≠ 0) _ ?_ s2 out ?_ h3
  · intro _ k st st' _ hinv hstep d hd hindex
    rcases basinMeanStep_divisions physics st st' k hstep d hd with hold | ⟨hk, hc⟩
    · exact hinv d hold hindex
    · refine hc ?_
      rw [hk] at hindex
      exact Nat.pos_of_ne_zero (fun h0 => hindex (by rw [h0]; rfl))
  · intro d hd
    rw [d2] at hd
    cases hd

end DivisionSafety

section BoxAverageSafety

variable {R : Type} [LinearOrderedField R]

theorem boxZeroStep_divisions (b b' : BoxSums R) (s : Nat) (h : boxZeroStep b s = some b') :
    b'.divisions = b.divisions := by
  unfold boxZeroStep at h
  simp only [Option.bind_eq_bind, Option.bind_eq_some, Option.some.injEq] at h
  obtain ⟨_, _, h⟩ := h
  rw [← h]

theorem boxSumStep_divisions (box_id : Int) (field : Int → Int → R)
    (shelf_mask box_mask : Int → Int → Int) (b b' : BoxSums R) (p : Int × Int)
    (h : boxSumStep box_id field shelf_mask box_mask b p = some b') :
    b'.divisions = b.divisions := by
  unfold boxSumStep at h
  simp only [] at h
  split at h
  · simp only [Option.bind_eq_bind, Option.bind_eq_some, Option.some.injEq] at h
    obtain ⟨_, _, _, _, h⟩ := h
    rw [← h]
  · cases h
    rfl

/-- Every division that one pass of the averaging loop of `compute_box_average` adds
has a positive count. -/
theorem boxAverageStep_divisions (b b' : BoxSums R) (s : Nat)
    (h : boxAverageStep b s = some b') :
    ∀ d ∈ b'.divisions, d ∈ b.divisions ∨ 0 < d.count := by
  unfold boxAverageStep at h
  simp only [Option.bind_eq_bind, Option.bind_eq_some] at h
  obtain ⟨n, _, result, _, h⟩ := h
  split at h
  · rename_i hpos
    simp only [Option.bind_eq_some, Option.some.injEq] at h
    obtain ⟨_, _, h⟩ := h
    rw [← h]
    intro d hd
    simp only [List.mem_append, List.mem_singleton] at hd
    rcases hd with hd | hd
    · exact Or.inl hd
    · right
      rw [hd]
      exact hpos
  · simp only [Option.some.injEq] at h
    rw [← h]
    intro d hd
    exact Or.inl hd

/-- In every run of `compute_box_average` that stays in range, each executed division
is by a positive number of cells. -/
theorem compute_box_average_divisions (pico : Pico R) (box_id : Int) (field : Int → Int → R)
    (shelf_mask box_mask : Int → Int → Int) (result : StdVector R) (out : BoxSums R)
    (h : compute_box_average pico box_id field shelf_mask box_mask result = some out) :
    ∀ d ∈ out.divisions, 0 < d.count := by
  unfold compute_box_average at h
  simp only [Option.bind_eq_bind, Option.bind_eq_some] at h
  obtain ⟨b1, h1, b2, h2, h3⟩ := h
  have d1 : b1.divisions = [] :=
    loopM_partial boxZeroStep (fun _ b => b.divisions = []) _
      (fun _ s st st' _ hinv hstep => (boxZeroStep_divisions st st' s hstep).trans hinv)
      _ b1 rfl h1
  have d2 : b2.divisions = [] :=
    loopM_partial _ (fun _ b => b.divisions = []) _
      (fun _ p st st' _ hinv hstep =>
        (boxSumStep_divisions box_id field shelf_mask box_mask st st' p hstep).trans hinv)
      _ b2 d1 h2
  refine loopM_partial boxAverageStep (fun _ b => ∀ d ∈ b.divisions, 0 < d.count) _ ?_ b2 out
    ?_ h3
  · intro _ s st st' _ hinv hstep d hd
    rcases boxAverageStep_divisions st st' s hstep d hd with hold | hpos
    · exact hinv d hold
    · exact hpos
  · intro d hd
    rw [d2] at hd
    cases hd

end BoxAverageSafety

section OceanInputSafety

variable {R : Type} [LinearOrderedField R]

/-- One pass of the counting loop increments `n_shelf_cells` at the shelf id of the
cell. -/
theorem shelfCountStep_cells (basin_mask shelf_mask : Int → Int → Int) (c c' : ShelfCounts)
    (p : Int × Int) (h : shelfCountStep basin_mask shelf_mask c p = some c') :
    c.n_shelf_cells.modify? (shelf_mask p.1 p.2) (fun n => n + 1) = some c'.n_shelf_cells := by
  unfold shelfCountStep at h
  simp only [Option.bind_eq_bind, Option.bind_eq_some, Option.some.injEq] at h
  obtain ⟨_, _, _, _, _, _, cells, hcells, h⟩ := h
  rw [hcells, ← h]

/-- After the counting loop over the cells `pre`, the count of the shelf of each of
these cells is at least 1. -/
theorem shelfCount_loop_positive (basin_mask shelf_mask : Int → Int → Int)
    (l : List (Int × Int)) (c0 c1 : ShelfCounts) (h0 : ∀ k, 0 ≤ c0.n_shelf_cells.elem k)
    (h : loopM (shelfCountStep basin_mask shelf_mask) l c0 = some c1) :
    ∀ q ∈ l, ∃ m, c1.n_shelf_cells.get? (shelf_mask q.1 q.2) = some m ∧ 1 ≤ m := by
  have key := loopM_partial (shelfCountStep basin_mask shelf_mask)
    (fun pre c => (∀ k, 0 ≤ c.n_shelf_cells.elem k) ∧
      ∀ q ∈ pre, ∃ m, c.n_shelf_cells.get? (shelf_mask q.1 q.2) = some m ∧ 1 ≤ m)
    l ?_ c0 c1 ⟨h0, fun q hq => absurd hq (List.not_mem_nil q)⟩ h
  · exact key.2
  · rintro pre p st st' _ ⟨hnonneg, hpre⟩ hstep
    have hmod := shelfCountStep_cells basin_mask shelf_mask st st' p hstep
    rw [StdVector.modify?_some_iff] at hmod
    obtain ⟨⟨hs0, hs1⟩, hcells⟩ := hmod
    have hsize : st'.n_shelf_cells.size = st.n_shelf_cells.size := by rw [hcells]
    have helem : ∀ k, st'.n_shelf_cells.elem k
        = if k = (shelf_mask p.1 p.2).toNat then st.n_shelf_cells.elem k + 1
          else st.n_shelf_cells.elem k := by
      intro k
      rw [hcells]
    refine ⟨?_, ?_⟩
    · intro k
      rw [helem k]
      split
      · exact add_nonneg (hnonneg k) zero_le_one
      · exact hnonneg k
    · intro q hq
      rcases List.mem_append.mp hq with hq | hq
      · obtain ⟨m, hm, hm1⟩ := hpre q hq
        rw [StdVector.get?_some_iff] at hm
        obtain ⟨⟨hq0, hq1⟩, hqe⟩ := hm
        refine ⟨_, StdVector.get?_eq_some _ _ hq0 (by rw [hsize]; exact hq1), ?_⟩
        rw [helem, hqe]
        split
        · exact le_add_of_le_of_nonneg hm1 zero_le_one
        · exact hm1
      · rw [List.mem_singleton] at hq
        subst hq
        refine ⟨_, StdVector.get?_eq_some _ _ hs0 (by rw [hsize]; exact hs1), ?_⟩
        rw [helem, if_pos rfl]
        exact le_add_of_nonneg_left (hnonneg _)

theorem shelfBasinReduceStep_cells (s : Nat) (c c' : ShelfCounts) (b : Nat)
    (h : shelfBasinReduceStep s c b = some c') : c'.n_shelf_cells = c.n_shelf_cells := by
  unfold shelfBasinReduceStep at h
  simp only [Option.bind_eq_bind, Option.bind_eq_some, Option.some.injEq] at h
  obtain ⟨_, _, _, _, _, _, h⟩ := h
  rw [← h]

/-- The reduction loop leaves `n_shelf_cells` as it is. -/
theorem shelfReduceStep_cells (n_basins : Nat) (c c' : ShelfCounts) (s : Nat)
    (h : shelfReduceStep n_basins c s = some c') : c'.n_shelf_cells = c.n_shelf_cells := by
  unfold shelfReduceStep at h
  simp only [Option.bind_eq_bind, Option.bind_eq_some] at h
  obtain ⟨cells, hcells, h⟩ := h
  have hsame : cells = c.n_shelf_cells := by
    rw [StdVector.modify?_some_iff] at hcells
    obtain ⟨⟨h0, h1⟩, hc⟩ := hcells
    have := StdVector.modify?_GlobalSum c.n_shelf_cells s h0 h1
    rw [StdVector.modify?_eq_some _ _ _ h0 h1] at this
    rw [hc]
    exact Option.some.inj this
  have key := loopM_partial (shelfBasinReduceStep s)
    (fun _ st => st.n_shelf_cells = cells) (List.range n_basins)
    (fun _ b st st' _ hinv hstep => (shelfBasinReduceStep_cells s st st' b hstep).trans hinv)
    _ c' rfl h
  exact key.trans hsame

theorem basinWeightStep_divisions (counts : ShelfCounts)
    (basin_temperature basin_salinity : StdVector R) (p : Int × Int) (s : Int)
    (o o' : OceanInput R) (b : Nat)
    (h : basinWeightStep counts basin_temperature basin_salinity p s o b = some o') :
    ∀ d ∈ o'.divisions, d ∈ o.divisions ∨
      (d.index = s ∧ counts.n_shelf_cells.get? s = some d.count) := by
  unfold basinWeightStep at h
  simp only [Option.bind_eq_bind, Option.bind_eq_some, Option.some.injEq] at h
  obtain ⟨_, _, _, _, _, _, m, hm, _, _, h⟩ := h
  rw [← h]
  intro d hd
  simp only [List.mem_append, List.mem_cons, List.mem_singleton, or_self, List.not_mem_nil,
    or_false] at hd
  rcases hd with hd | hd
  · exact Or.inl hd
  · right
    rw [hd]
    exact ⟨rfl, hm⟩

/-- Every division that one pass of the loop of lines 458-485 adds is by the number of
cells of the shelf of the cell of that pass. -/
theorem oceanInputStep_divisions (n_basins : Nat) (physics : PicoPhysics R)
    (MASK_FLOATING : Int) (ice_thickness : Int → Int → R) (mask shelf_mask : Int → Int → Int)
    (counts : ShelfCounts) (basin_temperature basin_salinity : StdVector R)
    (o o' : OceanInput R) (p : Int × Int)
    (h : oceanInputStep n_basins physics MASK_FLOATING ice_thickness mask shelf_mask counts
      basin_temperature basin_salinity o p = some o') :
    ∀ d ∈ o'.divisions, d ∈ o.divisions ∨
      (d.index = shelf_mask p.1 p.2 ∧ 0 < shelf_mask p.1 p.2 ∧
        counts.n_shelf_cells.get? (shelf_mask p.1 p.2) = some d.count) := by
  unfold oceanInputStep at h
  simp only [] at h
  split at h
  · rename_i hfloat
    simp only [Option.bind_eq_bind, Option.bind_eq_some] at h
    obtain ⟨o2, hloop, h⟩ := h
    have key := loopM_partial
      (basinWeightStep counts basin_temperature basin_salinity p (shelf_mask p.1 p.2))
      (fun _ st => ∀ d ∈ st.divisions, d ∈ o.divisions ∨
        (d.index = shelf_mask p.1 p.2 ∧
          counts.n_shelf_cells.get? (shelf_mask p.1 p.2) = some d.count))
      (List.range' 1 (n_basins - 1))
      (fun _ b st st' _ hinv hstep d hd => by
        rcases basinWeightStep_divisions counts basin_temperature basin_salinity p
          (shelf_mask p.1 p.2) st st' b hstep d hd with hold | hnew
        · exact hinv d hold
        · exact Or.inr hnew)
      { o with Toc_box0 := setCell o.Toc_box0 p 0, Soc_box0 := setCell o.Soc_box0 p 0 } o2
      (fun d hd => Or.inl hd) hloop
    have hdiv : o'.divisions = o2.divisions := by
      split at h <;> (simp only [Option.some.injEq] at h; rw [← h])
    intro d hd
    rw [hdiv] at hd
    rcases key d hd with hold | ⟨h1, h2⟩
    · exact Or.inl hold
    · exact Or.inr ⟨h1, hfloat.2, h2⟩
  · simp only [Option.some.injEq] at h
    rw [← h]
    intro d hd
    exact Or.inl hd

/-- In every run of `set_ocean_input_fields` that stays in range, each executed
division is by the number of cells of a shelf with a positive id, and this number is at
least 1. -/
theorem set_ocean_input_fields_divisions (pico : Pico R) (physics : PicoPhysics R)
    (MASK_FLOATING : Int) (ice_thickness : Int → Int → R)
    (mask basin_mask shelf_mask : Int → Int → Int)
    (basin_temperature basin_salinity : StdVector R) (Toc_box0 Soc_box0 : Int → Int → R)
    (out : OceanInput R)
    (h : set_ocean_input_fields pico physics MASK_FLOATING ice_thickness mask basin_mask
      shelf_mask basin_temperature basin_salinity Toc_box0 Soc_box0 = some out) :
    ∀ d ∈ out.divisions, 0 < d.index ∧ 1 ≤ d.count := by
  unfold set_ocean_input_fields at h
  simp only [Option.bind_eq_bind, Option.bind_eq_some, Option.some.injEq] at h
  obtain ⟨c1, h1, c2, h2, o, h3, h⟩ := h
  have hpos := shelfCount_loop_positive basin_mask shelf_mask pico.m_grid.points _ c1
    (fun _ => le_refl (0 : Int)) h1
  have hcells : c2.n_shelf_cells = c1.n_shelf_cells :=
    loopM_partial (shelfReduceStep pico.m_n_basins)
      (fun _ st => st.n_shelf_cells = c1.n_shelf_cells) _
      (fun _ s st st' _ hinv hstep =>
        (shelfReduceStep_cells pico.m_n_basins st st' s hstep).trans hinv)
      _ c2 rfl h2
  have key := loopM_partial
    (oceanInputStep pico.m_n_basins physics MASK_FLOATING ice_thickness mask shelf_mask c2
      basin_temperature basin_salinity)
    (fun _ st => ∀ d ∈ st.divisions, 0 < d.index ∧ 1 ≤ d.count) pico.m_grid.points
    (fun _ p st st' hp hinv hstep d hd => by
      rcases oceanInputStep_divisions pico.m_n_basins physics MASK_FLOATING ice_thickness mask
        shelf_mask c2 basin_temperature basin_salinity st st' p hstep d hd
        with hold | ⟨hindex, hshelf, hcount⟩
      · exact hinv d hold
      · obtain ⟨m, hm, hm1⟩ := hpos p hp
        rw [hcells, hm] at hcount
        rw [hindex, ← Option.some.inj hcount]
        exact ⟨hshelf, hm1⟩)
    _ o (fun d hd => absurd hd (List.not_mem_nil d)) h3
  rw [← h]
  exact key

end OceanInputSafety

section Definedness

variable {R : Type} [LinearOrderedField R]

theorem StdVector.modify?_defined {α : Type} (v : StdVector α) (i : Int) (f : α → α)
    (h0 : 0 ≤ i) (h1 : i < v.size) : ∃ w, v.modify? i f = some w ∧ w.size = v.size :=
  ⟨_, StdVector.modify?_eq_some v i f h0 h1, rfl⟩

theorem StdVector.modify?_defined_nat {α : Type} (v : StdVector α) (k : Nat) (f : α → α)
    (h : k < v.size) : ∃ w, v.modify? (k : Int) f = some w ∧ w.size = v.size :=
  StdVector.modify?_defined v k f (Int.natCast_nonneg k) (by exact_mod_cast h)

/-- With the shelf id of every cell of the box in range, `compute_box_average` stays
in range: it returns a vector of size `m_n_shelves`. -/
theorem compute_box_average_defined (pico : Pico R) (box_id : Int) (field : Int → Int → R)
    (shelf_mask box_mask : Int → Int → Int) (result : StdVector R)
    (hrange : ∀ q ∈ pico.m_grid.points, box_mask q.1 q.2 = box_id →
      0 ≤ shelf_mask q.1 q.2 ∧ shelf_mask q.1 q.2 < pico.m_n_shelves) :
    ∃ out, compute_box_average pico box_id field shelf_mask box_mask result = some out ∧
      out.result.size = pico.m_n_shelves := by
  obtain ⟨b1, hrun1, hn1, hr1⟩ := loopM_total boxZeroStep
    (fun _ b => b.n_cells_per_box.size = pico.m_n_shelves ∧ b.result.size = pico.m_n_shelves)
    (List.range pico.m_n_shelves)
    (fun _ s st hs hinv => by
      obtain ⟨w, hw, hsz⟩ := StdVector.modify?_defined_nat st.result s (fun _ => 0)
        (by rw [hinv.2]; exact List.mem_range.mp hs)
      refine ⟨{ st with result := w }, ?_, hinv.1, hsz.trans hinv.2⟩
      unfold boxZeroStep
      rw [hw]
      rfl)
    ({ n_cells_per_box := StdVector.filled pico.m_n_shelves 0,
       result := result.resize pico.m_n_shelves, divisions := [] } : BoxSums R) ⟨rfl, rfl⟩
  obtain ⟨b2, hrun2, hn2, hr2⟩ := loopM_total
    (boxSumStep box_id field shelf_mask box_mask)
    (fun _ b => b.n_cells_per_box.size = pico.m_n_shelves ∧ b.result.size = pico.m_n_shelves)
    pico.m_grid.points
    (fun _ p st hp hinv => by
      by_cases hbox : box_mask p.1 p.2 = box_id
      · obtain ⟨h0, h1⟩ := hrange p hp hbox
        obtain ⟨w1, hw1, hsz1⟩ := StdVector.modify?_defined st.n_cells_per_box
          (shelf_mask p.1 p.2) (fun n => n + 1) h0 (by rw [hinv.1]; exact h1)
        obtain ⟨w2, hw2, hsz2⟩ := StdVector.modify?_defined st.result
          (shelf_mask p.1 p.2) (fun x => x + field p.1 p.2) h0 (by rw [hinv.2]; exact h1)
        refine ⟨{ st with n_cells_per_box := w1, result := w2 }, ?_, hsz1.trans hinv.1,
          hsz2.trans hinv.2⟩
        unfold boxSumStep
        simp only [hbox, if_true, hw1, hw2, Option.bind_eq_bind, Option.some_bind]
      · refine ⟨st, ?_, hinv⟩
        unfold boxSumStep
        simp only [hbox, if_false])
    b1 ⟨hn1, hr1⟩
  obtain ⟨b3, hrun3, _, hr3⟩ := loopM_total boxAverageStep
    (fun _ b => b.n_cells_per_box.size = pico.m_n_shelves ∧ b.result.size = pico.m_n_shelves)
    (List.range pico.m_n_shelves)
    (fun _ s st hs hinv => by
      have hlt : s < pico.m_n_shelves := List.mem_range.mp hs
      have hget := StdVector.get?_nat st.n_cells_per_box s (by rw [hinv.1]; exact hlt)
      obtain ⟨w1, hw1, hsz1⟩ := StdVector.modify?_defined_nat st.result s GlobalSum
        (by rw [hinv.2]; exact hlt)
      unfold boxAverageStep
      simp only [hget, hw1, Option.bind_eq_bind, Option.some_bind]
      split
      · obtain ⟨w2, hw2, hsz2⟩ := StdVector.modify?_defined_nat w1 s
          (fun x => x / ((GlobalSum (st.n_cells_per_box.elem s) : Int) : R))
          (by rw [hsz1, hinv.2]; exact hlt)
        simp only [hw2, Option.some_bind]
        exact ⟨_, rfl, hinv.1, hsz2.trans (hsz1.trans hinv.2)⟩
      · exact ⟨_, rfl, hinv.1, hsz1.trans hinv.2⟩)
    b2 ⟨hn2, hr2⟩
  refine ⟨b3, ?_, hr3⟩
  unfold compute_box_average
  simp only [hrun1, hrun2, hrun3, Option.bind_eq_bind, Option.some_bind]

end Definedness

section OceanInputDefinedness

variable {R : Type} [LinearOrderedField R]

/-- The sizes of the two count tables of `set_ocean_input_fields`. -/
theorem shelfCountStep_defined (n_shelves n_basins : Nat)
    (basin_mask shelf_mask : Int → Int → Int) (c : ShelfCounts) (p : Int × Int)
    (hs0 : 0 ≤ shelf_mask p.1 p.2) (hs1 : shelf_mask p.1 p.2 < n_shelves)
    (hb0 : 0 ≤ basin_mask p.1 p.2) (hb1 : basin_mask p.1 p.2 < n_basins)
    (hc : c.n_shelf_cells.size = n_shelves ∧ c.n_shelf_cells_per_basin.size = n_shelves ∧
      ∀ k, k < n_shelves → (c.n_shelf_cells_per_basin.elem k).size = n_basins) :
    ∃ c', shelfCountStep basin_mask shelf_mask c p = some c' ∧
      c'.n_shelf_cells.size = n_shelves ∧ c'.n_shelf_cells_per_basin.size = n_shelves ∧
      ∀ k, k < n_shelves → (c'.n_shelf_cells_per_basin.elem k).size = n_basins := by
  obtain ⟨hc1, hc2, hc3⟩ := hc
  have hk : (shelf_mask p.1 p.2).toNat < n_shelves := by omega
  have hget := StdVector.get?_eq_some c.n_shelf_cells_per_basin (shelf_mask p.1 p.2) hs0
    (by rw [hc2]; exact hs1)
  obtain ⟨row, hrow, hrowsz⟩ := StdVector.modify?_defined
    (c.n_shelf_cells_per_basin.elem (shelf_mask p.1 p.2).toNat) (basin_mask p.1 p.2)
    (fun n => n + 1) hb0 (by rw [hc3 _ hk]; exact hb1)
  have htable := StdVector.modify?_eq_some c.n_shelf_cells_per_basin (shelf_mask p.1 p.2)
    (fun _ => row) hs0 (by rw [hc2]; exact hs1)
  obtain ⟨cells, hcells, hcellssz⟩ := StdVector.modify?_defined c.n_shelf_cells
    (shelf_mask p.1 p.2) (fun n => n + 1) hs0 (by rw [hc1]; exact hs1)
  unfold shelfCountStep
  simp only [hget, hrow, htable, hcells, Option.bind_eq_bind, Option.some_bind]
  refine ⟨_, rfl, hcellssz.trans hc1, hc2, ?_⟩
  intro k hkn
  show (if k = (shelf_mask p.1 p.2).toNat then row
    else c.n_shelf_cells_per_basin.elem k).size = n_basins
  split
  · rw [hrowsz, hc3 _ hk]
  · exact hc3 k hkn

theorem shelfBasinReduceStep_defined (n_shelves n_basins : Nat) (s : Nat) (c : ShelfCounts)
    (b : Nat) (hs : s < n_shelves) (hb : b < n_basins)
    (hc : c.n_shelf_cells.size = n_shelves ∧ c.n_shelf_cells_per_basin.size = n_shelves ∧
      ∀ k, k < n_shelves → (c.n_shelf_cells_per_basin.elem k).size = n_basins) :
    ∃ c', shelfBasinReduceStep s c b = some c' ∧
      c'.n_shelf_cells.size = n_shelves ∧ c'.n_shelf_cells_per_basin.size = n_shelves ∧
      ∀ k, k < n_shelves → (c'.n_shelf_cells_per_basin.elem k).size = n_basins := by
  obtain ⟨hc1, hc2, hc3⟩ := hc
  have hget := StdVector.get?_nat c.n_shelf_cells_per_basin s (by rw [hc2]; exact hs)
  obtain ⟨row, hrow, hrowsz⟩ := StdVector.modify?_defined_nat
    (c.n_shelf_cells_per_basin.elem s) b GlobalSum (by rw [hc3 _ hs]; exact hb)
  have htable := StdVector.modify?_nat c.n_shelf_cells_per_basin s (fun _ => row)
    (by rw [hc2]; exact hs)
  unfold shelfBasinReduceStep
  simp only [hget, hrow, htable, Option.bind_eq_bind, Option.some_bind]
  refine ⟨_, rfl, hc1, hc2, ?_⟩
  intro k hkn
  show (if k = s then row else c.n_shelf_cells_per_basin.elem k).size = n_basins
  split
  · rw [hrowsz, hc3 _ hs]
  · exact hc3 k hkn

theorem shelfReduceStep_defined (n_shelves n_basins : Nat) (c : ShelfCounts) (s : Nat)
    (hs : s < n_shelves)
    (hc : c.n_shelf_cells.size = n_shelves ∧ c.n_shelf_cells_per_basin.size = n_shelves ∧
      ∀ k, k < n_shelves → (c.n_shelf_cells_per_basin.elem k).size = n_basins) :
    ∃ c', shelfReduceStep n_basins c s = some c' ∧
      c'.n_shelf_cells.size = n_shelves ∧ c'.n_shelf_cells_per_basin.size = n_shelves ∧
      ∀ k, k < n_shelves → (c'.n_shelf_cells_per_basin.elem k).size = n_basins := by
  obtain ⟨cells, hcells, hcellssz⟩ := StdVector.modify?_defined_nat c.n_shelf_cells s GlobalSum
    (by rw [hc.1]; exact hs)
  obtain ⟨c', hrun, hinv⟩ := loopM_total (shelfBasinReduceStep s)
    (fun _ st => st.n_shelf_cells.size = n_shelves ∧
      st.n_shelf_cells_per_basin.size = n_shelves ∧
      ∀ k, k < n_shelves → (st.n_shelf_cells_per_basin.elem k).size = n_basins)
    (List.range n_basins)
    (fun _ b st hb hinv =>
      shelfBasinReduceStep_defined n_shelves n_basins s st b hs (List.mem_range.mp hb) hinv)
    { c with n_shelf_cells := cells } ⟨hcellssz.trans hc.1, hc.2.1, hc.2.2⟩
  refine ⟨c', ?_, hinv⟩
  unfold shelfReduceStep
  simp only [hcells, hrun, Option.bind_eq_bind, Option.some_bind]

theorem basinWeightStep_defined (n_shelves n_basins : Nat) (counts : ShelfCounts)
    (basin_temperature basin_salinity : StdVector R) (p : Int × Int) (s : Int)
    (o : OceanInput R) (b : Nat) (hs0 : 0 ≤ s) (hs1 : s < n_shelves) (hb : b < n_basins)
    (hbt : n_basins ≤ basin_temperature.size) (hbs : n_basins ≤ basin_salinity.size)
    (hc : counts.n_shelf_cells.size = n_shelves ∧
      counts.n_shelf_cells_per_basin.size = n_shelves ∧
      ∀ k, k < n_shelves → (counts.n_shelf_cells_per_basin.elem k).size = n_basins) :
    ∃ o', basinWeightStep counts basin_temperature basin_salinity p s o b = some o' := by
  obtain ⟨hc1, hc2, hc3⟩ := hc
  have hk : s.toNat < n_shelves := by omega
  have ht := StdVector.get?_nat basin_temperature b (lt_of_lt_of_le hb hbt)
  have hsal := StdVector.get?_nat basin_salinity b (lt_of_lt_of_le hb hbs)
  have hrow := StdVector.get?_eq_some counts.n_shelf_cells_per_basin s hs0
    (by rw [hc2]; exact hs1)
  have hn := StdVector.get?_nat (counts.n_shelf_cells_per_basin.elem s.toNat) b
    (by rw [hc3 _ hk]; exact hb)
  have hm := StdVector.get?_eq_some counts.n_shelf_cells s hs0 (by rw [hc1]; exact hs1)
  unfold basinWeightStep
  simp only [ht, hsal, hrow, hn, hm, Option.bind_eq_bind, Option.some_bind]
  exact ⟨_, rfl⟩

theorem oceanInputStep_defined (n_shelves n_basins : Nat) (physics : PicoPhysics R)
    (MASK_FLOATING : Int) (ice_thickness : Int → Int → R) (mask shelf_mask : Int → Int → Int)
    (counts : ShelfCounts) (basin_temperature basin_salinity : StdVector R)
    (o : OceanInput R) (p : Int × Int)
    (hs0 : 0 ≤ shelf_mask p.1 p.2) (hs1 : shelf_mask p.1 p.2 < n_shelves)
    (hbt : n_basins ≤ basin_temperature.size) (hbs : n_basins ≤ basin_salinity.size)
    (hc : counts.n_shelf_cells.size = n_shelves ∧
      counts.n_shelf_cells_per_basin.size = n_shelves ∧
      ∀ k, k < n_shelves → (counts.n_shelf_cells_per_basin.elem k).size = n_basins) :
    ∃ o', oceanInputStep n_basins physics MASK_FLOATING ice_thickness mask shelf_mask counts
      basin_temperature basin_salinity o p = some o' := by
  unfold oceanInputStep
  simp only []
  split
  · obtain ⟨o2, hrun, _⟩ := loopM_total
      (basinWeightStep counts basin_temperature basin_salinity p (shelf_mask p.1 p.2))
      (fun _ _ => True) (List.range' 1 (n_basins - 1))
      (fun _ b st hb _ => by
        have hlt : b < n_basins := by
          obtain ⟨hb1, hb2⟩ := List.mem_range'_1.mp hb
          omega
        obtain ⟨o', ho'⟩ := basinWeightStep_defined n_shelves n_basins counts
          basin_temperature basin_salinity p (shelf_mask p.1 p.2) st b hs0 hs1 hlt hbt hbs hc
        exact ⟨o', ho', trivial⟩)
      ({ o with Toc_box0 := setCell o.Toc_box0 p 0, Soc_box0 := setCell o.Soc_box0 p 0 }
        : OceanInput R) trivial
    simp only [hrun, Option.bind_eq_bind, Option.some_bind]
    split
    · exact ⟨_, rfl⟩
    · exact ⟨_, rfl⟩
  · exact ⟨_, rfl⟩

/-- With every shelf id and basin id of the owned cells in range and the two input
vectors of size at least `m_n_basins`, `set_ocean_input_fields` stays in range. -/
theorem set_ocean_input_fields_defined (pico : Pico R) (physics : PicoPhysics R)
    (MASK_FLOATING : Int) (ice_thickness : Int → Int → R)
    (mask basin_mask shelf_mask : Int → Int → Int)
    (basin_temperature basin_salinity : StdVector R) (Toc_box0 Soc_box0 : Int → Int → R)
    (hshelf : ∀ q ∈ pico.m_grid.points,
      0 ≤ shelf_mask q.1 q.2 ∧ shelf_mask q.1 q.2 < pico.m_n_shelves)
    (hbasin : ∀ q ∈ pico.m_grid.points,
      0 ≤ basin_mask q.1 q.2 ∧ basin_mask q.1 q.2 < pico.m_n_basins)
    (hbt : pico.m_n_basins ≤ basin_temperature.size)
    (hbs : pico.m_n_basins ≤ basin_salinity.size) :
    ∃ out, set_ocean_input_fields pico physics MASK_FLOATING ice_thickness mask basin_mask
      shelf_mask basin_temperature basin_salinity Toc_box0 Soc_box0 = some out := by
  obtain ⟨c1, hrun1, hinv1⟩ := loopM_total (shelfCountStep basin_mask shelf_mask)
    (fun _ c => c.n_shelf_cells.size = pico.m_n_shelves ∧
      c.n_shelf_cells_per_basin.size = pico.m_n_shelves ∧
      ∀ k, k < pico.m_n_shelves → (c.n_shelf_cells_per_basin.elem k).size = pico.m_n_basins)
    pico.m_grid.points
    (fun _ p st hp hinv =>
      shelfCountStep_defined pico.m_n_shelves pico.m_n_basins basin_mask shelf_mask st p
        (hshelf p hp).1 (hshelf p hp).2 (hbasin p hp).1 (hbasin p hp).2 hinv)
    ({ n_shelf_cells_per_basin :=
        StdVector.filled pico.m_n_shelves (StdVector.filled pico.m_n_basins 0),
       n_shelf_cells := StdVector.filled pico.m_n_shelves 0 } : ShelfCounts)
    ⟨rfl, rfl, fun _ _ => rfl⟩
  obtain ⟨c2, hrun2, hinv2⟩ := loopM_total (shelfReduceStep pico.m_n_basins)
    (fun _ c => c.n_shelf_cells.size = pico.m_n_shelves ∧
      c.n_shelf_cells_per_basin.size = pico.m_n_shelves ∧
      ∀ k, k < pico.m_n_shelves → (c.n_shelf_cells_per_basin.elem k).size = pico.m_n_basins)
    (List.range pico.m_n_shelves)
    (fun _ s st hs hinv =>
      shelfReduceStep_defined pico.m_n_shelves pico.m_n_basins st s (List.mem_range.mp hs) hinv)
    c1 hinv1
  obtain ⟨o, hrun3, _⟩ := loopM_total
    (oceanInputStep pico.m_n_basins physics MASK_FLOATING ice_thickness mask shelf_mask c2
      basin_temperature basin_salinity)
    (fun _ _ => True) pico.m_grid.points
    (fun _ p st hp _ => by
      obtain ⟨o', ho'⟩ := oceanInputStep_defined pico.m_n_shelves pico.m_n_basins physics
        MASK_FLOATING ice_thickness mask shelf_mask c2 basin_temperature basin_salinity st p
        (hshelf p hp).1 (hshelf p hp).2 hbt hbs hinv2
      exact ⟨o', ho', trivial⟩)
    ({ Toc_box0 := Toc_box0, Soc_box0 := Soc_box0, low_temperature_counter := 0,
       divisions := [] } : OceanInput R) trivial
  unfold set_ocean_input_fields
  simp only [hrun1, hrun2, hrun3, Option.bind_eq_bind, Option.some_bind]
  exact ⟨_, rfl⟩

end OceanInputDefinedness

section PicoClaims

variable {R : Type} [LinearOrderedField R]

/-- C19, as amended: in every run that stays in range, `set_ocean_input_fields` and
`compute_box_average` execute a division by a cell count only when the count is not zero
(shelf id 0 included), and so does `compute_ocean_input_per_basin` for every basin id
other than 0; the basin id 0 is left out of the statement.  Each of the three methods
stays in range when the ids it indexes with are valid. -/
theorem count_divisions_nonzero_except_basin_zero (pico : Pico R) (physics : PicoPhysics R)
    (INNER MASK_FLOATING box_id : Int)
    (basin_mask continental_shelf_mask mask shelf_mask box_mask : Int → Int → Int)
    (salinity_ocean theta_ocean ice_thickness field Toc_box0 Soc_box0 : Int → Int → R)
    (temperature salinity basin_temperature basin_salinity result : StdVector R) :
    (∀ out, compute_ocean_input_per_basin pico physics INNER basin_mask continental_shelf_mask
        salinity_ocean theta_ocean temperature salinity = some out →
      ∀ d ∈ out.divisions, d.index ≠ 0 → d.count ≠ 0) ∧
    ((∀ q ∈ pico.m_grid.points, continental_shelf_mask q.1 q.2 = INNER →
        0 ≤ basin_mask q.1 q.2 ∧ basin_mask q.1 q.2 < pico.m_n_basins) →
      ∃ out, compute_ocean_input_per_basin pico physics INNER basin_mask
          continental_shelf_mask salinity_ocean theta_ocean temperature salinity = some out) ∧
    (∀ out, set_ocean_input_fields pico physics MASK_FLOATING ice_thickness mask basin_mask
        shelf_mask basin_temperature basin_salinity Toc_box0 Soc_box0 = some out →
      ∀ d ∈ out.divisions, d.count ≠ 0) ∧
    ((∀ q ∈ pico.m_grid.points,
        0 ≤ shelf_mask q.1 q.2 ∧ shelf_mask q.1 q.2 < pico.m_n_shelves) →
      (∀ q ∈ pico.m_grid.points,
        0 ≤ basin_mask q.1 q.2 ∧ basin_mask q.1 q.2 < pico.m_n_basins) →
      pico.m_n_basins ≤ basin_temperature.size → pico.m_n_basins ≤ basin_salinity.size →
      ∃ out, set_ocean_input_fields pico physics MASK_FLOATING ice_thickness mask basin_mask
        shelf_mask basin_temperature basin_salinity Toc_box0 Soc_box0 = some out) ∧
    (∀ out, compute_box_average pico box_id field shelf_mask box_mask result = some out →
      ∀ d ∈ out.divisions, d.count ≠ 0) ∧
    ((∀ q ∈ pico.m_grid.points, box_mask q.1 q.2 = box_id →
        0 ≤ shelf_mask q.1 q.2 ∧ shelf_mask q.1 q.2 < pico.m_n_shelves) →
      ∃ out, compute_box_average pico box_id field shelf_mask box_mask result = some out) := by
  refine ⟨?_, ?_, ?_, ?_, ?_, ?_⟩
  · intro out hout
    exact compute_ocean_input_per_basin_divisions pico physics INNER basin_mask
      continental_shelf_mask salinity_ocean theta_ocean temperature salinity out hout
  · intro hrange
    obtain ⟨out, hout, _⟩ := compute_ocean_input_per_basin_spec pico physics INNER
      basin_mask continental_shelf_mask salinity_ocean theta_ocean temperature salinity hrange
    exact ⟨out, hout⟩
  · intro out hout d hd
    have := (set_ocean_input_fields_divisions pico physics MASK_FLOATING ice_thickness mask
      basin_mask shelf_mask basin_temperature basin_salinity Toc_box0 Soc_box0 out hout d hd).2
    omega
  · intro hshelf hbasin hbt hbs
    exact set_ocean_input_fields_defined pico physics MASK_FLOATING ice_thickness mask
      basin_mask shelf_mask basin_temperature basin_salinity Toc_box0 Soc_box0 hshelf hbasin
      hbt hbs
  · intro out hout d hd
    have := compute_box_average_divisions pico box_id field shelf_mask box_mask result out
      hout d hd
    omega
  · intro hrange
    obtain ⟨out, hout, _⟩ := compute_box_average_defined pico box_id field shelf_mask box_mask
      result hrange
    exact ⟨out, hout⟩

/-- The two values that `basinWeightStep` reads from the per-basin vectors do not
depend on their element 0 when `b ≥ 1`. -/
theorem StdVector.get?_congr_positive (v w : StdVector R) (hsize : v.size = w.size)
    (helem : ∀ k, k ≠ 0 → v.elem k = w.elem k) (b : Nat) (hb : 1 ≤ b) :
    v.get? (b : Int) = w.get? (b : Int) := by
  unfold StdVector.get?
  rw [hsize]
  have hk : ((b : Int)).toNat ≠ 0 := by
    rw [Int.toNat_ofNat]
    omega
  rw [helem _ hk]

/-- C20: two runs of `set_ocean_input_fields` whose inputs differ only in
`basin_temperature[0]` and `basin_salinity[0]` have the same outcome; in particular the
resulting `Toc_box0` and `Soc_box0` are identical at every cell. -/
theorem basin_zero_excluded_from_ocean_input (pico : Pico R) (physics : PicoPhysics R)
    (MASK_FLOATING : Int) (ice_thickness : Int → Int → R)
    (mask basin_mask shelf_mask : Int → Int → Int)
    (basin_temperature basin_temperature' basin_salinity basin_salinity' : StdVector R)
    (Toc_box0 Soc_box0 : Int → Int → R)
    (htsize : basin_temperature.size = basin_temperature'.size)
    (hssize : basin_salinity.size = basin_salinity'.size)
    (ht : ∀ k, k ≠ 0 → basin_temperature.elem k = basin_temperature'.elem k)
    (hs : ∀ k, k ≠ 0 → basin_salinity.elem k = basin_salinity'.elem k) :
    set_ocean_input_fields pico physics MASK_FLOATING ice_thickness mask basin_mask shelf_mask
        basin_temperature basin_salinity Toc_box0 Soc_box0
      = set_ocean_input_fields pico physics MASK_FLOATING ice_thickness mask basin_mask
        shelf_mask basin_temperature' basin_salinity' Toc_box0 Soc_box0 ∧
    ∀ out out',
      set_ocean_input_fields pico physics MASK_FLOATING ice_thickness mask basin_mask shelf_mask
        basin_temperature basin_salinity Toc_box0 Soc_box0 = some out →
      set_ocean_input_fields pico physics MASK_FLOATING ice_thickness mask basin_mask shelf_mask
        basin_temperature' basin_salinity' Toc_box0 Soc_box0 = some out' →
      ∀ i j, out.Toc_box0 i j = out'.Toc_box0 i j ∧ out.Soc_box0 i j = out'.Soc_box0 i j := by
  have hweight : ∀ (counts : ShelfCounts) (p : Int × Int) (s : Int) (b : Nat), 1 ≤ b →
      ∀ o, basinWeightStep counts basin_temperature basin_salinity p s o b
        = basinWeightStep counts basin_temperature' basin_salinity' p s o b := by
    intro counts p s b hb o
    unfold basinWeightStep
    rw [StdVector.get?_congr_positive _ _ htsize ht b hb,
      StdVector.get?_congr_positive _ _ hssize hs b hb]
  have hstep : ∀ counts : ShelfCounts,
      oceanInputStep pico.m_n_basins physics MASK_FLOATING ice_thickness mask shelf_mask counts
        basin_temperature basin_salinity
      = oceanInputStep pico.m_n_basins physics MASK_FLOATING ice_thickness mask shelf_mask
        counts basin_temperature' basin_salinity' := by
    intro counts
    funext o p
    unfold oceanInputStep
    simp only []
    rw [loopM_congr _ _ _ (fun b hb o => hweight counts p (shelf_mask p.1 p.2) b
      (List.mem_range'_1.mp hb).1 o)]
  have heq : set_ocean_input_fields pico physics MASK_FLOATING ice_thickness mask basin_mask
      shelf_mask basin_temperature basin_salinity Toc_box0 Soc_box0
      = set_ocean_input_fields pico physics MASK_FLOATING ice_thickness mask basin_mask
        shelf_mask basin_temperature' basin_salinity' Toc_box0 Soc_box0 := by
    unfold set_ocean_input_fields
    simp only [hstep]
  refine ⟨heq, ?_⟩
  intro out out' hout hout' i j
  rw [heq, hout'] at hout
  rw [Option.some.inj hout]
  exact ⟨rfl, rfl⟩

end PicoClaims

section PicoWitnesses

theorem example_basin_ids_in_range :
    ∀ q ∈ (picoExample ℚ).m_grid.points, shelfBreakExample q.1 q.2 = 2 →
      0 ≤ basinMaskExample q.1 q.2 ∧ basinMaskExample q.1 q.2 < (picoExample ℚ).m_n_basins :=
  fun _ _ _ => ⟨show (0 : Int) ≤ 1 by decide, show (1 : Int) < ((3 : Nat) : Int) by decide⟩

theorem example_inner_cells_of_basin_one :
    ((picoExample ℚ).m_grid.points.filter fun q =>
      decide (shelfBreakExample q.1 q.2 = 2 ∧ basinMaskExample q.1 q.2 = ((1 : Nat) : Int)))
      = [(0, 0), (0, 1)] := by
  decide

theorem example_inner_cells_of_basin_zero :
    ((picoExample ℚ).m_grid.points.filter fun q =>
      decide (shelfBreakExample q.1 q.2 = 2 ∧ basinMaskExample q.1 q.2 = 0)) = [] := by
  decide

/-- Witness of C17: on the 2 by 2 grid whose column `i = 0` is `INNER` and lies in
basin 1, the values returned for basin 1 are the means 1 and 69/2 of the two cells. -/
theorem basin_input_is_mean_over_inner_cells_witness :
    (∀ q ∈ (picoExample ℚ).m_grid.points, shelfBreakExample q.1 q.2 = 2 →
      0 ≤ basinMaskExample q.1 q.2 ∧ basinMaskExample q.1 q.2 < (picoExample ℚ).m_n_basins) ∧
    ∃ out, compute_ocean_input_per_basin (picoExample ℚ) (physicsExample ℚ) 2 basinMaskExample
        shelfBreakExample (salinityExample ℚ) (thetaExample ℚ) (emptyVector ℚ) (emptyVector ℚ)
        = some out ∧
      out.temperature.elem 1 = 1 ∧ out.salinity.elem 1 = 69 / 2 := by
  refine ⟨example_basin_ids_in_range, ?_⟩
  obtain ⟨out, hout, hmean⟩ := basin_input_is_mean_over_inner_cells (picoExample ℚ)
    (physicsExample ℚ) 2 basinMaskExample shelfBreakExample (salinityExample ℚ)
    (thetaExample ℚ) (emptyVector ℚ) (emptyVector ℚ) example_basin_ids_in_range
  refine ⟨out, hout, ?_⟩
  have h := hmean 1 (by decide)
  simp only [example_inner_cells_of_basin_one] at h
  obtain ⟨hT, hS⟩ := h (by simp)
  rw [hT, hS]
  norm_num [thetaExample, salinityExample]

/-- Witness of C18: in the same example basin 2 has no `INNER` cell and receives
the dummy values -1 and 34. -/
theorem empty_basin_gets_dummy_values_witness :
    (∀ q ∈ (picoExample ℚ).m_grid.points, shelfBreakExample q.1 q.2 = 2 →
      0 ≤ basinMaskExample q.1 q.2 ∧ basinMaskExample q.1 q.2 < (picoExample ℚ).m_n_basins) ∧
    ∃ out, compute_ocean_input_per_basin (picoExample ℚ) (physicsExample ℚ) 2 basinMaskExample
        shelfBreakExample (salinityExample ℚ) (thetaExample ℚ) (emptyVector ℚ) (emptyVector ℚ)
        = some out ∧
      out.temperature.elem 2 = -1 ∧ out.salinity.elem 2 = 34 := by
  refine ⟨example_basin_ids_in_range, ?_⟩
  obtain ⟨out, hout, hdummy⟩ := empty_basin_gets_dummy_values (picoExample ℚ)
    (physicsExample ℚ) 2 basinMaskExample shelfBreakExample (salinityExample ℚ)
    (thetaExample ℚ) (emptyVector ℚ) (emptyVector ℚ) example_basin_ids_in_range
  refine ⟨out, hout, ?_⟩
  exact hdummy 2 (by decide) (by decide) (fun q _ h => by
    have h2 : basinMaskExample q.1 q.2 = 2 := h.2
    simp [basinMaskExample] at h2)

/-- Counterexample to C19 as stated: in the example no cell of basin 0 is `INNER`, so
`count[0]` is 0, and `compute_ocean_input_per_basin` executes the division by it. -/
theorem basin_zero_division_by_zero_count :
    ∃ out, compute_ocean_input_per_basin (picoExample ℚ) (physicsExample ℚ) 2 basinMaskExample
        shelfBreakExample (salinityExample ℚ) (thetaExample ℚ) (emptyVector ℚ) (emptyVector ℚ)
        = some out ∧
      ({ index := 0, count := 0 } : CountDivision) ∈ out.divisions := by
  obtain ⟨out, hout, _, _, _, hdiv⟩ := compute_ocean_input_per_basin_spec (picoExample ℚ)
    (physicsExample ℚ) 2 basinMaskExample shelfBreakExample (salinityExample ℚ)
    (thetaExample ℚ) (emptyVector ℚ) (emptyVector ℚ) example_basin_ids_in_range
  refine ⟨out, hout, ?_⟩
  rw [hdiv, List.mem_flatMap]
  refine ⟨0, by decide, ?_⟩
  have h0 := example_inner_cells_of_basin_zero
  simp only [Nat.cast_zero, h0, List.length_nil, gt_iff_lt, lt_self_iff_false, false_and,
    if_false, List.mem_cons, List.mem_singleton, or_self, List.not_mem_nil, or_false]

/-- Witness of C20: the vectors `basinValuesA` and `basinValuesB` differ at index 0
only, and the two runs agree. -/
theorem basin_zero_excluded_from_ocean_input_witness :
    (basinValuesA ℚ).size = (basinValuesB ℚ).size ∧
    (∀ k, k ≠ 0 → (basinValuesA ℚ).elem k = (basinValuesB ℚ).elem k) ∧
    (basinValuesA ℚ).elem 0 ≠ (basinValuesB ℚ).elem 0 ∧
    set_ocean_input_fields (picoExample ℚ) (physicsExample ℚ) 3 (thicknessExample ℚ)
        floatingExample basinMaskExample shelfMaskExample (basinValuesA ℚ) (basinValuesA ℚ)
        (fun _ _ => 0) (fun _ _ => 0)
      = set_ocean_input_fields (picoExample ℚ) (physicsExample ℚ) 3 (thicknessExample ℚ)
        floatingExample basinMaskExample shelfMaskExample (basinValuesB ℚ) (basinValuesB ℚ)
        (fun _ _ => 0) (fun _ _ => 0) :=
  have helem : ∀ k, k ≠ 0 → (basinValuesA ℚ).elem k = (basinValuesB ℚ).elem k :=
    fun k hk => by simp [basinValuesA, basinValuesB, hk]
  ⟨rfl, helem, by norm_num [basinValuesA, basinValuesB],
    (basin_zero_excluded_from_ocean_input (picoExample ℚ) (physicsExample ℚ) 3
      (thicknessExample ℚ) floatingExample basinMaskExample shelfMaskExample (basinValuesA ℚ)
      (basinValuesB ℚ) (basinValuesA ℚ) (basinValuesB ℚ) (fun _ _ => 0) (fun _ _ => 0) rfl rfl
      helem helem).1⟩

end PicoWitnesses

section SlidingUpdateClaims

variable {R : Type} [LinearOrderedField R]

/-- C26: for `ZeroSliding` and `PrescribedSliding`, for every starting state and every
value of `fast` and `melange_back_pressure`, calling `update` twice with the same
arguments leaves the state (the velocity and the basal frictional heating) that one call
leaves; and `PrescribedSliding::update` leaves the velocity field as it was. -/
theorem update_idempotent (fast : Bool) (melange_back_pressure : Int → Int → R)
    (s : StressBalanceState R) :
    ZeroSliding.update fast melange_back_pressure
        (ZeroSliding.update fast melange_back_pressure s)
      = ZeroSliding.update fast melange_back_pressure s ∧
    PrescribedSliding.update fast melange_back_pressure
        (PrescribedSliding.update fast melange_back_pressure s)
      = PrescribedSliding.update fast melange_back_pressure s ∧
    (PrescribedSliding.update fast melange_back_pressure s).m_velocity = s.m_velocity := by
  unfold ZeroSliding.update PrescribedSliding.update
  cases fast <;> exact ⟨rfl, rfl, rfl⟩

/-- C30: at every owned cell at which the drag `drag(tauc, u, v)` of the basal
resistance law is non-negative, the value written by `compute_basal_frictional_heating`
is 0 when the cell is ocean and `drag * (u^2 + v^2)` otherwise; hence it is not
negative, and it is 0 when the velocity of the cell is zero. -/
theorem basal_frictional_heating_nonnegative (ssb : ShallowStressBalance R)
    (velocity : Int → Int → Vector2 R) (tauc : Int → Int → R) (mask : Int → Int → Int)
    (result : Int → Int → R) (i j : Int) (hij : (i, j) ∈ ssb.m_grid.points)
    (hdrag : 0 ≤ ssb.drag (tauc i j) (velocity i j).u (velocity i j).v) :
    (ssb.ocean (mask i j) = true →
      compute_basal_frictional_heating ssb velocity tauc mask result i j = 0) ∧
    (ssb.ocean (mask i j) = false →
      compute_basal_frictional_heating ssb velocity tauc mask result i j
        = ssb.drag (tauc i j) (velocity i j).u (velocity i j).v
          * ((velocity i j).u ^ 2 + (velocity i j).v ^ 2)) ∧
    0 ≤ compute_basal_frictional_heating ssb velocity tauc mask result i j ∧
    ((velocity i j).u = 0 → (velocity i j).v = 0 →
      compute_basal_frictional_heating ssb velocity tauc mask result i j = 0) := by
  rw [compute_basal_frictional_heating_at ssb velocity tauc mask result i j hij]
  unfold basalFrictionalHeatingAt
  cases hocean : ssb.ocean (mask i j)
  · simp only [Bool.false_eq_true, if_false, false_implies, true_implies, true_and]
    have hval : -(-ssb.drag (tauc i j) (velocity i j).u (velocity i j).v * (velocity i j).u)
          * (velocity i j).u
        - -ssb.drag (tauc i j) (velocity i j).u (velocity i j).v * (velocity i j).v
          * (velocity i j).v
        = ssb.drag (tauc i j) (velocity i j).u (velocity i j).v
          * ((velocity i j).u ^ 2 + (velocity i j).v ^ 2) := by ring
    rw [hval]
    refine ⟨rfl, mul_nonneg hdrag (by positivity), ?_⟩
    intro hu hv
    rw [hu, hv]
    ring
  · simp

/-- Witness of C30: the grounded cell `(1, 1)` of the 3 by 3 grid, with velocity
`(3, 3)` and drag 1, where the heating is 18. -/
theorem basal_frictional_heating_nonnegative_witness :
    ((1 : Int), (1 : Int)) ∈ (stressBalance3 ℚ).m_grid.points ∧
    0 ≤ (stressBalance3 ℚ).drag (tauc3 ℚ 1 1) (velocity3 ℚ 1 1).u (velocity3 ℚ 1 1).v ∧
    0 ≤ compute_basal_frictional_heating (stressBalance3 ℚ) (velocity3 ℚ) (tauc3 ℚ) mask3
      (fun _ _ => 0) 1 1 :=
  have hdrag : (0 : ℚ) ≤ (stressBalance3 ℚ).drag (tauc3 ℚ 1 1) (velocity3 ℚ 1 1).u
      (velocity3 ℚ 1 1).v := by
    norm_num [stressBalance3, tauc3]
  ⟨by decide, hdrag,
    (basal_frictional_heating_nonnegative (stressBalance3 ℚ) (velocity3 ℚ) (tauc3 ℚ) mask3
      (fun _ _ => 0) 1 1 (by decide) hdrag).2.2.1⟩

end SlidingUpdateClaims

section RoundBasinsLemmas

variable {R : Type} [LinearOrderedField R]

/-- The loop over the grid points visits them row by row: a point comes before
another when its `j` is smaller, or the `j` are equal and its `i` is smaller. -/
theorem rectangle_sorted (xs : Int) (xm : Nat) (ys : Int) (ym : Nat) :
    (rectangle xs xm ys ym).Pairwise
      (fun a b => a.2 < b.2 ∨ (a.2 = b.2 ∧ a.1 < b.1)) := by
  unfold rectangle
  rw [List.pairwise_flatMap]
  refine ⟨?_, ?_⟩
  · intro dj _
    rw [List.pairwise_map]
    refine List.Pairwise.imp ?_ (List.pairwise_lt_range xm)
    intro a b hab
    right
    refine ⟨rfl, ?_⟩
    simp only [Int.ofNat_eq_coe]
    omega
  · refine List.Pairwise.imp ?_ (List.pairwise_lt_range ym)
    intro a b hab x hx y hy
    simp only [List.mem_map, List.mem_range] at hx hy
    obtain ⟨_, _, hx⟩ := hx
    obtain ⟨_, _, hy⟩ := hy
    left
    rw [← hx, ← hy]
    simp only [Int.ofNat_eq_coe]
    omega

theorem roundBasinsStep_other (round : R → R) (Mx My : Int) (m : Int → Int → R)
    (p : Int × Int) (i j : Int) (h : (i, j) ≠ p) :
    roundBasinsStep round Mx My m p i j = m i j := by
  unfold roundBasinsStep
  simp only []
  split
  · rfl
  · split
    · exact setCell_other m p _ i j h
    · rfl

theorem foldl_roundBasinsStep_other (round : R → R) (Mx My : Int) (l : List (Int × Int))
    (m : Int → Int → R) (i j : Int) (h : (i, j) ∉ l) :
    l.foldl (roundBasinsStep round Mx My) m i j = m i j := by
  induction l generalizing m with
  | nil => rfl
  | cons p l ih =>
    rw [List.foldl_cons, ih _ (fun hm => h (List.mem_cons_of_mem p hm))]
    exact roundBasinsStep_other round Mx My m p i j
      (fun hp => h (by rw [hp]; exact List.mem_cons_self p l))

/-- The mask that `round_basins` leaves, at a point that the loop does not visit. -/
theorem round_basins_not_visited (round : R → R) (g : IceGrid R) (Mx My : Int)
    (input : Int → Int → R) (i j : Int) (h : (i, j) ∉ g.points) :
    round_basins round g Mx My input i j = input i j :=
  foldl_roundBasinsStep_other round Mx My g.points input i j h

/-- The state in which the loop of `round_basins` visits the point `p`, and the final
mask in terms of it: cells visited before `p` hold their final value, the others their
input value, and the final value of `p` is the one that the pass at `p` leaves. -/
theorem round_basins_visit (round : R → R) (g : IceGrid R) (Mx My : Int)
    (input : Int → Int → R) (p : Int × Int) (hp : p ∈ g.points) :
    ∃ m : Int → Int → R,
      round_basins round g Mx My input p.1 p.2 = roundBasinsStep round Mx My m p p.1 p.2 ∧
      (∀ i j, (j > p.2 ∨ (j = p.2 ∧ i ≥ p.1)) → m i j = input i j) ∧
      (∀ i j, (j < p.2 ∨ (j = p.2 ∧ i < p.1)) →
        m i j = round_basins round g Mx My input i j) := by
  obtain ⟨pre, post, hsplit⟩ := List.append_of_mem hp
  have hnodup := points_nodup g
  have hsorted : g.points.Pairwise (fun a b => a.2 < b.2 ∨ (a.2 = b.2 ∧ a.1 < b.1)) :=
    rectangle_sorted g.xs g.xm g.ys g.ym
  rw [hsplit] at hnodup hsorted
  have hpre : ∀ a ∈ pre, a.2 < p.2 ∨ (a.2 = p.2 ∧ a.1 < p.1) := by
    intro a ha
    exact (List.pairwise_append.mp hsorted).2.2 a ha p (List.mem_cons_self p post)
  have hpost : ∀ b ∈ post, p.2 < b.2 ∨ (p.2 = b.2 ∧ p.1 < b.1) := by
    intro b hb
    exact (List.pairwise_cons.mp (List.pairwise_append.mp hsorted).2.1).1 b hb
  have hfinal : ∀ i j, round_basins round g Mx My input i j
      = post.foldl (roundBasinsStep round Mx My)
          (roundBasinsStep round Mx My (pre.foldl (roundBasinsStep round Mx My) input) p)
          i j := by
    intro i j
    unfold round_basins
    rw [hsplit, List.foldl_append, List.foldl_cons]
  refine ⟨pre.foldl (roundBasinsStep round Mx My) input, ?_, ?_, ?_⟩
  · rw [hfinal]
    refine foldl_roundBasinsStep_other round Mx My post _ p.1 p.2 ?_
    intro hmem
    rcases hpost p hmem with h | h
    · exact lt_irrefl _ h
    · exact lt_irrefl _ h.2
  · intro i j hij
    refine foldl_roundBasinsStep_other round Mx My pre input i j ?_
    intro hmem
    have := hpre (i, j) hmem
    simp only at this
    omega
  · intro i j hij
    rw [hfinal]
    have hnotpost : (i, j) ∉ post := by
      intro hmem
      have := hpost (i, j) hmem
      simp only at this
      omega
    have hne : (i, j) ≠ p := by
      intro h
      rw [← h] at hij
      simp only at hij
      omega
    rw [foldl_roundBasinsStep_other round Mx My post _ i j hnotpost,
      roundBasinsStep_other round Mx My _ p i j hne]

/-- The mask that `round_basins` leaves at an owned point of the domain boundary: the
value before the call. -/
theorem round_basins_boundary (round : R → R) (g : IceGrid R) (Mx My : Int)
    (input : Int → Int → R) (i j : Int) (hij : (i, j) ∈ g.points)
    (hb : i = 0 ∨ j = 0 ∨ i > Mx - 2 ∨ j > My - 2) :
    round_basins round g Mx My input i j = input i j := by
  obtain ⟨m, hval, hlater, _⟩ := round_basins_visit round g Mx My input (i, j) hij
  rw [hval]
  unfold roundBasinsStep
  simp only [hb, if_true]
  exact hlater i j (Or.inr ⟨rfl, le_refl i⟩)

/-- The mask that `round_basins` leaves at an owned point in the interior of the
domain, computed from the input values of the point and of its neighbours in the row
`j + 1` and from the final values of its neighbours in the row `j - 1`. -/
theorem round_basins_interior (round : R → R) (g : IceGrid R) (Mx My : Int)
    (input : Int → Int → R) (i j : Int) (hij : (i, j) ∈ g.points)
    (hb : ¬ (i = 0 ∨ j = 0 ∨ i > Mx - 2 ∨ j > My - 2)) :
    round_basins round g Mx My input i j
      = if input i j ≠ round (input i j) ∨
            (input i j ≠ input (i + 1) (j + 1) ∧ input i j ≠ input (i - 1) (j + 1) ∧
              input i j ≠ round_basins round g Mx My input (i - 1) (j - 1) ∧
              input i j ≠ round_basins round g Mx My input (i + 1) (j - 1)) then
          most_frequent_element
            [input (i + 1) (j + 1), input (i - 1) (j + 1),
              round_basins round g Mx My input (i - 1) (j - 1),
              round_basins round g Mx My input (i + 1) (j - 1)]
        else input i j := by
  obtain ⟨m, hval, hlater, hearlier⟩ := round_basins_visit round g Mx My input (i, j) hij
  have h0 : m i j = input i j := hlater i j (Or.inr ⟨rfl, le_refl i⟩)
  have h1 : m (i + 1) (j + 1) = input (i + 1) (j + 1) :=
    hlater _ _ (Or.inl (by show j + 1 > j; omega))
  have h2 : m (i - 1) (j + 1) = input (i - 1) (j + 1) :=
    hlater _ _ (Or.inl (by show j + 1 > j; omega))
  have h3 : m (i - 1) (j - 1) = round_basins round g Mx My input (i - 1) (j - 1) :=
    hearlier _ _ (Or.inl (by show j - 1 < j; omega))
  have h4 : m (i + 1) (j - 1) = round_basins round g Mx My input (i + 1) (j - 1) :=
    hearlier _ _ (Or.inl (by show j - 1 < j; omega))
  rw [hval]
  unfold roundBasinsStep
  simp only [hb, if_false, h0, h1, h2, h3, h4]
  split
  · exact setCell_same _ (i, j) _
  · exact h0

end RoundBasinsLemmas

section MostFrequent

variable {R : Type} [LinearOrderedField R]

/-- The invariant of the loop of `most_frequent_element`: the map counts the
occurrences, `maxFrequency` bounds them and is the count of `mostFrequentElement`. -/
theorem frequency_scan_invariant (v : List R) :
    (∀ x, (v.foldl frequencyStep
        ({ frequencyMap := fun _ => 0, maxFrequency := 0, mostFrequentElement := 0 }
          : FrequencyScan R)).frequencyMap x = v.count x) ∧
    (∀ x, v.count x ≤ (v.foldl frequencyStep
        ({ frequencyMap := fun _ => 0, maxFrequency := 0, mostFrequentElement := 0 }
          : FrequencyScan R)).maxFrequency) ∧
    (v ≠ [] →
      (v.foldl frequencyStep
        ({ frequencyMap := fun _ => 0, maxFrequency := 0, mostFrequentElement := 0 }
          : FrequencyScan R)).mostFrequentElement ∈ v ∧
      v.count (v.foldl frequencyStep
        ({ frequencyMap := fun _ => 0, maxFrequency := 0, mostFrequentElement := 0 }
          : FrequencyScan R)).mostFrequentElement
        = (v.foldl frequencyStep
          ({ frequencyMap := fun _ => 0, maxFrequency := 0, mostFrequentElement := 0 }
            : FrequencyScan R)).maxFrequency) := by
  induction v using List.reverseRecOn with
  | nil =>
    refine ⟨fun x => rfl, fun x => by simp, fun h => absurd rfl h⟩
  | append_singleton l x ih =>
    obtain ⟨hmap, hmax, hmost⟩ := ih
    rw [List.foldl_append, List.foldl_cons, List.foldl_nil]
    generalize hst : l.foldl frequencyStep
      ({ frequencyMap := fun _ => 0, maxFrequency := 0, mostFrequentElement := 0 }
        : FrequencyScan R) = st at hmap hmax hmost
    have hcount : ∀ y, (l ++ [x]).count y = l.count y + if y = x then 1 else 0 := by
      intro y
      rw [List.count_append, List.count_singleton]
      by_cases hyx : y = x
      · simp [hyx]
      · have : ¬ (x == y) = true := by
          simp only [beq_iff_eq]
          exact fun h => hyx h.symm
        simp [hyx, this]
    unfold frequencyStep
    simp only []
    by_cases hgt : st.frequencyMap x + 1 > st.maxFrequency
    · rw [if_pos hgt]
      refine ⟨?_, ?_, ?_⟩
      · intro y
        rw [hcount y]
        by_cases hyx : y = x
        · simp [hyx, hmap x]
        · simp [hyx, hmap y]
      · intro y
        rw [hcount y]
        by_cases hyx : y = x
        · simp [hyx, hmap x]
        · have := hmax y
          simp only [hyx, if_false, add_zero]
          omega
      · intro _
        refine ⟨by simp, ?_⟩
        rw [hcount x]
        simp [hmap x]
    · rw [if_neg hgt]
      have hl : l ≠ [] := by
        intro hnil
        have h0 := hmax x
        have h1 := hmap x
        rw [hnil] at h0 h1
        simp only [List.count_nil] at h0 h1
        have hle : l.count st.mostFrequentElement ≤ st.maxFrequency := hmax _
        have : st.maxFrequency = 0 := by
          have := hst
          rw [hnil] at this
          rw [← this]
          rfl
        omega
      obtain ⟨hmem, hcnt⟩ := hmost hl
      refine ⟨?_, ?_, ?_⟩
      · intro y
        rw [hcount y]
        by_cases hyx : y = x
        · simp [hyx, hmap x]
        · simp [hyx, hmap y]
      · intro y
        rw [hcount y]
        by_cases hyx : y = x
        · have := hmap x
          simp only [hyx, if_true]
          omega
        · have := hmax y
          simp only [hyx, if_false, add_zero]
          exact this
      · intro _
        have hne : st.mostFrequentElement ≠ x := by
          intro h
          have := hmap x
          rw [h] at hcnt
          omega
        refine ⟨List.mem_append_left _ hmem, ?_⟩
        rw [hcount, if_neg hne, add_zero]
        exact hcnt

/-- The value that `most_frequent_element` returns for a vector that is not empty is an
element of the vector that occurs at least as often as every other value. -/
theorem most_frequent_element_spec (v : List R) (hv : v ≠ []) :
    most_frequent_element v ∈ v ∧ ∀ x, v.count x ≤ v.count (most_frequent_element v) := by
  obtain ⟨_, hmax, hmost⟩ := frequency_scan_invariant v
  obtain ⟨hmem, hcnt⟩ := hmost hv
  refine ⟨hmem, ?_⟩
  intro x
  unfold most_frequent_element
  rw [hcnt]
  exact hmax x

/-- A value that occurs more often than half the length of the vector is the one that
`most_frequent_element` returns. -/
theorem most_frequent_element_majority (v : List R) (a : R) (h : v.length < 2 * v.count a) :
    most_frequent_element v = a := by
  have hv : v ≠ [] := by
    intro hnil
    rw [hnil] at h
    simp at h
  obtain ⟨_, hmax⟩ := most_frequent_element_spec v hv
  by_contra hne
  have h1 := hmax a
  have h2 : v.count a + v.count (most_frequent_element v) ≤ v.length := by
    have hlen := List.length_eq_countP_add_countP (p := fun y => y == a) v
    have hsub : v.count (most_frequent_element v)
        ≤ List.countP (fun y => decide ¬ (y == a) = true) v := by
      rw [List.count_eq_countP]
      apply List.countP_mono_left
      intro y _ hy
      simp only [beq_iff_eq] at hy
      simp only [beq_iff_eq, decide_not, Bool.not_eq_true', decide_eq_false_iff_not]
      rw [hy]
      exact hne
    rw [List.count_eq_countP a v]
    omega
  omega

end MostFrequent

section RoundBasinsExampleLemmas

/-- The function `roundRat` fixes exactly the integers. -/
theorem roundRat_eq_self_iff (x : ℚ) : roundRat x = x ↔ ∃ n : Int, x = (n : ℚ) := by
  constructor
  · intro h
    unfold roundRat at h
    split at h
    · exact ⟨_, h.symm⟩
    · exact ⟨-Int.floor (-x + 1 / 2), by push_cast; exact h.symm⟩
  · rintro ⟨n, rfl⟩
    unfold roundRat
    split
    · have : Int.floor ((n : ℚ) + 1 / 2) = n := by
        rw [Int.floor_eq_iff]
        constructor <;> linarith
      rw [this]
    · have : Int.floor (-(n : ℚ) + 1 / 2) = -n := by
        rw [Int.floor_eq_iff]
        push_cast
        constructor <;> linarith
      rw [this]
      push_cast
      ring

theorem five_halves_not_integer : ¬ ∃ n : Int, (5 / 2 : ℚ) = (n : ℚ) := by
  rintro ⟨n, h⟩
  have h2 : ((5 : Int) : ℚ) = ((2 * n : Int) : ℚ) := by
    push_cast
    linarith
  have h3 : (5 : Int) = 2 * n := by exact_mod_cast h2
  omega

theorem three_halves_not_integer : ¬ ∃ n : Int, (3 / 2 : ℚ) = (n : ℚ) := by
  rintro ⟨n, h⟩
  have h2 : ((3 : Int) : ℚ) = ((2 * n : Int) : ℚ) := by
    push_cast
    linarith
  have h3 : (3 : Int) = 2 * n := by exact_mod_cast h2
  omega

theorem mem_grid5 (i j : Int) :
    (i, j) ∈ (grid5 ℚ).points ↔ 0 ≤ i ∧ i < 5 ∧ 0 ≤ j ∧ j < 5 := by
  rw [mem_points_iff]
  simp [grid5]

/-- The run of `round_basins` on `basinsSingle`: the cells `(1, 1)` and `(3, 1)`, which
hold 2 and have no diagonal neighbour that holds 2, become 3 before the cell `(2, 2)`
is visited, and `(2, 2)` becomes 3. -/
theorem round_basins_basinsSingle :
    round_basins roundRat (grid5 ℚ) 5 5 basinsSingle 1 1 = 3 ∧
    round_basins roundRat (grid5 ℚ) 5 5 basinsSingle 3 1 = 3 ∧
    round_basins roundRat (grid5 ℚ) 5 5 basinsSingle 2 2 = 3 := by
  have hb : ∀ i : Int, 0 ≤ i → i < 5 →
      round_basins roundRat (grid5 ℚ) 5 5 basinsSingle i 0 = 3 := by
    intro i h0 h5
    rw [round_basins_boundary roundRat (grid5 ℚ) 5 5 basinsSingle i 0
      ((mem_grid5 i 0).mpr ⟨h0, h5, le_refl 0, by norm_num⟩) (Or.inr (Or.inl rfl))]
    simp [basinsSingle]
  have h2 : roundRat 2 = 2 := (roundRat_eq_self_iff 2).mpr ⟨2, by norm_num⟩
  have h52 : roundRat (5 / 2) ≠ 5 / 2 := fun h =>
    five_halves_not_integer ((roundRat_eq_self_iff _).mp h)
  have h11 : round_basins roundRat (grid5 ℚ) 5 5 basinsSingle 1 1 = 3 := by
    rw [round_basins_interior roundRat (grid5 ℚ) 5 5 basinsSingle 1 1
      ((mem_grid5 1 1).mpr (by norm_num)) (by norm_num)]
    have e0 := hb 0 (le_refl 0) (by norm_num)
    have e2 := hb 2 (by norm_num) (by norm_num)
    norm_num at e0 e2 ⊢
    rw [e0, e2]
    norm_num [basinsSingle, h2, most_frequent_element, frequencyStep]
  have h31 : round_basins roundRat (grid5 ℚ) 5 5 basinsSingle 3 1 = 3 := by
    rw [round_basins_interior roundRat (grid5 ℚ) 5 5 basinsSingle 3 1
      ((mem_grid5 3 1).mpr (by norm_num)) (by norm_num)]
    have e2 := hb 2 (by norm_num) (by norm_num)
    have e4 := hb 4 (by norm_num) (by norm_num)
    norm_num at e2 e4 ⊢
    rw [e2, e4]
    norm_num [basinsSingle, h2, most_frequent_element, frequencyStep]
  refine ⟨h11, h31, ?_⟩
  rw [round_basins_interior roundRat (grid5 ℚ) 5 5 basinsSingle 2 2
    ((mem_grid5 2 2).mpr (by norm_num)) (by norm_num)]
  norm_num at h11 h31 ⊢
  rw [h11, h31]
  have hne : (5 / 2 : ℚ) ≠ roundRat (5 / 2) := fun h => h52 h.symm
  norm_num [basinsSingle, hne, most_frequent_element, frequencyStep]

/-- The run of `round_basins` on `basinsAdjacent`: the cell `(2, 2)` receives the
value 5/2 of its two neighbours in the row above. -/
theorem round_basins_basinsAdjacent :
    round_basins roundRat (grid5 ℚ) 5 5 basinsAdjacent 2 2 = 5 / 2 := by
  have hb : ∀ i : Int, 0 ≤ i → i < 5 →
      round_basins roundRat (grid5 ℚ) 5 5 basinsAdjacent i 0 = 2 := by
    intro i h0 h5
    rw [round_basins_boundary roundRat (grid5 ℚ) 5 5 basinsAdjacent i 0
      ((mem_grid5 i 0).mpr ⟨h0, h5, le_refl 0, by norm_num⟩) (Or.inr (Or.inl rfl))]
    simp [basinsAdjacent]
  have h2 : roundRat 2 = 2 := (roundRat_eq_self_iff 2).mpr ⟨2, by norm_num⟩
  have h32 : (3 / 2 : ℚ) ≠ roundRat (3 / 2) := fun h =>
    three_halves_not_integer ((roundRat_eq_self_iff _).mp h.symm)
  have h11 : round_basins roundRat (grid5 ℚ) 5 5 basinsAdjacent 1 1 = 2 := by
    rw [round_basins_interior roundRat (grid5 ℚ) 5 5 basinsAdjacent 1 1
      ((mem_grid5 1 1).mpr (by norm_num)) (by norm_num)]
    have e0 := hb 0 (le_refl 0) (by norm_num)
    have e2 := hb 2 (by norm_num) (by norm_num)
    norm_num at e0 e2 ⊢
    rw [e0, e2]
    norm_num [basinsAdjacent, h2]
  have h31 : round_basins roundRat (grid5 ℚ) 5 5 basinsAdjacent 3 1 = 2 := by
    rw [round_basins_interior roundRat (grid5 ℚ) 5 5 basinsAdjacent 3 1
      ((mem_grid5 3 1).mpr (by norm_num)) (by norm_num)]
    have e2 := hb 2 (by norm_num) (by norm_num)
    have e4 := hb 4 (by norm_num) (by norm_num)
    norm_num at e2 e4 ⊢
    rw [e2, e4]
    norm_num [basinsAdjacent, h2]
  rw [round_basins_interior roundRat (grid5 ℚ) 5 5 basinsAdjacent 2 2
    ((mem_grid5 2 2).mpr (by norm_num)) (by norm_num)]
  norm_num at h11 h31 ⊢
  rw [h11, h31]
  norm_num [basinsAdjacent, h32, most_frequent_element, frequencyStep]

end RoundBasinsExampleLemmas

section RoundBasinsClaims

variable {R : Type} [LinearOrderedField R]

/-- C24, as amended: `round_basins` replaces each owned interior cell `(i, j)` that
holds a non-integer value by the value that `most_frequent_element` returns for the
values its four diagonal neighbours hold when the cell is visited: the values before
the call of `(i+1, j+1)` and `(i-1, j+1)` and the values after the call of
`(i-1, j-1)` and `(i+1, j-1)`, which the loop has visited before.  This value is one of
the four and none of the four occurs more often; when the four are 2, 2, 2 and 3 in some
order the cell becomes 2, and when the call leaves the two neighbours in the row `j - 1`
unchanged the four are the values before the call.  `round` fixes exactly the
integers. -/
theorem round_basins_most_frequent_diagonal_neighbour (round : R → R)
    (hround : ∀ x, round x = x ↔ ∃ n : Int, x = (n : R)) (g : IceGrid R) (Mx My : Int)
    (input : Int → Int → R) (i j : Int) (hij : (i, j) ∈ g.points)
    (hinterior : ¬ (i = 0 ∨ j = 0 ∨ i > Mx - 2 ∨ j > My - 2))
    (hfrac : ¬ ∃ n : Int, input i j = (n : R)) :
    let output := round_basins round g Mx My input
    let neighbours : List R :=
      [input (i + 1) (j + 1), input (i - 1) (j + 1), output (i - 1) (j - 1),
        output (i + 1) (j - 1)]
    output i j = most_frequent_element neighbours ∧
    output i j ∈ neighbours ∧
    (∀ x, neighbours.count x ≤ neighbours.count (output i j)) ∧
    (neighbours.Perm [2, 2, 2, 3] → output i j = 2) ∧
    (output (i - 1) (j - 1) = input (i - 1) (j - 1) →
      output (i + 1) (j - 1) = input (i + 1) (j - 1) →
      output i j = most_frequent_element
        [input (i + 1) (j + 1), input (i - 1) (j + 1), input (i - 1) (j - 1),
          input (i + 1) (j - 1)]) := by
  intro output neighbours
  have hne : input i j ≠ round (input i j) := fun h => hfrac ((hround _).mp h.symm)
  have hval : output i j = most_frequent_element neighbours := by
    show round_basins round g Mx My input i j = _
    rw [round_basins_interior round g Mx My input i j hij hinterior, if_pos (Or.inl hne)]
  have hspec := most_frequent_element_spec neighbours (List.cons_ne_nil _ _)
  refine ⟨hval, ?_, ?_, ?_, ?_⟩
  · rw [hval]
    exact hspec.1
  · rw [hval]
    exact hspec.2
  · intro hperm
    rw [hval]
    apply most_frequent_element_majority
    rw [hperm.length_eq, hperm.count_eq]
    have h23 : (3 : R) ≠ 2 := by norm_num
    have hbeq : ((3 : R) == 2) = false := by simp [h23]
    simp [List.count_cons, hbeq]
  · intro h1 h2
    rw [hval]
    show most_frequent_element [input (i + 1) (j + 1), input (i - 1) (j + 1),
      output (i - 1) (j - 1), output (i + 1) (j - 1)] = _
    rw [h1, h2]

/-- Witness of the amended C24: the cell `(2, 2)` of `basinsSingle` on the 5 by 5
grid. -/
theorem round_basins_most_frequent_diagonal_neighbour_witness :
    (∀ x, roundRat x = x ↔ ∃ n : Int, x = (n : ℚ)) ∧
    ((2 : Int), (2 : Int)) ∈ (grid5 ℚ).points ∧
    ¬ ((2 : Int) = 0 ∨ (2 : Int) = 0 ∨ (2 : Int) > 5 - 2 ∨ (2 : Int) > 5 - 2) ∧
    (¬ ∃ n : Int, basinsSingle 2 2 = (n : ℚ)) ∧
    round_basins roundRat (grid5 ℚ) 5 5 basinsSingle 2 2
      = most_frequent_element
        [basinsSingle (2 + 1) (2 + 1), basinsSingle (2 - 1) (2 + 1),
          round_basins roundRat (grid5 ℚ) 5 5 basinsSingle (2 - 1) (2 - 1),
          round_basins roundRat (grid5 ℚ) 5 5 basinsSingle (2 + 1) (2 - 1)] :=
  have hfrac : ¬ ∃ n : Int, basinsSingle 2 2 = (n : ℚ) := by
    have h : basinsSingle 2 2 = 5 / 2 := by simp [basinsSingle]
    rw [h]
    exact five_halves_not_integer
  ⟨roundRat_eq_self_iff, (mem_grid5 2 2).mpr (by norm_num), by norm_num, hfrac,
    (round_basins_most_frequent_diagonal_neighbour roundRat roundRat_eq_self_iff (grid5 ℚ) 5 5
      basinsSingle 2 2 ((mem_grid5 2 2).mpr (by norm_num)) (by norm_num) hfrac).1⟩

/-- Counterexample to C24 as stated: in `basinsSingle` the only non-integer cell is
`(2, 2)`, an interior cell of the 5 by 5 grid, and its diagonal neighbours hold 3, 2, 2
and 2 before the call; `round_basins` sets the cell to 3, not to 2, because the two
neighbours in the row below have become 3 before the cell is visited. -/
theorem round_basins_uses_rounded_neighbours :
    (¬ ∃ n : Int, basinsSingle 2 2 = (n : ℚ)) ∧
    (∀ i j, ¬ (i = 2 ∧ j = 2) → ∃ n : Int, basinsSingle i j = (n : ℚ)) ∧
    [basinsSingle 3 3, basinsSingle 1 3, basinsSingle 1 1, basinsSingle 3 1] = [3, 2, 2, 2] ∧
    round_basins roundRat (grid5 ℚ) 5 5 basinsSingle 2 2 = 3 ∧
    round_basins roundRat (grid5 ℚ) 5 5 basinsSingle 2 2 ≠ 2 := by
  refine ⟨?_, ?_, ?_, round_basins_basinsSingle.2.2, ?_⟩
  · have h : basinsSingle 2 2 = 5 / 2 := by simp [basinsSingle]
    rw [h]
    exact five_halves_not_integer
  · intro i j hij
    unfold basinsSingle
    rw [if_neg hij]
    split
    · exact ⟨2, by norm_num⟩
    · exact ⟨3, by norm_num⟩
  · simp [basinsSingle]
  · rw [round_basins_basinsSingle.2.2]
    norm_num

/-- C25, as amended: after `round_basins` every owned cell on the domain boundary
(`i = 0`, `j = 0`, `i = Mx - 1` or `j = My - 1`) holds the value it held before the
call; the mask is not written there. -/
theorem round_basins_keeps_boundary (round : R → R) (g : IceGrid R) (Mx My : Int)
    (input : Int → Int → R) (i j : Int) (hij : (i, j) ∈ g.points)
    (hboundary : i = 0 ∨ j = 0 ∨ i = Mx - 1 ∨ j = My - 1) :
    round_basins round g Mx My input i j = input i j := by
  apply round_basins_boundary round g Mx My input i j hij
  rcases hboundary with h | h | h | h
  · exact Or.inl h
  · exact Or.inr (Or.inl h)
  · exact Or.inr (Or.inr (Or.inl (by omega)))
  · exact Or.inr (Or.inr (Or.inr (by omega)))

/-- Witness of the amended C25: the corner `(4, 4)` of the 5 by 5 grid. -/
theorem round_basins_keeps_boundary_witness :
    ((4 : Int), (4 : Int)) ∈ (grid5 ℚ).points ∧
    ((4 : Int) = 0 ∨ (4 : Int) = 0 ∨ (4 : Int) = 5 - 1 ∨ (4 : Int) = 5 - 1) ∧
    round_basins roundRat (grid5 ℚ) 5 5 basinsSingle 4 4 = basinsSingle 4 4 :=
  ⟨(mem_grid5 4 4).mpr (by norm_num), by norm_num,
    round_basins_keeps_boundary roundRat (grid5 ℚ) 5 5 basinsSingle 4 4
      ((mem_grid5 4 4).mpr (by norm_num)) (by norm_num)⟩

/-- Counterexample to C25 as stated: the corner `(0, 0)` of the 5 by 5 grid holds 3 in
`basinsSingle` and still holds 3, not 0, after `round_basins`. -/
theorem round_basins_boundary_not_zeroed :
    ((0 : Int), (0 : Int)) ∈ (grid5 ℚ).points ∧
    round_basins roundRat (grid5 ℚ) 5 5 basinsSingle 0 0 = 3 ∧
    round_basins roundRat (grid5 ℚ) 5 5 basinsSingle 0 0 ≠ 0 := by
  have h : round_basins roundRat (grid5 ℚ) 5 5 basinsSingle 0 0 = 3 := by
    rw [round_basins_boundary roundRat (grid5 ℚ) 5 5 basinsSingle 0 0
      ((mem_grid5 0 0).mpr (by norm_num)) (Or.inl rfl)]
    simp [basinsSingle]
  refine ⟨(mem_grid5 0 0).mpr (by norm_num), h, ?_⟩
  rw [h]
  norm_num

/-- C28, the code at the failing input: on the 5 by 5 grid, with the mask
`basinsAdjacent` whose interior cell `(2, 2)` holds 3/2 and whose cells `(1, 3)` and
`(3, 3)` hold 5/2, `round_basins` leaves 5/2 at the interior cell `(2, 2)`, which is
not an integer. -/
theorem round_basins_leaves_fraction :
    ((2 : Int), (2 : Int)) ∈ (grid5 ℚ).points ∧
    ¬ ((2 : Int) = 0 ∨ (2 : Int) = 0 ∨ (2 : Int) > 5 - 2 ∨ (2 : Int) > 5 - 2) ∧
    round_basins roundRat (grid5 ℚ) 5 5 basinsAdjacent 2 2 = 5 / 2 ∧
    ¬ ∃ n : Int, round_basins roundRat (grid5 ℚ) 5 5 basinsAdjacent 2 2 = (n : ℚ) := by
  refine ⟨(mem_grid5 2 2).mpr (by norm_num), by norm_num, round_basins_basinsAdjacent, ?_⟩
  rw [round_basins_basinsAdjacent]
  exact five_halves_not_integer

end RoundBasinsClaims

section BoxAreaLemmas

variable {R : Type} [LinearOrderedField R]

/-- What `compute_box_area` returns when the shelf id of every cell that it adds is in
range: the resized vector with, at each index, the areas of the cells of that shelf in
the box added to what the vector held there. -/
theorem compute_box_area_spec (pico : Pico R) (box_id : Int)
    (shelf_mask box_mask : Int → Int → Int) (cell_area : Int → Int → R) (result : StdVector R)
    (hrange : ∀ q ∈ pico.m_grid.points, shelf_mask q.1 q.2 > 0 → box_mask q.1 q.2 = box_id →
      shelf_mask q.1 q.2 < pico.m_n_shelves) :
    ∃ out, compute_box_area pico box_id shelf_mask box_mask cell_area result = some out ∧
      out.size = pico.m_n_shelves ∧
      ∀ s : Nat, out.elem s = (result.resize pico.m_n_shelves).elem s
        + ((pico.m_grid.points.filter fun q =>
            decide ((shelf_mask q.1 q.2 > 0 ∧ box_mask q.1 q.2 = box_id) ∧
              shelf_mask q.1 q.2 = (s : Int))).map fun q => cell_area q.1 q.2).sum := by
  obtain ⟨r1, hrun1, hsize1, hval1⟩ := loopM_total
    (boxAreaStep box_id shelf_mask box_mask cell_area)
    (fun pre r => r.size = pico.m_n_shelves ∧
      ∀ s : Nat, r.elem s = (result.resize pico.m_n_shelves).elem s
        + ((pre.filter fun q =>
            decide ((shelf_mask q.1 q.2 > 0 ∧ box_mask q.1 q.2 = box_id) ∧
              shelf_mask q.1 q.2 = (s : Int))).map fun q => cell_area q.1 q.2).sum)
    pico.m_grid.points
    (fun pre p st hp hinv => by
      obtain ⟨hsz, hval⟩ := hinv
      by_cases hcond : shelf_mask p.1 p.2 > 0 ∧ box_mask p.1 p.2 = box_id
      · have h0 : 0 ≤ shelf_mask p.1 p.2 := le_of_lt hcond.1
        have h1 := hrange p hp hcond.1 hcond.2
        refine ⟨StdVector.mk st.size (fun k =>
            if k = (shelf_mask p.1 p.2).toNat then st.elem k + cell_area p.1 p.2
            else st.elem k), ?_, hsz, ?_⟩
        · unfold boxAreaStep
          simp only [hcond, and_self, if_true]
          exact StdVector.modify?_eq_some _ _ _ h0 (by rw [hsz]; exact h1)
        · intro s
          show (if s = (shelf_mask p.1 p.2).toNat then st.elem s + cell_area p.1 p.2
            else st.elem s) = _
          have hb : (s = (shelf_mask p.1 p.2).toNat) ↔ shelf_mask p.1 p.2 = (s : Int) := by
            omega
          by_cases hs : shelf_mask p.1 p.2 = (s : Int)
          · rw [if_pos (hb.mpr hs), hval s]
            have hf : ∀ P : Int × Int → Bool, P p = true → List.filter P [p] = [p] := by
              intro P h
              simp [List.filter_cons, h]
            rw [List.filter_append, hf _ (decide_eq_true ⟨hcond, hs⟩)]
            simp only [List.filter_nil, List.map_append, List.map_cons, List.map_nil,
              List.sum_append, List.sum_cons, List.sum_nil, add_zero]
            ring
          · rw [if_neg (fun h => hs (hb.mp h)), hval s]
            simp only [List.filter_append, List.filter_cons, List.filter_nil, hs, and_false,
              decide_False, if_false, List.append_nil, Bool.false_eq_true]
      · refine ⟨st, ?_, hsz, ?_⟩
        · unfold boxAreaStep
          simp only [hcond, if_false]
        · intro s
          rw [hval s]
          simp only [List.filter_append, List.filter_cons, List.filter_nil, hcond, false_and,
            decide_False, if_false, List.append_nil, Bool.false_eq_true])
    (result.resize pico.m_n_shelves) ⟨rfl, fun s => by simp⟩
  obtain ⟨r2, hrun2, hr2⟩ := loopM_total boxAreaReduceStep (fun _ r => r = r1)
    (List.range' 1 (pico.m_n_shelves - 1))
    (fun _ s st hs hinv => by
      have hlt : s < pico.m_n_shelves := by
        obtain ⟨h1, h2⟩ := List.mem_range'_1.mp hs
        omega
      refine ⟨st, ?_, hinv⟩
      unfold boxAreaReduceStep
      exact StdVector.modify?_GlobalSum st s (Int.natCast_nonneg s)
        (by rw [hinv, hsize1]; exact_mod_cast hlt))
    r1 rfl
  refine ⟨r2, ?_, ?_, ?_⟩
  · unfold compute_box_area
    simp only [hrun1, hrun2, Option.bind_eq_bind, Option.some_bind]
  · rw [hr2]
    exact hsize1
  · rw [hr2]
    exact hval1

end BoxAreaLemmas

section BoxAreaClaims

end BoxAreaClaims

section BoxAreaCorrected

variable {R : Type} [LinearOrderedField R]

end BoxAreaCorrected

section BoxAreaWitness

end BoxAreaWitness

section BoxAreaCounterexample

end BoxAreaCounterexample


section OceanInputLoops

variable {R : Type} [LinearOrderedField R]

theorem setCell_setCell {α : Type} (a : Int → Int → α) (p : Int × Int) (x y : α) :
    setCell (setCell a p x) p y = setCell a p y := by
  funext i j
  unfold setCell
  split <;> rfl

theorem setCell_self {α : Type} (a : Int → Int → α) (p : Int × Int) :
    setCell a p (a p.1 p.2) = a := by
  funext i j
  unfold setCell
  split
  · rename_i h
    rw [← h]
  · rfl

theorem setCell_apply {α : Type} (a : Int → Int → α) (p : Int × Int) (x : α) (i j : Int) :
    setCell a p x i j = if (i, j) = p then x else a i j := rfl

/-- Writing back the element that a vector holds leaves the vector as it is. -/
theorem StdVector.modify?_self {α : Type} (v : StdVector α) (i : Int) (h0 : 0 ≤ i)
    (h1 : i < v.size) : v.modify? i (fun _ => v.elem i.toNat) = some v := by
  rw [StdVector.modify?_eq_some v i _ h0 h1]
  congr 1
  cases v with
  | mk size elem =>
    simp only [StdVector.mk.injEq, true_and]
    funext k
    split
    · rename_i h
      rw [h]
    · rfl

/-- The counting loop of lines 439-445 over the cells `l`: the two tables hold the
numbers of cells of `l` per shelf and per shelf and basin. -/
theorem shelfCount_loop (n_shelves n_basins : Nat) (basin_mask shelf_mask : Int → Int → Int)
    (l : List (Int × Int))
    (hshelf : ∀ q ∈ l, 0 ≤ shelf_mask q.1 q.2 ∧ shelf_mask q.1 q.2 < n_shelves)
    (hbasin : ∀ q ∈ l, 0 ≤ basin_mask q.1 q.2 ∧ basin_mask q.1 q.2 < n_basins) :
    ∃ c, loopM (shelfCountStep basin_mask shelf_mask) l
        ({ n_shelf_cells_per_basin := StdVector.filled n_shelves (StdVector.filled n_basins 0),
           n_shelf_cells := StdVector.filled n_shelves 0 } : ShelfCounts) = some c ∧
      (c.n_shelf_cells.size = n_shelves ∧ c.n_shelf_cells_per_basin.size = n_shelves ∧
        ∀ k, k < n_shelves → (c.n_shelf_cells_per_basin.elem k).size = n_basins) ∧
      (∀ k : Nat, c.n_shelf_cells.elem k
        = ((l.filter fun q => decide (shelf_mask q.1 q.2 = (k : Int))).length : Int)) ∧
      ∀ k b : Nat, (c.n_shelf_cells_per_basin.elem k).elem b
        = ((l.filter fun q => decide (shelf_mask q.1 q.2 = (k : Int) ∧
            basin_mask q.1 q.2 = (b : Int))).length : Int) := by
  refine loopM_total _
    (fun pre (c : ShelfCounts) => (c.n_shelf_cells.size = n_shelves ∧
        c.n_shelf_cells_per_basin.size = n_shelves ∧
        ∀ k, k < n_shelves → (c.n_shelf_cells_per_basin.elem k).size = n_basins) ∧
      (∀ k : Nat, c.n_shelf_cells.elem k
        = ((pre.filter fun q => decide (shelf_mask q.1 q.2 = (k : Int))).length : Int)) ∧
      ∀ k b : Nat, (c.n_shelf_cells_per_basin.elem k).elem b
        = ((pre.filter fun q => decide (shelf_mask q.1 q.2 = (k : Int) ∧
            basin_mask q.1 q.2 = (b : Int))).length : Int))
    l ?_
    ({ n_shelf_cells_per_basin := StdVector.filled n_shelves (StdVector.filled n_basins 0),
       n_shelf_cells := StdVector.filled n_shelves 0 } : ShelfCounts)
    ⟨⟨rfl, rfl, fun _ _ => rfl⟩, fun k => by simp [StdVector.filled],
      fun k b => by simp [StdVector.filled]⟩
  rintro pre p st hp ⟨⟨hc1, hc2, hc3⟩, hcells, htable⟩
  obtain ⟨hs0, hs1⟩ := hshelf p hp
  obtain ⟨hb0, hb1⟩ := hbasin p hp
  have hk : (shelf_mask p.1 p.2).toNat < n_shelves := by omega
  have hget := StdVector.get?_eq_some st.n_shelf_cells_per_basin (shelf_mask p.1 p.2) hs0
    (by rw [hc2]; exact hs1)
  have hrow := StdVector.modify?_eq_some
    (st.n_shelf_cells_per_basin.elem (shelf_mask p.1 p.2).toNat) (basin_mask p.1 p.2)
    (fun n => n + 1) hb0 (by rw [hc3 _ hk]; exact hb1)
  have htab := fun row => StdVector.modify?_eq_some st.n_shelf_cells_per_basin
    (shelf_mask p.1 p.2) (fun _ => row) hs0 (by rw [hc2]; exact hs1)
  have hcell := StdVector.modify?_eq_some st.n_shelf_cells (shelf_mask p.1 p.2)
    (fun n => n + 1) hs0 (by rw [hc1]; exact hs1)
  unfold shelfCountStep
  simp only [hget, hrow, htab, hcell, Option.bind_eq_bind, Option.some_bind]
  refine ⟨_, rfl, ⟨hc1, hc2, ?_⟩, ?_, ?_⟩
  · intro k hkn
    show (if k = (shelf_mask p.1 p.2).toNat then _
      else st.n_shelf_cells_per_basin.elem k).size = n_basins
    split
    · exact hc3 _ hk
    · exact hc3 k hkn
  · intro k
    show (if k = (shelf_mask p.1 p.2).toNat then st.n_shelf_cells.elem k + 1
      else st.n_shelf_cells.elem k) = _
    have hkk : (k = (shelf_mask p.1 p.2).toNat) ↔ shelf_mask p.1 p.2 = (k : Int) := by omega
    rw [hcells k]
    by_cases hsk : shelf_mask p.1 p.2 = (k : Int)
    · rw [if_pos (hkk.mpr hsk)]
      simp only [List.filter_append, List.filter_cons, List.filter_nil, hsk, decide_True,
        if_true, List.length_append, List.length_singleton]
      push_cast
      ring
    · rw [if_neg (fun h => hsk (hkk.mp h))]
      simp only [List.filter_append, List.filter_cons, List.filter_nil, hsk, decide_False,
        if_false, List.append_nil, Bool.false_eq_true]
  · intro k b
    have hkk : (k = (shelf_mask p.1 p.2).toNat) ↔ shelf_mask p.1 p.2 = (k : Int) := by omega
    have hbb : (b = (basin_mask p.1 p.2).toNat) ↔ basin_mask p.1 p.2 = (b : Int) := by omega
    show (if k = (shelf_mask p.1 p.2).toNat then
        ({ size := (st.n_shelf_cells_per_basin.elem (shelf_mask p.1 p.2).toNat).size,
           elem := fun m => if m = (basin_mask p.1 p.2).toNat then
              (st.n_shelf_cells_per_basin.elem (shelf_mask p.1 p.2).toNat).elem m + 1
             else (st.n_shelf_cells_per_basin.elem (shelf_mask p.1 p.2).toNat).elem m }
          : StdVector Int)
      else st.n_shelf_cells_per_basin.elem k).elem b = _
    by_cases hsk : shelf_mask p.1 p.2 = (k : Int)
    · have hk1 : k = (shelf_mask p.1 p.2).toNat := hkk.mpr hsk
      rw [if_pos hk1]
      show (if b = (basin_mask p.1 p.2).toNat then
          (st.n_shelf_cells_per_basin.elem (shelf_mask p.1 p.2).toNat).elem b + 1
        else (st.n_shelf_cells_per_basin.elem (shelf_mask p.1 p.2).toNat).elem b) = _
      rw [← hk1, htable k b]
      by_cases hbk : basin_mask p.1 p.2 = (b : Int)
      · rw [if_pos (hbb.mpr hbk)]
        simp only [List.filter_append, List.filter_cons, List.filter_nil, hsk, hbk, and_self,
          decide_True, if_true, List.length_append, List.length_singleton]
        push_cast
        ring
      · rw [if_neg (fun h => hbk (hbb.mp h))]
        simp only [List.filter_append, List.filter_cons, List.filter_nil, hbk, and_false,
          decide_False, if_false, List.append_nil, Bool.false_eq_true]
    · rw [if_neg (fun h => hsk (hkk.mp h)), htable k b]
      simp only [List.filter_append, List.filter_cons, List.filter_nil, hsk, false_and,
        decide_False, if_false, List.append_nil, Bool.false_eq_true]

/-- With one rank the reduction of line 450 leaves the tables as they are. -/
theorem shelfBasinReduceStep_eq (n_shelves n_basins : Nat) (s : Nat) (c : ShelfCounts)
    (b : Nat) (hs : s < n_shelves) (hb : b < n_basins)
    (hc : c.n_shelf_cells.size = n_shelves ∧ c.n_shelf_cells_per_basin.size = n_shelves ∧
      ∀ k, k < n_shelves → (c.n_shelf_cells_per_basin.elem k).size = n_basins) :
    shelfBasinReduceStep s c b = some c := by
  obtain ⟨hc1, hc2, hc3⟩ := hc
  have hget := StdVector.get?_nat c.n_shelf_cells_per_basin s (by rw [hc2]; exact hs)
  have hrow := StdVector.modify?_GlobalSum (c.n_shelf_cells_per_basin.elem s) b
    (Int.natCast_nonneg b) (by rw [hc3 _ hs]; exact_mod_cast hb)
  have htab := StdVector.modify?_self c.n_shelf_cells_per_basin s (Int.natCast_nonneg s)
    (by rw [hc2]; exact_mod_cast hs)
  rw [Int.toNat_ofNat] at htab
  unfold shelfBasinReduceStep
  simp only [hget, hrow, htab, Option.bind_eq_bind, Option.some_bind]

/-- With one rank the reductions of lines 447-452 leave the tables as they are. -/
theorem shelfReduceStep_eq (n_shelves n_basins : Nat) (c : ShelfCounts) (s : Nat)
    (hs : s < n_shelves)
    (hc : c.n_shelf_cells.size = n_shelves ∧ c.n_shelf_cells_per_basin.size = n_shelves ∧
      ∀ k, k < n_shelves → (c.n_shelf_cells_per_basin.elem k).size = n_basins) :
    shelfReduceStep n_basins c s = some c := by
  have hcells := StdVector.modify?_GlobalSum c.n_shelf_cells s (Int.natCast_nonneg s)
    (by rw [hc.1]; exact_mod_cast hs)
  obtain ⟨c', hrun, hc'⟩ := loopM_total (shelfBasinReduceStep s) (fun _ st => st = c)
    (List.range n_basins)
    (fun _ b st hb hinv => by
      rw [hinv]
      exact ⟨c, shelfBasinReduceStep_eq n_shelves n_basins s c b hs (List.mem_range.mp hb) hc,
        rfl⟩)
    c rfl
  unfold shelfReduceStep
  simp only [hcells, Option.bind_eq_bind, Option.some_bind]
  rw [hrun, hc']

theorem shelfReduce_loop (n_shelves n_basins : Nat) (c : ShelfCounts)
    (hc : c.n_shelf_cells.size = n_shelves ∧ c.n_shelf_cells_per_basin.size = n_shelves ∧
      ∀ k, k < n_shelves → (c.n_shelf_cells_per_basin.elem k).size = n_basins) :
    loopM (shelfReduceStep n_basins) (List.range n_shelves) c = some c := by
  obtain ⟨c', hrun, hc'⟩ := loopM_total (shelfReduceStep n_basins) (fun _ st => st = c)
    (List.range n_shelves)
    (fun _ s st hs hinv => by
      rw [hinv]
      exact ⟨c, shelfReduceStep_eq n_shelves n_basins c s (List.mem_range.mp hs) hc, rfl⟩)
    c rfl
  rw [hrun, hc']

/-- The loop of lines 471-474 over the basins `l` at the cell `p` of the shelf `s`: it
adds the weighted inputs to the two fields at `p` and changes nothing else. -/
theorem basinWeight_loop (n_shelves n_basins : Nat) (counts : ShelfCounts)
    (basin_temperature basin_salinity : StdVector R) (p : Int × Int) (s : Int)
    (hs0 : 0 ≤ s) (hs1 : s < n_shelves)
    (hbt : n_basins ≤ basin_temperature.size) (hbs : n_basins ≤ basin_salinity.size)
    (hc : counts.n_shelf_cells.size = n_shelves ∧
      counts.n_shelf_cells_per_basin.size = n_shelves ∧
      ∀ k, k < n_shelves → (counts.n_shelf_cells_per_basin.elem k).size = n_basins)
    (l : List Nat) (hl : ∀ b ∈ l, b < n_basins) (o : OceanInput R) :
    ∃ o', loopM (basinWeightStep counts basin_temperature basin_salinity p s) l o = some o' ∧
      o'.Toc_box0 = setCell o.Toc_box0 p (o.Toc_box0 p.1 p.2 + (l.map fun b =>
        basin_temperature.elem b
          * (((counts.n_shelf_cells_per_basin.elem s.toNat).elem b : Int) : R)
          / ((counts.n_shelf_cells.elem s.toNat : Int) : R)).sum) ∧
      o'.Soc_box0 = setCell o.Soc_box0 p (o.Soc_box0 p.1 p.2 + (l.map fun b =>
        basin_salinity.elem b
          * (((counts.n_shelf_cells_per_basin.elem s.toNat).elem b : Int) : R)
          / ((counts.n_shelf_cells.elem s.toNat : Int) : R)).sum) ∧
      o'.low_temperature_counter = o.low_temperature_counter := by
  induction l generalizing o with
  | nil =>
    refine ⟨o, rfl, ?_, ?_, rfl⟩
    · simp only [List.map_nil, List.sum_nil, add_zero, setCell_self]
    · simp only [List.map_nil, List.sum_nil, add_zero, setCell_self]
  | cons b l ih =>
    obtain ⟨hc1, hc2, hc3⟩ := hc
    have hb : b < n_basins := hl b (List.mem_cons_self b l)
    have hk : s.toNat < n_shelves := by omega
    have ht := StdVector.get?_nat basin_temperature b (lt_of_lt_of_le hb hbt)
    have hsal := StdVector.get?_nat basin_salinity b (lt_of_lt_of_le hb hbs)
    have hrow := StdVector.get?_eq_some counts.n_shelf_cells_per_basin s hs0
      (by rw [hc2]; exact hs1)
    have hn := StdVector.get?_nat (counts.n_shelf_cells_per_basin.elem s.toNat) b
      (by rw [hc3 _ hk]; exact hb)
    have hm := StdVector.get?_eq_some counts.n_shelf_cells s hs0 (by rw [hc1]; exact hs1)
    obtain ⟨o', hrun, hT, hS, hcnt⟩ := ih (fun x hx => hl x (List.mem_cons_of_mem b hx))
      ({ o with
        Toc_box0 := setCell o.Toc_box0 p (o.Toc_box0 p.1 p.2 + basin_temperature.elem b
          * (((counts.n_shelf_cells_per_basin.elem s.toNat).elem b : Int) : R)
          / ((counts.n_shelf_cells.elem s.toNat : Int) : R)),
        Soc_box0 := setCell o.Soc_box0 p (o.Soc_box0 p.1 p.2 + basin_salinity.elem b
          * (((counts.n_shelf_cells_per_basin.elem s.toNat).elem b : Int) : R)
          / ((counts.n_shelf_cells.elem s.toNat : Int) : R)),
        divisions := o.divisions ++
          [{ index := s, count := counts.n_shelf_cells.elem s.toNat },
           { index := s, count := counts.n_shelf_cells.elem s.toNat }] } : OceanInput R)
    refine ⟨o', ?_, ?_, ?_, hcnt⟩
    · have hstep : basinWeightStep counts basin_temperature basin_salinity p s o b = some
          ({ o with
            Toc_box0 := setCell o.Toc_box0 p (o.Toc_box0 p.1 p.2 + basin_temperature.elem b
              * (((counts.n_shelf_cells_per_basin.elem s.toNat).elem b : Int) : R)
              / ((counts.n_shelf_cells.elem s.toNat : Int) : R)),
            Soc_box0 := setCell o.Soc_box0 p (o.Soc_box0 p.1 p.2 + basin_salinity.elem b
              * (((counts.n_shelf_cells_per_basin.elem s.toNat).elem b : Int) : R)
              / ((counts.n_shelf_cells.elem s.toNat : Int) : R)),
            divisions := o.divisions ++
              [{ index := s, count := counts.n_shelf_cells.elem s.toNat },
               { index := s, count := counts.n_shelf_cells.elem s.toNat }] }
            : OceanInput R) := by
        unfold basinWeightStep
        simp only [ht, hsal, hrow, hn, hm, Option.bind_eq_bind, Option.some_bind]
      rw [loopM_cons, hstep]
      exact hrun
    · rw [hT]
      simp only [setCell_setCell, setCell_same, List.map_cons, List.sum_cons, add_assoc]
    · rw [hS]
      simp only [setCell_setCell, setCell_same, List.map_cons, List.sum_cons, add_assoc]

/-- One pass of the loop of lines 458-485: the two fields are set at the cell `p` and
nowhere else, and the counter is incremented when the temperature is raised. -/
theorem oceanInputStep_spec (n_shelves n_basins : Nat) (physics : PicoPhysics R)
    (MASK_FLOATING : Int) (ice_thickness : Int → Int → R) (mask shelf_mask : Int → Int → Int)
    (counts : ShelfCounts) (basin_temperature basin_salinity : StdVector R)
    (o : OceanInput R) (p : Int × Int)
    (hs0 : 0 ≤ shelf_mask p.1 p.2) (hs1 : shelf_mask p.1 p.2 < n_shelves)
    (hbt : n_basins ≤ basin_temperature.size) (hbs : n_basins ≤ basin_salinity.size)
    (hc : counts.n_shelf_cells.size = n_shelves ∧
      counts.n_shelf_cells_per_basin.size = n_shelves ∧
      ∀ k, k < n_shelves → (counts.n_shelf_cells_per_basin.elem k).size = n_basins) :
    ∃ o', oceanInputStep n_basins physics MASK_FLOATING ice_thickness mask shelf_mask counts
        basin_temperature basin_salinity o p = some o' ∧
      o'.Soc_box0 = setCell o.Soc_box0 p
        (if mask p.1 p.2 = MASK_FLOATING ∧ shelf_mask p.1 p.2 > 0 then
          weightedInput n_basins counts basin_salinity (shelf_mask p.1 p.2) else 0) ∧
      o'.Toc_box0 = setCell o.Toc_box0 p
        (if mask p.1 p.2 = MASK_FLOATING ∧ shelf_mask p.1 p.2 > 0 then
          (if weightedInput n_basins counts basin_temperature (shelf_mask p.1 p.2)
              < physics.theta_pm
                (weightedInput n_basins counts basin_salinity (shelf_mask p.1 p.2))
                (physics.pressure (ice_thickness p.1 p.2)) then
            physics.theta_pm
                (weightedInput n_basins counts basin_salinity (shelf_mask p.1 p.2))
                (physics.pressure (ice_thickness p.1 p.2)) + 0.001
          else weightedInput n_basins counts basin_temperature (shelf_mask p.1 p.2))
        else 0) ∧
      o'.low_temperature_counter = o.low_temperature_counter
        + (if (mask p.1 p.2 = MASK_FLOATING ∧ shelf_mask p.1 p.2 > 0) ∧
            weightedInput n_basins counts basin_temperature (shelf_mask p.1 p.2)
              < physics.theta_pm
                (weightedInput n_basins counts basin_salinity (shelf_mask p.1 p.2))
                (physics.pressure (ice_thickness p.1 p.2)) then 1 else 0) := by
  unfold oceanInputStep
  simp only []
  by_cases hfloat : mask p.1 p.2 = MASK_FLOATING ∧ shelf_mask p.1 p.2 > 0
  · rw [if_pos hfloat]
    obtain ⟨o2, hrun, hT, hS, hcnt⟩ := basinWeight_loop n_shelves n_basins counts
      basin_temperature basin_salinity p (shelf_mask p.1 p.2) hs0 hs1 hbt hbs hc
      (List.range' 1 (n_basins - 1))
      (fun b hb => by
        obtain ⟨hb1, hb2⟩ := List.mem_range'_1.mp hb
        omega)
      ({ o with Toc_box0 := setCell o.Toc_box0 p 0, Soc_box0 := setCell o.Soc_box0 p 0 }
        : OceanInput R)
    simp only [setCell_setCell, setCell_same, zero_add] at hT hS hcnt
    have hT2 : o2.Toc_box0 p.1 p.2
        = weightedInput n_basins counts basin_temperature (shelf_mask p.1 p.2) := by
      rw [hT, setCell_same]
      rfl
    have hS2 : o2.Soc_box0 p.1 p.2
        = weightedInput n_basins counts basin_salinity (shelf_mask p.1 p.2) := by
      rw [hS, setCell_same]
      rfl
    simp only [hrun, Option.bind_eq_bind, Option.some_bind, hT2, hS2, if_pos hfloat]
    by_cases hlow : weightedInput n_basins counts basin_temperature (shelf_mask p.1 p.2)
        < physics.theta_pm (weightedInput n_basins counts basin_salinity (shelf_mask p.1 p.2))
          (physics.pressure (ice_thickness p.1 p.2))
    · simp only [if_pos hlow, hfloat, and_self, true_and, if_true]
      refine ⟨_, rfl, ?_, ?_, ?_⟩
      · exact hS
      · show setCell o2.Toc_box0 p _ = _
        rw [hT, setCell_setCell]
      · show o2.low_temperature_counter + 1 = _
        rw [hcnt]
    · simp only [if_neg hlow, hfloat, and_self, true_and, if_false]
      refine ⟨_, rfl, ?_, ?_, ?_⟩
      · exact hS
      · exact hT
      · rw [hcnt, add_zero]
  · rw [if_neg hfloat]
    refine ⟨_, rfl, ?_, ?_, ?_⟩
    · rw [if_neg hfloat]
    · rw [if_neg hfloat]
    · simp only [hfloat, false_and, if_false, add_zero]

end OceanInputLoops

section FieldLoops

/-- A loop over grid points whose body, at the point `p`, either writes `V p` to the
cell `p` of a field (when `C p`) or leaves the field as it is: afterwards the field holds
`V` at the visited points with `C`, and its old values elsewhere. -/
theorem loopM_setCell_if {σ α : Type} (body : σ → Int × Int → Option σ)
    (proj : σ → Int → Int → α) (C : Int × Int → Prop) [DecidablePred C] (V : Int × Int → α)
    (l : List (Int × Int))
    (hstep : ∀ st p st', p ∈ l → body st p = some st' →
      proj st' = if C p then setCell (proj st) p (V p) else proj st)
    (s s' : σ) (hrun : loopM body l s = some s') (i j : Int) :
    proj s' i j = if (i, j) ∈ l ∧ C (i, j) then V (i, j) else proj s i j := by
  have key := loopM_partial body
    (fun pre st => ∀ i j, proj st i j = if (i, j) ∈ pre ∧ C (i, j) then V (i, j) else proj s i j)
    l ?_ s s' (fun i j => by simp) hrun
  · exact key i j
  · intro pre p st st' hp hinv hbody i j
    rw [hstep st p st' hp hbody]
    by_cases hC : C p
    · rw [if_pos hC, setCell_apply]
      by_cases hij : (i, j) = p
      · rw [if_pos hij, hij, if_pos ⟨by simp, hC⟩]
      · rw [if_neg hij, hinv i j]
        have hmem : (i, j) ∈ pre ++ [p] ↔ (i, j) ∈ pre := by
          simp [hij]
        simp only [hmem]
    · rw [if_neg hC, hinv i j]
      by_cases hij : (i, j) = p
      · rw [hij]
        simp only [hC, and_false, if_false]
      · have hmem : (i, j) ∈ pre ++ [p] ↔ (i, j) ∈ pre := by
          simp [hij]
        simp only [hmem]

/-- A loop whose body increments a counter at the points with `P`: afterwards the
counter has grown by the number of visited points with `P`. -/
theorem loopM_count {σ α : Type} (body : σ → α → Option σ) (cnt : σ → Int)
    (P : α → Prop) [DecidablePred P] (l : List α)
    (hstep : ∀ st p st', p ∈ l → body st p = some st' →
      cnt st' = cnt st + if P p then 1 else 0)
    (s s' : σ) (hrun : loopM body l s = some s') :
    cnt s' = cnt s + ((l.filter fun q => decide (P q)).length : Int) := by
  refine loopM_partial body
    (fun pre st => cnt st = cnt s + ((pre.filter fun q => decide (P q)).length : Int))
    l ?_ s s' (by simp) hrun
  intro pre p st st' hp hinv hbody
  show cnt st' = _
  rw [hstep st p st' hp hbody, hinv]
  by_cases hP : P p
  · simp only [List.filter_append, List.filter_cons, List.filter_nil, hP, decide_True, if_true,
      List.length_append, List.length_singleton]
    push_cast
    ring
  · simp only [List.filter_append, List.filter_cons, List.filter_nil, hP, decide_False,
      if_false, List.append_nil, add_zero, Bool.false_eq_true]

end FieldLoops

section OceanInputSpec

variable {R : Type} [LinearOrderedField R]

/-- The weighted input read off the count tables is the basin-weighted average of the
specification when the tables hold the numbers of cells. -/
theorem weightedInput_eq (pico : Pico R) (basin_mask shelf_mask : Int → Int → Int)
    (counts : ShelfCounts) (value : StdVector R) (s : Int) (hs : 0 ≤ s)
    (hcells : ∀ k : Nat, counts.n_shelf_cells.elem k
      = ((pico.m_grid.points.filter fun q =>
          decide (shelf_mask q.1 q.2 = (k : Int))).length : Int))
    (htable : ∀ k b : Nat, (counts.n_shelf_cells_per_basin.elem k).elem b
      = ((pico.m_grid.points.filter fun q => decide (shelf_mask q.1 q.2 = (k : Int) ∧
          basin_mask q.1 q.2 = (b : Int))).length : Int)) :
    weightedInput pico.m_n_basins counts value s
      = basinWeightedAverage pico basin_mask shelf_mask value s := by
  unfold weightedInput basinWeightedAverage basinWeight
  have hs' : ((s.toNat : Nat) : Int) = s := Int.toNat_of_nonneg hs
  congr 1
  apply List.map_congr_left
  intro b _
  rw [hcells, htable, hs', Int.cast_natCast, Int.cast_natCast, mul_div_assoc]

/-- What `set_ocean_input_fields` does when the shelf and basin ids of the owned cells
are in range and the two input vectors have at least `m_n_basins` elements. -/
theorem set_ocean_input_fields_spec (pico : Pico R) (physics : PicoPhysics R)
    (MASK_FLOATING : Int) (ice_thickness : Int → Int → R)
    (mask basin_mask shelf_mask : Int → Int → Int)
    (basin_temperature basin_salinity : StdVector R) (Toc_box0 Soc_box0 : Int → Int → R)
    (hshelf : ∀ q ∈ pico.m_grid.points,
      0 ≤ shelf_mask q.1 q.2 ∧ shelf_mask q.1 q.2 < pico.m_n_shelves)
    (hbasin : ∀ q ∈ pico.m_grid.points,
      0 ≤ basin_mask q.1 q.2 ∧ basin_mask q.1 q.2 < pico.m_n_basins)
    (hbt : pico.m_n_basins ≤ basin_temperature.size)
    (hbs : pico.m_n_basins ≤ basin_salinity.size) :
    ∃ out, set_ocean_input_fields pico physics MASK_FLOATING ice_thickness mask basin_mask
        shelf_mask basin_temperature basin_salinity Toc_box0 Soc_box0 = some out ∧
      (∀ i j, out.Soc_box0 i j
        = if (i, j) ∈ pico.m_grid.points ∧ True then
            (if mask i j = MASK_FLOATING ∧ shelf_mask i j > 0 then
              basinWeightedAverage pico basin_mask shelf_mask basin_salinity (shelf_mask i j)
            else 0)
          else Soc_box0 i j) ∧
      (∀ i j, out.Toc_box0 i j
        = if (i, j) ∈ pico.m_grid.points ∧ True then
            (if mask i j = MASK_FLOATING ∧ shelf_mask i j > 0 then
              (if basinWeightedAverage pico basin_mask shelf_mask basin_temperature
                    (shelf_mask i j)
                  < physics.theta_pm
                    (basinWeightedAverage pico basin_mask shelf_mask basin_salinity
                      (shelf_mask i j))
                    (physics.pressure (ice_thickness i j)) then
                physics.theta_pm
                    (basinWeightedAverage pico basin_mask shelf_mask basin_salinity
                      (shelf_mask i j))
                    (physics.pressure (ice_thickness i j)) + 0.001
              else basinWeightedAverage pico basin_mask shelf_mask basin_temperature
                (shelf_mask i j))
            else 0)
          else Toc_box0 i j) ∧
      out.low_temperature_counter = ((pico.m_grid.points.filter fun q =>
        decide ((mask q.1 q.2 = MASK_FLOATING ∧ shelf_mask q.1 q.2 > 0) ∧
          basinWeightedAverage pico basin_mask shelf_mask basin_temperature
              (shelf_mask q.1 q.2)
            < physics.theta_pm
              (basinWeightedAverage pico basin_mask shelf_mask basin_salinity
                (shelf_mask q.1 q.2))
              (physics.pressure (ice_thickness q.1 q.2)))).length : Int) := by
  obtain ⟨c1, hrun1, hsizes, hcells, htable⟩ := shelfCount_loop pico.m_n_shelves
    pico.m_n_basins basin_mask shelf_mask pico.m_grid.points hshelf hbasin
  have hrun2 := shelfReduce_loop pico.m_n_shelves pico.m_n_basins c1 hsizes
  have hW : ∀ (value : StdVector R) (q : Int × Int), q ∈ pico.m_grid.points →
      weightedInput pico.m_n_basins c1 value (shelf_mask q.1 q.2)
        = basinWeightedAverage pico basin_mask shelf_mask value (shelf_mask q.1 q.2) :=
    fun value q hq => weightedInput_eq pico basin_mask shelf_mask c1 value _ (hshelf q hq).1
      hcells htable
  have hstep := fun (st : OceanInput R) (p : Int × Int) (hp : p ∈ pico.m_grid.points) =>
    oceanInputStep_spec pico.m_n_shelves pico.m_n_basins physics MASK_FLOATING ice_thickness
      mask shelf_mask c1 basin_temperature basin_salinity st p (hshelf p hp).1 (hshelf p hp).2
      hbt hbs hsizes
  obtain ⟨o, hrun3, _⟩ := loopM_total
    (oceanInputStep pico.m_n_basins physics MASK_FLOATING ice_thickness mask shelf_mask c1
      basin_temperature basin_salinity)
    (fun _ _ => True) pico.m_grid.points
    (fun _ p st hp _ => by
      obtain ⟨o', ho', _⟩ := hstep st p hp
      exact ⟨o', ho', trivial⟩)
    ({ Toc_box0 := Toc_box0, Soc_box0 := Soc_box0, low_temperature_counter := 0,
       divisions := [] } : OceanInput R) trivial
  have hS := loopM_setCell_if _ (fun st : OceanInput R => st.Soc_box0) (fun _ => True)
    (fun q => if mask q.1 q.2 = MASK_FLOATING ∧ shelf_mask q.1 q.2 > 0 then
      basinWeightedAverage pico basin_mask shelf_mask basin_salinity (shelf_mask q.1 q.2)
      else 0)
    pico.m_grid.points
    (fun st p st' hp hbody => by
      obtain ⟨o', ho', hSoc, _, _⟩ := hstep st p hp
      rw [hbody] at ho'
      rw [Option.some.inj ho', if_pos trivial]
      show o'.Soc_box0 = setCell st.Soc_box0 p _
      rw [hSoc, hW _ p hp])
    _ o hrun3
  have hT := loopM_setCell_if _ (fun st : OceanInput R => st.Toc_box0) (fun _ => True)
    (fun q => if mask q.1 q.2 = MASK_FLOATING ∧ shelf_mask q.1 q.2 > 0 then
      (if basinWeightedAverage pico basin_mask shelf_mask basin_temperature
            (shelf_mask q.1 q.2)
          < physics.theta_pm
            (basinWeightedAverage pico basin_mask shelf_mask basin_salinity
              (shelf_mask q.1 q.2))
            (physics.pressure (ice_thickness q.1 q.2)) then
        physics.theta_pm
            (basinWeightedAverage pico basin_mask shelf_mask basin_salinity
              (shelf_mask q.1 q.2))
            (physics.pressure (ice_thickness q.1 q.2)) + 0.001
      else basinWeightedAverage pico basin_mask shelf_mask basin_temperature
        (shelf_mask q.1 q.2))
      else 0)
    pico.m_grid.points
    (fun st p st' hp hbody => by
      obtain ⟨o', ho', _, hToc, _⟩ := hstep st p hp
      rw [hbody] at ho'
      rw [Option.some.inj ho', if_pos trivial]
      show o'.Toc_box0 = setCell st.Toc_box0 p _
      rw [hToc, hW _ p hp, hW _ p hp])
    _ o hrun3
  have hC := loopM_count _ (fun st : OceanInput R => st.low_temperature_counter)
    (fun q => (mask q.1 q.2 = MASK_FLOATING ∧ shelf_mask q.1 q.2 > 0) ∧
      basinWeightedAverage pico basin_mask shelf_mask basin_temperature (shelf_mask q.1 q.2)
        < physics.theta_pm
          (basinWeightedAverage pico basin_mask shelf_mask basin_salinity (shelf_mask q.1 q.2))
          (physics.pressure (ice_thickness q.1 q.2)))
    pico.m_grid.points
    (fun st p st' hp hbody => by
      obtain ⟨o', ho', _, _, hcnt⟩ := hstep st p hp
      rw [hbody] at ho'
      rw [Option.some.inj ho']
      show o'.low_temperature_counter = st.low_temperature_counter + _
      rw [hcnt, hW _ p hp, hW _ p hp])
    _ o hrun3
  refine ⟨{ o with low_temperature_counter := GlobalSum o.low_temperature_counter }, ?_,
    hS, hT, ?_⟩
  · unfold set_ocean_input_fields
    simp only [hrun1, hrun2, hrun3, Option.bind_eq_bind, Option.some_bind]
  · show GlobalSum o.low_temperature_counter = _
    unfold GlobalSum
    exact hC.trans (zero_add _)

end OceanInputSpec

section OceanInputClaims

variable {R : Type} [LinearOrderedField R]

/-- When no cell of the shelf `s` lies in basin 0, the basin-weighted average is also
the sum over all the basins `0, ..., m_n_basins - 1`. -/
theorem basinWeightedAverage_all_basins (pico : Pico R)
    (basin_mask shelf_mask : Int → Int → Int) (value : StdVector R) (s : Int)
    (hn : 0 < pico.m_n_basins)
    (h0 : ∀ q ∈ pico.m_grid.points, shelf_mask q.1 q.2 = s → basin_mask q.1 q.2 ≠ 0) :
    basinWeightedAverage pico basin_mask shelf_mask value s
      = ((List.range pico.m_n_basins).map fun b =>
          value.elem b * basinWeight pico basin_mask shelf_mask s b).sum := by
  have hrange : List.range pico.m_n_basins = 0 :: List.range' 1 (pico.m_n_basins - 1) := by
    obtain ⟨m, hm⟩ : ∃ m, pico.m_n_basins = m + 1 := ⟨pico.m_n_basins - 1, by omega⟩
    rw [List.range_eq_range', hm, List.range'_succ]
    rfl
  have hzero : basinWeight pico basin_mask shelf_mask s ((0 : Nat) : Int) = 0 := by
    unfold basinWeight
    have hnil : (pico.m_grid.points.filter fun q =>
        decide (shelf_mask q.1 q.2 = s ∧ basin_mask q.1 q.2 = ((0 : Nat) : Int))) = [] := by
      rw [List.filter_eq_nil_iff]
      intro q hq
      simp only [decide_eq_true_eq, Nat.cast_zero, not_and]
      exact h0 q hq
    rw [hnil]
    simp
  rw [hrange, List.map_cons, List.sum_cons, hzero, mul_zero, zero_add]
  rfl

/-- C21: when the shelf and basin ids of the owned cells are in range,
`set_ocean_input_fields` returns, and at every owned floating cell with shelf id `s > 0`
it sets `Soc_box0` to the basin-weighted average of the per-basin salinities, the sum
over the basins `b ≥ 1` of `basin_salinity[b] * w[s][b]` with `w[s][b]` the fraction of
the cells of the shelf `s` that lie in the basin `b`, and `Toc_box0` to the same average
of the per-basin temperatures, which is afterwards replaced only when it is below the
pressure melting point; at every other owned cell both fields are 0. -/
theorem ocean_input_is_basin_weighted_average (pico : Pico R) (physics : PicoPhysics R)
    (MASK_FLOATING : Int) (ice_thickness : Int → Int → R)
    (mask basin_mask shelf_mask : Int → Int → Int)
    (basin_temperature basin_salinity : StdVector R) (Toc_box0 Soc_box0 : Int → Int → R)
    (hshelf : ∀ q ∈ pico.m_grid.points,
      0 ≤ shelf_mask q.1 q.2 ∧ shelf_mask q.1 q.2 < pico.m_n_shelves)
    (hbasin : ∀ q ∈ pico.m_grid.points,
      0 ≤ basin_mask q.1 q.2 ∧ basin_mask q.1 q.2 < pico.m_n_basins)
    (hbt : pico.m_n_basins ≤ basin_temperature.size)
    (hbs : pico.m_n_basins ≤ basin_salinity.size) :
    ∃ out, set_ocean_input_fields pico physics MASK_FLOATING ice_thickness mask basin_mask
        shelf_mask basin_temperature basin_salinity Toc_box0 Soc_box0 = some out ∧
      ∀ i j, (i, j) ∈ pico.m_grid.points →
        (mask i j = MASK_FLOATING ∧ shelf_mask i j > 0 →
          out.Soc_box0 i j
            = basinWeightedAverage pico basin_mask shelf_mask basin_salinity (shelf_mask i j) ∧
          out.Toc_box0 i j
            = (if basinWeightedAverage pico basin_mask shelf_mask basin_temperature
                    (shelf_mask i j)
                  < physics.theta_pm (out.Soc_box0 i j) (physics.pressure (ice_thickness i j))
               then physics.theta_pm (out.Soc_box0 i j) (physics.pressure (ice_thickness i j))
                 + 0.001
               else basinWeightedAverage pico basin_mask shelf_mask basin_temperature
                 (shelf_mask i j)) ∧
          ((∀ q ∈ pico.m_grid.points, shelf_mask q.1 q.2 = shelf_mask i j →
              basin_mask q.1 q.2 ≠ 0) →
            basinWeightedAverage pico basin_mask shelf_mask basin_salinity (shelf_mask i j)
              = ((List.range pico.m_n_basins).map fun b => basin_salinity.elem b
                  * basinWeight pico basin_mask shelf_mask (shelf_mask i j) b).sum ∧
            basinWeightedAverage pico basin_mask shelf_mask basin_temperature (shelf_mask i j)
              = ((List.range pico.m_n_basins).map fun b => basin_temperature.elem b
                  * basinWeight pico basin_mask shelf_mask (shelf_mask i j) b).sum)) ∧
        (¬ (mask i j = MASK_FLOATING ∧ shelf_mask i j > 0) →
          out.Toc_box0 i j = 0 ∧ out.Soc_box0 i j = 0) := by
  obtain ⟨out, hout, hS, hT, _⟩ := set_ocean_input_fields_spec pico physics MASK_FLOATING
    ice_thickness mask basin_mask shelf_mask basin_temperature basin_salinity Toc_box0 Soc_box0
    hshelf hbasin hbt hbs
  refine ⟨out, hout, ?_⟩
  intro i j hij
  have hSij := hS i j
  have hTij := hT i j
  rw [if_pos ⟨hij, trivial⟩] at hSij hTij
  refine ⟨?_, ?_⟩
  · intro hfloat
    rw [if_pos hfloat] at hSij hTij
    refine ⟨hSij, ?_, ?_⟩
    · rw [hTij, hSij]
    · intro h0
      have hn : 0 < pico.m_n_basins := by
        have := hbasin (i, j) hij
        omega
      exact ⟨basinWeightedAverage_all_basins pico basin_mask shelf_mask basin_salinity _ hn h0,
        basinWeightedAverage_all_basins pico basin_mask shelf_mask basin_temperature _ hn h0⟩
  · intro hfloat
    rw [if_neg hfloat] at hSij hTij
    exact ⟨hTij, hSij⟩

/-- C22, as amended: when the shelf and basin ids of the owned cells are in range,
`set_ocean_input_fields` returns, and at every owned floating cell with shelf id `> 0`
the resulting `Toc_box0` is at least the pressure melting point
`theta_pm(Soc_box0, pressure(thickness))`: a weighted temperature below the melting point
is replaced by the melting point plus 0.001, one that is not below it is kept.  The
counter `low_temperature_counter` is the number of owned cells whose temperature was
replaced. -/
theorem ocean_input_temperature_at_least_melting_point (pico : Pico R)
    (physics : PicoPhysics R) (MASK_FLOATING : Int) (ice_thickness : Int → Int → R)
    (mask basin_mask shelf_mask : Int → Int → Int)
    (basin_temperature basin_salinity : StdVector R) (Toc_box0 Soc_box0 : Int → Int → R)
    (hshelf : ∀ q ∈ pico.m_grid.points,
      0 ≤ shelf_mask q.1 q.2 ∧ shelf_mask q.1 q.2 < pico.m_n_shelves)
    (hbasin : ∀ q ∈ pico.m_grid.points,
      0 ≤ basin_mask q.1 q.2 ∧ basin_mask q.1 q.2 < pico.m_n_basins)
    (hbt : pico.m_n_basins ≤ basin_temperature.size)
    (hbs : pico.m_n_basins ≤ basin_salinity.size) :
    ∃ out, set_ocean_input_fields pico physics MASK_FLOATING ice_thickness mask basin_mask
        shelf_mask basin_temperature basin_salinity Toc_box0 Soc_box0 = some out ∧
      (∀ i j, (i, j) ∈ pico.m_grid.points → mask i j = MASK_FLOATING ∧ shelf_mask i j > 0 →
        physics.theta_pm (out.Soc_box0 i j) (physics.pressure (ice_thickness i j))
          ≤ out.Toc_box0 i j ∧
        (basinWeightedAverage pico basin_mask shelf_mask basin_temperature (shelf_mask i j)
            < physics.theta_pm (out.Soc_box0 i j) (physics.pressure (ice_thickness i j)) →
          out.Toc_box0 i j
            = physics.theta_pm (out.Soc_box0 i j) (physics.pressure (ice_thickness i j))
              + 0.001) ∧
        (physics.theta_pm (out.Soc_box0 i j) (physics.pressure (ice_thickness i j))
            ≤ basinWeightedAverage pico basin_mask shelf_mask basin_temperature
              (shelf_mask i j) →
          out.Toc_box0 i j
            = basinWeightedAverage pico basin_mask shelf_mask basin_temperature
              (shelf_mask i j))) ∧
      out.low_temperature_counter = ((pico.m_grid.points.filter fun q =>
        decide ((mask q.1 q.2 = MASK_FLOATING ∧ shelf_mask q.1 q.2 > 0) ∧
          basinWeightedAverage pico basin_mask shelf_mask basin_temperature
              (shelf_mask q.1 q.2)
            < physics.theta_pm (out.Soc_box0 q.1 q.2)
              (physics.pressure (ice_thickness q.1 q.2)))).length : Int) := by
  obtain ⟨out, hout, hS, hT, hC⟩ := set_ocean_input_fields_spec pico physics MASK_FLOATING
    ice_thickness mask basin_mask shelf_mask basin_temperature basin_salinity Toc_box0 Soc_box0
    hshelf hbasin hbt hbs
  refine ⟨out, hout, ?_, ?_⟩
  · intro i j hij hfloat
    have hSij := hS i j
    have hTij := hT i j
    rw [if_pos ⟨hij, trivial⟩, if_pos hfloat] at hSij hTij
    rw [← hSij] at hTij
    have hpos : (0 : R) ≤ 0.001 := by norm_num
    refine ⟨?_, ?_, ?_⟩
    · rw [hTij]
      split
      · exact le_add_of_nonneg_right hpos
      · rename_i h
        exact not_lt.mp h
    · intro hlow
      rw [hTij, if_pos hlow]
    · intro hhigh
      rw [hTij, if_neg (not_lt.mpr hhigh)]
  · rw [hC]
    congr 1
    apply congrArg List.length
    apply List.filter_congr
    intro q hq
    by_cases hfloat : mask q.1 q.2 = MASK_FLOATING ∧ shelf_mask q.1 q.2 > 0
    · have hSq := hS q.1 q.2
      rw [if_pos ⟨hq, trivial⟩, if_pos hfloat] at hSq
      rw [hSq]
    · simp only [hfloat, false_and]

end OceanInputClaims

section OceanInputWitnesses

theorem example_shelf_ids_in_range :
    ∀ q ∈ (picoExample ℚ).m_grid.points,
      0 ≤ shelfMaskExample q.1 q.2 ∧ shelfMaskExample q.1 q.2 < (picoExample ℚ).m_n_shelves :=
  fun _ _ => ⟨show (0 : Int) ≤ 1 by decide, show (1 : Int) < ((2 : Nat) : Int) by decide⟩

theorem example_all_basin_ids_in_range :
    ∀ q ∈ (picoExample ℚ).m_grid.points,
      0 ≤ basinMaskExample q.1 q.2 ∧ basinMaskExample q.1 q.2 < (picoExample ℚ).m_n_basins :=
  fun _ _ => ⟨show (0 : Int) ≤ 1 by decide, show (1 : Int) < ((3 : Nat) : Int) by decide⟩

theorem example_origin_owned : ((0 : Int), (0 : Int)) ∈ (picoExample ℚ).m_grid.points := by
  decide

theorem example_origin_floating :
    floatingExample 0 0 = 3 ∧ shelfMaskExample 0 0 > 0 := by
  decide

/-- In the example every cell lies in shelf 1 and basin 1, so the weighted average for
the shelf 1 is the value of basin 1. -/
theorem example_basinWeightedAverage :
    basinWeightedAverage (picoExample ℚ) basinMaskExample shelfMaskExample (basinValuesA ℚ) 1
      = 1 := by
  have h1 : ((picoExample ℚ).m_grid.points.filter fun q =>
      decide (shelfMaskExample q.1 q.2 = 1 ∧ basinMaskExample q.1 q.2 = ((1 : Nat) : Int))).length
      = 4 := by decide
  have h2 : ((picoExample ℚ).m_grid.points.filter fun q =>
      decide (shelfMaskExample q.1 q.2 = 1 ∧ basinMaskExample q.1 q.2 = ((2 : Nat) : Int))).length
      = 0 := by decide
  have h3 : ((picoExample ℚ).m_grid.points.filter fun q =>
      decide (shelfMaskExample q.1 q.2 = 1)).length = 4 := by decide
  have hl : List.range' 1 ((picoExample ℚ).m_n_basins - 1) = [1, 2] := by decide
  unfold basinWeightedAverage basinWeight
  rw [hl]
  simp only [List.map_cons, List.map_nil, List.sum_cons, List.sum_nil, h1, h2, h3]
  norm_num [basinValuesA]

/-- Witness of C21: on the 2 by 2 grid whose cells all float and lie in shelf 1 and
basin 1, with the per-basin values `5, 1, 2`, the cell `(0, 0)` receives the salinity 1 of
basin 1. -/
theorem ocean_input_is_basin_weighted_average_witness :
    (∀ q ∈ (picoExample ℚ).m_grid.points,
      0 ≤ shelfMaskExample q.1 q.2 ∧ shelfMaskExample q.1 q.2 < (picoExample ℚ).m_n_shelves) ∧
    (∀ q ∈ (picoExample ℚ).m_grid.points,
      0 ≤ basinMaskExample q.1 q.2 ∧ basinMaskExample q.1 q.2 < (picoExample ℚ).m_n_basins) ∧
    (picoExample ℚ).m_n_basins ≤ (basinValuesA ℚ).size ∧
    ∃ out, set_ocean_input_fields (picoExample ℚ) (physicsExample ℚ) 3 (thicknessExample ℚ)
        floatingExample basinMaskExample shelfMaskExample (basinValuesA ℚ) (basinValuesA ℚ)
        (fun _ _ => 0) (fun _ _ => 0) = some out ∧
      out.Soc_box0 0 0 = 1 := by
  refine ⟨example_shelf_ids_in_range, example_all_basin_ids_in_range, le_refl _, ?_⟩
  obtain ⟨out, hout, hval⟩ := ocean_input_is_basin_weighted_average (picoExample ℚ)
    (physicsExample ℚ) 3 (thicknessExample ℚ) floatingExample basinMaskExample shelfMaskExample
    (basinValuesA ℚ) (basinValuesA ℚ) (fun _ _ => 0) (fun _ _ => 0)
    example_shelf_ids_in_range example_all_basin_ids_in_range (le_refl _) (le_refl _)
  refine ⟨out, hout, ?_⟩
  rw [((hval 0 0 example_origin_owned).1 example_origin_floating).1]
  exact example_basinWeightedAverage

/-- Witness of C22 as amended: in the same example the temperature at `(0, 0)` is at
least the pressure melting point. -/
theorem ocean_input_temperature_at_least_melting_point_witness :
    (∀ q ∈ (picoExample ℚ).m_grid.points,
      0 ≤ shelfMaskExample q.1 q.2 ∧ shelfMaskExample q.1 q.2 < (picoExample ℚ).m_n_shelves) ∧
    (∀ q ∈ (picoExample ℚ).m_grid.points,
      0 ≤ basinMaskExample q.1 q.2 ∧ basinMaskExample q.1 q.2 < (picoExample ℚ).m_n_basins) ∧
    (picoExample ℚ).m_n_basins ≤ (basinValuesA ℚ).size ∧
    ∃ out, set_ocean_input_fields (picoExample ℚ) (physicsExample ℚ) 3 (thicknessExample ℚ)
        floatingExample basinMaskExample shelfMaskExample (basinValuesA ℚ) (basinValuesA ℚ)
        (fun _ _ => 0) (fun _ _ => 0) = some out ∧
      (physicsExample ℚ).theta_pm (out.Soc_box0 0 0)
          ((physicsExample ℚ).pressure (thicknessExample ℚ 0 0)) ≤ out.Toc_box0 0 0 := by
  refine ⟨example_shelf_ids_in_range, example_all_basin_ids_in_range, le_refl _, ?_⟩
  obtain ⟨out, hout, hval, _⟩ := ocean_input_temperature_at_least_melting_point
    (picoExample ℚ) (physicsExample ℚ) 3 (thicknessExample ℚ) floatingExample basinMaskExample
    shelfMaskExample (basinValuesA ℚ) (basinValuesA ℚ) (fun _ _ => 0) (fun _ _ => 0)
    example_shelf_ids_in_range example_all_basin_ids_in_range (le_refl _) (le_refl _)
  exact ⟨out, hout, (hval 0 0 example_origin_owned example_origin_floating).1⟩

/-- Counterexample to C22 as stated: with a pressure melting point of 1 and a weighted
temperature of 1 at the floating cell `(0, 0)` of shelf 1, the temperature is not raised:
`Toc_box0` stays 1, which is below the melting point plus 0.001. -/
theorem ocean_input_temperature_below_offset :
    ∃ out, set_ocean_input_fields (picoExample ℚ) (physicsWarm ℚ) 3 (thicknessExample ℚ)
        floatingExample basinMaskExample shelfMaskExample (basinValuesA ℚ) (basinValuesA ℚ)
        (fun _ _ => 0) (fun _ _ => 0) = some out ∧
      floatingExample 0 0 = 3 ∧ shelfMaskExample 0 0 > 0 ∧
      out.Toc_box0 0 0 = 1 ∧
      out.Toc_box0 0 0 < (physicsWarm ℚ).theta_pm (out.Soc_box0 0 0)
          ((physicsWarm ℚ).pressure (thicknessExample ℚ 0 0)) + 0.001 := by
  obtain ⟨out, hout, _, hT, _⟩ := set_ocean_input_fields_spec (picoExample ℚ) (physicsWarm ℚ)
    3 (thicknessExample ℚ) floatingExample basinMaskExample shelfMaskExample (basinValuesA ℚ)
    (basinValuesA ℚ) (fun _ _ => 0) (fun _ _ => 0)
    example_shelf_ids_in_range example_all_basin_ids_in_range (le_refl _) (le_refl _)
  have hT00 := hT 0 0
  rw [if_pos ⟨example_origin_owned, trivial⟩, if_pos example_origin_floating] at hT00
  have hs : shelfMaskExample 0 0 = 1 := rfl
  rw [hs, example_basinWeightedAverage] at hT00
  have hval : out.Toc_box0 0 0 = 1 := by
    rw [hT00]
    norm_num [physicsWarm]
  refine ⟨out, hout, rfl, by decide, hval, ?_⟩
  rw [hval]
  norm_num [physicsWarm]

end OceanInputWitnesses

section SplitLoops

/-- A variant of `loopM_total` whose step also knows how the list splits at the
current element. -/
theorem loopM_total_split {σ α : Type} (body : σ → α → Option σ) (Inv : List α → σ → Prop)
    (l : List α)
    (hstep : ∀ pre x post st, l = pre ++ x :: post → Inv pre st →
      ∃ st', body st x = some st' ∧ Inv (pre ++ [x]) st')
    (s : σ) (h0 : Inv [] s) : ∃ s', loopM body l s = some s' ∧ Inv l s' := by
  have key : ∀ (m pre : List α) (st : σ), l = pre ++ m → Inv pre st →
      ∃ s', loopM body m st = some s' ∧ Inv l s' := by
    intro m
    induction m with
    | nil =>
      intro pre st hl hinv
      rw [List.append_nil] at hl
      exact ⟨st, rfl, by rwa [hl]⟩
    | cons x m ih =>
      intro pre st hl hinv
      obtain ⟨st', hb, hinv'⟩ := hstep pre x m st hl hinv
      obtain ⟨s', hs', hfin⟩ := ih (pre ++ [x]) st'
        (by rw [hl, List.append_assoc, List.singleton_append]) hinv'
      refine ⟨s', ?_, hfin⟩
      rw [loopM_cons, hb]
      exact hs'
  exact key l [] s rfl h0

/-- In a list without duplicates the current element is not among the earlier ones. -/
theorem not_mem_earlier_of_nodup {α : Type} (l pre post : List α) (x : α) (hl : l.Nodup)
    (h : l = pre ++ x :: post) : x ∉ pre := by
  rw [h, List.nodup_append] at hl
  intro hx
  exact hl.2.2 hx (List.mem_cons_self x post)

end SplitLoops

section BoxAverageSpec

variable {R : Type} [LinearOrderedField R]

/-- The loop of lines 598-600 sets the first `n` elements of `result` to zero. -/
theorem boxZero_loop (b0 : BoxSums R) (n : Nat) (hn : n ≤ b0.result.size) :
    ∃ b, loopM boxZeroStep (List.range n) b0 = some b ∧
      b.n_cells_per_box = b0.n_cells_per_box ∧ b.result.size = b0.result.size ∧
      b.divisions = b0.divisions ∧ ∀ s, s < n → b.result.elem s = 0 := by
  obtain ⟨b, hrun, hc, hsz, hd, hval⟩ := loopM_total boxZeroStep
    (fun pre (b : BoxSums R) => b.n_cells_per_box = b0.n_cells_per_box ∧
      b.result.size = b0.result.size ∧ b.divisions = b0.divisions ∧
      ∀ s ∈ pre, b.result.elem s = 0)
    (List.range n)
    (fun pre s st hs hinv => by
      obtain ⟨hc, hsz, hd, hval⟩ := hinv
      have hlt : s < st.result.size := by
        rw [hsz]
        exact lt_of_lt_of_le (List.mem_range.mp hs) hn
      have hmod := StdVector.modify?_nat st.result s (fun _ => (0 : R)) hlt
      unfold boxZeroStep
      simp only [hmod, Option.bind_eq_bind, Option.some_bind]
      refine ⟨_, rfl, hc, hsz, hd, ?_⟩
      intro k hk
      show (if k = s then (0 : R) else st.result.elem k) = 0
      split
      · rfl
      · rename_i hks
        rcases List.mem_append.mp hk with h | h
        · exact hval k h
        · exact absurd (List.mem_singleton.mp h) hks)
    b0 ⟨rfl, rfl, rfl, fun s hs => absurd hs (List.not_mem_nil s)⟩
  exact ⟨b, hrun, hc, hsz, hd, fun s hs => hval s (List.mem_range.mpr hs)⟩

/-- The loop of lines 603-612 adds, for every shelf, the number of cells of the box and
the sum of the field over them. -/
theorem boxSum_loop (box_id : Int) (field : Int → Int → R)
    (shelf_mask box_mask : Int → Int → Int) (n : Nat) (l : List (Int × Int))
    (hrange : ∀ q ∈ l, box_mask q.1 q.2 = box_id →
      0 ≤ shelf_mask q.1 q.2 ∧ shelf_mask q.1 q.2 < n)
    (b1 : BoxSums R) (hc : b1.n_cells_per_box.size = n) (hr : b1.result.size = n) :
    ∃ b, loopM (boxSumStep box_id field shelf_mask box_mask) l b1 = some b ∧
      b.n_cells_per_box.size = n ∧ b.result.size = n ∧ b.divisions = b1.divisions ∧
      ∀ s : Nat,
        b.n_cells_per_box.elem s = b1.n_cells_per_box.elem s + ((l.filter fun q =>
          decide (box_mask q.1 q.2 = box_id ∧ shelf_mask q.1 q.2 = (s : Int))).length : Int) ∧
        b.result.elem s = b1.result.elem s + ((l.filter fun q =>
          decide (box_mask q.1 q.2 = box_id ∧ shelf_mask q.1 q.2 = (s : Int))).map
            fun q => field q.1 q.2).sum := by
  refine loopM_total _
    (fun pre (b : BoxSums R) => b.n_cells_per_box.size = n ∧ b.result.size = n ∧
      b.divisions = b1.divisions ∧
      ∀ s : Nat,
        b.n_cells_per_box.elem s = b1.n_cells_per_box.elem s + ((pre.filter fun q =>
          decide (box_mask q.1 q.2 = box_id ∧ shelf_mask q.1 q.2 = (s : Int))).length : Int) ∧
        b.result.elem s = b1.result.elem s + ((pre.filter fun q =>
          decide (box_mask q.1 q.2 = box_id ∧ shelf_mask q.1 q.2 = (s : Int))).map
            fun q => field q.1 q.2).sum)
    l ?_ b1 ⟨hc, hr, rfl, fun s => by simp⟩
  rintro pre p st hp ⟨hc1, hr1, hd1, hval⟩
  by_cases hbox : box_mask p.1 p.2 = box_id
  · obtain ⟨h0, h1⟩ := hrange p hp hbox
    have hm1 := StdVector.modify?_eq_some st.n_cells_per_box (shelf_mask p.1 p.2)
      (fun n => n + 1) h0 (by rw [hc1]; exact h1)
    have hm2 := StdVector.modify?_eq_some st.result (shelf_mask p.1 p.2)
      (fun x => x + field p.1 p.2) h0 (by rw [hr1]; exact h1)
    unfold boxSumStep
    simp only [hbox, if_true, hm1, hm2, Option.bind_eq_bind, Option.some_bind]
    refine ⟨_, rfl, hc1, hr1, hd1, ?_⟩
    intro s
    obtain ⟨e1, e2⟩ := hval s
    have hb : (s = (shelf_mask p.1 p.2).toNat) ↔ shelf_mask p.1 p.2 = (s : Int) := by omega
    show (if s = (shelf_mask p.1 p.2).toNat then st.n_cells_per_box.elem s + 1
        else st.n_cells_per_box.elem s) = _ ∧
      (if s = (shelf_mask p.1 p.2).toNat then st.result.elem s + field p.1 p.2
        else st.result.elem s) = _
    by_cases hs : shelf_mask p.1 p.2 = (s : Int)
    · rw [if_pos (hb.mpr hs), if_pos (hb.mpr hs), e1, e2]
      simp only [List.filter_append, List.filter_cons, List.filter_nil, hbox, hs, and_self,
        decide_True, if_true, List.length_append, List.length_singleton, List.map_append,
        List.map_cons, List.map_nil, List.sum_append, List.sum_cons, List.sum_nil, add_zero]
      refine ⟨?_, ?_⟩
      · push_cast
        ring
      · ring
    · rw [if_neg (fun h => hs (hb.mp h)), if_neg (fun h => hs (hb.mp h)), e1, e2]
      simp only [List.filter_append, List.filter_cons, List.filter_nil, hs, and_false,
        decide_False, if_false, List.append_nil, Bool.false_eq_true, and_self]
  · refine ⟨st, ?_, hc1, hr1, hd1, ?_⟩
    · unfold boxSumStep
      simp only [hbox, if_false]
    · intro s
      simp only [List.filter_append, List.filter_cons, List.filter_nil, hbox, false_and,
        decide_False, if_false, List.append_nil, Bool.false_eq_true]
      exact hval s

/-- The loop of lines 615-623 divides every sum by the number of cells when that is
positive. -/
theorem boxAverage_loop (b2 : BoxSums R) (n : Nat) (hc : b2.n_cells_per_box.size = n)
    (hr : b2.result.size = n) :
    ∃ b, loopM boxAverageStep (List.range n) b2 = some b ∧ b.result.size = n ∧
      ∀ s, s < n → b.result.elem s
        = if b2.n_cells_per_box.elem s > 0 then
            b2.result.elem s / ((b2.n_cells_per_box.elem s : Int) : R)
          else b2.result.elem s := by
  obtain ⟨b, hrun, _, hsz, hval⟩ := loopM_total_split boxAverageStep
    (fun pre (b : BoxSums R) => b.n_cells_per_box = b2.n_cells_per_box ∧ b.result.size = n ∧
      ∀ s, b.result.elem s
        = if s ∈ pre then
            (if b2.n_cells_per_box.elem s > 0 then
              b2.result.elem s / ((b2.n_cells_per_box.elem s : Int) : R)
            else b2.result.elem s)
          else b2.result.elem s)
    (List.range n)
    (fun pre s post st hl hinv => by
      obtain ⟨hcnt, hsz, hval⟩ := hinv
      have hnot : s ∉ pre := not_mem_earlier_of_nodup _ pre post s (List.nodup_range n) hl
      have hmem : s ∈ List.range n := by
        rw [hl]
        simp
      have hlt : s < n := List.mem_range.mp hmem
      have hget := StdVector.get?_nat b2.n_cells_per_box s (by rw [hc]; exact hlt)
      have hm1 := StdVector.modify?_GlobalSum st.result s (Int.natCast_nonneg s)
        (by rw [hsz]; exact_mod_cast hlt)
      have hm2 := fun c : R => StdVector.modify?_nat st.result s (fun x => x / c)
        (by rw [hsz]; exact hlt)
      have hold : st.result.elem s = b2.result.elem s := by
        rw [hval s, if_neg hnot]
      unfold boxAverageStep
      simp only [hget, hm1, Option.bind_eq_bind, Option.some_bind, GlobalSum, hcnt]
      by_cases hpos : b2.n_cells_per_box.elem s > 0
      · simp only [if_pos hpos, hm2, Option.some_bind]
        refine ⟨_, rfl, rfl, hsz, ?_⟩
        intro k
        show (if k = s then st.result.elem k / _ else st.result.elem k) = _
        by_cases hks : k = s
        · subst hks
          rw [if_pos rfl, if_pos (by simp), if_pos hpos, hold]
        · rw [if_neg hks, hval k]
          have hiff : k ∈ pre ++ [s] ↔ k ∈ pre := by simp [hks]
          simp only [hiff]
      · simp only [if_neg hpos]
        refine ⟨_, rfl, rfl, hsz, ?_⟩
        intro k
        show st.result.elem k = _
        by_cases hks : k = s
        · subst hks
          rw [if_pos (by simp), if_neg hpos, hold]
        · rw [hval k]
          have hiff : k ∈ pre ++ [s] ↔ k ∈ pre := by simp [hks]
          simp only [hiff])
    b2 ⟨rfl, hr, fun s => by simp⟩
  refine ⟨b, hrun, hsz, ?_⟩
  intro s hs
  rw [hval s, if_pos (List.mem_range.mpr hs)]

/-- What `compute_box_average` returns when the shelf id of every cell of the box is in
range: a vector of size `m_n_shelves` that holds, for every shelf, the mean of the field
over the cells of the box in that shelf, and 0 when there is none. -/
theorem compute_box_average_spec (pico : Pico R) (box_id : Int) (field : Int → Int → R)
    (shelf_mask box_mask : Int → Int → Int) (result : StdVector R)
    (hrange : ∀ q ∈ pico.m_grid.points, box_mask q.1 q.2 = box_id →
      0 ≤ shelf_mask q.1 q.2 ∧ shelf_mask q.1 q.2 < pico.m_n_shelves) :
    ∃ out, compute_box_average pico box_id field shelf_mask box_mask result = some out ∧
      out.result.size = pico.m_n_shelves ∧
      ∀ s : Nat, s < pico.m_n_shelves →
        out.result.elem s = boxAverage pico box_id field shelf_mask box_mask s := by
  obtain ⟨b1, hrun1, hc1, hr1, _, hz1⟩ := boxZero_loop
    ({ n_cells_per_box := StdVector.filled pico.m_n_shelves 0,
       result := result.resize pico.m_n_shelves, divisions := [] } : BoxSums R)
    pico.m_n_shelves (le_refl _)
  obtain ⟨b2, hrun2, hc2, hr2, _, hval2⟩ := boxSum_loop box_id field shelf_mask box_mask
    pico.m_n_shelves pico.m_grid.points hrange b1 (by rw [hc1]; rfl) (by rw [hr1]; rfl)
  obtain ⟨b3, hrun3, hr3, hval3⟩ := boxAverage_loop b2 pico.m_n_shelves hc2 hr2
  refine ⟨b3, ?_, hr3, ?_⟩
  · unfold compute_box_average
    simp only [hrun1, hrun2, hrun3, Option.bind_eq_bind, Option.some_bind]
  · intro s hs
    have hcnt : b2.n_cells_per_box.elem s = ((pico.m_grid.points.filter fun q =>
        decide (box_mask q.1 q.2 = box_id ∧ shelf_mask q.1 q.2 = (s : Int))).length : Int) := by
      rw [(hval2 s).1, hc1]
      simp [StdVector.filled]
    have hsum : b2.result.elem s = ((pico.m_grid.points.filter fun q =>
        decide (box_mask q.1 q.2 = box_id ∧ shelf_mask q.1 q.2 = (s : Int))).map
          fun q => field q.1 q.2).sum := by
      rw [(hval2 s).2, hz1 s hs, zero_add]
    rw [hval3 s hs, hcnt, hsum]
    unfold boxAverage
    by_cases hpos : (pico.m_grid.points.filter fun q =>
        decide (box_mask q.1 q.2 = box_id ∧ shelf_mask q.1 q.2 = (s : Int))).length > 0
    · rw [if_pos (by exact_mod_cast hpos), if_pos hpos, Int.cast_natCast]
    · rw [if_neg (by exact_mod_cast hpos), if_neg hpos]
      have hnil : (pico.m_grid.points.filter fun q =>
          decide (box_mask q.1 q.2 = box_id ∧ shelf_mask q.1 q.2 = (s : Int))) = [] :=
        List.length_eq_zero.mp (by omega)
      rw [hnil]
      rfl

end BoxAverageSpec

section OtherBoxesLemmas

variable {R : Type} [LinearOrderedField R]

/-- One pass of the loop of lines 693-699 stores whether one of the three inputs of the
shelf is zero. -/
theorem beckmannGoosseFlagStep_eq (salinity temperature overturning : StdVector R)
    (u : StdVector Bool) (s : Nat) (hsal : s < salinity.size) (ht : s < temperature.size)
    (ho : s < overturning.size) (hu : s < u.size) :
    beckmannGoosseFlagStep salinity temperature overturning u s
      = some { u with elem := fun m =>
          if m = s then decide (salinity.elem s = 0 ∨ temperature.elem s = 0 ∨
            overturning.elem s = 0) else u.elem m } := by
  have h1 := StdVector.get?_nat salinity s hsal
  have h2 := StdVector.get?_nat temperature s ht
  have h3 := StdVector.get?_nat overturning s ho
  have hm := fun b : Bool => StdVector.modify?_nat u s (fun _ => b) hu
  unfold beckmannGoosseFlagStep
  simp only [h1, h2, h3, hm, Option.bind_eq_bind, Option.some_bind]
  by_cases hs0 : salinity.elem s = 0
  · simp only [hs0, if_true, true_or, decide_True]
  · by_cases ht0 : temperature.elem s = 0
    · simp only [hs0, ht0, if_true, if_false, true_or, or_true, decide_True]
    · by_cases ho0 : overturning.elem s = 0
      · simp only [hs0, ht0, ho0, if_true, if_false, or_true, decide_True]
      · simp only [hs0, ht0, ho0, if_false, or_self, decide_False]

/-- The loop of lines 693-699 over the shelves `1, ..., n - 1`. -/
theorem beckmannGoosseFlag_loop (salinity temperature overturning : StdVector R)
    (u0 : StdVector Bool) (n : Nat) (hsal : salinity.size = n) (ht : temperature.size = n)
    (ho : overturning.size = n) (hu : u0.size = n) :
    ∃ u, loopM (beckmannGoosseFlagStep salinity temperature overturning)
        (List.range' 1 (n - 1)) u0 = some u ∧ u.size = n ∧
      ∀ s, 1 ≤ s → s < n → u.elem s = decide (salinity.elem s = 0 ∨ temperature.elem s = 0 ∨
        overturning.elem s = 0) := by
  obtain ⟨u, hrun, hsz, hval⟩ := loopM_total
    (beckmannGoosseFlagStep salinity temperature overturning)
    (fun pre (u : StdVector Bool) => u.size = n ∧
      ∀ s ∈ pre, u.elem s = decide (salinity.elem s = 0 ∨ temperature.elem s = 0 ∨
        overturning.elem s = 0))
    (List.range' 1 (n - 1))
    (fun pre s st hs hinv => by
      obtain ⟨hsz, hval⟩ := hinv
      have hlt : s < n := by
        obtain ⟨h1, h2⟩ := List.mem_range'_1.mp hs
        omega
      rw [beckmannGoosseFlagStep_eq salinity temperature overturning st s (by rw [hsal]; exact hlt)
        (by rw [ht]; exact hlt) (by rw [ho]; exact hlt) (by rw [hsz]; exact hlt)]
      refine ⟨_, rfl, hsz, ?_⟩
      intro k hk
      show (if k = s then decide (salinity.elem s = 0 ∨ temperature.elem s = 0 ∨
        overturning.elem s = 0) else st.elem k) = _
      by_cases hks : k = s
      · rw [if_pos hks, hks]
      · rw [if_neg hks]
        rcases List.mem_append.mp hk with h | h
        · exact hval k h
        · exact absurd (List.mem_singleton.mp h) hks)
    u0 ⟨hu, fun s hs => absurd hs (List.not_mem_nil s)⟩
  refine ⟨u, hrun, hsz, ?_⟩
  intro s h1 h2
  exact hval s (List.mem_range'_1.mpr ⟨h1, by omega⟩)

/-- One pass of the loop of lines 706-740, when the shelf id of the cell indexes the
five vectors in range: the cell is overwritten with the box-chain values when it lies in
the box and in a shelf that is not flagged, and nothing is written otherwise. -/
theorem otherBoxStep_eq (physics : PicoBoxPhysics R) (box : Int)
    (ice_thickness : Int → Int → R) (shelf_mask box_mask : Int → Int → Int)
    (salinity temperature overturning box_area : StdVector R) (use_bg : StdVector Bool)
    (f : Int → Int → BoxOutputs R) (p : Int × Int) (S T O A : R)
    (hS : shelf_mask p.1 p.2 > 0 → salinity.get? (shelf_mask p.1 p.2) = some S)
    (hT : shelf_mask p.1 p.2 > 0 → temperature.get? (shelf_mask p.1 p.2) = some T)
    (hO : shelf_mask p.1 p.2 > 0 → overturning.get? (shelf_mask p.1 p.2) = some O)
    (hA : shelf_mask p.1 p.2 > 0 → box_area.get? (shelf_mask p.1 p.2) = some A)
    (hU : shelf_mask p.1 p.2 > 0 →
      use_bg.get? (shelf_mask p.1 p.2) = some (decide (S = 0 ∨ T = 0 ∨ O = 0))) :
    otherBoxStep physics box ice_thickness shelf_mask box_mask salinity temperature overturning
        box_area use_bg f p
      = some (if box_mask p.1 p.2 = box ∧ shelf_mask p.1 p.2 > 0 ∧ ¬ (S = 0 ∨ T = 0 ∨ O = 0)
          then setCell f p (boxChainValues physics A S T O (ice_thickness p.1 p.2)) else f) := by
  unfold otherBoxStep
  simp only []
  by_cases hcell : box_mask p.1 p.2 = box ∧ shelf_mask p.1 p.2 > 0
  · rw [if_pos hcell]
    simp only [hS hcell.2, hT hcell.2, hO hcell.2, hA hcell.2, hU hcell.2, Option.bind_eq_bind,
      Option.some_bind, decide_eq_true_eq]
    by_cases hz : S = 0 ∨ T = 0 ∨ O = 0
    · rw [if_pos hz, if_neg (fun h => h.2.2 hz)]
    · rw [if_neg hz, if_pos ⟨hcell.1, hcell.2, hz⟩]
  · rw [if_neg hcell, if_neg (fun h => hcell ⟨h.1, h.2.1⟩)]

/-- One iteration of the loop of `process_other_boxes` over the boxes, when the shelf
ids of the owned cells are in range: the cells of the box `box` in a shelf `s > 0` are
overwritten with the box-chain values computed from the averages over the previous box
of the current `Soc` and `Toc` and from `overturning[s]`, unless one of the three is
zero; every other cell keeps its values. -/
theorem otherBoxesIteration_spec (pico : Pico R) (physics : PicoBoxPhysics R)
    (cell_area ice_thickness : Int → Int → R) (shelf_mask box_mask : Int → Int → Int)
    (overturning : StdVector R) (st : OtherBoxes R) (box : Nat)
    (hshelf : ∀ q ∈ pico.m_grid.points,
      0 ≤ shelf_mask q.1 q.2 ∧ shelf_mask q.1 q.2 < pico.m_n_shelves)
    (hov : overturning.size = pico.m_n_shelves)
    (hu : st.use_beckmann_goosse.size = pico.m_n_shelves) :
    ∃ st', otherBoxesIteration pico physics cell_area ice_thickness shelf_mask box_mask
        overturning st box = some st' ∧
      st'.use_beckmann_goosse.size = pico.m_n_shelves ∧
      ∀ i j, st'.fields i j
        = if (i, j) ∈ pico.m_grid.points ∧
            (box_mask i j = (box : Int) ∧ shelf_mask i j > 0 ∧
              ¬ (boxAverage pico ((box : Int) - 1) (fun i j => (st.fields i j).Soc) shelf_mask
                    box_mask (shelf_mask i j) = 0 ∨
                boxAverage pico ((box : Int) - 1) (fun i j => (st.fields i j).Toc) shelf_mask
                    box_mask (shelf_mask i j) = 0 ∨
                overturning.elem (shelf_mask i j).toNat = 0)) then
            boxChainValues physics
              (boxArea pico box shelf_mask box_mask cell_area (shelf_mask i j))
              (boxAverage pico ((box : Int) - 1) (fun i j => (st.fields i j).Soc) shelf_mask
                box_mask (shelf_mask i j))
              (boxAverage pico ((box : Int) - 1) (fun i j => (st.fields i j).Toc) shelf_mask
                box_mask (shelf_mask i j))
              (overturning.elem (shelf_mask i j).toNat) (ice_thickness i j)
          else st.fields i j := by
  obtain ⟨t, hrunT, hsizeT, hvalT⟩ := compute_box_average_spec pico ((box : Int) - 1)
    (fun i j => (st.fields i j).Toc) shelf_mask box_mask st.temperature
    (fun q hq _ => hshelf q hq)
  obtain ⟨s, hrunS, hsizeS, hvalS⟩ := compute_box_average_spec pico ((box : Int) - 1)
    (fun i j => (st.fields i j).Soc) shelf_mask box_mask st.salinity
    (fun q hq _ => hshelf q hq)
  obtain ⟨u, hrunU, hsizeU, hvalU⟩ := beckmannGoosseFlag_loop s.result t.result overturning
    st.use_beckmann_goosse pico.m_n_shelves hsizeS hsizeT hov hu
  obtain ⟨a, hrunA, hsizeA, hvalA⟩ := compute_box_area_spec pico (box : Int) shelf_mask
    box_mask cell_area (StdVector.filled 0 0) (fun q hq _ _ => (hshelf q hq).2)
  have hstep : ∀ (f : Int → Int → BoxOutputs R) (p : Int × Int), p ∈ pico.m_grid.points →
      otherBoxStep physics box ice_thickness shelf_mask box_mask s.result t.result overturning
          a u f p
        = some (if box_mask p.1 p.2 = (box : Int) ∧ shelf_mask p.1 p.2 > 0 ∧
              ¬ (boxAverage pico ((box : Int) - 1) (fun i j => (st.fields i j).Soc) shelf_mask
                    box_mask (shelf_mask p.1 p.2) = 0 ∨
                boxAverage pico ((box : Int) - 1) (fun i j => (st.fields i j).Toc) shelf_mask
                    box_mask (shelf_mask p.1 p.2) = 0 ∨
                overturning.elem (shelf_mask p.1 p.2).toNat = 0) then
            setCell f p (boxChainValues physics
              (boxArea pico box shelf_mask box_mask cell_area (shelf_mask p.1 p.2))
              (boxAverage pico ((box : Int) - 1) (fun i j => (st.fields i j).Soc) shelf_mask
                box_mask (shelf_mask p.1 p.2))
              (boxAverage pico ((box : Int) - 1) (fun i j => (st.fields i j).Toc) shelf_mask
                box_mask (shelf_mask p.1 p.2))
              (overturning.elem (shelf_mask p.1 p.2).toNat) (ice_thickness p.1 p.2))
          else f) := by
    intro f p hp
    obtain ⟨h0, h1⟩ := hshelf p hp
    have hk : (shelf_mask p.1 p.2).toNat < pico.m_n_shelves := by omega
    have hcast : (((shelf_mask p.1 p.2).toNat : Nat) : Int) = shelf_mask p.1 p.2 :=
      Int.toNat_of_nonneg h0
    apply otherBoxStep_eq
    · intro _
      rw [StdVector.get?_eq_some _ _ h0 (by rw [hsizeS]; exact h1), hvalS _ hk, hcast]
    · intro _
      rw [StdVector.get?_eq_some _ _ h0 (by rw [hsizeT]; exact h1), hvalT _ hk, hcast]
    · intro _
      rw [StdVector.get?_eq_some _ _ h0 (by rw [hov]; exact h1)]
    · intro _
      rw [StdVector.get?_eq_some _ _ h0 (by rw [hsizeA]; exact h1), hvalA]
      unfold boxArea
      rw [hcast]
      simp [StdVector.resize, StdVector.filled]
    · intro hpos
      rw [StdVector.get?_eq_some _ _ h0 (by rw [hsizeU]; exact h1),
        hvalU _ (by omega) hk, hvalS _ hk, hvalT _ hk, hcast]
  obtain ⟨fields, hrunF, _⟩ := loopM_total
    (otherBoxStep physics box ice_thickness shelf_mask box_mask s.result t.result overturning
      a u)
    (fun _ _ => True) pico.m_grid.points
    (fun _ p f hp _ => ⟨_, hstep f p hp, trivial⟩) st.fields trivial
  have hfields := loopM_setCell_if
    (otherBoxStep physics box ice_thickness shelf_mask box_mask s.result t.result overturning
      a u)
    (fun f : Int → Int → BoxOutputs R => f)
    (fun q => box_mask q.1 q.2 = (box : Int) ∧ shelf_mask q.1 q.2 > 0 ∧
      ¬ (boxAverage pico ((box : Int) - 1) (fun i j => (st.fields i j).Soc) shelf_mask
            box_mask (shelf_mask q.1 q.2) = 0 ∨
        boxAverage pico ((box : Int) - 1) (fun i j => (st.fields i j).Toc) shelf_mask
            box_mask (shelf_mask q.1 q.2) = 0 ∨
        overturning.elem (shelf_mask q.1 q.2).toNat = 0))
    (fun q => boxChainValues physics
      (boxArea pico box shelf_mask box_mask cell_area (shelf_mask q.1 q.2))
      (boxAverage pico ((box : Int) - 1) (fun i j => (st.fields i j).Soc) shelf_mask
        box_mask (shelf_mask q.1 q.2))
      (boxAverage pico ((box : Int) - 1) (fun i j => (st.fields i j).Toc) shelf_mask
        box_mask (shelf_mask q.1 q.2))
      (overturning.elem (shelf_mask q.1 q.2).toNat) (ice_thickness q.1 q.2))
    pico.m_grid.points
    (fun f p f' hp hbody => by
      rw [hstep f p hp] at hbody
      exact (Option.some.inj hbody).symm)
    st.fields fields hrunF
  refine ⟨{ fields := fields, salinity := s.result, temperature := t.result,
            use_beckmann_goosse := u }, ?_, hsizeU, ?_⟩
  · unfold otherBoxesIteration
    simp only [hrunT, hrunS, hrunU, hrunA, hrunF, Option.bind_eq_bind, Option.some_bind]
  · intro i j
    exact hfields i j

/-- A run of iterations of the loop over the boxes returns, and leaves the cells whose
box id is not among the boxes of the run as they are. -/
theorem otherBoxes_loop_frame (pico : Pico R) (physics : PicoBoxPhysics R)
    (cell_area ice_thickness : Int → Int → R) (shelf_mask box_mask : Int → Int → Int)
    (overturning : StdVector R)
    (hshelf : ∀ q ∈ pico.m_grid.points,
      0 ≤ shelf_mask q.1 q.2 ∧ shelf_mask q.1 q.2 < pico.m_n_shelves)
    (hov : overturning.size = pico.m_n_shelves) (boxes : List Nat) (st : OtherBoxes R)
    (hu : st.use_beckmann_goosse.size = pico.m_n_shelves) :
    ∃ st', loopM (otherBoxesIteration pico physics cell_area ice_thickness shelf_mask box_mask
        overturning) boxes st = some st' ∧
      st'.use_beckmann_goosse.size = pico.m_n_shelves ∧
      ∀ i j, (∀ k ∈ boxes, box_mask i j ≠ (k : Int)) → st'.fields i j = st.fields i j := by
  induction boxes generalizing st with
  | nil => exact ⟨st, rfl, hu, fun _ _ _ => rfl⟩
  | cons k boxes ih =>
    obtain ⟨st1, hrun1, hu1, hval1⟩ := otherBoxesIteration_spec pico physics cell_area
      ice_thickness shelf_mask box_mask overturning st k hshelf hov hu
    obtain ⟨st2, hrun2, hu2, hval2⟩ := ih st1 hu1
    refine ⟨st2, ?_, hu2, ?_⟩
    · rw [loopM_cons, hrun1]
      exact hrun2
    · intro i j hne
      rw [hval2 i j (fun k' hk' => hne k' (List.mem_cons_of_mem k hk')), hval1 i j]
      have hk : box_mask i j ≠ (k : Int) := hne k (List.mem_cons_self k boxes)
      rw [if_neg (fun h => hk h.2.1)]

/-- The boxes `2, ..., m_n_boxes` split at a box `k` among them. -/
theorem boxes_split (m_n_boxes : Int) (k : Nat) (hk : 2 ≤ k) (hkn : (k : Int) ≤ m_n_boxes) :
    List.range' 2 (m_n_boxes - 1).toNat
      = List.range' 2 (k - 2) ++ k :: List.range' (k + 1) (m_n_boxes.toNat - k) := by
  have h1 : (m_n_boxes - 1).toNat = (m_n_boxes.toNat - k + 1) + (k - 2) := by omega
  have h2 : 2 + (k - 2) = k := by omega
  rw [h1, ← List.range'_append_1, h2, List.range'_succ]

end OtherBoxesLemmas

section ProcessBoxes

variable {R : Type} [LinearOrderedField R]

/-- With the shelf ids of the owned cells in range, `process_box1` stays in range. -/
theorem process_box1_defined (pico : Pico R) (cell_area ice_thickness : Int → Int → R)
    (shelf_mask box_mask : Int → Int → Int) (Toc_box0 Soc_box0 : Int → Int → R)
    (physics : PicoBoxPhysics R) (f : Box1Fields R)
    (hshelf : ∀ q ∈ pico.m_grid.points,
      0 ≤ shelf_mask q.1 q.2 ∧ shelf_mask q.1 q.2 < pico.m_n_shelves) :
    ∃ out, process_box1 pico cell_area ice_thickness shelf_mask box_mask Toc_box0 Soc_box0
      physics f = some out := by
  obtain ⟨a, hrunA, hsizeA, _⟩ := compute_box_area_spec pico 1 shelf_mask box_mask cell_area
    (StdVector.filled pico.m_n_shelves 0) (fun q hq _ _ => (hshelf q hq).2)
  obtain ⟨out, hrun, _⟩ := loopM_total
    (box1Step physics ice_thickness Toc_box0 Soc_box0 shelf_mask box_mask a)
    (fun _ _ => True) pico.m_grid.points
    (fun _ p st hp _ => by
      obtain ⟨h0, h1⟩ := hshelf p hp
      have hget := StdVector.get?_eq_some a (shelf_mask p.1 p.2) h0 (by rw [hsizeA]; exact h1)
      unfold box1Step
      simp only [hget, Option.bind_eq_bind, Option.some_bind]
      split
      · exact ⟨_, rfl, trivial⟩
      · exact ⟨_, rfl, trivial⟩)
    f trivial
  refine ⟨out, ?_⟩
  unfold process_box1
  simp only [hrunA, hrun, Option.bind_eq_bind, Option.some_bind]

/-- What `process_other_boxes` does at the cells of the box `k`, `2 ≤ k ≤ m_n_boxes`,
when the shelf ids of the owned cells are in range.  `ov` is the vector `overturning`
computed before the loop and `mid` holds the variables when the iteration for the box `k`
starts. -/
theorem process_other_boxes_spec (pico : Pico R) (m_n_boxes : Int)
    (m_overturning cell_area ice_thickness : Int → Int → R) (shelf_mask : Int → Int → Int)
    (physics : PicoBoxPhysics R) (box_mask : Int → Int → Int) (f : Int → Int → BoxOutputs R)
    (k : Nat)
    (hshelf : ∀ q ∈ pico.m_grid.points,
      0 ≤ shelf_mask q.1 q.2 ∧ shelf_mask q.1 q.2 < pico.m_n_shelves)
    (hk : 2 ≤ k) (hkn : (k : Int) ≤ m_n_boxes) :
    ∃ ov mid out,
      compute_box_average pico 1 m_overturning shelf_mask box_mask
        (StdVector.filled pico.m_n_shelves 0) = some ov ∧
      loopM (otherBoxesIteration pico physics cell_area ice_thickness shelf_mask box_mask
          ov.result) (List.range' 2 (k - 2))
        { fields := f,
          salinity := StdVector.filled pico.m_n_shelves 0,
          temperature := StdVector.filled pico.m_n_shelves 0,
          use_beckmann_goosse := StdVector.filled pico.m_n_shelves false } = some mid ∧
      process_other_boxes pico m_n_boxes m_overturning cell_area ice_thickness shelf_mask
        physics box_mask f = some out ∧
      ∀ i j, (i, j) ∈ pico.m_grid.points → box_mask i j = (k : Int) → shelf_mask i j > 0 →
        mid.fields i j = f i j ∧
        out i j
          = if boxAverage pico ((k : Int) - 1) (fun i j => (mid.fields i j).Soc) shelf_mask
                  box_mask (shelf_mask i j) = 0 ∨
              boxAverage pico ((k : Int) - 1) (fun i j => (mid.fields i j).Toc) shelf_mask
                  box_mask (shelf_mask i j) = 0 ∨
              boxAverage pico 1 m_overturning shelf_mask box_mask (shelf_mask i j) = 0 then
              f i j
            else boxChainValues physics
              (boxArea pico k shelf_mask box_mask cell_area (shelf_mask i j))
              (boxAverage pico ((k : Int) - 1) (fun i j => (mid.fields i j).Soc) shelf_mask
                box_mask (shelf_mask i j))
              (boxAverage pico ((k : Int) - 1) (fun i j => (mid.fields i j).Toc) shelf_mask
                box_mask (shelf_mask i j))
              (boxAverage pico 1 m_overturning shelf_mask box_mask (shelf_mask i j))
              (ice_thickness i j) := by
  obtain ⟨ov, hrunO, hsizeO, hvalO⟩ := compute_box_average_spec pico 1 m_overturning
    shelf_mask box_mask (StdVector.filled pico.m_n_shelves 0) (fun q hq _ => hshelf q hq)
  obtain ⟨mid, hrunM, huM, hvalM⟩ := otherBoxes_loop_frame pico physics cell_area
    ice_thickness shelf_mask box_mask ov.result hshelf hsizeO (List.range' 2 (k - 2))
    ({ fields := f,
       salinity := StdVector.filled pico.m_n_shelves 0,
       temperature := StdVector.filled pico.m_n_shelves 0,
       use_beckmann_goosse := StdVector.filled pico.m_n_shelves false } : OtherBoxes R) rfl
  obtain ⟨stk, hrunK, huK, hvalK⟩ := otherBoxesIteration_spec pico physics cell_area
    ice_thickness shelf_mask box_mask ov.result mid k hshelf hsizeO huM
  obtain ⟨fin, hrunF, _, hvalF⟩ := otherBoxes_loop_frame pico physics cell_area
    ice_thickness shelf_mask box_mask ov.result hshelf hsizeO
    (List.range' (k + 1) (m_n_boxes.toNat - k)) stk huK
  refine ⟨ov, mid, fin.fields, hrunO, hrunM, ?_, ?_⟩
  · unfold process_other_boxes
    simp only [hrunO, Option.bind_eq_bind, Option.some_bind]
    rw [boxes_split m_n_boxes k hk hkn, loopM_append, hrunM, Option.some_bind, loopM_cons,
      hrunK]
    simp only [hrunF, Option.some_bind]
  · intro i j hij hbox hpos
    have h0 : 0 ≤ shelf_mask i j := (hshelf (i, j) hij).1
    have h1 : shelf_mask i j < pico.m_n_shelves := (hshelf (i, j) hij).2
    have hmid : mid.fields i j = f i j := by
      rw [hvalM i j]
      intro k' hk'
      obtain ⟨_, hlt⟩ := List.mem_range'_1.mp hk'
      rw [hbox]
      intro h
      have : k = k' := by exact_mod_cast h
      omega
    refine ⟨hmid, ?_⟩
    have hfin : fin.fields i j = stk.fields i j := by
      rw [hvalF i j]
      intro k' hk'
      obtain ⟨hge, _⟩ := List.mem_range'_1.mp hk'
      rw [hbox]
      intro h
      have : k = k' := by exact_mod_cast h
      omega
    have hov : ov.result.elem (shelf_mask i j).toNat
        = boxAverage pico 1 m_overturning shelf_mask box_mask (shelf_mask i j) := by
      rw [hvalO _ (by omega), Int.toNat_of_nonneg h0]
    rw [hfin, hvalK i j, hov]
    by_cases hz : boxAverage pico ((k : Int) - 1) (fun i j => (mid.fields i j).Soc) shelf_mask
          box_mask (shelf_mask i j) = 0 ∨
        boxAverage pico ((k : Int) - 1) (fun i j => (mid.fields i j).Toc) shelf_mask
          box_mask (shelf_mask i j) = 0 ∨
        boxAverage pico 1 m_overturning shelf_mask box_mask (shelf_mask i j) = 0
    · rw [if_pos hz, if_neg (fun h => h.2.2.2 hz), hmid]
    · rw [if_neg hz, if_pos ⟨hij, hbox, hpos, hz⟩]

end ProcessBoxes

section OtherBoxesClaims

variable {R : Type} [LinearOrderedField R]

/-- C23, as amended: when the shelf ids of the owned cells are in range,
`process_other_boxes` returns, and for every box `k` with `2 ≤ k ≤ m_n_boxes` and every
owned cell of the box `k` in a shelf `s ≥ 1` the five fields keep the values that they had
before the call exactly when the average over the box `k - 1` of the shelf `s` of the
temperature or of the salinity (as the fields are when the iteration for the box `k`
starts), or the average of the overturning over the box 1 of the shelf `s`, is zero;
otherwise the cell is overwritten with the box-chain values computed from these three
averages.  The overturning average is that of box 1 for every `k`, not that of the box
`k - 1`. -/
theorem other_boxes_keep_or_overwrite (pico : Pico R) (m_n_boxes : Int)
    (m_overturning cell_area ice_thickness : Int → Int → R) (shelf_mask : Int → Int → Int)
    (physics : PicoBoxPhysics R) (box_mask : Int → Int → Int) (f : Int → Int → BoxOutputs R)
    (k : Nat)
    (hshelf : ∀ q ∈ pico.m_grid.points,
      0 ≤ shelf_mask q.1 q.2 ∧ shelf_mask q.1 q.2 < pico.m_n_shelves)
    (hk : 2 ≤ k) (hkn : (k : Int) ≤ m_n_boxes) :
    ∃ ov mid out,
      compute_box_average pico 1 m_overturning shelf_mask box_mask
        (StdVector.filled pico.m_n_shelves 0) = some ov ∧
      loopM (otherBoxesIteration pico physics cell_area ice_thickness shelf_mask box_mask
          ov.result) (List.range' 2 (k - 2))
        { fields := f,
          salinity := StdVector.filled pico.m_n_shelves 0,
          temperature := StdVector.filled pico.m_n_shelves 0,
          use_beckmann_goosse := StdVector.filled pico.m_n_shelves false } = some mid ∧
      process_other_boxes pico m_n_boxes m_overturning cell_area ice_thickness shelf_mask
        physics box_mask f = some out ∧
      ∀ i j, (i, j) ∈ pico.m_grid.points → box_mask i j = (k : Int) → shelf_mask i j > 0 →
        mid.fields i j = f i j ∧
        ((boxAverage pico ((k : Int) - 1) (fun i j => (mid.fields i j).Soc) shelf_mask
              box_mask (shelf_mask i j) = 0 ∨
            boxAverage pico ((k : Int) - 1) (fun i j => (mid.fields i j).Toc) shelf_mask
              box_mask (shelf_mask i j) = 0 ∨
            boxAverage pico 1 m_overturning shelf_mask box_mask (shelf_mask i j) = 0) →
          out i j = f i j) ∧
        (¬ (boxAverage pico ((k : Int) - 1) (fun i j => (mid.fields i j).Soc) shelf_mask
              box_mask (shelf_mask i j) = 0 ∨
            boxAverage pico ((k : Int) - 1) (fun i j => (mid.fields i j).Toc) shelf_mask
              box_mask (shelf_mask i j) = 0 ∨
            boxAverage pico 1 m_overturning shelf_mask box_mask (shelf_mask i j) = 0) →
          out i j = boxChainValues physics
            (boxArea pico k shelf_mask box_mask cell_area (shelf_mask i j))
            (boxAverage pico ((k : Int) - 1) (fun i j => (mid.fields i j).Soc) shelf_mask
              box_mask (shelf_mask i j))
            (boxAverage pico ((k : Int) - 1) (fun i j => (mid.fields i j).Toc) shelf_mask
              box_mask (shelf_mask i j))
            (boxAverage pico 1 m_overturning shelf_mask box_mask (shelf_mask i j))
            (ice_thickness i j)) := by
  obtain ⟨ov, mid, out, hov, hmid, hout, hval⟩ := process_other_boxes_spec pico m_n_boxes
    m_overturning cell_area ice_thickness shelf_mask physics box_mask f k hshelf hk hkn
  refine ⟨ov, mid, out, hov, hmid, hout, ?_⟩
  intro i j hij hbox hpos
  obtain ⟨h1, h2⟩ := hval i j hij hbox hpos
  refine ⟨h1, ?_, ?_⟩
  · intro hz
    rw [h2, if_pos hz]
  · intro hz
    rw [h2, if_neg hz]

end OtherBoxesClaims

section OtherBoxesExamples

theorem boxAverage_of_cell {R : Type} [LinearOrderedField R] (pico : Pico R) (box_id : Int)
    (field : Int → Int → R) (shelf_mask box_mask : Int → Int → Int) (s : Int) (q : Int × Int)
    (h : (pico.m_grid.points.filter fun q =>
      decide (box_mask q.1 q.2 = box_id ∧ shelf_mask q.1 q.2 = s)) = [q]) :
    boxAverage pico box_id field shelf_mask box_mask s = field q.1 q.2 := by
  unfold boxAverage
  rw [h]
  simp

theorem row_shelf_ids_in_range :
    ∀ q ∈ (picoRow ℚ).m_grid.points,
      0 ≤ shelfMaskExample q.1 q.2 ∧ shelfMaskExample q.1 q.2 < (picoRow ℚ).m_n_shelves :=
  fun _ _ => ⟨show (0 : Int) ≤ 1 by decide, show (1 : Int) < ((2 : Nat) : Int) by decide⟩

theorem row_cells_of_box_one :
    ((picoRow ℚ).m_grid.points.filter fun q =>
      decide (boxMaskRow q.1 q.2 = 1 ∧ shelfMaskExample q.1 q.2 = 1)) = [(0, 0)] := by
  decide

theorem row_cells_of_box_two :
    ((picoRow ℚ).m_grid.points.filter fun q =>
      decide (boxMaskRow q.1 q.2 = 2 ∧ shelfMaskExample q.1 q.2 = 1)) = [(1, 0)] := by
  decide

/-- In the row example the overturning average of box 1 of shelf 1 is 1 and that of
box 2 is 0. -/
theorem row_overturning_averages :
    boxAverage (picoRow ℚ) 1 (overturningRow ℚ) shelfMaskExample boxMaskRow 1 = 1 ∧
    boxAverage (picoRow ℚ) 2 (overturningRow ℚ) shelfMaskExample boxMaskRow 1 = 0 := by
  rw [boxAverage_of_cell _ _ _ _ _ _ _ row_cells_of_box_one,
    boxAverage_of_cell _ _ _ _ _ _ _ row_cells_of_box_two]
  norm_num [overturningRow]

/-- The first iteration of the row example writes the temperature 2 and the salinity 2
at the cell `(1, 0)` of box 2. -/
theorem row_first_iteration (ov : StdVector ℚ) (hsize : ov.size = (picoRow ℚ).m_n_shelves)
    (hov : ov.elem 1 = 1) :
    ∃ st, otherBoxesIteration (picoRow ℚ) (physicsChain ℚ) (unitAreaExample ℚ)
        (thicknessExample ℚ) shelfMaskExample boxMaskRow ov
        { fields := fieldsOne ℚ,
          salinity := StdVector.filled (picoRow ℚ).m_n_shelves 0,
          temperature := StdVector.filled (picoRow ℚ).m_n_shelves 0,
          use_beckmann_goosse := StdVector.filled (picoRow ℚ).m_n_shelves false } 2 = some st ∧
      (st.fields 1 0).Toc = 2 ∧ (st.fields 1 0).Soc = 2 := by
  obtain ⟨st, hrun, _, hval⟩ := otherBoxesIteration_spec (picoRow ℚ) (physicsChain ℚ)
    (unitAreaExample ℚ) (thicknessExample ℚ) shelfMaskExample boxMaskRow ov
    ({ fields := fieldsOne ℚ,
       salinity := StdVector.filled (picoRow ℚ).m_n_shelves 0,
       temperature := StdVector.filled (picoRow ℚ).m_n_shelves 0,
       use_beckmann_goosse := StdVector.filled (picoRow ℚ).m_n_shelves false } : OtherBoxes ℚ)
    2 row_shelf_ids_in_range hsize rfl
  refine ⟨st, hrun, ?_⟩
  have h := hval 1 0
  have hbox : (((2 : Nat) : Int) - 1) = 1 := by norm_num
  have hs : shelfMaskExample 1 0 = 1 := rfl
  have hn : (1 : Int).toNat = 1 := rfl
  rw [hbox, hs, hn, hov, boxAverage_of_cell _ _ _ _ _ _ _ row_cells_of_box_one,
    boxAverage_of_cell _ _ _ _ _ _ _ row_cells_of_box_one] at h
  have hcond : ((1 : Int), (0 : Int)) ∈ (picoRow ℚ).m_grid.points ∧
      (boxMaskRow 1 0 = ((2 : Nat) : Int) ∧ (1 : Int) > 0 ∧
        ¬ ((fieldsOne ℚ (0, 0).1 (0, 0).2).Soc = 0 ∨ (fieldsOne ℚ (0, 0).1 (0, 0).2).Toc = 0 ∨
          (1 : ℚ) = 0)) := by
    refine ⟨by decide, by decide, by decide, ?_⟩
    norm_num [fieldsOne]
  rw [if_pos hcond] at h
  rw [h]
  norm_num [boxChainValues, physicsChain, fieldsOne]

/-- Witness of C23 as amended: in the row example with two boxes processed, the cell
`(1, 0)` of box 2 is overwritten with the box-chain values of the averages of box 1. -/
theorem other_boxes_keep_or_overwrite_witness :
    (∀ q ∈ (picoRow ℚ).m_grid.points,
      0 ≤ shelfMaskExample q.1 q.2 ∧ shelfMaskExample q.1 q.2 < (picoRow ℚ).m_n_shelves) ∧
    ∃ out, process_other_boxes (picoRow ℚ) 3 (overturningRow ℚ) (unitAreaExample ℚ)
        (thicknessExample ℚ) shelfMaskExample (physicsChain ℚ) boxMaskRow (fieldsOne ℚ)
        = some out ∧
      (out 1 0).Toc = 2 ∧ (out 1 0).Soc = 2 := by
  refine ⟨row_shelf_ids_in_range, ?_⟩
  obtain ⟨ov, mid, out, _, hmid, hout, hval⟩ := other_boxes_keep_or_overwrite (picoRow ℚ) 3
    (overturningRow ℚ) (unitAreaExample ℚ) (thicknessExample ℚ) shelfMaskExample
    (physicsChain ℚ) boxMaskRow (fieldsOne ℚ) 2 row_shelf_ids_in_range (le_refl 2)
    (by decide)
  refine ⟨out, hout, ?_⟩
  have hmid' : mid.fields = fieldsOne ℚ := by
    have h := Option.some.inj hmid
    rw [← h]
  obtain ⟨_, _, h⟩ := hval 1 0 (by decide) (by decide) (by decide)
  have hbox : (((2 : Nat) : Int) - 1) = 1 := by norm_num
  have hs : shelfMaskExample 1 0 = 1 := rfl
  rw [hbox, hs, hmid', boxAverage_of_cell _ _ _ _ _ _ _ row_cells_of_box_one,
    boxAverage_of_cell _ _ _ _ _ _ _ row_cells_of_box_one, row_overturning_averages.1] at h
  rw [h (by norm_num [fieldsOne])]
  norm_num [boxChainValues, physicsChain, fieldsOne]

/-- Counterexample to C23 as stated: in the row example the overturning average of box
2 of shelf 1 is zero, yet the cell `(2, 0)` of box 3 of that shelf does not keep its
values: its temperature 1 is overwritten with 3, because the overturning input is the
average of box 1. -/
theorem other_boxes_use_overturning_of_box_one :
    ∃ out, process_other_boxes (picoRow ℚ) 3 (overturningRow ℚ) (unitAreaExample ℚ)
        (thicknessExample ℚ) shelfMaskExample (physicsChain ℚ) boxMaskRow (fieldsOne ℚ)
        = some out ∧
      boxMaskRow 2 0 = 3 ∧ shelfMaskExample 2 0 = 1 ∧
      boxAverage (picoRow ℚ) (3 - 1) (overturningRow ℚ) shelfMaskExample boxMaskRow 1 = 0 ∧
      (fieldsOne ℚ 2 0).Toc = 1 ∧ (out 2 0).Toc = 3 := by
  obtain ⟨ov, mid, out, hov, hmid, hout, hval⟩ := process_other_boxes_spec (picoRow ℚ) 3
    (overturningRow ℚ) (unitAreaExample ℚ) (thicknessExample ℚ) shelfMaskExample
    (physicsChain ℚ) boxMaskRow (fieldsOne ℚ) 3 row_shelf_ids_in_range (by decide)
    (by decide)
  obtain ⟨ov', hov', hsize, hvalO⟩ := compute_box_average_spec (picoRow ℚ) 1
    (overturningRow ℚ) shelfMaskExample boxMaskRow (StdVector.filled (picoRow ℚ).m_n_shelves 0)
    (fun q hq _ => row_shelf_ids_in_range q hq)
  rw [hov] at hov'
  obtain rfl : ov = ov' := Option.some.inj hov'
  have hov1 : ov.result.elem 1 = 1 := by
    rw [hvalO 1 (by decide)]
    exact row_overturning_averages.1
  obtain ⟨st, hrun, hToc, hSoc⟩ := row_first_iteration ov.result hsize hov1
  have hlist : List.range' 2 (3 - 2) = [2] := by decide
  rw [hlist, loopM_cons, hrun, Option.some_bind, loopM_nil] at hmid
  obtain rfl : st = mid := Option.some.inj hmid
  refine ⟨out, hout, by decide, rfl, ?_, rfl, ?_⟩
  · have h32 : ((3 : Int) - 1) = 2 := by norm_num
    rw [h32]
    exact row_overturning_averages.2
  · obtain ⟨_, h⟩ := hval 2 0 (by decide) (by decide) (by decide)
    have hbox : (((3 : Nat) : Int) - 1) = 2 := by norm_num
    have hs : shelfMaskExample 2 0 = 1 := rfl
    rw [hbox, hs, boxAverage_of_cell _ _ _ _ _ _ _ row_cells_of_box_two,
      boxAverage_of_cell _ _ _ _ _ _ _ row_cells_of_box_two, row_overturning_averages.1] at h
    have hz : ¬ ((st.fields (1, 0).1 (1, 0).2).Soc = 0 ∨ (st.fields (1, 0).1 (1, 0).2).Toc = 0 ∨
        (1 : ℚ) = 0) := by
      show ¬ ((st.fields 1 0).Soc = 0 ∨ (st.fields 1 0).Toc = 0 ∨ (1 : ℚ) = 0)
      rw [hToc, hSoc]
      norm_num
    rw [if_neg hz] at h
    rw [h]
    show (boxChainValues (physicsChain ℚ) _ (st.fields 1 0).Soc (st.fields 1 0).Toc 1 _).Toc = 3
    rw [hToc, hSoc]
    norm_num [boxChainValues, physicsChain]

end OtherBoxesExamples

section IndexSafety

variable {R : Type} [LinearOrderedField R]

/-- C29: if every shelf id of the owned cells is non-negative and at most
`m_n_shelves - 1` (`m_n_shelves` is the maximum of the shelf mask plus one) and every
basin id lies in `[0, m_n_basins)`, then the six methods stay in range, that is, every
access to a vector that they execute is within bounds: `compute_ocean_input_per_basin`
returns two vectors of `m_n_basins` elements, `set_ocean_input_fields` returns for these
vectors (and for any two vectors with at least `m_n_basins` elements), and
`compute_box_average`, `compute_box_area`, `process_box1` and `process_other_boxes`
return for every box id and every number of boxes. -/
theorem pico_vector_indices_in_range (pico : Pico R) (physics : PicoBoxPhysics R)
    (INNER MASK_FLOATING box_id m_n_boxes : Int)
    (basin_mask continental_shelf_mask mask shelf_mask box_mask : Int → Int → Int)
    (salinity_ocean theta_ocean ice_thickness field cell_area m_overturning Toc_box0 Soc_box0
      : Int → Int → R)
    (temperature salinity result : StdVector R) (f1 : Box1Fields R)
    (f : Int → Int → BoxOutputs R)
    (hshelf : ∀ q ∈ pico.m_grid.points, 0 ≤ shelf_mask q.1 q.2)
    (hmax : ∀ q ∈ pico.m_grid.points, shelf_mask q.1 q.2 ≤ (pico.m_n_shelves : Int) - 1)
    (hbasin : ∀ q ∈ pico.m_grid.points,
      0 ≤ basin_mask q.1 q.2 ∧ basin_mask q.1 q.2 < pico.m_n_basins) :
    (∃ out, compute_ocean_input_per_basin pico physics.toPicoPhysics INNER basin_mask
        continental_shelf_mask salinity_ocean theta_ocean temperature salinity = some out ∧
      out.temperature.size = pico.m_n_basins ∧ out.salinity.size = pico.m_n_basins ∧
      ∃ o, set_ocean_input_fields pico physics.toPicoPhysics MASK_FLOATING ice_thickness mask
        basin_mask shelf_mask out.temperature out.salinity Toc_box0 Soc_box0 = some o) ∧
    (∀ basin_temperature basin_salinity : StdVector R,
      pico.m_n_basins ≤ basin_temperature.size → pico.m_n_basins ≤ basin_salinity.size →
      ∃ o, set_ocean_input_fields pico physics.toPicoPhysics MASK_FLOATING ice_thickness mask
        basin_mask shelf_mask basin_temperature basin_salinity Toc_box0 Soc_box0 = some o) ∧
    (∃ out, compute_box_average pico box_id field shelf_mask box_mask result = some out) ∧
    (∃ out, compute_box_area pico box_id shelf_mask box_mask cell_area result = some out) ∧
    (∃ out, process_box1 pico cell_area ice_thickness shelf_mask box_mask Toc_box0 Soc_box0
      physics f1 = some out) ∧
    ∃ out, process_other_boxes pico m_n_boxes m_overturning cell_area ice_thickness shelf_mask
      physics box_mask f = some out := by
  have hrange : ∀ q ∈ pico.m_grid.points,
      0 ≤ shelf_mask q.1 q.2 ∧ shelf_mask q.1 q.2 < pico.m_n_shelves := by
    intro q hq
    have h1 := hshelf q hq
    have h2 := hmax q hq
    exact ⟨h1, by omega⟩
  have hset : ∀ basin_temperature basin_salinity : StdVector R,
      pico.m_n_basins ≤ basin_temperature.size → pico.m_n_basins ≤ basin_salinity.size →
      ∃ o, set_ocean_input_fields pico physics.toPicoPhysics MASK_FLOATING ice_thickness mask
        basin_mask shelf_mask basin_temperature basin_salinity Toc_box0 Soc_box0 = some o :=
    fun basin_temperature basin_salinity hbt hbs =>
      set_ocean_input_fields_defined pico physics.toPicoPhysics MASK_FLOATING ice_thickness
        mask basin_mask shelf_mask basin_temperature basin_salinity Toc_box0 Soc_box0 hrange
        hbasin hbt hbs
  refine ⟨?_, hset, ?_, ?_, ?_, ?_⟩
  · obtain ⟨out, hout, hT, hS, _⟩ := compute_ocean_input_per_basin_spec pico
      physics.toPicoPhysics INNER basin_mask continental_shelf_mask salinity_ocean theta_ocean
      temperature salinity (fun q hq _ => hbasin q hq)
    exact ⟨out, hout, hT, hS, hset out.temperature out.salinity (le_of_eq hT.symm)
      (le_of_eq hS.symm)⟩
  · obtain ⟨out, hout, _⟩ := compute_box_average_defined pico box_id field shelf_mask box_mask
      result (fun q hq _ => hrange q hq)
    exact ⟨out, hout⟩
  · obtain ⟨out, hout, _⟩ := compute_box_area_spec pico box_id shelf_mask box_mask cell_area
      result (fun q hq _ _ => (hrange q hq).2)
    exact ⟨out, hout⟩
  · exact process_box1_defined pico cell_area ice_thickness shelf_mask box_mask Toc_box0
      Soc_box0 physics f1 hrange
  · obtain ⟨ov, hrunO, hsizeO⟩ := compute_box_average_defined pico 1 m_overturning
      shelf_mask box_mask (StdVector.filled pico.m_n_shelves 0) (fun q hq _ => hrange q hq)
    obtain ⟨st, hrun, _⟩ := otherBoxes_loop_frame pico physics cell_area ice_thickness
      shelf_mask box_mask ov.result hrange hsizeO (List.range' 2 (m_n_boxes - 1).toNat)
      ({ fields := f,
         salinity := StdVector.filled pico.m_n_shelves 0,
         temperature := StdVector.filled pico.m_n_shelves 0,
         use_beckmann_goosse := StdVector.filled pico.m_n_shelves false } : OtherBoxes R) rfl
    refine ⟨st.fields, ?_⟩
    unfold process_other_boxes
    simp only [hrunO, hrun, Option.bind_eq_bind, Option.some_bind]

end IndexSafety

section IndexSafetyWitness

/-- Witness of C29: in the row example the shelf ids are 1, `m_n_shelves` is 2 and the
basin ids are 1 with three basins, and `process_other_boxes` returns. -/
theorem pico_vector_indices_in_range_witness :
    (∀ q ∈ (picoRow ℚ).m_grid.points, 0 ≤ shelfMaskExample q.1 q.2) ∧
    (∀ q ∈ (picoRow ℚ).m_grid.points,
      shelfMaskExample q.1 q.2 ≤ ((picoRow ℚ).m_n_shelves : Int) - 1) ∧
    (∀ q ∈ (picoRow ℚ).m_grid.points,
      0 ≤ basinMaskExample q.1 q.2 ∧ basinMaskExample q.1 q.2 < (picoRow ℚ).m_n_basins) ∧
    ∃ out, process_other_boxes (picoRow ℚ) 3 (overturningRow ℚ) (unitAreaExample ℚ)
      (thicknessExample ℚ) shelfMaskExample (physicsChain ℚ) boxMaskRow (fieldsOne ℚ)
      = some out :=
  have h1 : ∀ q ∈ (picoRow ℚ).m_grid.points, 0 ≤ shelfMaskExample q.1 q.2 :=
    fun _ _ => show (0 : Int) ≤ 1 by decide
  have h2 : ∀ q ∈ (picoRow ℚ).m_grid.points,
      shelfMaskExample q.1 q.2 ≤ ((picoRow ℚ).m_n_shelves : Int) - 1 :=
    fun _ _ => show (1 : Int) ≤ ((2 : Nat) : Int) - 1 by decide
  have h3 : ∀ q ∈ (picoRow ℚ).m_grid.points,
      0 ≤ basinMaskExample q.1 q.2 ∧ basinMaskExample q.1 q.2 < (picoRow ℚ).m_n_basins :=
    fun _ _ => ⟨show (0 : Int) ≤ 1 by decide, show (1 : Int) < ((3 : Nat) : Int) by decide⟩
  ⟨h1, h2, h3,
    (pico_vector_indices_in_range (picoRow ℚ) (physicsChain ℚ) 2 3 1 3 basinMaskExample
      shelfBreakExample floatingExample shelfMaskExample boxMaskRow (salinityExample ℚ)
      (thetaExample ℚ) (thicknessExample ℚ) (overturningRow ℚ) (unitAreaExample ℚ)
      (overturningRow ℚ) (fun _ _ => 0) (fun _ _ => 0) (emptyVector ℚ) (emptyVector ℚ)
      (emptyVector ℚ) { fields := fieldsOne ℚ, overturning := overturningRow ℚ } (fieldsOne ℚ)
      h1 h2 h3).2.2.2.2.2⟩

end IndexSafetyWitness

section TransposeLemmas

variable {R : Type} [LinearOrderedField R]

end TransposeLemmas

section TransposeClaim

variable {R : Type} [LinearOrderedField R]

end TransposeClaim

section TransposeWitness

variable {R : Type} [LinearOrderedField R]

end TransposeWitness

section TransposeWitnessRat

end TransposeWitnessRat

section LinearizeAtCounterexample

/-- Counterexample to C7 as stated: with the collaborators `collaboratorsDiverged`,
whose nonlinear solve does not converge (reason code -1, a failed reason), the call
`linearize_at(zeta)` raises no error: it returns, and hands the failed reason back to the
caller. -/
theorem linearize_at_returns_on_divergence :
    ((collaboratorsDiverged ℚ).solve_nocache
        (set_design (collaboratorsDiverged ℚ) (memory2 ℚ) (problemI ℚ) 0).base).2.failed
      = true ∧
    (Call.exec (collaboratorsDiverged ℚ) (memory2 ℚ) (problemI ℚ) (Call.linearize_at 0)).1
      = Status.returned ∧
    (∀ e, (Call.exec (collaboratorsDiverged ℚ) (memory2 ℚ) (problemI ℚ)
      (Call.linearize_at 0)).1 ≠ Status.raised e) ∧
    (linearize_at (collaboratorsDiverged ℚ) (memory2 ℚ) (problemI ℚ) 0).2
      = { reason := -1 } := by
  refine ⟨by decide, rfl, ?_, rfl⟩
  intro e h
  have hret : (Call.exec (collaboratorsDiverged ℚ) (memory2 ℚ) (problemI ℚ)
      (Call.linearize_at 0)).1 = Status.returned := rfl
  rw [hret] at h
  cases h

end LinearizeAtCounterexample

end pism
